import Mathlib

/-!
# Tree of Life campaigns: send eligibility and sequence progression

A shallow embedding of the campaign runners (`persistentCampaign.js`,
`persistentCampaign.js.js`), of the sequence processors
(`sequenceAutomation.js`, `sequenceAutomation.js.js`), of the business-hours
test of `app.js` and of the subscriber operations of `storage.ts`.

Conventions of the embedding.

* Instants are milliseconds since the epoch (`Date.getTime()`), as `Nat`.  The
  clock does not advance inside one pass: every `new Date()` of a pass reads
  `Env.now`.
* The stores (JSON files, Postgres tables) are lists, appended to in write order.
* The mail transport and the faults of the awaited store calls are oracles of
  the environment `Env`; a fault oracle says which calls reject.
* Every transport call is recorded in `State.calls` (the recipient address).
* `String.prototype.toLowerCase` follows the Unicode tables of the runtime; it
  is a function of the environment, and the statements hold for whatever
  function it is.
* The text of the messages (subject, HTML body, personalisation) takes no part
  in the control flow embedded here and is left out.
* `INTERVAL '7 days'` and `setDate(getDate() + n)` are `n` times 86400000 ms.
* A query with `limit(1)` takes the first matching row of the table.
* The file system does not fail, except in the definitions that take the
  failing writes of `sent_emails.json` as arguments (`sendEmailBatchWithWrites`).

The file has three parts: the embedding of the modules, the vocabulary
and the concrete inputs of the statements, and the statements with their
proofs, the claims last.
-/

namespace TreeOfLife

/-- Length of one day in milliseconds. -/
def MS_PER_DAY : Nat := 86400000

/-- Length of one hour in milliseconds. -/
def MS_PER_HOUR : Nat := 3600000

/-- The interval `7 days` in milliseconds. -/
def SEVEN_DAYS : Nat := 7 * MS_PER_DAY

/-- `String.prototype.toLowerCase` on a string of ASCII characters, where it
lowers the letters `A` to `Z` and leaves every other character alone.  The
concrete environments take it as their lower-casing; every address of the
concrete inputs is a string of ASCII characters. -/
def asciiToLowerCase (s : String) : String := ⟨s.data.map Char.toLower⟩

/-- `new Date(t).toISOString().split('T')[0]`: the UTC calendar day of the
instant `t`, as the number of that day. -/
def isoDate (t : Nat) : Nat := t / MS_PER_DAY

/-- Answer of `resend.emails.send`: `ok` is `{ data: { id }, error: null }`,
`error` is `{ data: null, error }`, `throws` is a rejected promise. -/
inductive SendResult where
  | ok (id : String)
  | error (message : String)
  | throws (message : String)
deriving DecidableEq

/-- `s.includes(t)`, on the characters of the two strings. -/
def includes (s t : List Char) : Bool := decide (t <:+: s)

/-- The regular expression `/<\/body>/i` matches at the start of `s`: the first
seven characters are those of the closing tag, in either letter case. -/
def matchesBodyClose (s : List Char) : Bool :=
  (s.take 7).map Char.toLower == "</body>".data

/-- `s.replace(/<\/body>/i, replacement)`: the first match is replaced.  The
replacement is inserted as it is, which is what `replace` does with a text
that holds no dollar sign. -/
def replaceBodyClose (replacement : List Char) : List Char → List Char
  | [] => []
  | c :: cs =>
    if matchesBodyClose (c :: cs) then replacement ++ cs.drop 6
    else c :: replaceBodyClose replacement cs

/-- The bytes of the UTF-8 encoding of a character. -/
def utf8Bytes (c : Char) : List Nat :=
  let n := c.toNat
  if n < 128 then [n]
  else if n < 2048 then [192 + n / 64, 128 + n % 64]
  else if n < 65536 then [224 + n / 4096, 128 + n / 64 % 64, 128 + n % 64]
  else [240 + n / 262144, 128 + n / 4096 % 64, 128 + n / 64 % 64, 128 + n % 64]

/-- The upper-case hexadecimal digit of a number below 16. -/
def hexDigit (n : Nat) : Char := "0123456789ABCDEF".data.getD n (Char.ofNat 48)

/-- The characters `encodeURIComponent` leaves as they are: the ASCII letters
and digits and `- _ . ! ~ * ( )` and the apostrophe. -/
def isUnreserved (c : Char) : Bool :=
  c.isAlphanum || "-_.!~*()".data.contains c || c == Char.ofNat 39

/-- `encodeURIComponent(s)`: every other character becomes the bytes of its
UTF-8 encoding, each written as a percent sign and two hexadecimal digits. -/
def encodeURIComponent (s : String) : String :=
  ⟨s.data.flatMap (fun c =>
    if isUnreserved c then [c]
    else (utf8Bytes c).flatMap (fun b => [Char.ofNat 37, hexDigit (b / 16), hexDigit (b % 16)]))⟩

/-! ## persistentCampaign.js -/

namespace PersistentCampaign

/-- The configuration constants of the module.  They are fields so that a
statement can range over every daily limit; `config` holds the source values. -/
structure Config where
  BATCH_SIZE : Nat
  DAILY_LIMIT : Nat
  CAMPAIGN_ID : Nat
deriving DecidableEq

/-- The constants as the source sets them. -/
def config : Config := { BATCH_SIZE := 15, DAILY_LIMIT := 100, CAMPAIGN_ID := 1 }

/-- One entry of `sent_emails.json`. -/
structure SentRecord where
  email : String
  campaignName : String
  status : String
  timestamp : Nat
  date : Nat
deriving DecidableEq

/-- One row of `email_logs`, with the columns the runner reads or writes. -/
structure EmailLog where
  campaignId : Option Nat
  recipientEmail : String
  status : String
  sentAt : Nat
deriving DecidableEq

/-- One row of `leads`. -/
structure Lead where
  id : Nat
  email : String
  firstName : String
  lastName : String
  isActive : Bool
  createdAt : Nat
deriving DecidableEq

/-- A contact as `loadContacts` returns it. -/
structure Contact where
  email : String
  firstName : String
  lastName : String
  source : String
deriving DecidableEq

/-- A row of `email_campaigns` as `loadActiveCampaign` returns it. -/
structure Campaign where
  id : Nat
  name : String
deriving DecidableEq

/-- The Postgres tables behind `sql`. -/
structure Database where
  leads : List Lead
  email_logs : List EmailLog
  unsubscribe_list : List String
deriving DecidableEq

/-- Which awaited database calls reject, by the address (or, for the lead
query, at all). -/
structure Faults where
  unsubscribeQuery : String → Bool
  recentQuery : String → Bool
  logInsert : String → Bool
  leadsQuery : Bool

/-- What a pass reads from outside: the clock, the transport, the faults, and
`String.prototype.toLowerCase` as the Unicode tables of the runtime define
it. -/
structure Env where
  now : Nat
  resend : String → SendResult
  faults : Faults
  toLowerCase : String → String

/-- The mutable world of the runner.  `sql` is `none` when `DATABASE_URL` is not
set; `csv` is the contact list parsed from the first readable CSV file. -/
structure State where
  sql : Option Database
  sent_emails : List SentRecord
  unsubscribes : List String
  csv : List Contact
  calls : List String
deriving DecidableEq

/-- The counters and messages `sendEmailBatch` returns. -/
structure Results where
  sent : Nat
  skipped : Nat
  errors : Nat
  details : List String
deriving DecidableEq

/-- `saveSentEmail(email, campaignName, status)`. -/
def saveSentEmail (env : Env) (st : State) (email campaignName status : String) : State :=
  { st with sent_emails := st.sent_emails ++
      [{ email := email, campaignName := campaignName, status := status,
         timestamp := env.now, date := isoDate env.now }] }

/-- `isUnsubscribed(email)`: the file list, compared without letter case. -/
def isUnsubscribed (env : Env) (st : State) (email : String) : Bool :=
  st.unsubscribes.any (fun u => env.toLowerCase u == env.toLowerCase email)

/-- `wasEmailSentToday(email)`. -/
def wasEmailSentToday (env : Env) (st : State) (email : String) : Bool :=
  st.sent_emails.any (fun record =>
    env.toLowerCase record.email == env.toLowerCase email &&
    record.date == isoDate env.now &&
    record.status == "sent")

/-- `getTodaysSentCount()`. -/
def getTodaysSentCount (env : Env) (st : State) : Nat :=
  (st.sent_emails.filter (fun record =>
    record.date == isoDate env.now && record.status == "sent")).length

/-- The rows counted by the query of `wasEmailSentRecently`:
`"sentAt" > NOW() - INTERVAL '7 days'` is `now < sentAt + 7 days`. -/
def recentLogs (env : Env) (db : Database) (email : String) (campaignId : Nat) : List EmailLog :=
  db.email_logs.filter (fun l =>
    l.recipientEmail == email &&
    l.campaignId == some campaignId &&
    decide (env.now < l.sentAt + SEVEN_DAYS) &&
    l.status == "sent")

/-- `wasEmailSentRecently(email, campaignId)`. -/
def wasEmailSentRecently (env : Env) (st : State) (email : String) (campaignId : Nat) : Bool :=
  match st.sql with
  | none => wasEmailSentToday env st email
  | some db =>
    if env.faults.recentQuery email then false
    else decide (0 < (recentLogs env db email campaignId).length)

/-- `isEmailUnsubscribed(email)`. -/
def isEmailUnsubscribed (env : Env) (st : State) (email : String) : Bool :=
  match st.sql with
  | none => isUnsubscribed env st email
  | some db =>
    if env.faults.unsubscribeQuery email then isUnsubscribed env st email
    else decide (0 < (db.unsubscribe_list.filter (fun u => u == env.toLowerCase email)).length)

/-- The column `is_unsubscribed` of the query of `loadContacts`. -/
def is_unsubscribed (db : Database) (l : Lead) : Bool :=
  db.unsubscribe_list.any (fun u => l.email == u)

/-- The column `was_sent_recently` of the query of `loadContacts`: a `sent` row
of the last 7 days for the address, whatever its campaign. -/
def was_sent_recently (env : Env) (db : Database) (l : Lead) : Bool :=
  db.email_logs.any (fun el =>
    decide (env.now < el.sentAt + SEVEN_DAYS) && el.status == "sent" &&
    l.email == el.recipientEmail)

/-- The mapping of a lead row to a contact in `loadContacts`. -/
def toContact (l : Lead) : Contact :=
  { email := l.email,
    firstName := if l.firstName = "" then "Friend" else l.firstName,
    lastName := l.lastName,
    source := "database" }

/-- `loadContacts()`: the filtered leads, newest first, or the CSV contacts when
there is no database or its query fails. -/
def loadContacts (env : Env) (st : State) : List Contact :=
  match st.sql with
  | some db =>
    if env.faults.leadsQuery then st.csv
    else
      (((db.leads.filter (fun l => l.isActive)).insertionSort
          (fun a b => b.createdAt ≤ a.createdAt)).filter
          (fun lead => !is_unsubscribed db lead && !was_sent_recently env db lead)).map toContact
  | none => st.csv

/-- The counters before the first contact. -/
def emptyResults : Results := { sent := 0, skipped := 0, errors := 0, details := [] }

/-- `campaign?.id || CAMPAIGN_ID`. -/
def campaignIdOf (cfg : Config) (campaign : Option Campaign) : Nat :=
  match campaign with
  | some c => if c.id = 0 then cfg.CAMPAIGN_ID else c.id
  | none => cfg.CAMPAIGN_ID

/-!
### The per-contact callback of `sendEmailBatch`

The callback `async (contact) => ...` of `batch.map` is cut at its awaits into
three segments.  `Promise.all` interleaves the callbacks of one batch: every
callback runs its first segment, then every remaining callback its second
segment, and the answers of the transport are handled afterwards.  This is the
order Node produces on the file-based path, where the two lookups settle
without input or output; on the database path it is the order in which the
lookups settle in contact order.  Answers are handled in contact order.
-/

/-- First segment (the suppression check): the new state and counters, and
whether the callback goes on. -/
def unsubscribeStage (env : Env) (p : State × Results) (contact : Contact) :
    (State × Results) × Bool :=
  if isEmailUnsubscribed env p.1 contact.email then
    ((saveSentEmail env p.1 contact.email "persistent-campaign" "skipped-unsubscribed",
      { p.2 with skipped := p.2.skipped + 1,
                 details := p.2.details ++ [contact.email ++ " - Unsubscribed"] }), false)
  else (p, true)

/-- Second segment (recency check, daily limit check, transport call issued):
the new state and counters, and whether a transport call was made. -/
def sendStage (cfg : Config) (env : Env) (campaignId : Nat) (p : State × Results)
    (contact : Contact) : (State × Results) × Bool :=
  if wasEmailSentRecently env p.1 contact.email campaignId then
    ((p.1, { p.2 with skipped := p.2.skipped + 1,
                      details := p.2.details ++ [contact.email ++ " - Already sent recently"] }),
     false)
  else if getTodaysSentCount env p.1 ≥ cfg.DAILY_LIMIT then
    ((p.1, { p.2 with details := p.2.details ++
        ["Daily limit reached (" ++ toString cfg.DAILY_LIMIT ++ ")"] }), false)
  else (({ p.1 with calls := p.1.calls ++ [contact.email] }, p.2), true)

/-- The `INSERT INTO email_logs` after a successful send; a failing insert is
caught and only printed. -/
def logToDatabase (env : Env) (st : State) (campaignId : Nat) (contact : Contact) : State :=
  match st.sql with
  | none => st
  | some db =>
    if env.faults.logInsert contact.email then st
    else { st with sql := some { db with email_logs := db.email_logs ++
        [{ campaignId := some campaignId, recipientEmail := contact.email,
           status := "sent", sentAt := env.now }] } }

/-- Third segment: the answer of the transport is handled. -/
def completionStage (env : Env) (campaignId : Nat) (p : State × Results)
    (contact : Contact) : State × Results :=
  match env.resend contact.email with
  | SendResult.error message =>
    (saveSentEmail env p.1 contact.email "persistent-campaign" "error",
     { p.2 with errors := p.2.errors + 1,
                details := p.2.details ++ [contact.email ++ " - Error: " ++ message] })
  | SendResult.ok _ =>
    (logToDatabase env (saveSentEmail env p.1 contact.email "persistent-campaign" "sent")
        campaignId contact,
     { p.2 with sent := p.2.sent + 1,
                details := p.2.details ++ [contact.email ++ " - Sent successfully"] })
  | SendResult.throws message =>
    (saveSentEmail env p.1 contact.email "persistent-campaign" "error",
     { p.2 with errors := p.2.errors + 1,
                details := p.2.details ++ [contact.email ++ " - Exception: " ++ message] })

/-- Runs one segment over the callbacks of a batch in contact order and returns
the contacts whose callback goes on. -/
def runStage {σ : Type} (f : σ → Contact → σ × Bool) : σ → List Contact → σ × List Contact
  | s, [] => (s, [])
  | s, c :: cs =>
    let r := f s c
    let rest := runStage f r.1 cs
    (rest.1, if r.2 then c :: rest.2 else rest.2)

/-- One batch: `await Promise.all(batch.map(async (contact) => ...))`. -/
def processBatch (cfg : Config) (env : Env) (campaignId : Nat) (p : State × Results)
    (batch : List Contact) : State × Results :=
  let a := runStage (unsubscribeStage env) p batch
  let b := runStage (sendStage cfg env campaignId) a.1 a.2
  b.2.foldl (completionStage env campaignId) b.1

/-- The loop `for (let i = 0; i < contacts.length; i += batchSize)`; the list is
`contacts.slice(i)`.  `none` stands for a loop that has not ended within the
given number of iterations. -/
def sendEmailBatchLoop (cfg : Config) (env : Env) (campaignId batchSize : Nat) :
    Nat → State × Results → List Contact → Option (State × Results)
  | 0, _, _ => none
  | fuel + 1, p, contacts =>
    if contacts.length = 0 then some p
    else
      let p1 := processBatch cfg env campaignId p (contacts.take batchSize)
      if getTodaysSentCount env p1.1 ≥ cfg.DAILY_LIMIT then some p1
      else sendEmailBatchLoop cfg env campaignId batchSize fuel p1 (contacts.drop batchSize)

/-- `sendEmailBatch(contacts, campaign, template, batchSize)`.  The loop is
given one iteration more than there are contacts, which is enough whenever it
ends at all. -/
def sendEmailBatch (cfg : Config) (env : Env) (st : State) (contacts : List Contact)
    (campaign : Option Campaign) (batchSize : Nat) : Option (State × Results) :=
  sendEmailBatchLoop cfg env (campaignIdOf cfg campaign) batchSize (contacts.length + 1)
    (st, emptyResults) contacts

/-- The list `contactsToSend` of `runCampaign`: `contacts.slice(0, remaining)`
with `remaining = Math.max(0, DAILY_LIMIT - todaysSent)`. -/
def contactsToSend (cfg : Config) (env : Env) (st : State) : List Contact :=
  (loadContacts env st).take (cfg.DAILY_LIMIT - getTodaysSentCount env st)

/-- `runCampaign()`; `campaign` is what `loadActiveCampaign` returned.  The
result is the state after the pass and the counters when a dispatch took place. -/
def runCampaign (cfg : Config) (env : Env) (st : State) (campaign : Option Campaign) :
    Option (State × Option Results) :=
  if (loadContacts env st).length = 0 then some (st, none)
  else if cfg.DAILY_LIMIT - getTodaysSentCount env st = 0 then some (st, none)
  else
    match sendEmailBatch cfg env st (contactsToSend cfg env st) campaign cfg.BATCH_SIZE with
    | some r => some (r.1, some r.2)
    | none => none

/-- `HOURS_BETWEEN_SENDS`. -/
def HOURS_BETWEEN_SENDS : Nat := 2

/-- `scheduleNextRun()`: the delay in milliseconds of the timer it sets.  `now`
is the instant on the local wall clock of the process, in milliseconds since
the local midnight of day 0 (`getHours`, `setDate` and `setHours` work on that
clock; a shift of the clock by daylight saving is not embedded). -/
def scheduleNextRun (now : Nat) : Nat :=
  let hour := now % MS_PER_DAY / MS_PER_HOUR
  if hour ≥ 9 ∧ hour ≤ 18 then HOURS_BETWEEN_SENDS * 60 * 60 * 1000
  else
    let tomorrow := (now / MS_PER_DAY + 1) * MS_PER_DAY + 9 * MS_PER_HOUR
    tomorrow - now

/-- The batches `contacts.slice(i, i + batchSize)` that the loop of
`sendEmailBatch` forms, in the order in which it dispatches them: the run of
`sendEmailBatchLoop` with every batch written down. -/
def sendEmailBatchSlices (cfg : Config) (env : Env) (campaignId batchSize : Nat) :
    Nat → State × Results → List Contact → Option (List (List Contact))
  | 0, _, _ => none
  | fuel + 1, p, contacts =>
    if contacts.length = 0 then some []
    else
      let p1 := processBatch cfg env campaignId p (contacts.take batchSize)
      if getTodaysSentCount env p1.1 ≥ cfg.DAILY_LIMIT then some [contacts.take batchSize]
      else
        (sendEmailBatchSlices cfg env campaignId batchSize fuel p1 (contacts.drop batchSize)).map
          (fun rest => contacts.take batchSize :: rest)

/-- The text of the unsubscribe footer before the encoded address, as the
template literal of the source has it. -/
def footerHead : String :=
  "\n" ++
  "            <div style=\"background-color: #2c5530; color: white; padding: 20px; text-align: center; font-size: 12px; margin-top: 20px;\">\n" ++
  "              <div style=\"border-top: 1px solid rgba(255,255,255,0.3); padding-top: 15px;\">\n" ++
  "                <p style=\"margin: 0; color: #b8e6b8; font-size: 11px;\">\n" ++
  "                  If you no longer wish to receive these emails, you can \n" ++
  "                  <a href=\"https://treeoflifeagencies.com/unsubscribe?email="

/-- The text of the unsubscribe footer between the encoded address and the
closing tag. -/
def footerTail : String :=
  "\" \n" ++
  "                     style=\"color: #b8e6b8; text-decoration: underline;\">unsubscribe here</a>\n" ++
  "                </p>\n" ++
  "              </div>\n" ++
  "            </div>\n" ++
  "            "

/-- The replacement text of the `replace` call: the footer with the encoded
address of the recipient, followed by the closing tag in lower case. -/
def unsubscribeFooter (email : String) : List Char :=
  (footerHead ++ encodeURIComponent email ++ footerTail ++ "</body>").data

/-- The lines `if (!personalizedHtml.includes('unsubscribe')) ...`: the HTML handed to
the transport for the content `personalizedHtml` and the address `email`. -/
def addUnsubscribeLink (personalizedHtml : List Char) (email : String) : List Char :=
  if !includes personalizedHtml "unsubscribe".data then
    replaceBodyClose (unsubscribeFooter email) personalizedHtml
  else personalizedHtml

/-!
### The callback when a write of `sent_emails.json` fails

`saveSentEmail` calls `fs.writeFileSync` outside any `try` of its own.  The
definitions below follow the third segment of the callback with that write
able to throw: in the `try` block for the addresses of `tryWriteFails`, in the
`catch` block for the addresses of `catchWriteFails`.  A write that throws
stores nothing.  `none` is a callback that rejects, and with it `Promise.all`
and `sendEmailBatch`.
-/

/-- The block `catch (error)` of the callback: the error is counted, then its
record is saved. -/
def catchBlock (env : Env) (catchWriteFails : String → Bool) (p : State × Results)
    (contact : Contact) (message : String) : Option (State × Results) :=
  if catchWriteFails contact.email then none
  else
    some (saveSentEmail env p.1 contact.email "persistent-campaign" "error",
      { p.2 with errors := p.2.errors + 1,
                 details := p.2.details ++ [contact.email ++ " - Exception: " ++ message] })

/-- Third segment, with the writes of `sent_emails.json` able to throw
`writeError`: the counter of the outcome is raised before `saveSentEmail` is
called, and an exception of `saveSentEmail` leads to the `catch` block. -/
def completionStageWithWrites (env : Env) (campaignId : Nat)
    (tryWriteFails catchWriteFails : String → Bool) (writeError : String)
    (p : State × Results) (contact : Contact) : Option (State × Results) :=
  match env.resend contact.email with
  | SendResult.error message =>
    let counted : Results :=
      { p.2 with errors := p.2.errors + 1,
                 details := p.2.details ++ [contact.email ++ " - Error: " ++ message] }
    if tryWriteFails contact.email then
      catchBlock env catchWriteFails (p.1, counted) contact writeError
    else some (saveSentEmail env p.1 contact.email "persistent-campaign" "error", counted)
  | SendResult.ok _ =>
    let counted : Results :=
      { p.2 with sent := p.2.sent + 1,
                 details := p.2.details ++ [contact.email ++ " - Sent successfully"] }
    if tryWriteFails contact.email then
      catchBlock env catchWriteFails (p.1, counted) contact writeError
    else
      some (logToDatabase env (saveSentEmail env p.1 contact.email "persistent-campaign" "sent")
        campaignId contact, counted)
  | SendResult.throws message => catchBlock env catchWriteFails p contact message

/-- One batch, with the writes of the third segment able to throw. -/
def processBatchWithWrites (cfg : Config) (env : Env) (campaignId : Nat)
    (tryWriteFails catchWriteFails : String → Bool) (writeError : String)
    (p : State × Results) (batch : List Contact) : Option (State × Results) :=
  let a := runStage (unsubscribeStage env) p batch
  let b := runStage (sendStage cfg env campaignId) a.1 a.2
  b.2.foldlM
    (completionStageWithWrites env campaignId tryWriteFails catchWriteFails writeError) b.1

/-- The loop of `sendEmailBatch`, with the writes of the third segment able to
throw.  `none` is a dispatch that rejects or has not ended within the given
number of iterations. -/
def sendEmailBatchLoopWithWrites (cfg : Config) (env : Env) (campaignId batchSize : Nat)
    (tryWriteFails catchWriteFails : String → Bool) (writeError : String) :
    Nat → State × Results → List Contact → Option (State × Results)
  | 0, _, _ => none
  | fuel + 1, p, contacts =>
    if contacts.length = 0 then some p
    else
      match processBatchWithWrites cfg env campaignId tryWriteFails catchWriteFails writeError p
          (contacts.take batchSize) with
      | none => none
      | some p1 =>
        if getTodaysSentCount env p1.1 ≥ cfg.DAILY_LIMIT then some p1
        else
          sendEmailBatchLoopWithWrites cfg env campaignId batchSize tryWriteFails catchWriteFails
            writeError fuel p1 (contacts.drop batchSize)

/-- `sendEmailBatch(contacts, campaign, template, batchSize)`, with the writes
of the third segment able to throw. -/
def sendEmailBatchWithWrites (cfg : Config) (env : Env) (st : State) (contacts : List Contact)
    (campaign : Option Campaign) (batchSize : Nat)
    (tryWriteFails catchWriteFails : String → Bool) (writeError : String) :
    Option (State × Results) :=
  sendEmailBatchLoopWithWrites cfg env (campaignIdOf cfg campaign) batchSize tryWriteFails
    catchWriteFails writeError (contacts.length + 1) (st, emptyResults) contacts

end PersistentCampaign

/-! ## persistentCampaign.js.js -/

namespace PersistentCampaignJs

/-- The configuration constants of the module; `config` holds the source values. -/
structure Config where
  BATCH_SIZE : Nat
  DAILY_LIMIT : Nat
  CAMPAIGN_ID : Nat
deriving DecidableEq

/-- The constants as the source sets them. -/
def config : Config := { BATCH_SIZE := 15, DAILY_LIMIT := 100, CAMPAIGN_ID := 1 }

/-- One row of `leads`. -/
structure Lead where
  id : Nat
  email : String
  firstName : String
  isActive : Bool
deriving DecidableEq

/-- One row of `email_logs`. -/
structure EmailLog where
  campaignId : Option Nat
  recipientEmail : String
  sentAt : Nat
  resendId : String
  status : String
deriving DecidableEq

/-- The tables behind `db`. -/
structure Database where
  leads : List Lead
  emailLogs : List EmailLog
  unsubscribes : List String
deriving DecidableEq

/-- Which awaited database calls reject. -/
structure Faults where
  unsubscribeQuery : String → Bool
  recentQuery : Bool
  leadsQuery : Bool
  logInsert : String → Bool

/-- What a pass reads from outside.  `estDay` (0 is Sunday) and `estHour` are
the weekday and the hour of `now` in `America/New_York`, as the time-zone
database of the runtime gives them. -/
structure Env where
  now : Nat
  estDay : Nat
  estHour : Nat
  resend : String → SendResult
  faults : Faults

/-- The mutable world of the runner. -/
structure State where
  db : Database
  calls : List String
deriving DecidableEq

/-- What `sendEmail` resolves to: `null`, `undefined` (the function ends
without a `return`) or the answer of the transport. -/
inductive SendEmailReturn where
  | null
  | undefined
  | result (id : String)
deriving DecidableEq

/-- `isBusinessHours()`. -/
def isBusinessHours (env : Env) : Bool :=
  decide (env.estDay ≥ 1) && decide (env.estDay ≤ 5) &&
  decide (env.estHour ≥ 9) && decide (env.estHour ≤ 18)

/-- `isUnsubscribed(email)`: a failing query answers `false`. -/
def isUnsubscribed (env : Env) (st : State) (email : String) : Bool :=
  if env.faults.unsubscribeQuery email then false
  else decide (0 < (st.db.unsubscribes.filter (fun u => u == email)).length)

/-- The list `recentEmailsList` of `getAvailableLeads`: the recipients of the
log rows with `sentAt >= sevenDaysAgo`. -/
def recentEmailsList (env : Env) (st : State) : List String :=
  (st.db.emailLogs.filter (fun l => decide (env.now ≤ l.sentAt + SEVEN_DAYS))).map
    (fun row => row.recipientEmail)

/-- `getAvailableLeads(limit)`.  The value interpolated into `NOT IN (...)` is
the single string `recentEmailsList.join(',')`, bound as one parameter. -/
def getAvailableLeads (env : Env) (st : State) (limit : Nat) : List Lead :=
  if env.faults.recentQuery || env.faults.leadsQuery then []
  else
    (st.db.leads.filter (fun l =>
      l.isActive &&
      (if (recentEmailsList env st).length > 0
        then l.email != String.intercalate "," (recentEmailsList env st)
        else true))).take limit

/-- The object `campaign` that `sendEmail` receives, with the properties that
decide its course: `id`, and `htmlContent`, which is `none` when the object has
no property of that name. -/
structure Campaign where
  id : Nat
  htmlContent : Option String
deriving DecidableEq

/-- The object `campaign` that `runCampaign` builds: `id`, `name`, `fromName`,
`fromEmail` and, spread from `EMAIL_TEMPLATE`, `subject` and `html`.  It has no
property `htmlContent`. -/
def campaign (cfg : Config) : Campaign := { id := cfg.CAMPAIGN_ID, htmlContent := none }

/-- `sendEmail(lead, campaign)`.  When `campaign.htmlContent` is `undefined`,
`campaign.htmlContent.replace(...)` throws a `TypeError` before the transport
is called, and the `catch` of the function returns `null`. -/
def sendEmail (env : Env) (st : State) (lead : Lead) (campaign : Campaign) :
    State × SendEmailReturn :=
  if isUnsubscribed env st lead.email then (st, SendEmailReturn.null)
  else
    match campaign.htmlContent with
    | none => (st, SendEmailReturn.null)
    | some _ =>
      let st1 : State := { st with calls := st.calls ++ [lead.email] }
      match env.resend lead.email with
      | SendResult.ok id =>
        if id = "" then (st1, SendEmailReturn.undefined)
        else if env.faults.logInsert lead.email then (st1, SendEmailReturn.null)
        else
          ({ st1 with db := { st1.db with emailLogs := st1.db.emailLogs ++
              [{ campaignId := some campaign.id, recipientEmail := lead.email,
                 sentAt := env.now, resendId := id, status := "sent" }] } },
           SendEmailReturn.result id)
      | SendResult.error _ => (st1, SendEmailReturn.undefined)
      | SendResult.throws _ => (st1, SendEmailReturn.null)

/-- One batch of `runCampaign`: `Promise.all(batch.map(lead => sendEmail(lead, campaign)))`
followed by `results.push(...batchResults.filter(result => result !== null))`.
The callbacks share no state they read and write, so they are run in lead order. -/
def sendBatch (env : Env) (campaign : Campaign) (p : State × List SendEmailReturn)
    (batch : List Lead) : State × List SendEmailReturn :=
  batch.foldl (fun q lead =>
    let r := sendEmail env q.1 lead campaign
    (r.1, if r.2 = SendEmailReturn.null then q.2 else q.2 ++ [r.2])) p

/-- The loop `for (let i = 0; i < availableLeads.length; i += BATCH_SIZE)`;
`none` stands for a loop that has not ended within the given number of
iterations. -/
def runCampaignLoop (cfg : Config) (env : Env) :
    Nat → State × List SendEmailReturn → List Lead → Option (State × List SendEmailReturn)
  | 0, _, _ => none
  | fuel + 1, p, availableLeads =>
    if availableLeads.length = 0 then some p
    else
      runCampaignLoop cfg env fuel
        (sendBatch env (campaign cfg) p (availableLeads.take cfg.BATCH_SIZE))
        (availableLeads.drop cfg.BATCH_SIZE)

/-- `runCampaign()`: the state after the pass and the list `results`. -/
def runCampaign (cfg : Config) (env : Env) (st : State) :
    Option (State × List SendEmailReturn) :=
  if !isBusinessHours env then some (st, [])
  else if (getAvailableLeads env st cfg.DAILY_LIMIT).length = 0 then some (st, [])
  else
    runCampaignLoop cfg env ((getAvailableLeads env st cfg.DAILY_LIMIT).length + 1) (st, [])
      (getAvailableLeads env st cfg.DAILY_LIMIT)

/-- The batches `availableLeads.slice(i, i + BATCH_SIZE)` that the loop of
`runCampaign` forms, in the order in which it dispatches them. -/
def runCampaignSlices (cfg : Config) : Nat → List Lead → Option (List (List Lead))
  | 0, _ => none
  | fuel + 1, availableLeads =>
    if availableLeads.length = 0 then some []
    else
      (runCampaignSlices cfg fuel (availableLeads.drop cfg.BATCH_SIZE)).map
        (fun rest => availableLeads.take cfg.BATCH_SIZE :: rest)

end PersistentCampaignJs

/-! ## sequenceAutomation.js.js -/

namespace SequenceAutomationJs

/-- One row of `leads`. -/
structure Lead where
  id : Nat
  email : String
  firstName : String
  isActive : Bool
deriving DecidableEq

/-- One row of `sequence_steps`. -/
structure SequenceStep where
  id : Nat
  sequenceId : Nat
  stepNumber : Nat
  templateId : Nat
  delayDays : Nat
  isActive : Bool
deriving DecidableEq

/-- One row of `sequence_subscribers`. -/
structure Subscriber where
  id : Nat
  sequenceId : Nat
  leadId : Nat
  currentStep : Nat
  status : String
  completedAt : Option Nat
  lastEmailSent : Option Nat
  nextEmailDue : Option Nat
deriving DecidableEq

/-- One row of `email_templates`. -/
structure EmailTemplate where
  id : Nat
  name : String
deriving DecidableEq

/-- One row of `email_logs`. -/
structure EmailLog where
  campaignId : Option Nat
  recipientEmail : String
  sentAt : Nat
  resendId : String
  status : String
deriving DecidableEq

/-- The tables behind `db`. -/
structure Database where
  leads : List Lead
  unsubscribes : List String
  sequenceSteps : List SequenceStep
  sequenceSubscribers : List Subscriber
  emailTemplates : List EmailTemplate
  emailLogs : List EmailLog
deriving DecidableEq

/-- Which awaited database calls reject: the lead query by lead id, the
suppression query and the log insert by address, the step query by sequence id
and step number, the template query by template id, the subscriber update by
subscriber id. -/
structure Faults where
  pendingQuery : Bool
  leadQuery : Nat → Bool
  unsubscribeQuery : String → Bool
  stepQuery : Nat → Nat → Bool
  templateQuery : Nat → Bool
  logInsert : String → Bool
  subscriberUpdate : Nat → Bool

/-- What a pass reads from outside.  `estDay` (0 is Sunday) and `estHour` are
the weekday and the hour of `now` in `America/New_York`. -/
structure Env where
  now : Nat
  estDay : Nat
  estHour : Nat
  resend : String → SendResult
  faults : Faults

/-- The fields of the `SequenceAutomation` object that the processing reads or
writes, the database and the transport calls made so far. -/
structure State where
  emailsSentToday : Nat
  dailyLimit : Nat
  db : Database
  calls : List String
deriving DecidableEq

/-- The object after `new SequenceAutomation()`, over a database. -/
def new (db : Database) : State :=
  { emailsSentToday := 0, dailyLimit := 100, db := db, calls := [] }

/-- `isBusinessHours()`. -/
def isBusinessHours (env : Env) : Bool :=
  decide (env.estDay ≥ 1) && decide (env.estDay ≤ 5) &&
  decide (env.estHour ≥ 9) && decide (env.estHour ≤ 18)

/-- `isUnsubscribed(email)`: a failing query answers `false`. -/
def isUnsubscribed (env : Env) (st : State) (email : String) : Bool :=
  if env.faults.unsubscribeQuery email then false
  else decide (0 < (st.db.unsubscribes.filter (fun u => u == email)).length)

/-- The query for the active step of a sequence with a given number, `limit(1)`. -/
def findStep (st : State) (sequenceId stepNumber : Nat) : Option SequenceStep :=
  st.db.sequenceSteps.find? (fun s =>
    s.sequenceId == sequenceId && s.stepNumber == stepNumber && s.isActive)

/-- `db.update(sequenceSubscribers).set(...).where(eq(sequenceSubscribers.id, id))`. -/
def updateSubscriber (st : State) (id : Nat) (set : Subscriber → Subscriber) : State :=
  { st with db := { st.db with sequenceSubscribers :=
      st.db.sequenceSubscribers.map (fun row => if row.id = id then set row else row) } }

/-- `sendSequenceEmail(lead, template, subscriber)`: the new state and whether
the result is non-null. -/
def sendSequenceEmail (env : Env) (st : State) (lead : Lead) : State × Bool :=
  let st1 : State := { st with calls := st.calls ++ [lead.email] }
  match env.resend lead.email with
  | SendResult.ok id =>
    if id = "" then (st1, false)
    else if env.faults.logInsert lead.email then (st1, false)
    else
      ({ st1 with db := { st1.db with emailLogs := st1.db.emailLogs ++
          [{ campaignId := none, recipientEmail := lead.email, sentAt := env.now,
             resendId := id, status := "sent" }] } }, true)
  | SendResult.error _ => (st1, false)
  | SendResult.throws _ => (st1, false)

/-- `processSubscriberEmail(subscriber)`.  A rejected store call leaves through
the `catch` of the method with the writes made so far. -/
def processSubscriberEmail (env : Env) (st : State) (subscriber : Subscriber) : State :=
  if env.faults.leadQuery subscriber.leadId then st
  else
    match st.db.leads.find? (fun l => l.id == subscriber.leadId) with
    | none => st
    | some lead =>
      if !lead.isActive then st
      else if isUnsubscribed env st lead.email then
        if env.faults.subscriberUpdate subscriber.id then st
        else updateSubscriber st subscriber.id
          (fun row => { row with status := "unsubscribed", completedAt := some env.now })
      else
        let nextStepNumber := subscriber.currentStep + 1
        if env.faults.stepQuery subscriber.sequenceId nextStepNumber then st
        else
          match findStep st subscriber.sequenceId nextStepNumber with
          | none =>
            if env.faults.subscriberUpdate subscriber.id then st
            else updateSubscriber st subscriber.id
              (fun row => { row with status := "completed", completedAt := some env.now,
                                     currentStep := nextStepNumber - 1 })
          | some nextStep =>
            if env.faults.templateQuery nextStep.templateId then st
            else
              match st.db.emailTemplates.find? (fun t => t.id == nextStep.templateId) with
              | none => st
              | some _ =>
                let r := sendSequenceEmail env st lead
                if r.2 then
                  if env.faults.stepQuery subscriber.sequenceId (nextStepNumber + 1) then r.1
                  else
                    let followingStep := findStep r.1 subscriber.sequenceId (nextStepNumber + 1)
                    if env.faults.subscriberUpdate subscriber.id then r.1
                    else
                      let st2 := updateSubscriber r.1 subscriber.id
                        (fun row => { row with
                          currentStep := nextStepNumber,
                          lastEmailSent := some env.now,
                          nextEmailDue := followingStep.map
                            (fun f => env.now + f.delayDays * MS_PER_DAY) })
                      { st2 with emailsSentToday := st2.emailsSentToday + 1 }
                else r.1

/-- The query of `processPendingEmails`: active subscribers whose `nextEmailDue`
is not null and not after `now`, `limit(10)`. -/
def pendingSubscribers (env : Env) (st : State) : List Subscriber :=
  (st.db.sequenceSubscribers.filter (fun s =>
    s.status == "active" &&
    (match s.nextEmailDue with
     | some due => decide (due ≤ env.now)
     | none => false))).take 10

/-- The loop `for (const subscriber of pendingSubscribers)` with its `break`. -/
def processLoop (env : Env) : State → List Subscriber → State
  | st, [] => st
  | st, subscriber :: rest =>
    if st.emailsSentToday ≥ st.dailyLimit then st
    else processLoop env (processSubscriberEmail env st subscriber) rest

/-- `processPendingEmails()`. -/
def processPendingEmails (env : Env) (st : State) : State :=
  if !isBusinessHours env then st
  else if st.emailsSentToday ≥ st.dailyLimit then st
  else if env.faults.pendingQuery then st
  else if (pendingSubscribers env st).length = 0 then st
  else processLoop env st (pendingSubscribers env st)

end SequenceAutomationJs

/-! ## sequenceAutomation.js -/

namespace SequenceAutomation

/-- One row of `sequence_subscribers`, with the columns the queries name. -/
structure Subscriber where
  id : Nat
  sequence_id : Nat
  lead_id : Nat
  current_step : Nat
  status : String
  next_email_at : Option Nat
  last_email_sent_at : Option Nat
  completed_at : Option Nat
deriving DecidableEq

/-- One row of `email_sequences`. -/
structure Sequence where
  id : Nat
  is_active : Bool
deriving DecidableEq

/-- One row of `leads`. -/
structure Lead where
  id : Nat
  email : String
deriving DecidableEq

/-- One row of `sequence_steps`. -/
structure Step where
  sequence_id : Nat
  step_number : Nat
  delay_days : Nat
  is_active : Bool
deriving DecidableEq

/-- One row of `email_logs`. -/
structure EmailLog where
  campaign_id : Option Nat
  recipient_email : String
  status : String
  sent_at : Nat
deriving DecidableEq

/-- The tables behind `sql`. -/
structure Database where
  sequence_subscribers : List Subscriber
  email_sequences : List Sequence
  leads : List Lead
  sequence_steps : List Step
  unsubscribe_list : List String
  email_logs : List EmailLog
deriving DecidableEq

/-- A row of the join of `getPendingSequenceEmails`: the subscriber columns,
the address of the lead and the delay of the joined step. -/
structure PendingEmail where
  id : Nat
  sequence_id : Nat
  current_step : Nat
  next_email_at : Option Nat
  email : String
  delay_days : Nat
deriving DecidableEq

/-- Which awaited database calls reject: the suppression query and the log
insert by address, the step query by sequence id and step number, the
subscriber updates by subscriber id. -/
structure Faults where
  pendingQuery : Bool
  unsubscribeQuery : String → Bool
  logInsert : String → Bool
  stepQuery : Nat → Nat → Bool
  subscriberUpdate : Nat → Bool

/-- What a pass reads from outside.  `estHour` and `estDate` are the hour and
the calendar day (as a day number) of `now` in `America/New_York`. -/
structure Env where
  now : Nat
  estHour : Nat
  estDate : Nat
  resend : String → SendResult
  faults : Faults

/-- The fields of the `SequenceAutomation` object, the database and the
transport calls made so far.  `lastResetDate` is `none` while the property is
not set. -/
structure State where
  isRunning : Bool
  emailsSentToday : Nat
  dailyLimit : Nat
  lastResetDate : Option Nat
  db : Database
  calls : List String
deriving DecidableEq

/-- The object after `new SequenceAutomation()` and `start()` has set
`isRunning`, over a database. -/
def started (db : Database) : State :=
  { isRunning := true, emailsSentToday := 0, dailyLimit := 100, lastResetDate := none,
    db := db, calls := [] }

/-- `getPendingSequenceEmails()`: the join, ordered by `next_email_at`. -/
def getPendingSequenceEmails (env : Env) (st : State) : List PendingEmail :=
  ((st.db.sequence_subscribers.filter (fun ss =>
      ss.status == "active" &&
      (match ss.next_email_at with
       | some due => decide (due ≤ env.now)
       | none => false))).insertionSort
      (fun a b => a.next_email_at.getD 0 ≤ b.next_email_at.getD 0)).flatMap (fun ss =>
    (st.db.email_sequences.filter (fun es => es.id == ss.sequence_id && es.is_active)).flatMap
      (fun _ =>
        (st.db.leads.filter (fun l => l.id == ss.lead_id)).flatMap (fun l =>
          (st.db.sequence_steps.filter (fun steps =>
            steps.sequence_id == ss.sequence_id && steps.step_number == ss.current_step &&
            steps.is_active)).map (fun steps =>
              { id := ss.id, sequence_id := ss.sequence_id, current_step := ss.current_step,
                next_email_at := ss.next_email_at, email := l.email,
                delay_days := steps.delay_days }))))

/-- The `UPDATE sequence_subscribers SET ... WHERE id = $1` statements. -/
def updateRows (st : State) (id : Nat) (set : Subscriber → Subscriber) : State :=
  { st with db := { st.db with sequence_subscribers :=
      st.db.sequence_subscribers.map (fun row => if row.id = id then set row else row) } }

/-- `updateSubscriberStatus(subscriberId, status)`; `none` when the update rejects. -/
def updateSubscriberStatus (env : Env) (st : State) (subscriberId : Nat) (status : String) :
    Option State :=
  if env.faults.subscriberUpdate subscriberId then none
  else some (updateRows st subscriberId (fun row =>
    { row with status := status,
               completed_at := if status = "completed" then some env.now else row.completed_at }))

/-- `advanceSubscriber(subscriber)`; `none` when a store call rejects. -/
def advanceSubscriber (env : Env) (st : State) (subscriber : PendingEmail) : Option State :=
  let nextStep := subscriber.current_step + 1
  if env.faults.stepQuery subscriber.sequence_id nextStep then none
  else
    match st.db.sequence_steps.filter (fun s =>
        s.sequence_id == subscriber.sequence_id && s.step_number == nextStep && s.is_active) with
    | first :: _ =>
      if env.faults.subscriberUpdate subscriber.id then none
      else some (updateRows st subscriber.id (fun row =>
        { row with current_step := nextStep,
                   next_email_at := some (env.now + first.delay_days * MS_PER_DAY),
                   last_email_sent_at := some env.now }))
    | [] => updateSubscriberStatus env st subscriber.id "completed"

/-- `sendSequenceEmail(subscriber)`: the state it leaves, and whether it
returned (`true`) or threw (`false`). -/
def sendSequenceEmail (env : Env) (st : State) (subscriber : PendingEmail) : State × Bool :=
  if env.faults.unsubscribeQuery subscriber.email then (st, false)
  else if 0 < (st.db.unsubscribe_list.filter (fun u => u == subscriber.email)).length then
    match updateSubscriberStatus env st subscriber.id "unsubscribed" with
    | some st1 => (st1, true)
    | none => (st, false)
  else
    let st1 : State := { st with calls := st.calls ++ [subscriber.email] }
    match env.resend subscriber.email with
    | SendResult.error _ => (st1, false)
    | SendResult.throws _ => (st1, false)
    | SendResult.ok _ =>
      if env.faults.logInsert subscriber.email then (st1, false)
      else
        let st2 : State := { st1 with db := { st1.db with email_logs := st1.db.email_logs ++
          [{ campaign_id := none, recipient_email := subscriber.email, status := "sent",
             sent_at := env.now }] } }
        match advanceSubscriber env st2 subscriber with
        | some st3 => (st3, true)
        | none => (st2, false)

/-- The loop `for (const subscriber of emailsToProcess)`: the counter goes up
after every call of `sendSequenceEmail` that returns. -/
def processLoop (env : Env) : State → List PendingEmail → State
  | st, [] => st
  | st, subscriber :: rest =>
    let r := sendSequenceEmail env st subscriber
    processLoop env
      (if r.2 then { r.1 with emailsSentToday := r.1.emailsSentToday + 1 } else r.1) rest

/-- The daily reset of `processPendingEmails`: the state after the lines
`if (estDate !== lastResetDate) ...`. -/
def resetDailyCounter (env : Env) (st : State) : State :=
  if st.lastResetDate ≠ some env.estDate then
    { st with emailsSentToday := 0, lastResetDate := some env.estDate }
  else st

/-- `processPendingEmails()`. -/
def processPendingEmails (env : Env) (st : State) : State :=
  if !st.isRunning then st
  else if env.estHour < 9 ∨ env.estHour ≥ 18 then st
  else
    let st1 := resetDailyCounter env st
    if st1.emailsSentToday ≥ st1.dailyLimit then st1
    else if env.faults.pendingQuery then st1
    else if (getPendingSequenceEmails env st1).length = 0 then st1
    else
      processLoop env st1
        ((getPendingSequenceEmails env st1).take (st1.dailyLimit - st1.emailsSentToday))

/-- The text of the unsubscribe footer before the encoded address, as the
template literal of the source has it. -/
def footerHead : String :=
  "\n" ++
  "          <div style=\"background-color: #2c5530; color: white; padding: 20px; text-align: center; font-size: 12px; margin-top: 20px;\">\n" ++
  "            <div style=\"border-top: 1px solid rgba(255,255,255,0.3); padding-top: 15px;\">\n" ++
  "              <p style=\"margin: 0; color: #b8e6b8; font-size: 11px;\">\n" ++
  "                If you no longer wish to receive these emails, you can \n" ++
  "                <a href=\"https://treeoflifeagencies.com/unsubscribe?email="

/-- The text of the unsubscribe footer between the encoded address and the
closing tag. -/
def footerTail : String :=
  "\" \n" ++
  "                   style=\"color: #b8e6b8; text-decoration: underline;\">unsubscribe here</a>\n" ++
  "              </p>\n" ++
  "            </div>\n" ++
  "          </div>\n" ++
  "          "

/-- The replacement text of the `replace` call: the footer with the encoded
address of the recipient, followed by the closing tag in lower case. -/
def unsubscribeFooter (email : String) : List Char :=
  (footerHead ++ encodeURIComponent email ++ footerTail ++ "</body>").data

/-- The lines `if (!emailContent.includes('unsubscribe')) ...`: the HTML handed to
the transport for the content `emailContent` and the address `email`. -/
def addUnsubscribeLink (emailContent : List Char) (email : String) : List Char :=
  if !includes emailContent "unsubscribe".data then
    replaceBodyClose (unsubscribeFooter email) emailContent
  else emailContent

end SequenceAutomation

/-! ## app.js -/

namespace App

/-- `isBusinessHours()`; `day` (0 is Sunday) and `hour` are the weekday and the
hour of the current instant in `America/New_York`. -/
def isBusinessHours (day hour : Nat) : Bool :=
  decide (day ≥ 1) && decide (day ≤ 5) && decide (hour ≥ 9) && decide (hour ≤ 18)

end App

/-! ## storage.ts -/

namespace DatabaseStorage

/-- The value of `InsertSequenceSubscriber` handed to `addToSequence`; a column
left out takes the default of the schema. -/
structure InsertSequenceSubscriber where
  sequenceId : Nat
  leadId : Nat
  currentStep : Option Nat
  status : Option String
  nextEmailDue : Option Nat
deriving DecidableEq

/-- The next value of the `serial` column `id`: a number above every id stored. -/
def nextId (rows : List SequenceAutomationJs.Subscriber) : Nat :=
  (rows.map (fun row => row.id)).foldl max 0 + 1

/-- `addToSequence(subscriber)`: the table after the insert and the row
returned.  The tables are those of `sequenceAutomation.js.js`, which inlines
the same schema. -/
def addToSequence (db : SequenceAutomationJs.Database) (subscriber : InsertSequenceSubscriber) :
    SequenceAutomationJs.Database × SequenceAutomationJs.Subscriber :=
  let row : SequenceAutomationJs.Subscriber :=
    { id := nextId db.sequenceSubscribers,
      sequenceId := subscriber.sequenceId,
      leadId := subscriber.leadId,
      currentStep := subscriber.currentStep.getD 0,
      status := subscriber.status.getD "active",
      completedAt := none,
      lastEmailSent := none,
      nextEmailDue := subscriber.nextEmailDue }
  ({ db with sequenceSubscribers := db.sequenceSubscribers ++ [row] }, row)

/-- `updateSubscriberStatus(id, status, currentStep?)` at the instant `now`. -/
def updateSubscriberStatus (now : Nat) (db : SequenceAutomationJs.Database) (id : Nat)
    (status : String) (currentStep : Option Nat) : SequenceAutomationJs.Database :=
  { db with sequenceSubscribers := db.sequenceSubscribers.map (fun row =>
      if row.id = id then
        { row with
          status := status,
          currentStep := currentStep.getD row.currentStep,
          completedAt := if status = "completed" then some now else row.completedAt }
      else row) }

/-- `completeSequenceForSubscriber(id)` at the instant `now`. -/
def completeSequenceForSubscriber (now : Nat) (db : SequenceAutomationJs.Database) (id : Nat) :
    SequenceAutomationJs.Database :=
  { db with sequenceSubscribers := db.sequenceSubscribers.map (fun row =>
      if row.id = id then { row with status := "completed", completedAt := some now }
      else row) }

/-- `getPendingSequenceEmails()` at the instant `now`: the active subscribers
whose `nextEmailDue` is not null and not after `now`, ordered by it. -/
def getPendingSequenceEmails (now : Nat) (db : SequenceAutomationJs.Database) :
    List SequenceAutomationJs.Subscriber :=
  (db.sequenceSubscribers.filter (fun s =>
    s.status == "active" &&
    (match s.nextEmailDue with
     | some due => decide (due ≤ now)
     | none => false))).insertionSort
    (fun a b => a.nextEmailDue.getD 0 ≤ b.nextEmailDue.getD 0)

/-- `deleteSequenceStep(id)`: the step is deactivated, not removed. -/
def deleteSequenceStep (db : SequenceAutomationJs.Database) (id : Nat) :
    SequenceAutomationJs.Database :=
  { db with sequenceSteps := db.sequenceSteps.map (fun step =>
      if step.id = id then { step with isActive := false } else step) }

end DatabaseStorage

/-! ## Vocabulary of the statements -/

namespace PersistentCampaign

/-- The address matches an entry of `unsubscribes.json` up to letter case. -/
def fileSuppressed (env : Env) (st : State) (email : String) : Prop :=
  ∃ u ∈ st.unsubscribes, env.toLowerCase u = env.toLowerCase email

/-- The suppression lookup of the runner finds the address: its lower-cased
form is a row of `unsubscribe_list` when the query answers, and otherwise (no
database, or the query rejects) it matches an entry of the file. -/
def suppressed (env : Env) (st : State) (email : String) : Prop :=
  match st.sql with
  | none => fileSuppressed env st email
  | some db =>
    if env.faults.unsubscribeQuery email then fileSuppressed env st email
    else env.toLowerCase email ∈ db.unsubscribe_list

/-- What the suppression lookup reads of a state. -/
def suppressionView (st : State) : Option (List String) × List String :=
  (st.sql.map (fun db => db.unsubscribe_list), st.unsubscribes)

/-- The counters of `b` are at least those of `a` and the messages of `a` are
the first messages of `b`. -/
def Results.Extends (a b : Results) : Prop :=
  a.sent ≤ b.sent ∧ a.skipped ≤ b.skipped ∧ a.errors ≤ b.errors ∧
  ∃ t, b.details = a.details ++ t

end PersistentCampaign

/-! ## Concrete inputs -/

namespace PersistentCampaign

/-- No database call rejects. -/
def noFaults : Faults :=
  { unsubscribeQuery := fun _ => false, recentQuery := fun _ => false,
    logInsert := fun _ => false, leadsQuery := false }

/-- The transport accepts every message; the clock stands at noon UTC of day 20
(21 January 1970). -/
def calmEnv : Env :=
  { now := 20 * MS_PER_DAY + 43200000, resend := fun _ => SendResult.ok "re_1",
    faults := noFaults, toLowerCase := asciiToLowerCase }

/-- A contact with a mixed-case address. -/
def bob : Contact :=
  { email := "Bob@X.com", firstName := "Bob", lastName := "", source := "database" }

/-- A contact with a lower-case address. -/
def amy : Contact :=
  { email := "amy@x.com", firstName := "Amy", lastName := "", source := "database" }

/-- A database whose suppression table holds the address of `bob` as he wrote
it and the address of `amy`. -/
def suppressionDb : Database :=
  { leads := [], email_logs := [], unsubscribe_list := ["Bob@X.com", "amy@x.com"] }

/-- A runner with that database and empty files. -/
def suppressionState : State :=
  { sql := some suppressionDb, sent_emails := [], unsubscribes := [], csv := [], calls := [] }

/-- A `sent` entry of `sent_emails.json` for `amy`, written one day before the
instant of `calmEnv`. -/
def yesterdaysRecord : SentRecord :=
  { email := "amy@x.com", campaignName := "persistent-campaign", status := "sent",
    timestamp := 19 * MS_PER_DAY + 43200000, date := 19 }

/-- A runner without a database whose file log holds `yesterdaysRecord`. -/
def fileOnlyState : State :=
  { sql := none, sent_emails := [yesterdaysRecord], unsubscribes := [], csv := [amy],
    calls := [] }

/-- A `sent` row of `email_logs` for `amy` and campaign 1, one day old at the
instant of `calmEnv`. -/
def yesterdaysLog : EmailLog :=
  { campaignId := some 1, recipientEmail := "amy@x.com", status := "sent",
    sentAt := 19 * MS_PER_DAY + 43200000 }

/-- The lead row of `amy`. -/
def amyLead : Lead :=
  { id := 1, email := "amy@x.com", firstName := "Amy", lastName := "", isActive := true,
    createdAt := 5 * MS_PER_DAY }

/-- A runner with a database in which `amy` is an active lead whose only log
row is `yesterdaysLog`. -/
def loggedState : State :=
  { sql := some { leads := [amyLead], email_logs := [yesterdaysLog], unsubscribe_list := [] },
    sent_emails := [], unsubscribes := [], csv := [], calls := [] }

/-- A `sent` row of `email_logs` for `amy` and campaign 1, 7 days and one
second old at the instant of `calmEnv`. -/
def staleLog : EmailLog :=
  { campaignId := some 1, recipientEmail := "amy@x.com", status := "sent",
    sentAt := 13 * MS_PER_DAY + 43199000 }

/-- A runner with a database whose only log row is `staleLog`. -/
def staleState : State :=
  { sql := some { leads := [amyLead], email_logs := [staleLog], unsubscribe_list := [] },
    sent_emails := [], unsubscribes := [], csv := [], calls := [] }

/-- A `sent` entry of `sent_emails.json` for another address, written on the
day of `calmEnv`. -/
def todaysRecord : SentRecord :=
  { email := "zed@x.com", campaignName := "persistent-campaign", status := "sent",
    timestamp := 20 * MS_PER_DAY + 3600000, date := 20 }

/-- A runner without a database whose file log holds 100 `sent` entries of the
day of `calmEnv`: the daily limit of the source is reached. -/
def fullState : State :=
  { sql := none, sent_emails := List.replicate 100 todaysRecord, unsubscribes := [],
    csv := [amy], calls := [] }

/-- The same runner with `amy` in `unsubscribes.json`. -/
def fullSuppressedState : State :=
  { fullState with unsubscribes := ["amy@x.com"] }

/-- The lead row of `bob`, older than that of `amy`. -/
def bobLead : Lead :=
  { id := 2, email := "Bob@X.com", firstName := "Bob", lastName := "", isActive := true,
    createdAt := 4 * MS_PER_DAY }

/-- A runner with a database in which `amy` and `bob` are active leads and the
only log row is `yesterdaysLog`, for `amy`. -/
def twoLeadState : State :=
  { sql := some { leads := [amyLead, bobLead], email_logs := [yesterdaysLog],
                  unsubscribe_list := [] },
    sent_emails := [], unsubscribes := [], csv := [], calls := [] }

/-- The state `fileOnlyState` after a pass at the instant of `calmEnv` that
sends to `amy`. -/
def fileOnlyStateAfter : State :=
  { fileOnlyState with
    sent_emails := [yesterdaysRecord,
      { email := "amy@x.com", campaignName := "persistent-campaign", status := "sent",
        timestamp := 20 * MS_PER_DAY + 43200000, date := 20 }],
    calls := ["amy@x.com"] }

end PersistentCampaign

namespace PersistentCampaignJs

/-- No database call rejects. -/
def noFaults : Faults :=
  { unsubscribeQuery := fun _ => false, recentQuery := false, leadsQuery := false,
    logInsert := fun _ => false }

/-- Wednesday 21 January 1970, noon Eastern (17:00 UTC of day 20); the transport
accepts every message. -/
def calmEnv : Env :=
  { now := 20 * MS_PER_DAY + 61200000, estDay := 3, estHour := 12,
    resend := fun _ => SendResult.ok "re_1", faults := noFaults }

/-- A lead. -/
def amy : Lead := { id := 1, email := "amy@x.com", firstName := "Amy", isActive := true }

/-- A `sent` row of the log for `amy` and campaign 1, one day old at the
instant of `calmEnv`. -/
def yesterdaysLog : EmailLog :=
  { campaignId := some 1, recipientEmail := "amy@x.com",
    sentAt := 19 * MS_PER_DAY + 61200000, resendId := "re_0", status := "sent" }

/-- A database in which `amy` is an active lead whose only log row is
`yesterdaysLog`. -/
def loggedState : State :=
  { db := { leads := [amy], emailLogs := [yesterdaysLog], unsubscribes := [] }, calls := [] }

/-- A database in which `amy` has unsubscribed. -/
def suppressionState : State :=
  { db := { leads := [amy], emailLogs := [], unsubscribes := ["amy@x.com"] }, calls := [] }

end PersistentCampaignJs

namespace PersistentCampaignJs

/-- The state in which the campaign of every log row is replaced by `f` of the row. -/
def withCampaigns (st : State) (f : EmailLog → Option Nat) : State :=
  let retag : EmailLog → EmailLog := fun l => { l with campaignId := f l }
  { st with db := { st.db with emailLogs := st.db.emailLogs.map retag } }

end PersistentCampaignJs

namespace SequenceAutomationJs

/-- No database call rejects. -/
def noFaults : Faults :=
  { pendingQuery := false, leadQuery := fun _ => false, unsubscribeQuery := fun _ => false,
    stepQuery := fun _ _ => false, templateQuery := fun _ => false,
    logInsert := fun _ => false, subscriberUpdate := fun _ => false }

/-- Tuesday 20 January 1970, noon Eastern (17:00 UTC of day 19); the transport
accepts every message. -/
def tuesdayEnv : Env :=
  { now := 19 * MS_PER_DAY + 61200000, estDay := 2, estHour := 12,
    resend := fun _ => SendResult.ok "re_1", faults := noFaults }

/-- The Wednesday noon that follows. -/
def wednesdayEnv : Env :=
  { tuesdayEnv with now := 20 * MS_PER_DAY + 61200000, estDay := 3 }

/-- A lead. -/
def amy : Lead := { id := 1, email := "amy@x.com", firstName := "Amy", isActive := true }

/-- The two steps of sequence 1: step 1 with a delay of 3 days, step 2 with a
delay of 5 days. -/
def welcomeSteps : List SequenceStep :=
  [{ id := 1, sequenceId := 1, stepNumber := 1, templateId := 1, delayDays := 3,
     isActive := true },
   { id := 2, sequenceId := 1, stepNumber := 2, templateId := 1, delayDays := 5,
     isActive := true }]

/-- A subscriber of sequence 1 who has been sent no step and is due. -/
def enrolled : Subscriber :=
  { id := 1, sequenceId := 1, leadId := 1, currentStep := 0, status := "active",
    completedAt := none, lastEmailSent := none, nextEmailDue := some (19 * MS_PER_DAY) }

/-- A subscriber of sequence 1 who has been sent both steps and is due. -/
def finished : Subscriber :=
  { enrolled with currentStep := 2 }

/-- The database with the sequence, the lead and one subscriber row. -/
def seqDb (row : Subscriber) : Database :=
  { leads := [amy], unsubscribes := [], sequenceSteps := welcomeSteps,
    sequenceSubscribers := [row], emailTemplates := [{ id := 1, name := "welcome" }],
    emailLogs := [] }

/-- The same database after the lead has unsubscribed. -/
def unsubscribedDb (row : Subscriber) : Database :=
  { seqDb row with unsubscribes := ["amy@x.com"] }

/-- The same database after the lead has been deactivated. -/
def inactiveDb (row : Subscriber) : Database :=
  { seqDb row with leads := [{ amy with isActive := false }] }

/-- What a successful send of step `k + 1` writes to the subscriber rows. -/
def advanced (env : Env) (st : State) (subscriber : Subscriber) : Subscriber → Subscriber :=
  fun row => { row with
    currentStep := subscriber.currentStep + 1,
    lastEmailSent := some env.now,
    nextEmailDue := (findStep st subscriber.sequenceId (subscriber.currentStep + 2)).map
      (fun f => env.now + f.delayDays * MS_PER_DAY) }

/-- What the completion of a sequence writes to the subscriber rows. -/
def completed (env : Env) (subscriber : Subscriber) : Subscriber → Subscriber :=
  fun row => { row with status := "completed", completedAt := some env.now,
                        currentStep := subscriber.currentStep }

end SequenceAutomationJs

namespace SequenceAutomation

/-- No database call rejects. -/
def noFaults : Faults :=
  { pendingQuery := false, unsubscribeQuery := fun _ => false, logInsert := fun _ => false,
    stepQuery := fun _ _ => false, subscriberUpdate := fun _ => false }

/-- Tuesday 20 January 1970, noon Eastern (17:00 UTC of day 19); the transport
accepts every message. -/
def tuesdayEnv : Env :=
  { now := 19 * MS_PER_DAY + 61200000, estHour := 12, estDate := 19,
    resend := fun _ => SendResult.ok "re_1", faults := noFaults }

/-- The Wednesday noon that follows. -/
def wednesdayEnv : Env :=
  { tuesdayEnv with now := 20 * MS_PER_DAY + 61200000, estDate := 20 }

/-- A subscriber of sequence 1 whose step 1 is due. -/
def enrolled : Subscriber :=
  { id := 1, sequence_id := 1, lead_id := 1, current_step := 1, status := "active",
    next_email_at := some (19 * MS_PER_DAY), last_email_sent_at := none, completed_at := none }

/-- The database with sequence 1 (step 1 with a delay of 3 days, step 2 with a
delay of 5 days), one lead and one subscriber. -/
def seqDb : Database :=
  { sequence_subscribers := [enrolled],
    email_sequences := [{ id := 1, is_active := true }],
    leads := [{ id := 1, email := "amy@x.com" }],
    sequence_steps :=
      [{ sequence_id := 1, step_number := 1, delay_days := 3, is_active := true },
       { sequence_id := 1, step_number := 2, delay_days := 5, is_active := true }],
    unsubscribe_list := [],
    email_logs := [] }

/-- The row of the join for `enrolled`. -/
def enrolledRow : PendingEmail :=
  { id := 1, sequence_id := 1, current_step := 1, next_email_at := some (19 * MS_PER_DAY),
    email := "amy@x.com", delay_days := 3 }

end SequenceAutomation

namespace PersistentCampaignJs

/-- The 101 active leads `lead0@x.com`, ..., `lead100@x.com`. -/
def manyLeads : List Lead :=
  (List.range 101).map (fun i =>
    { id := i, email := "lead" ++ toString i ++ "@x.com", firstName := "Lead", isActive := true })

/-- A database with those leads, an empty log and an empty suppression list. -/
def crowdedState : State :=
  { db := { leads := manyLeads, emailLogs := [], unsubscribes := [] }, calls := [] }

end PersistentCampaignJs

namespace SequenceAutomationJs

/-- The object over `seqDb enrolled` whose counter stands at the daily limit. -/
def exhausted : State :=
  { new (seqDb enrolled) with emailsSentToday := 100 }

end SequenceAutomationJs

namespace SequenceAutomationJs

/-- The state after a transport call for `email` that leaves no other trace. -/
def called (st : State) (email : String) : State :=
  { st with calls := st.calls ++ [email] }

/-- The state after a transport call for `email` that returned `id` and was
logged. -/
def logged (env : Env) (st : State) (email id : String) : State :=
  { st with
    calls := st.calls ++ [email],
    db := { st.db with emailLogs := st.db.emailLogs ++
      [{ campaignId := none, recipientEmail := email, sentAt := env.now, resendId := id,
         status := "sent" }] } }

/-- What the suppression branch writes to the subscriber rows. -/
def unsubscribedRow (env : Env) : Subscriber → Subscriber :=
  fun row => { row with status := "unsubscribed", completedAt := some env.now }

/-- The five ways in which `processSubscriberEmail` ends: the state is left as
it was; the subscriber is marked unsubscribed; the sequence is completed; a
send was attempted without progress of the subscriber (the transport failed,
or a store call after it rejected); the step was sent and the subscriber
advanced. -/
inductive Ending (env : Env) (st : State) (subscriber : Subscriber) : State → Prop where
  | untouched : Ending env st subscriber st
  | unsubscribed (lead : Lead) :
      st.db.leads.find? (fun l => l.id == subscriber.leadId) = some lead →
      lead.isActive = true → isUnsubscribed env st lead.email = true →
      Ending env st subscriber (updateSubscriber st subscriber.id (unsubscribedRow env))
  | completed :
      findStep st subscriber.sequenceId (subscriber.currentStep + 1) = none →
      Ending env st subscriber (updateSubscriber st subscriber.id (completed env subscriber))
  | failed (lead : Lead) :
      st.db.leads.find? (fun l => l.id == subscriber.leadId) = some lead →
      lead.isActive = true → isUnsubscribed env st lead.email = false →
      Ending env st subscriber (called st lead.email)
  | stalled (lead : Lead) (id : String) :
      st.db.leads.find? (fun l => l.id == subscriber.leadId) = some lead →
      lead.isActive = true → isUnsubscribed env st lead.email = false →
      env.resend lead.email = SendResult.ok id → id ≠ "" →
      Ending env st subscriber (logged env st lead.email id)
  | advanced (lead : Lead) (id : String) :
      st.db.leads.find? (fun l => l.id == subscriber.leadId) = some lead →
      lead.isActive = true → isUnsubscribed env st lead.email = false →
      env.resend lead.email = SendResult.ok id → id ≠ "" →
      Ending env st subscriber
        { updateSubscriber (logged env st lead.email id) subscriber.id
            (advanced env st subscriber) with
          emailsSentToday := st.emailsSentToday + 1 }

end SequenceAutomationJs

namespace SequenceAutomation

/-- The state after a transport call for `email` that leaves no other trace. -/
def called (st : State) (email : String) : State :=
  { st with calls := st.calls ++ [email] }

/-- The state after a transport call for `email` that succeeded and was logged. -/
def logged (env : Env) (st : State) (email : String) : State :=
  { st with
    calls := st.calls ++ [email],
    db := { st.db with email_logs := st.db.email_logs ++
      [{ campaign_id := none, recipient_email := email, status := "sent",
         sent_at := env.now }] } }

/-- What `updateSubscriberStatus` writes to a row. -/
def withStatus (env : Env) (status : String) : Subscriber → Subscriber :=
  fun row =>
    { row with status := status,
               completed_at := if status = "completed" then some env.now else row.completed_at }

/-- What `advanceSubscriber` writes to a row when the step `first` follows. -/
def advancedTo (env : Env) (subscriber : PendingEmail) (first : Step) : Subscriber → Subscriber :=
  fun row =>
    { row with current_step := subscriber.current_step + 1,
               next_email_at := some (env.now + first.delay_days * MS_PER_DAY),
               last_email_sent_at := some env.now }

/-- The active steps of the sequence of `subscriber` numbered `current_step + 1`. -/
def followingSteps (st : State) (subscriber : PendingEmail) : List Step :=
  st.db.sequence_steps.filter (fun s =>
    s.sequence_id == subscriber.sequence_id && s.step_number == subscriber.current_step + 1 &&
    s.is_active)

/-- The ways in which `sendSequenceEmail` ends, with the state it leaves and
whether it returned (`true`) or threw (`false`): nothing happened and it threw;
the subscriber was marked unsubscribed; a call was made and it threw without a
record; the send was logged and it threw in `advanceSubscriber`; the
subscriber advanced; the sequence was completed. -/
inductive Ending (env : Env) (st : State) (subscriber : PendingEmail) : State × Bool → Prop where
  | untouched : Ending env st subscriber (st, false)
  | unsubscribed :
      subscriber.email ∈ st.db.unsubscribe_list →
      Ending env st subscriber (updateRows st subscriber.id (withStatus env "unsubscribed"), true)
  | failed :
      subscriber.email ∉ st.db.unsubscribe_list →
      Ending env st subscriber (called st subscriber.email, false)
  | stalled (id : String) :
      subscriber.email ∉ st.db.unsubscribe_list →
      env.resend subscriber.email = SendResult.ok id →
      Ending env st subscriber (logged env st subscriber.email, false)
  | advanced (id : String) (first : Step) (rest : List Step) :
      subscriber.email ∉ st.db.unsubscribe_list →
      env.resend subscriber.email = SendResult.ok id →
      followingSteps st subscriber = first :: rest →
      Ending env st subscriber
        (updateRows (logged env st subscriber.email) subscriber.id
          (advancedTo env subscriber first), true)
  | completed (id : String) :
      subscriber.email ∉ st.db.unsubscribe_list →
      env.resend subscriber.email = SendResult.ok id →
      followingSteps st subscriber = [] →
      Ending env st subscriber
        (updateRows (logged env st subscriber.email) subscriber.id (withStatus env "completed"),
         true)

end SequenceAutomation

namespace SequenceAutomationJs

/-- A subscriber of sequence 1 who has been sent step 1 and whose step 2, the
last one, is due. -/
def halfway : Subscriber :=
  { enrolled with currentStep := 1 }

/-- The row of `halfway` after step 2 has been sent on the Tuesday: still
active, with no due date. -/
def stranded : Subscriber :=
  { halfway with currentStep := 2, lastEmailSent := some (19 * MS_PER_DAY + 61200000),
                 nextEmailDue := none }

end SequenceAutomationJs

namespace SequenceAutomation

/-- A subscriber of sequence 1 whose step 2, the last one, is due. -/
def secondStep : Subscriber :=
  { enrolled with current_step := 2 }

/-- The database of `seqDb` with that subscriber. -/
def secondStepDb : Database :=
  { seqDb with sequence_subscribers := [secondStep] }

end SequenceAutomation

namespace SequenceAutomationJs

/-- The Tuesday noon of `tuesdayEnv` with a transport that answers every message
with an error. -/
def outageEnv : Env :=
  { tuesdayEnv with resend := fun _ => SendResult.error "boom" }

end SequenceAutomationJs

namespace SequenceAutomation

/-- The Tuesday noon of `tuesdayEnv` with a transport that throws on every
message. -/
def outageEnv : Env :=
  { tuesdayEnv with resend := fun _ => SendResult.throws "boom" }

end SequenceAutomation

namespace PersistentCampaign

/-- The number of records with a given status. -/
def countStatus (records : List SentRecord) (status : String) : Nat :=
  (records.filter (fun r => r.status == status)).length

/-- The file log and the counters of `s` account for each other, starting from
the file log of `st` and counters at zero: the records appended since are one
`sent` record per counted send, one `error` record per counted error, at most
one `skipped-unsubscribed` record per counted skip, and nothing else. -/
def Audited (st : State) (s : State × Results) : Prop :=
  ∃ added : List SentRecord, s.1.sent_emails = st.sent_emails ++ added ∧
    countStatus added "sent" = s.2.sent ∧
    countStatus added "error" = s.2.errors ∧
    countStatus added "skipped-unsubscribed" ≤ s.2.skipped ∧
    added.length = s.2.sent + s.2.errors + countStatus added "skipped-unsubscribed"

/-- The transport calls made since `st` are as many as the sends and errors
counted. -/
def CallsCounted (st : State) (s : State × Results) : Prop :=
  s.1.calls.length = st.calls.length + s.2.sent + s.2.errors

end PersistentCampaign

namespace PersistentCampaignJs

/-- The state after a transport call for `lead` that returned `id` and was
logged under `campaignId`. -/
def logged (env : Env) (st : State) (lead : Lead) (campaignId : Nat) (id : String) : State :=
  { st with
    calls := st.calls ++ [lead.email],
    db := { st.db with emailLogs := st.db.emailLogs ++
      [{ campaignId := some campaignId, recipientEmail := lead.email, sentAt := env.now,
         resendId := id, status := "sent" }] } }

end PersistentCampaignJs

namespace PersistentCampaign

/-- The contact `bob` with his address in lower case. -/
def bobLower : Contact :=
  { bob with email := "bob@x.com" }

/-- The instant of `calmEnv`, with the suppression query rejecting. -/
def lookupDownEnv : Env :=
  { calmEnv with faults := { noFaults with unsubscribeQuery := fun _ => true } }

/-- The `sent` entry of `sent_emails.json` written for `email` at the instant of
`calmEnv`. -/
def sentRecord (email : String) : SentRecord :=
  { email := email, campaignName := "persistent-campaign", status := "sent",
    timestamp := 20 * MS_PER_DAY + 43200000, date := 20 }

/-- The `sent` row of `email_logs` written for `email` and campaign 1 at the
instant of `calmEnv`. -/
def sentLog (email : String) : EmailLog :=
  { campaignId := some 1, recipientEmail := email, status := "sent",
    sentAt := 20 * MS_PER_DAY + 43200000 }

end PersistentCampaign

namespace SequenceAutomationJs

/-- The table `new` holds the rows of `old`, in the same order and under the
same ids, with `currentStep` as it was. -/
def StepsKept (old new : List Subscriber) : Prop :=
  List.Forall₂ (fun a b => a.id = b.id ∧ a.currentStep = b.currentStep) old new

/-- The table `new` holds the rows of `old`, in the same order and under the
same ids, with no `currentStep` lower than it was. -/
def StepsGrown (old new : List Subscriber) : Prop :=
  List.Forall₂ (fun a b => a.id = b.id ∧ a.currentStep ≤ b.currentStep) old new

end SequenceAutomationJs

namespace SequenceAutomation

/-- The table `new` holds the rows of `old`, in the same order and under the
same ids, with `current_step` as it was. -/
def StepsKept (old new : List Subscriber) : Prop :=
  List.Forall₂ (fun a b => a.id = b.id ∧ a.current_step = b.current_step) old new

/-- The table `new` holds the rows of `old`, in the same order and under the
same ids, with no `current_step` lower than it was. -/
def StepsGrown (old new : List Subscriber) : Prop :=
  List.Forall₂ (fun a b => a.id = b.id ∧ a.current_step ≤ b.current_step) old new

end SequenceAutomation

namespace DatabaseStorage

/-- The active subscribers of a (sequence, lead) pair. -/
def activeFor (db : SequenceAutomationJs.Database) (sequenceId leadId : Nat) :
    List SequenceAutomationJs.Subscriber :=
  db.sequenceSubscribers.filter (fun s =>
    s.sequenceId == sequenceId && s.leadId == leadId && s.status == "active")

/-- The enrollment of lead 1 in sequence 1, due at the start of day 19, with the
step and the status left to the defaults of the schema. -/
def enrollment : InsertSequenceSubscriber :=
  { sequenceId := 1, leadId := 1, currentStep := none, status := none,
    nextEmailDue := some (19 * MS_PER_DAY) }

end DatabaseStorage

namespace SequenceAutomationJs

/-- A second subscriber of sequence 1, paused, with a due date in the past. -/
def paused : Subscriber :=
  { enrolled with id := 2, leadId := 1, status := "paused" }

/-- The database of `seqDb` with the enrolled and the paused subscriber. -/
def pausedDb : Database :=
  { seqDb enrolled with sequenceSubscribers := [enrolled, paused] }

end SequenceAutomationJs

namespace SequenceAutomation

/-- A second subscriber of sequence 1, paused, with a due date in the past. -/
def paused : Subscriber :=
  { enrolled with id := 2, status := "paused" }

/-- The database of `seqDb` with the enrolled and the paused subscriber. -/
def pausedDb : Database :=
  { seqDb with sequence_subscribers := [enrolled, paused] }

end SequenceAutomation

namespace SequenceAutomationJs

/-- The passes that the timer of `start()` runs one after the other, each with
its own instant, transport and store behaviour. -/
def passes : List Env → State → State
  | [], st => st
  | env :: rest, st => passes rest (processPendingEmails env st)

/-- The database of `seqDb` in which the lead has unsubscribed and has been
deactivated. -/
def inactiveUnsubscribedDb (row : Subscriber) : Database :=
  { inactiveDb row with unsubscribes := ["amy@x.com"] }

end SequenceAutomationJs

namespace SequenceAutomation

/-- The passes that the timer of `start()` runs one after the other, each with
its own instant, transport and store behaviour. -/
def passes : List Env → State → State
  | [], st => st
  | env :: rest, st => passes rest (processPendingEmails env st)

/-- The database of `seqDb` after the lead has unsubscribed. -/
def unsubscribedDb : Database :=
  { seqDb with unsubscribe_list := ["amy@x.com"] }

end SequenceAutomation

namespace App

/-- The business-hours window as the specification words it, on the Eastern
wall clock: Monday to Friday (`day` counts from Sunday as 0), from 9:00 up to
18:00 and not later. -/
def statedWindow (day hour minute : Nat) : Prop :=
  1 ≤ day ∧ day ≤ 5 ∧ 9 ≤ hour ∧ (hour < 18 ∨ (hour = 18 ∧ minute = 0))

instance (day hour minute : Nat) : Decidable (statedWindow day hour minute) := by
  unfold statedWindow
  infer_instance

/-- The weekday (Sunday is 0) of the calendar day with a given number; day 0 is
Thursday 1 January 1970. -/
def weekday (dayNumber : Nat) : Nat := (dayNumber + 4) % 7

end App

namespace PersistentCampaignJs

/-- A database in which `amy` is an active lead, with an empty log and an empty
suppression table. -/
def freshState : State :=
  { db := { leads := [amy], emailLogs := [], unsubscribes := [] }, calls := [] }

/-- Wednesday 21 January 1970, 18:30 Eastern (23:30 UTC of day 20). -/
def eveningEnv : Env :=
  { calmEnv with now := 20 * MS_PER_DAY + 84600000, estHour := 18 }

end PersistentCampaignJs

namespace SequenceAutomationJs

/-- Tuesday 20 January 1970, 18:30 Eastern (23:30 UTC of day 19). -/
def eveningEnv : Env :=
  { tuesdayEnv with now := 19 * MS_PER_DAY + 84600000, estHour := 18 }

end SequenceAutomationJs

namespace SequenceAutomation

/-- Saturday 24 January 1970, noon Eastern (17:00 UTC of day 23). -/
def saturdayEnv : Env :=
  { tuesdayEnv with now := 23 * MS_PER_DAY + 61200000, estDate := 23 }

/-- Tuesday 20 January 1970, 18:30 Eastern (23:30 UTC of day 19). -/
def eveningEnv : Env :=
  { tuesdayEnv with now := 19 * MS_PER_DAY + 84600000, estHour := 18 }

end SequenceAutomation

namespace PersistentCampaign

/-- A runner without a database whose file log holds 99 `sent` entries of the
day of `calmEnv`: one send short of the daily limit of the source. -/
def nearlyFullState : State :=
  { sql := none, sent_emails := List.replicate 99 todaysRecord, unsubscribes := [],
    csv := [amy, bob], calls := [] }

end PersistentCampaign

namespace PersistentCampaign

/-- The transport accepts the message for the contact. -/
def accepted (env : Env) (c : Contact) : Bool :=
  match env.resend c.email with
  | SendResult.ok _ => true
  | SendResult.error _ => false
  | SendResult.throws _ => false

/-- The addresses of the `sent` records of the file log, in log order. -/
def sentEmailsOf (st : State) : List String :=
  (st.sent_emails.filter (fun r => r.status == "sent")).map (fun r => r.email)

/-- The rows of `email_logs`; none without a database. -/
def dbLogs (st : State) : List EmailLog :=
  match st.sql with
  | none => []
  | some db => db.email_logs

/-- The insert into `email_logs` for the contact takes effect: there is a
database and the insert does not reject. -/
def inserts (env : Env) (st : State) (c : Contact) : Bool :=
  st.sql.isSome && !env.faults.logInsert c.email

/-- The row of `email_logs` written for a send to the contact. -/
def logRow (env : Env) (campaignId : Nat) (c : Contact) : EmailLog :=
  { campaignId := some campaignId, recipientEmail := c.email, status := "sent",
    sentAt := env.now }

/-- The sum of the three counters. -/
def Results.total (r : Results) : Nat := r.sent + r.skipped + r.errors

/-- What the answers of the transport for the contacts `issued`, handled
between `p` and `r`, have left: a counted send, a `sent` record in the file
and, where the insert takes effect, a row of `email_logs` for each accepted
message; a counted error for each other. -/
def Answered (env : Env) (campaignId : Nat) (p r : State × Results)
    (issued : List Contact) : Prop :=
  r.2.sent = p.2.sent + (issued.filter (accepted env)).length ∧
  r.2.errors = p.2.errors + (issued.filter (fun c => !accepted env c)).length ∧
  sentEmailsOf r.1 =
    sentEmailsOf p.1 ++ (issued.filter (accepted env)).map (fun c => c.email) ∧
  dbLogs r.1 =
    dbLogs p.1 ++
      (issued.filter (fun c => accepted env c && inserts env p.1 c)).map
        (logRow env campaignId) ∧
  r.1.sql.isSome = p.1.sql.isSome

/-- Between `p` and `r` the transport was called for the contacts `issued`, in
that order, and every answer was handled. -/
def Dispatched (env : Env) (campaignId : Nat) (p r : State × Results)
    (issued : List Contact) : Prop :=
  r.1.calls = p.1.calls ++ issued.map (fun c => c.email) ∧
  Answered env campaignId p r issued

end PersistentCampaign

namespace PersistentCampaign

/-- The instant of `calmEnv` with a transport that answers the message for
`Bob@X.com` with an error and accepts every other. -/
def mixedEnv : Env :=
  { calmEnv with
    resend := fun e => if e = "Bob@X.com" then SendResult.error "bounced" else SendResult.ok "re_1" }

/-- The instant of `calmEnv`, with the insert into `email_logs` rejecting. -/
def insertDownEnv : Env :=
  { calmEnv with faults := { noFaults with logInsert := fun _ => true } }

end PersistentCampaign

namespace PersistentCampaignJs

/-- The instant of `calmEnv`, with the insert into `email_logs` rejecting. -/
def insertDownEnv : Env :=
  { calmEnv with faults := { noFaults with logInsert := fun _ => true } }

/-- A campaign object with the property `htmlContent`, as a row of
`email_campaigns` has it; `runCampaign` does not build such an object. -/
def storedCampaign : Campaign :=
  { id := 1, htmlContent := some "<p>Hello</p>" }

end PersistentCampaignJs

namespace SequenceAutomationJs

/-- The Tuesday noon of `tuesdayEnv`, with the update of the subscriber row
rejecting. -/
def updateDownEnv : Env :=
  { tuesdayEnv with faults := { noFaults with subscriberUpdate := fun _ => true } }

/-- The `sent` row of `email_logs` written for `amy` at the instant `sentAt`. -/
def amysLog (sentAt : Nat) : EmailLog :=
  { campaignId := none, recipientEmail := "amy@x.com", sentAt := sentAt, resendId := "re_1",
    status := "sent" }

end SequenceAutomationJs

namespace SequenceAutomation

/-- The Tuesday noon of `tuesdayEnv`, with the update of the subscriber row
rejecting. -/
def updateDownEnv : Env :=
  { tuesdayEnv with faults := { noFaults with subscriberUpdate := fun _ => true } }

/-- The `sent` row of `email_logs` written for `amy` at the instant `sentAt`. -/
def amysLog (sentAt : Nat) : EmailLog :=
  { campaign_id := none, recipient_email := "amy@x.com", status := "sent", sent_at := sentAt }

end SequenceAutomation

namespace DatabaseStorage

/-- The state of the sequence processor after `deleteSequenceStep(id)`. -/
def withoutStep (st : SequenceAutomationJs.State) (id : Nat) : SequenceAutomationJs.State :=
  { st with db := deleteSequenceStep st.db id }

end DatabaseStorage

/-- The text holds a closing body tag, in some letter case. -/
def closesBody (html : List Char) : Prop :=
  ∃ pre tag post, html = pre ++ tag ++ post ∧ tag.map Char.toLower = "</body>".data

/-- The text is `pre`, its first closing body tag `tag`, and `post`. -/
def FirstBodyClose (html pre tag post : List Char) : Prop :=
  html = pre ++ tag ++ post ∧ tag.map Char.toLower = "</body>".data ∧
  ∀ k, k < pre.length → matchesBodyClose (html.drop k) = false

namespace PersistentCampaign

/-- The footer without the closing tag that follows it. -/
def footerSnippet (email : String) : List Char :=
  (footerHead ++ encodeURIComponent email ++ footerTail).data

end PersistentCampaign

namespace SequenceAutomation

/-- The footer without the closing tag that follows it. -/
def footerSnippet (email : String) : List Char :=
  (footerHead ++ encodeURIComponent email ++ footerTail).data

end SequenceAutomation

namespace SequenceAutomation

/-- The Tuesday noon of `tuesdayEnv`, with the insert into `email_logs`
rejecting. -/
def insertDownEnv : Env :=
  { tuesdayEnv with faults := { noFaults with logInsert := fun _ => true } }

end SequenceAutomation

namespace PersistentCampaign

/-- A runner without a database whose file `unsubscribes.json` holds the
address of `bob` as he wrote it. -/
def suppressionFileState : State :=
  { sql := none, sent_emails := [], unsubscribes := ["Bob@X.com"], csv := [], calls := [] }

end PersistentCampaign

namespace PersistentCampaign

/-- The `sent` records of the file log dated the UTC day `day`. -/
def sentOnDay (day : Nat) (st : State) : Nat :=
  (st.sent_emails.filter (fun record => record.date == day && record.status == "sent")).length

/-- The passes of `runCampaign` that the timer of `scheduleNextRun` starts one
after the other, each with its own environment and with the campaign that
`loadActiveCampaign` returned to it; `none` when a pass does not return. -/
def passes (cfg : Config) : List (Env × Option Campaign) → State → Option State
  | [], st => some st
  | run :: rest, st =>
    match runCampaign cfg run.1 st run.2 with
    | some r => passes cfg rest r.1
    | none => none

/-- Two hours after `calmEnv`, on the same UTC day. -/
def laterEnv : Env :=
  { calmEnv with now := 20 * MS_PER_DAY + 50400000 }

end PersistentCampaign

/-! ## Properties of persistentCampaign.js -/

namespace PersistentCampaign

theorem isUnsubscribed_iff (env : Env) (st : State) (email : String) :
    isUnsubscribed env st email = true ↔ fileSuppressed env st email := by
  simp [isUnsubscribed, fileSuppressed, List.any_eq_true]

theorem filter_length_pos_iff {α : Type} (p : α → Bool) (l : List α) :
    0 < (l.filter p).length ↔ ∃ a ∈ l, p a = true := by
  rw [List.length_pos]
  constructor
  · intro h
    obtain ⟨a, ha⟩ := List.exists_mem_of_ne_nil _ h
    exact ⟨a, (List.mem_filter.mp ha).1, (List.mem_filter.mp ha).2⟩
  · rintro ⟨a, ha, hp⟩ h
    have : a ∈ l.filter p := List.mem_filter.mpr ⟨ha, hp⟩
    rw [h] at this
    exact absurd this (List.not_mem_nil a)

theorem isEmailUnsubscribed_iff (env : Env) (st : State) (email : String) :
    isEmailUnsubscribed env st email = true ↔ suppressed env st email := by
  unfold isEmailUnsubscribed suppressed
  cases st.sql with
  | none => exact isUnsubscribed_iff env st email
  | some db =>
    by_cases hq : env.faults.unsubscribeQuery email = true
    · simp only [hq, if_true]
      exact isUnsubscribed_iff env st email
    · simp only [hq, if_false, Bool.false_eq_true, decide_eq_true_eq, filter_length_pos_iff]
      constructor
      · rintro ⟨a, ha, h⟩
        have : a = env.toLowerCase email := by simpa using h
        exact this ▸ ha
      · intro h
        exact ⟨_, h, by simp⟩

theorem isEmailUnsubscribed_congr (env : Env) {st st' : State}
    (h : suppressionView st' = suppressionView st) (email : String) :
    isEmailUnsubscribed env st' email = isEmailUnsubscribed env st email := by
  obtain ⟨sql, se, un, csv, calls⟩ := st
  obtain ⟨sql', se', un', csv', calls'⟩ := st'
  simp only [suppressionView, Prod.mk.injEq] at h
  obtain ⟨h1, h2⟩ := h
  subst h2
  cases sql <;> cases sql' <;> simp_all [isEmailUnsubscribed, isUnsubscribed]

@[simp] theorem saveSentEmail_calls (env : Env) (st : State) (e n s : String) :
    (saveSentEmail env st e n s).calls = st.calls := rfl

@[simp] theorem saveSentEmail_sql (env : Env) (st : State) (e n s : String) :
    (saveSentEmail env st e n s).sql = st.sql := rfl

@[simp] theorem suppressionView_saveSentEmail (env : Env) (st : State) (e n s : String) :
    suppressionView (saveSentEmail env st e n s) = suppressionView st := rfl

@[simp] theorem logToDatabase_calls (env : Env) (st : State) (cid : Nat) (c : Contact) :
    (logToDatabase env st cid c).calls = st.calls := by
  unfold logToDatabase
  cases st.sql with
  | none => rfl
  | some db => by_cases h : env.faults.logInsert c.email = true <;> simp [h]

@[simp] theorem logToDatabase_sent_emails (env : Env) (st : State) (cid : Nat) (c : Contact) :
    (logToDatabase env st cid c).sent_emails = st.sent_emails := by
  unfold logToDatabase
  cases st.sql with
  | none => rfl
  | some db => by_cases h : env.faults.logInsert c.email = true <;> simp [h]

@[simp] theorem suppressionView_logToDatabase (env : Env) (st : State) (cid : Nat) (c : Contact) :
    suppressionView (logToDatabase env st cid c) = suppressionView st := by
  unfold logToDatabase
  cases hs : st.sql with
  | none => rfl
  | some db =>
    by_cases h : env.faults.logInsert c.email = true
    · simp [h]
    · simp [h, suppressionView, hs]

theorem completionStage_calls (env : Env) (cid : Nat) (p : State × Results) (c : Contact) :
    (completionStage env cid p c).1.calls = p.1.calls := by
  unfold completionStage
  cases env.resend c.email <;> simp

theorem suppressionView_completionStage (env : Env) (cid : Nat) (p : State × Results)
    (c : Contact) : suppressionView (completionStage env cid p c).1 = suppressionView p.1 := by
  unfold completionStage
  cases env.resend c.email <;> simp

/-- Induction over one segment run through a batch: an invariant `P` of the
state that every step keeps for contacts satisfying `Q` holds at the end, and
every contact that goes on satisfies what the step guarantees (`R`). -/
theorem runStage_induct {σ : Type} (f : σ → Contact → σ × Bool) (P : σ → Prop)
    (Q R : Contact → Prop)
    (hstep : ∀ s c, Q c → P s → P (f s c).1 ∧ ((f s c).2 = true → R c)) :
    ∀ (l : List Contact) (s : σ), (∀ c ∈ l, Q c) → P s →
      P (runStage f s l).1 ∧ ∀ c ∈ (runStage f s l).2, R c ∧ c ∈ l := by
  intro l
  induction l with
  | nil => intro s _ hP; exact ⟨hP, by simp [runStage]⟩
  | cons c cs ih =>
    intro s hQ hP
    have h1 := hstep s c (hQ c (List.mem_cons_self c cs)) hP
    have h2 := ih (f s c).1 (fun x hx => hQ x (List.mem_cons_of_mem c hx)) h1.1
    refine ⟨h2.1, ?_⟩
    intro x hx
    simp only [runStage] at hx
    by_cases hk : (f s c).2 = true
    · simp only [hk, if_true, List.mem_cons] at hx
      rcases hx with rfl | hx
      · exact ⟨h1.2 hk, List.mem_cons_self _ _⟩
      · exact ⟨(h2.2 x hx).1, List.mem_cons_of_mem _ (h2.2 x hx).2⟩
    · simp only [hk, if_false] at hx
      exact ⟨(h2.2 x hx).1, List.mem_cons_of_mem _ (h2.2 x hx).2⟩

theorem foldl_induct {σ α : Type} (f : σ → α → σ) (P : σ → Prop) (Q : α → Prop)
    (hstep : ∀ s a, Q a → P s → P (f s a)) :
    ∀ (l : List α) (s : σ), (∀ a ∈ l, Q a) → P s → P (l.foldl f s) := by
  intro l
  induction l with
  | nil => intro s _ hP; exact hP
  | cons a as ih =>
    intro s hQ hP
    exact ih (f s a) (fun x hx => hQ x (List.mem_cons_of_mem a hx))
      (hstep s a (hQ a (List.mem_cons_self a as)) hP)

/-- Induction over one batch, segment by segment: `P` is kept by every
segment, `R1` is what the first segment guarantees of a contact that goes on,
`R2` what the second guarantees of a contact for which a call was made. -/
theorem processBatch_induct (cfg : Config) (env : Env) (cid : Nat)
    (P : State × Results → Prop) (R1 R2 : Contact → Prop) (batch : List Contact)
    (hA : ∀ s c, c ∈ batch → P s → P (unsubscribeStage env s c).1 ∧
      ((unsubscribeStage env s c).2 = true → R1 c))
    (hB : ∀ s c, c ∈ batch → R1 c → P s → P (sendStage cfg env cid s c).1 ∧
      ((sendStage cfg env cid s c).2 = true → R2 c))
    (hC : ∀ s c, c ∈ batch → R2 c → P s → P (completionStage env cid s c))
    (p : State × Results) (hP : P p) :
    P (processBatch cfg env cid p batch) := by
  unfold processBatch
  have h1 := runStage_induct (unsubscribeStage env) P (fun c => c ∈ batch) R1
    (fun s c hc hs => hA s c hc hs) batch p (fun _ hc => hc) hP
  have h2 := runStage_induct (sendStage cfg env cid) P (fun c => c ∈ batch ∧ R1 c)
    (fun c => c ∈ batch ∧ R2 c)
    (fun s c hc hs => ⟨(hB s c hc.1 hc.2 hs).1, fun hk => ⟨hc.1, (hB s c hc.1 hc.2 hs).2 hk⟩⟩)
    (runStage (unsubscribeStage env) p batch).2 (runStage (unsubscribeStage env) p batch).1
    (fun c hc => ⟨(h1.2 c hc).2, (h1.2 c hc).1⟩) h1.1
  exact foldl_induct (completionStage env cid) P (fun c => c ∈ batch ∧ R2 c)
    (fun s c hc hs => hC s c hc.1 hc.2 hs) _ _ (fun c hc => (h2.2 c hc).1) h2.1

/-- Induction over the batches of `sendEmailBatch`. -/
theorem sendEmailBatchLoop_induct (cfg : Config) (env : Env) (cid batchSize : Nat)
    (P : State × Results → Prop)
    (hbatch : ∀ p batch, P p → P (processBatch cfg env cid p batch)) :
    ∀ (fuel : Nat) (p : State × Results) (contacts : List Contact) (r : State × Results),
      sendEmailBatchLoop cfg env cid batchSize fuel p contacts = some r → P p → P r := by
  intro fuel
  induction fuel with
  | zero => intro p contacts r h; simp [sendEmailBatchLoop] at h
  | succ n ih =>
    intro p contacts r h hP
    simp only [sendEmailBatchLoop] at h
    split at h
    · cases h; exact hP
    · split at h
      · cases h; exact hbatch _ _ hP
      · exact ih _ _ _ h (hbatch _ _ hP)

theorem sendEmailBatchLoop_total (cfg : Config) (env : Env) (cid batchSize : Nat)
    (hb : 1 ≤ batchSize) :
    ∀ (fuel : Nat) (p : State × Results) (contacts : List Contact),
      contacts.length < fuel →
      ∃ r, sendEmailBatchLoop cfg env cid batchSize fuel p contacts = some r := by
  intro fuel
  induction fuel with
  | zero => intro p contacts h; exact absurd h (Nat.not_lt_zero _)
  | succ n ih =>
    intro p contacts h
    simp only [sendEmailBatchLoop]
    split
    · exact ⟨p, rfl⟩
    · split
      · exact ⟨_, rfl⟩
      · apply ih
        rw [List.length_drop]
        omega

/-- With a batch size of at least one `sendEmailBatch` returns. -/
theorem sendEmailBatch_total (cfg : Config) (env : Env) (st : State) (contacts : List Contact)
    (campaign : Option Campaign) (batchSize : Nat) (hb : 1 ≤ batchSize) :
    ∃ r, sendEmailBatch cfg env st contacts campaign batchSize = some r :=
  sendEmailBatchLoop_total cfg env _ batchSize hb _ _ _ (Nat.lt_succ_self _)

/-- The first iteration of the loop on a non-empty list. -/
theorem sendEmailBatchLoop_first (cfg : Config) (env : Env) (cid batchSize fuel : Nat)
    (p r : State × Results) (contacts : List Contact) (hne : contacts ≠ [])
    (h : sendEmailBatchLoop cfg env cid batchSize fuel p contacts = some r) :
    r = processBatch cfg env cid p (contacts.take batchSize) ∨
    ∃ n, sendEmailBatchLoop cfg env cid batchSize n
      (processBatch cfg env cid p (contacts.take batchSize)) (contacts.drop batchSize) = some r := by
  cases fuel with
  | zero => simp [sendEmailBatchLoop] at h
  | succ n =>
    simp only [sendEmailBatchLoop] at h
    have hlen : ¬ contacts.length = 0 := fun h0 => hne (List.length_eq_zero.mp h0)
    simp only [hlen, if_false] at h
    split at h
    · left; cases h; rfl
    · right; exact ⟨n, h⟩

theorem unsubscribeStage_view (env : Env) (p : State × Results) (c : Contact) :
    suppressionView (unsubscribeStage env p c).1.1 = suppressionView p.1 := by
  unfold unsubscribeStage
  split <;> simp

theorem unsubscribeStage_calls (env : Env) (p : State × Results) (c : Contact) :
    (unsubscribeStage env p c).1.1.calls = p.1.calls := by
  unfold unsubscribeStage
  split <;> simp

theorem unsubscribeStage_keep (env : Env) (p : State × Results) (c : Contact) :
    (unsubscribeStage env p c).2 = true ↔ isEmailUnsubscribed env p.1 c.email = false := by
  unfold unsubscribeStage
  split <;> simp_all

theorem sendStage_state (cfg : Config) (env : Env) (cid : Nat) (p : State × Results)
    (c : Contact) :
    (sendStage cfg env cid p c).1.1 = p.1 ∨
    (sendStage cfg env cid p c).1.1 = { p.1 with calls := p.1.calls ++ [c.email] } := by
  unfold sendStage
  split
  · left; rfl
  · split
    · left; rfl
    · right; rfl

theorem suppressionView_sendStage (cfg : Config) (env : Env) (cid : Nat) (p : State × Results)
    (c : Contact) : suppressionView (sendStage cfg env cid p c).1.1 = suppressionView p.1 := by
  rcases sendStage_state cfg env cid p c with h | h <;> rw [h]
  rfl

/-- No segment of the callback makes a transport call for an address the
suppression lookup finds: the number of calls for it stays what it was. -/
theorem processBatch_no_call (cfg : Config) (env : Env) (cid : Nat) (st : State) (e : String)
    (he : suppressed env st e) (p : State × Results) (batch : List Contact)
    (hP : suppressionView p.1 = suppressionView st ∧ p.1.calls.count e = st.calls.count e) :
    suppressionView (processBatch cfg env cid p batch).1 = suppressionView st ∧
    (processBatch cfg env cid p batch).1.calls.count e = st.calls.count e := by
  have he1 : isEmailUnsubscribed env st e = true := (isEmailUnsubscribed_iff env st e).mpr he
  refine processBatch_induct cfg env cid
    (fun s => suppressionView s.1 = suppressionView st ∧ s.1.calls.count e = st.calls.count e)
    (fun c => isEmailUnsubscribed env st c.email = false) (fun _ => True) batch ?_ ?_ ?_ p hP
  · intro s c _ hs
    refine ⟨⟨?_, ?_⟩, ?_⟩
    · rw [unsubscribeStage_view]; exact hs.1
    · rw [unsubscribeStage_calls]; exact hs.2
    · intro hk
      rw [← isEmailUnsubscribed_congr env hs.1]
      exact (unsubscribeStage_keep env s c).mp hk
  · intro s c _ hc hs
    refine ⟨⟨?_, ?_⟩, fun _ => trivial⟩
    · rw [suppressionView_sendStage]; exact hs.1
    · rcases sendStage_state cfg env cid s c with h | h
      · rw [h]; exact hs.2
      · rw [h]
        have hne : c.email ≠ e := by
          intro heq
          rw [heq, he1] at hc
          exact Bool.noConfusion hc
        simp only [List.count_append, List.count_cons, List.count_nil]
        simp [hne, hs.2]
  · intro s c _ _ hs
    refine ⟨?_, ?_⟩
    · rw [suppressionView_completionStage]; exact hs.1
    · rw [completionStage_calls]; exact hs.2

/-- `sendEmailBatch` makes no transport call for an address the suppression
lookup finds. -/
theorem sendEmailBatch_no_call (cfg : Config) (env : Env) (st : State)
    (contacts : List Contact) (campaign : Option Campaign) (batchSize : Nat)
    (r : State × Results) (h : sendEmailBatch cfg env st contacts campaign batchSize = some r)
    (e : String) (he : suppressed env st e) :
    r.1.calls.count e = st.calls.count e := by
  have := sendEmailBatchLoop_induct cfg env (campaignIdOf cfg campaign) batchSize
    (fun s => suppressionView s.1 = suppressionView st ∧ s.1.calls.count e = st.calls.count e)
    (fun p batch hP => processBatch_no_call cfg env _ st e he p batch hP)
    _ _ _ r h ⟨rfl, rfl⟩
  exact this.2

theorem Results.Extends.refl (a : Results) : Results.Extends a a :=
  ⟨le_rfl, le_rfl, le_rfl, [], by simp⟩

theorem Results.Extends.trans {a b c : Results} (h1 : Results.Extends a b)
    (h2 : Results.Extends b c) : Results.Extends a c := by
  obtain ⟨s1, k1, e1, t1, d1⟩ := h1
  obtain ⟨s2, k2, e2, t2, d2⟩ := h2
  exact ⟨le_trans s1 s2, le_trans k1 k2, le_trans e1 e2, t1 ++ t2, by rw [d2, d1, List.append_assoc]⟩

theorem unsubscribeStage_extends (env : Env) (p : State × Results) (c : Contact) :
    Results.Extends p.2 (unsubscribeStage env p c).1.2 := by
  unfold unsubscribeStage
  split
  · exact ⟨le_rfl, Nat.le_succ _, le_rfl, _, rfl⟩
  · exact Results.Extends.refl _

theorem sendStage_extends (cfg : Config) (env : Env) (cid : Nat) (p : State × Results)
    (c : Contact) : Results.Extends p.2 (sendStage cfg env cid p c).1.2 := by
  unfold sendStage
  split
  · exact ⟨le_rfl, Nat.le_succ _, le_rfl, _, rfl⟩
  · split
    · exact ⟨le_rfl, le_rfl, le_rfl, _, rfl⟩
    · exact Results.Extends.refl _

theorem completionStage_extends (env : Env) (cid : Nat) (p : State × Results) (c : Contact) :
    Results.Extends p.2 (completionStage env cid p c).2 := by
  unfold completionStage
  cases env.resend c.email with
  | ok id => exact ⟨Nat.le_succ _, le_rfl, le_rfl, _, rfl⟩
  | error m => exact ⟨le_rfl, le_rfl, Nat.le_succ _, _, rfl⟩
  | throws m => exact ⟨le_rfl, le_rfl, Nat.le_succ _, _, rfl⟩

/-- The first segment run over a batch counts every contact the suppression
lookup finds as skipped and reports it. -/
theorem runStage_unsubscribe_reports (env : Env) :
    ∀ (l : List Contact) (p : State × Results),
      (runStage (unsubscribeStage env) p l).1.2.skipped =
        p.2.skipped + l.countP (fun c => isEmailUnsubscribed env p.1 c.email) ∧
      (runStage (unsubscribeStage env) p l).1.2.sent = p.2.sent ∧
      (runStage (unsubscribeStage env) p l).1.2.errors = p.2.errors ∧
      (∀ c ∈ l, isEmailUnsubscribed env p.1 c.email = true →
        (c.email ++ " - Unsubscribed") ∈ (runStage (unsubscribeStage env) p l).1.2.details) ∧
      (∀ m ∈ p.2.details, m ∈ (runStage (unsubscribeStage env) p l).1.2.details) := by
  intro l
  induction l with
  | nil => intro p; simp [runStage]
  | cons c cs ih =>
    intro p
    have hview := unsubscribeStage_view env p c
    have hcongr : (fun x : Contact => isEmailUnsubscribed env (unsubscribeStage env p c).1.1 x.email)
        = (fun x : Contact => isEmailUnsubscribed env p.1 x.email) := by
      funext x
      exact isEmailUnsubscribed_congr env hview x.email
    obtain ⟨h1, h2, h3, h4, h5⟩ := ih (unsubscribeStage env p c).1
    simp only [runStage]
    rw [hcongr] at h1
    by_cases hu : isEmailUnsubscribed env p.1 c.email = true
    · have hst : (unsubscribeStage env p c).1.2 =
          { p.2 with skipped := p.2.skipped + 1,
                     details := p.2.details ++ [c.email ++ " - Unsubscribed"] } := by
        simp [unsubscribeStage, hu]
      rw [hst] at h1 h2 h3 h5
      refine ⟨?_, h2, h3, ?_, ?_⟩
      · have hc : List.countP (fun x : Contact => isEmailUnsubscribed env p.1 x.email) (c :: cs) =
            List.countP (fun x : Contact => isEmailUnsubscribed env p.1 x.email) cs + 1 := by
          simp [List.countP_cons, hu]
        rw [h1, hc]
        simp only []
        omega
      · intro x hx hxu
        rcases List.mem_cons.mp hx with rfl | hx
        · exact h5 _ (by simp)
        · exact h4 x hx (by rw [isEmailUnsubscribed_congr env hview]; exact hxu)
      · intro m hm
        exact h5 m (by simp [hm])
    · have hst : (unsubscribeStage env p c).1.2 = p.2 := by
        simp [unsubscribeStage, hu]
      rw [hst] at h1 h2 h3 h5
      refine ⟨?_, h2, h3, ?_, h5⟩
      · have hc : List.countP (fun x : Contact => isEmailUnsubscribed env p.1 x.email) (c :: cs) =
            List.countP (fun x : Contact => isEmailUnsubscribed env p.1 x.email) cs := by
          simp [List.countP_cons, hu]
        rw [h1, hc]
      · intro x hx hxu
        rcases List.mem_cons.mp hx with rfl | hx
        · exact absurd hxu hu
        · exact h4 x hx (by rw [isEmailUnsubscribed_congr env hview]; exact hxu)

/-- A batch counts every contact the suppression lookup finds as skipped and
reports it with the reason `Unsubscribed`. -/
theorem processBatch_reports (cfg : Config) (env : Env) (cid : Nat) (p : State × Results)
    (batch : List Contact) :
    p.2.skipped + batch.countP (fun c => isEmailUnsubscribed env p.1 c.email) ≤
      (processBatch cfg env cid p batch).2.skipped ∧
    ∀ c ∈ batch, isEmailUnsubscribed env p.1 c.email = true →
      (c.email ++ " - Unsubscribed") ∈ (processBatch cfg env cid p batch).2.details := by
  obtain ⟨h1, _, _, h4, _⟩ := runStage_unsubscribe_reports env batch p
  have hB := (runStage_induct (sendStage cfg env cid)
    (fun s => Results.Extends (runStage (unsubscribeStage env) p batch).1.2 s.2)
    (fun _ => True) (fun _ => True)
    (fun s c _ hs => ⟨Results.Extends.trans hs (sendStage_extends cfg env cid s c), fun _ => trivial⟩)
    (runStage (unsubscribeStage env) p batch).2 (runStage (unsubscribeStage env) p batch).1
    (fun _ _ => trivial) (Results.Extends.refl _)).1
  have hC := foldl_induct (completionStage env cid)
    (fun s => Results.Extends (runStage (unsubscribeStage env) p batch).1.2 s.2)
    (fun _ => True)
    (fun s c _ hs => Results.Extends.trans hs (completionStage_extends env cid s c))
    (runStage (sendStage cfg env cid) (runStage (unsubscribeStage env) p batch).1
      (runStage (unsubscribeStage env) p batch).2).2 _ (fun _ _ => trivial) hB
  obtain ⟨_, hk, _, t, ht⟩ := hC
  refine ⟨?_, ?_⟩
  · rw [← h1]; exact hk
  · intro c hc hu
    show _ ∈ (processBatch cfg env cid p batch).2.details
    unfold processBatch
    rw [ht]
    exact List.mem_append_left _ (h4 c hc hu)

/-- Every batch extends the counters and messages. -/
theorem processBatch_extends (cfg : Config) (env : Env) (cid : Nat) (p : State × Results)
    (batch : List Contact) : Results.Extends p.2 (processBatch cfg env cid p batch).2 :=
  processBatch_induct cfg env cid (fun s => Results.Extends p.2 s.2) (fun _ => True)
    (fun _ => True) batch
    (fun s c _ hs =>
      ⟨Results.Extends.trans hs (unsubscribeStage_extends env s c), fun _ => trivial⟩)
    (fun s c _ _ hs =>
      ⟨Results.Extends.trans hs (sendStage_extends cfg env cid s c), fun _ => trivial⟩)
    (fun s c _ _ hs => Results.Extends.trans hs (completionStage_extends env cid s c))
    p (Results.Extends.refl _)

theorem wasEmailSentToday_iff (env : Env) (st : State) (email : String) :
    wasEmailSentToday env st email = true ↔
      ∃ r ∈ st.sent_emails, env.toLowerCase r.email = env.toLowerCase email ∧
        r.date = isoDate env.now ∧ r.status = "sent" := by
  simp [wasEmailSentToday, List.any_eq_true, and_assoc]

theorem wasEmailSentRecently_db_iff (env : Env) (st : State) (db : Database) (email : String)
    (campaignId : Nat) (hs : st.sql = some db) (hq : env.faults.recentQuery email = false) :
    wasEmailSentRecently env st email campaignId = true ↔
      ∃ l ∈ db.email_logs, l.recipientEmail = email ∧ l.campaignId = some campaignId ∧
        env.now < l.sentAt + SEVEN_DAYS ∧ l.status = "sent" := by
  unfold wasEmailSentRecently
  rw [hs]
  simp only [hq, Bool.false_eq_true, if_false, decide_eq_true_eq, recentLogs,
    filter_length_pos_iff]
  constructor
  · rintro ⟨l, hl, h⟩
    simp only [Bool.and_eq_true, beq_iff_eq, decide_eq_true_eq] at h
    exact ⟨l, hl, h.1.1.1, h.1.1.2, h.1.2, h.2⟩
  · rintro ⟨l, hl, h1, h2, h3, h4⟩
    refine ⟨l, hl, ?_⟩
    simp only [Bool.and_eq_true, beq_iff_eq, decide_eq_true_eq]
    exact ⟨⟨⟨h1, h2⟩, h3⟩, h4⟩

theorem wasEmailSentRecently_db_fault (env : Env) (st : State) (db : Database) (email : String)
    (campaignId : Nat) (hs : st.sql = some db) (hq : env.faults.recentQuery email = true) :
    wasEmailSentRecently env st email campaignId = false := by
  unfold wasEmailSentRecently
  rw [hs]
  simp [hq]

theorem isoDate_lt_of_week (t now : Nat) (h : t + SEVEN_DAYS ≤ now) : isoDate t < isoDate now := by
  unfold isoDate
  unfold SEVEN_DAYS at h
  have hpos : 0 < MS_PER_DAY := by decide
  have h1 : t / MS_PER_DAY + 7 ≤ now / MS_PER_DAY := by
    have : (t + 7 * MS_PER_DAY) / MS_PER_DAY = t / MS_PER_DAY + 7 := by
      rw [Nat.add_mul_div_right _ _ hpos]
    rw [← this]
    exact Nat.div_le_div_right h
  omega

theorem toContact_email (l : Lead) : (toContact l).email = l.email := rfl

/-- `loadContacts` on the database path leaves out every address with a `sent`
row of the last 7 days, whatever the campaign of the row. -/
theorem loadContacts_excludes_recent (env : Env) (st : State) (db : Database) (e : String)
    (hs : st.sql = some db) (hq : env.faults.leadsQuery = false)
    (h : ∃ l ∈ db.email_logs, l.recipientEmail = e ∧ l.status = "sent" ∧
      env.now < l.sentAt + SEVEN_DAYS) :
    ∀ c ∈ loadContacts env st, c.email ≠ e := by
  intro c hc heq
  unfold loadContacts at hc
  rw [hs] at hc
  simp only [hq, Bool.false_eq_true, if_false, List.mem_map, List.mem_filter] at hc
  obtain ⟨lead, ⟨_, hkeep⟩, hlead⟩ := hc
  obtain ⟨l, hl, h1, h2, h3⟩ := h
  have hemail : lead.email = e := by rw [← heq, ← hlead, toContact_email]
  have hrec : was_sent_recently env db lead = true := by
    unfold was_sent_recently
    rw [List.any_eq_true]
    refine ⟨l, hl, ?_⟩
    simp [h3, h2, hemail, h1]
  simp [hrec] at hkeep

theorem getTodaysSentCount_saveSentEmail (env : Env) (st : State) (e n status : String) :
    getTodaysSentCount env (saveSentEmail env st e n status) =
      getTodaysSentCount env st + (if status = "sent" then 1 else 0) := by
  unfold getTodaysSentCount saveSentEmail
  by_cases h : status = "sent"
  · simp [List.filter_append, h, List.filter_cons]
  · simp [List.filter_append, h, List.filter_cons]

@[simp] theorem getTodaysSentCount_logToDatabase (env : Env) (st : State) (cid : Nat)
    (c : Contact) :
    getTodaysSentCount env (logToDatabase env st cid c) = getTodaysSentCount env st := by
  unfold getTodaysSentCount
  rw [logToDatabase_sent_emails]

theorem unsubscribeStage_count (env : Env) (p : State × Results) (c : Contact) :
    getTodaysSentCount env (unsubscribeStage env p c).1.1 = getTodaysSentCount env p.1 := by
  unfold unsubscribeStage
  split
  · simp [getTodaysSentCount_saveSentEmail]
  · rfl

theorem unsubscribeStage_sent_errors (env : Env) (p : State × Results) (c : Contact) :
    (unsubscribeStage env p c).1.2.sent = p.2.sent ∧
    (unsubscribeStage env p c).1.2.errors = p.2.errors := by
  unfold unsubscribeStage
  split <;> exact ⟨rfl, rfl⟩

theorem sendStage_count (cfg : Config) (env : Env) (cid : Nat) (p : State × Results)
    (c : Contact) :
    getTodaysSentCount env (sendStage cfg env cid p c).1.1 = getTodaysSentCount env p.1 := by
  rcases sendStage_state cfg env cid p c with h | h <;> rw [h]
  rfl

theorem sendStage_sent_errors (cfg : Config) (env : Env) (cid : Nat) (p : State × Results)
    (c : Contact) :
    (sendStage cfg env cid p c).1.2.sent = p.2.sent ∧
    (sendStage cfg env cid p c).1.2.errors = p.2.errors := by
  unfold sendStage
  split
  · exact ⟨rfl, rfl⟩
  · split <;> exact ⟨rfl, rfl⟩

/-- At the daily limit the second segment makes no call and leaves the state. -/
theorem sendStage_at_limit (cfg : Config) (env : Env) (cid : Nat) (p : State × Results)
    (c : Contact) (h : getTodaysSentCount env p.1 ≥ cfg.DAILY_LIMIT) :
    (sendStage cfg env cid p c).2 = false ∧ (sendStage cfg env cid p c).1.1 = p.1 := by
  unfold sendStage
  by_cases hr : wasEmailSentRecently env p.1 c.email cid = true
  · rw [if_pos hr]
    exact ⟨rfl, rfl⟩
  · rw [if_neg hr, if_pos h]
    exact ⟨rfl, rfl⟩

/-- A batch that starts with the day's count at the limit makes no transport
call, writes no `sent` record and leaves `sent` and `errors`. -/
theorem processBatch_at_limit (cfg : Config) (env : Env) (cid : Nat) (p : State × Results)
    (batch : List Contact) (h : getTodaysSentCount env p.1 ≥ cfg.DAILY_LIMIT) :
    (processBatch cfg env cid p batch).1.calls = p.1.calls ∧
    getTodaysSentCount env (processBatch cfg env cid p batch).1 = getTodaysSentCount env p.1 ∧
    (processBatch cfg env cid p batch).2.sent = p.2.sent ∧
    (processBatch cfg env cid p batch).2.errors = p.2.errors := by
  refine processBatch_induct cfg env cid
    (fun s => s.1.calls = p.1.calls ∧ getTodaysSentCount env s.1 = getTodaysSentCount env p.1 ∧
      s.2.sent = p.2.sent ∧ s.2.errors = p.2.errors)
    (fun _ => True) (fun _ => False) batch ?_ ?_ ?_ p ⟨rfl, rfl, rfl, rfl⟩
  · intro s c _ hs
    obtain ⟨h1, h2, h3, h4⟩ := hs
    refine ⟨⟨?_, ?_, ?_, ?_⟩, fun _ => trivial⟩
    · rw [unsubscribeStage_calls, h1]
    · rw [unsubscribeStage_count, h2]
    · rw [(unsubscribeStage_sent_errors env s c).1, h3]
    · rw [(unsubscribeStage_sent_errors env s c).2, h4]
  · intro s c _ _ hs
    obtain ⟨h1, h2, h3, h4⟩ := hs
    have hl : getTodaysSentCount env s.1 ≥ cfg.DAILY_LIMIT := by rw [h2]; exact h
    obtain ⟨hk, hst⟩ := sendStage_at_limit cfg env cid s c hl
    refine ⟨⟨?_, ?_, ?_, ?_⟩, ?_⟩
    · rw [hst, h1]
    · rw [hst, h2]
    · rw [(sendStage_sent_errors cfg env cid s c).1, h3]
    · rw [(sendStage_sent_errors cfg env cid s c).2, h4]
    · intro hk'
      rw [hk] at hk'
      exact Bool.noConfusion hk'
  · intro s c _ hF _
    exact absurd hF id

theorem runStage_sublist {σ : Type} (f : σ → Contact → σ × Bool) :
    ∀ (l : List Contact) (s : σ), (runStage f s l).2.Sublist l := by
  intro l
  induction l with
  | nil => intro s; simp [runStage]
  | cons c cs ih =>
    intro s
    simp only [runStage]
    split
    · exact (ih _).cons₂ c
    · exact (ih _).cons c

theorem sendStage_keep (cfg : Config) (env : Env) (cid : Nat) (p : State × Results)
    (c : Contact) :
    ((sendStage cfg env cid p c).2 = true ∧
      (sendStage cfg env cid p c).1.1 = { p.1 with calls := p.1.calls ++ [c.email] }) ∨
    ((sendStage cfg env cid p c).2 = false ∧ (sendStage cfg env cid p c).1.1 = p.1) := by
  unfold sendStage
  split
  · right; exact ⟨rfl, rfl⟩
  · split
    · right; exact ⟨rfl, rfl⟩
    · left; exact ⟨rfl, rfl⟩

/-- The second segment run over a list appends one call per contact it lets
through, in list order. -/
theorem runStage_sendStage_calls (cfg : Config) (env : Env) (cid : Nat) :
    ∀ (l : List Contact) (p : State × Results),
      (runStage (sendStage cfg env cid) p l).1.1.calls =
        p.1.calls ++ (runStage (sendStage cfg env cid) p l).2.map (fun c => c.email) := by
  intro l
  induction l with
  | nil => intro p; simp [runStage]
  | cons c cs ih =>
    intro p
    simp only [runStage]
    rw [ih]
    rcases sendStage_keep cfg env cid p c with ⟨hk, hst⟩ | ⟨hk, hst⟩
    · rw [hk, hst]
      simp
    · rw [hk, hst]
      simp

/-- The transport calls of a batch go to contacts of the batch, in batch order. -/
theorem processBatch_calls (cfg : Config) (env : Env) (cid : Nat) (p : State × Results)
    (batch : List Contact) :
    ∃ issued : List Contact, issued.Sublist batch ∧
      (processBatch cfg env cid p batch).1.calls = p.1.calls ++ issued.map (fun c => c.email) := by
  have hA : (runStage (unsubscribeStage env) p batch).1.1.calls = p.1.calls :=
    (runStage_induct (unsubscribeStage env) (fun s => s.1.calls = p.1.calls)
      (fun _ => True) (fun _ => True)
      (fun s c _ hs => ⟨(unsubscribeStage_calls env s c).trans hs, fun _ => trivial⟩)
      batch p (fun _ _ => trivial) rfl).1
  have hB := runStage_sendStage_calls cfg env cid (runStage (unsubscribeStage env) p batch).2
    (runStage (unsubscribeStage env) p batch).1
  refine ⟨(runStage (sendStage cfg env cid) (runStage (unsubscribeStage env) p batch).1
    (runStage (unsubscribeStage env) p batch).2).2, ?_, ?_⟩
  · exact (runStage_sublist _ _ _).trans (runStage_sublist _ _ _)
  · unfold processBatch
    have hC := foldl_induct (completionStage env cid)
      (fun s => s.1.calls = (runStage (sendStage cfg env cid)
        (runStage (unsubscribeStage env) p batch).1
        (runStage (unsubscribeStage env) p batch).2).1.1.calls)
      (fun _ => True)
      (fun s c _ hs => (completionStage_calls env cid s c).trans hs)
      (runStage (sendStage cfg env cid) (runStage (unsubscribeStage env) p batch).1
        (runStage (unsubscribeStage env) p batch).2).2 _ (fun _ _ => trivial) rfl
    rw [hC, hB, hA]

/-- The transport calls of `sendEmailBatch` go to contacts of the list, in list
order, at most one per contact. -/
theorem sendEmailBatchLoop_calls (cfg : Config) (env : Env) (cid batchSize : Nat) :
    ∀ (fuel : Nat) (p r : State × Results) (contacts : List Contact),
      sendEmailBatchLoop cfg env cid batchSize fuel p contacts = some r →
      ∃ issued : List Contact, issued.Sublist contacts ∧
        r.1.calls = p.1.calls ++ issued.map (fun c => c.email) := by
  intro fuel
  induction fuel with
  | zero => intro p r contacts h; simp [sendEmailBatchLoop] at h
  | succ n ih =>
    intro p r contacts h
    simp only [sendEmailBatchLoop] at h
    split at h
    · cases h
      exact ⟨[], List.nil_sublist _, by simp⟩
    · obtain ⟨i1, hs1, hc1⟩ := processBatch_calls cfg env cid p (contacts.take batchSize)
      split at h
      · cases h
        exact ⟨i1, hs1.trans (List.take_sublist _ _), hc1⟩
      · obtain ⟨i2, hs2, hc2⟩ := ih _ _ _ h
        refine ⟨i1 ++ i2, ?_, ?_⟩
        · have := List.Sublist.append hs1 hs2
          rwa [List.take_append_drop] at this
        · rw [hc2, hc1, List.map_append, List.append_assoc]

theorem completionStage_count_le (env : Env) (cid : Nat) (p : State × Results) (c : Contact) :
    getTodaysSentCount env (completionStage env cid p c).1 ≤ getTodaysSentCount env p.1 + 1 := by
  unfold completionStage
  cases env.resend c.email <;> simp [getTodaysSentCount_saveSentEmail]

theorem foldl_completionStage_count_le (env : Env) (cid : Nat) :
    ∀ (l : List Contact) (p : State × Results),
      getTodaysSentCount env (l.foldl (completionStage env cid) p).1 ≤
        getTodaysSentCount env p.1 + l.length := by
  intro l
  induction l with
  | nil => intro p; simp
  | cons c cs ih =>
    intro p
    simp only [List.foldl_cons, List.length_cons]
    have h1 := ih (completionStage env cid p c)
    have h2 := completionStage_count_le env cid p c
    omega

/-- A batch writes at most one `sent` record per contact. -/
theorem processBatch_count_le (cfg : Config) (env : Env) (cid : Nat) (p : State × Results)
    (batch : List Contact) :
    getTodaysSentCount env (processBatch cfg env cid p batch).1 ≤
      getTodaysSentCount env p.1 + batch.length := by
  have hA : getTodaysSentCount env (runStage (unsubscribeStage env) p batch).1.1 =
      getTodaysSentCount env p.1 :=
    (runStage_induct (unsubscribeStage env)
      (fun s => getTodaysSentCount env s.1 = getTodaysSentCount env p.1)
      (fun _ => True) (fun _ => True)
      (fun s c _ hs => ⟨(unsubscribeStage_count env s c).trans hs, fun _ => trivial⟩)
      batch p (fun _ _ => trivial) rfl).1
  have hB : getTodaysSentCount env (runStage (sendStage cfg env cid)
      (runStage (unsubscribeStage env) p batch).1
      (runStage (unsubscribeStage env) p batch).2).1.1 = getTodaysSentCount env p.1 :=
    (runStage_induct (sendStage cfg env cid)
      (fun s => getTodaysSentCount env s.1 = getTodaysSentCount env p.1)
      (fun _ => True) (fun _ => True)
      (fun s c _ hs => ⟨(sendStage_count cfg env cid s c).trans hs, fun _ => trivial⟩)
      _ _ (fun _ _ => trivial) hA).1
  have hC := foldl_completionStage_count_le env cid
    (runStage (sendStage cfg env cid) (runStage (unsubscribeStage env) p batch).1
      (runStage (unsubscribeStage env) p batch).2).2
    (runStage (sendStage cfg env cid) (runStage (unsubscribeStage env) p batch).1
      (runStage (unsubscribeStage env) p batch).2).1
  have hlen : (runStage (sendStage cfg env cid) (runStage (unsubscribeStage env) p batch).1
      (runStage (unsubscribeStage env) p batch).2).2.length ≤ batch.length :=
    ((runStage_sublist _ _ _).trans (runStage_sublist _ _ _)).length_le
  unfold processBatch
  refine le_trans hC ?_
  rw [hB]
  omega

theorem sendEmailBatchLoop_count_le (cfg : Config) (env : Env) (cid batchSize : Nat) :
    ∀ (fuel : Nat) (p r : State × Results) (contacts : List Contact),
      sendEmailBatchLoop cfg env cid batchSize fuel p contacts = some r →
      getTodaysSentCount env r.1 ≤ getTodaysSentCount env p.1 + contacts.length := by
  intro fuel
  induction fuel with
  | zero => intro p r contacts h; simp [sendEmailBatchLoop] at h
  | succ n ih =>
    intro p r contacts h
    simp only [sendEmailBatchLoop] at h
    split at h
    · cases h
      omega
    · have h1 := processBatch_count_le cfg env cid p (contacts.take batchSize)
      have hlen : (contacts.take batchSize).length + (contacts.drop batchSize).length =
          contacts.length := by
        rw [← List.length_append, List.take_append_drop]
      split at h
      · cases h
        omega
      · have h2 := ih _ _ _ h
        omega

/-- The number of contacts `runCampaign` hands to `sendEmailBatch` is the
smaller of the remaining capacity of the day and the number of loaded contacts. -/
theorem contactsToSend_length (cfg : Config) (env : Env) (st : State) :
    (contactsToSend cfg env st).length =
      min (cfg.DAILY_LIMIT - getTodaysSentCount env st) (loadContacts env st).length := by
  unfold contactsToSend
  rw [List.length_take]

/-- A pass of `runCampaign` that starts with the day's count within the limit
ends with the day's count within the limit. -/
theorem runCampaign_respects_daily_limit (cfg : Config) (env : Env) (st : State)
    (campaign : Option Campaign) (r : State × Option Results)
    (hle : getTodaysSentCount env st ≤ cfg.DAILY_LIMIT)
    (h : runCampaign cfg env st campaign = some r) :
    getTodaysSentCount env r.1 ≤ cfg.DAILY_LIMIT := by
  unfold runCampaign at h
  split at h
  · cases h; exact hle
  · split at h
    · cases h; exact hle
    · split at h
      · rename_i r1 hr1
        cases h
        have h1 := sendEmailBatchLoop_count_le cfg env _ _ _ _ _ _ hr1
        have h2 := contactsToSend_length cfg env st
        simp only [] at h1 ⊢
        omega
      · cases h

/-- On a day later than every record of the file log the count of the day is 0. -/
theorem getTodaysSentCount_new_day (env : Env) (st : State)
    (h : ∀ r ∈ st.sent_emails, r.date < isoDate env.now) : getTodaysSentCount env st = 0 := by
  unfold getTodaysSentCount
  rw [List.length_eq_zero, List.filter_eq_nil_iff]
  intro r hr
  have := h r hr
  simp only [Bool.and_eq_true, beq_iff_eq, not_and]
  intro hd
  omega

theorem countStatus_append (a b : List SentRecord) (status : String) :
    countStatus (a ++ b) status = countStatus a status + countStatus b status := by
  simp [countStatus, List.filter_append]

theorem audited_unsubscribeStage (env : Env) (st : State) (s : State × Results) (c : Contact)
    (h : Audited st s) : Audited st (unsubscribeStage env s c).1 := by
  obtain ⟨added, h1, h2, h3, h4, h5⟩ := h
  unfold PersistentCampaign.unsubscribeStage
  split
  · refine ⟨added ++
      [SentRecord.mk c.email "persistent-campaign" "skipped-unsubscribed" env.now (isoDate env.now)],
      ?_, ?_, ?_, ?_, ?_⟩
    · simp [saveSentEmail, h1]
    · rw [countStatus_append, h2]; simp [countStatus]
    · rw [countStatus_append, h3]; simp [countStatus]
    · rw [countStatus_append]
      have : countStatus [SentRecord.mk c.email "persistent-campaign" "skipped-unsubscribed"
        env.now (isoDate env.now)] "skipped-unsubscribed" = 1 := by
        simp [countStatus]
      simp only [this]
      omega
    · rw [countStatus_append]
      have : countStatus [SentRecord.mk c.email "persistent-campaign" "skipped-unsubscribed"
        env.now (isoDate env.now)] "skipped-unsubscribed" = 1 := by
        simp [countStatus]
      simp only [this, List.length_append, List.length_singleton]
      omega
  · exact ⟨added, h1, h2, h3, h4, h5⟩

theorem audited_sendStage (cfg : Config) (env : Env) (cid : Nat) (st : State)
    (s : State × Results) (c : Contact) (h : Audited st s) :
    Audited st (sendStage cfg env cid s c).1 := by
  obtain ⟨added, h1, h2, h3, h4, h5⟩ := h
  unfold PersistentCampaign.sendStage
  split
  · exact ⟨added, h1, h2, h3, Nat.le_succ_of_le h4, h5⟩
  · split
    · exact ⟨added, h1, h2, h3, h4, h5⟩
    · exact ⟨added, h1, h2, h3, h4, h5⟩

theorem audited_completionStage (env : Env) (cid : Nat) (st : State) (s : State × Results)
    (c : Contact) (h : Audited st s) : Audited st (completionStage env cid s c) := by
  obtain ⟨added, h1, h2, h3, h4, h5⟩ := h
  unfold PersistentCampaign.completionStage
  cases env.resend c.email with
  | ok id =>
    refine ⟨added ++
      [SentRecord.mk c.email "persistent-campaign" "sent" env.now (isoDate env.now)], ?_, ?_, ?_, ?_, ?_⟩
    · simp [saveSentEmail, h1]
    · rw [countStatus_append, h2]; simp [countStatus]
    · rw [countStatus_append, h3]; simp [countStatus]
    · rw [countStatus_append]; simpa [countStatus] using h4
    · rw [countStatus_append]
      simp only [List.length_append, List.length_singleton, h5]
      simp [countStatus]
      omega
  | error message =>
    refine ⟨added ++
      [SentRecord.mk c.email "persistent-campaign" "error" env.now (isoDate env.now)], ?_, ?_, ?_, ?_, ?_⟩
    · simp [saveSentEmail, h1]
    · rw [countStatus_append, h2]; simp [countStatus]
    · rw [countStatus_append, h3]; simp [countStatus]
    · rw [countStatus_append]; simpa [countStatus] using h4
    · rw [countStatus_append]
      simp only [List.length_append, List.length_singleton, h5]
      simp [countStatus]
      omega
  | throws message =>
    refine ⟨added ++
      [SentRecord.mk c.email "persistent-campaign" "error" env.now (isoDate env.now)], ?_, ?_, ?_, ?_, ?_⟩
    · simp [saveSentEmail, h1]
    · rw [countStatus_append, h2]; simp [countStatus]
    · rw [countStatus_append, h3]; simp [countStatus]
    · rw [countStatus_append]; simpa [countStatus] using h4
    · rw [countStatus_append]
      simp only [List.length_append, List.length_singleton, h5]
      simp [countStatus]
      omega

/-- Every batch keeps the file log and the counters in step. -/
theorem audited_processBatch (cfg : Config) (env : Env) (cid : Nat) (st : State)
    (p : State × Results) (batch : List Contact) (h : Audited st p) :
    Audited st (processBatch cfg env cid p batch) :=
  processBatch_induct cfg env cid (Audited st) (fun _ => True) (fun _ => True) batch
    (fun s c _ hs => ⟨audited_unsubscribeStage env st s c hs, fun _ => trivial⟩)
    (fun s c _ _ hs => ⟨audited_sendStage cfg env cid st s c hs, fun _ => trivial⟩)
    (fun s c _ _ hs => audited_completionStage env cid st s c hs) p h

theorem completionStage_sent_errors (env : Env) (cid : Nat) (p : State × Results) (c : Contact) :
    (completionStage env cid p c).2.sent + (completionStage env cid p c).2.errors =
      p.2.sent + p.2.errors + 1 := by
  unfold completionStage
  cases env.resend c.email <;> simp only [] <;> omega

theorem foldl_completionStage_counted (env : Env) (cid : Nat) :
    ∀ (l : List Contact) (q : State × Results),
      (l.foldl (completionStage env cid) q).1.calls = q.1.calls ∧
      (l.foldl (completionStage env cid) q).2.sent + (l.foldl (completionStage env cid) q).2.errors =
        q.2.sent + q.2.errors + l.length := by
  intro l
  induction l with
  | nil => intro q; exact ⟨rfl, rfl⟩
  | cons c cs ih =>
    intro q
    simp only [List.foldl_cons, List.length_cons]
    obtain ⟨h1, h2⟩ := ih (completionStage env cid q c)
    have h3 := completionStage_sent_errors env cid q c
    refine ⟨h1.trans (completionStage_calls env cid q c), ?_⟩
    omega

/-- Every batch answers each transport call it makes with a counted send or a
counted error. -/
theorem callsCounted_processBatch (cfg : Config) (env : Env) (cid : Nat) (st : State)
    (p : State × Results) (batch : List Contact) (h : CallsCounted st p) :
    CallsCounted st (processBatch cfg env cid p batch) := by
  have hA := (runStage_induct (unsubscribeStage env)
    (fun s => s.1.calls = p.1.calls ∧ s.2.sent = p.2.sent ∧ s.2.errors = p.2.errors)
    (fun _ => True) (fun _ => True)
    (fun s c _ hs => ⟨⟨(unsubscribeStage_calls env s c).trans hs.1,
      ((unsubscribeStage_sent_errors env s c).1).trans hs.2.1,
      ((unsubscribeStage_sent_errors env s c).2).trans hs.2.2⟩, fun _ => trivial⟩)
    batch p (fun _ _ => trivial) ⟨rfl, rfl, rfl⟩).1
  have hB := (runStage_induct (sendStage cfg env cid)
    (fun s => s.2.sent = p.2.sent ∧ s.2.errors = p.2.errors)
    (fun _ => True) (fun _ => True)
    (fun s c _ hs => ⟨⟨((sendStage_sent_errors cfg env cid s c).1).trans hs.1,
      ((sendStage_sent_errors cfg env cid s c).2).trans hs.2⟩, fun _ => trivial⟩)
    (runStage (unsubscribeStage env) p batch).2 (runStage (unsubscribeStage env) p batch).1
    (fun _ _ => trivial) ⟨hA.2.1, hA.2.2⟩).1
  have hBc := runStage_sendStage_calls cfg env cid (runStage (unsubscribeStage env) p batch).2
    (runStage (unsubscribeStage env) p batch).1
  obtain ⟨hC1, hC2⟩ := foldl_completionStage_counted env cid
    (runStage (sendStage cfg env cid) (runStage (unsubscribeStage env) p batch).1
      (runStage (unsubscribeStage env) p batch).2).2
    (runStage (sendStage cfg env cid) (runStage (unsubscribeStage env) p batch).1
      (runStage (unsubscribeStage env) p batch).2).1
  have hlen := congrArg List.length hBc
  rw [List.length_append, List.length_map, hA.1] at hlen
  have hlenC := congrArg List.length hC1
  unfold CallsCounted at h ⊢
  unfold PersistentCampaign.processBatch
  simp only []
  rw [hB.1, hB.2] at hC2
  omega

/-- What `sendEmailBatch` leaves when it returns: the file log and the calls
account for the counters it returns. -/
theorem sendEmailBatch_audited (cfg : Config) (env : Env) (st : State) (contacts : List Contact)
    (campaign : Option Campaign) (batchSize : Nat) (r : State × Results)
    (h : sendEmailBatch cfg env st contacts campaign batchSize = some r) :
    Audited st r ∧ CallsCounted st r :=
  sendEmailBatchLoop_induct cfg env (campaignIdOf cfg campaign) batchSize
    (fun s => Audited st s ∧ CallsCounted st s)
    (fun p batch hp => ⟨audited_processBatch cfg env _ st p batch hp.1,
      callsCounted_processBatch cfg env _ st p batch hp.2⟩)
    _ _ _ r h
    ⟨⟨[], by simp, rfl, rfl, Nat.le_refl _, rfl⟩, by simp [CallsCounted, emptyResults]⟩

/-- The loop of `sendEmailBatch` is the fold of `processBatch` over the batches
it forms. -/
theorem sendEmailBatchLoop_slices (cfg : Config) (env : Env) (cid batchSize : Nat) :
    ∀ (fuel : Nat) (p : State × Results) (contacts : List Contact),
      sendEmailBatchLoop cfg env cid batchSize fuel p contacts =
        (sendEmailBatchSlices cfg env cid batchSize fuel p contacts).map
          (fun bs => bs.foldl (processBatch cfg env cid) p) := by
  intro fuel
  induction fuel with
  | zero => intro p contacts; rfl
  | succ n ih =>
    intro p contacts
    simp only [sendEmailBatchLoop, sendEmailBatchSlices]
    split
    · rfl
    · split
      · rfl
      · rw [ih, Option.map_map]
        rfl

/-- The batches of `sendEmailBatch` for a batch size of at least one: they are
slices that follow each other from the start of the list, none is empty or
longer than the batch size, all but the last have the batch size, and they
are at most `⌈n / batchSize⌉`. -/
theorem sendEmailBatchSlices_shape (cfg : Config) (env : Env) (cid batchSize : Nat)
    (hb : 1 ≤ batchSize) :
    ∀ (fuel : Nat) (p : State × Results) (contacts : List Contact) (bs : List (List Contact)),
      sendEmailBatchSlices cfg env cid batchSize fuel p contacts = some bs →
      bs.flatten <+: contacts ∧
      (∀ batch ∈ bs, 1 ≤ batch.length ∧ batch.length ≤ batchSize) ∧
      (∀ batch ∈ bs.dropLast, batch.length = batchSize) ∧
      bs.length * batchSize < contacts.length + batchSize := by
  intro fuel
  induction fuel with
  | zero => intro p contacts bs h; simp [sendEmailBatchSlices] at h
  | succ n ih =>
    intro p contacts bs h
    simp only [sendEmailBatchSlices] at h
    have htake : (contacts.take batchSize).length = min batchSize contacts.length :=
      List.length_take batchSize contacts
    split at h
    · cases h
      refine ⟨by simp, by simp, by simp, by simp; omega⟩
    · rename_i hlen
      have hpos : 0 < contacts.length := Nat.pos_of_ne_zero hlen
      split at h
      · cases h
        refine ⟨?_, ?_, by simp, by simp; omega⟩
        · simp only [List.flatten_cons, List.flatten_nil, List.append_nil]
          exact List.take_prefix _ _
        · intro batch hbatch
          rw [List.mem_singleton] at hbatch
          rw [hbatch, htake]
          omega
      · cases hrest : sendEmailBatchSlices cfg env cid batchSize n
            (processBatch cfg env cid p (contacts.take batchSize)) (contacts.drop batchSize) with
        | none => rw [hrest] at h; simp at h
        | some rest =>
          rw [hrest] at h
          simp only [Option.map_some', Option.some.injEq] at h
          subst h
          obtain ⟨h1, h2, h3, h4⟩ := ih _ _ rest hrest
          have hdrop : (contacts.drop batchSize).length = contacts.length - batchSize :=
            List.length_drop batchSize contacts
          refine ⟨?_, ?_, ?_, ?_⟩
          · obtain ⟨t, ht⟩ := h1
            refine ⟨t, ?_⟩
            rw [List.flatten_cons, List.append_assoc, ht, List.take_append_drop]
          · intro batch hbatch
            rcases List.mem_cons.mp hbatch with rfl | hbatch
            · rw [htake]; omega
            · exact h2 batch hbatch
          · cases rest with
            | nil => simp
            | cons r rs =>
              intro batch hbatch
              rw [List.dropLast_cons_of_ne_nil (List.cons_ne_nil r rs)] at hbatch
              rcases List.mem_cons.mp hbatch with rfl | hbatch
              · have hr := (h2 r (List.mem_cons_self r rs)).1
                have hle : r.length ≤ (contacts.drop batchSize).length :=
                  le_trans (by simp) (List.IsPrefix.length_le h1)
                rw [htake]
                omega
              · exact h3 batch hbatch
          · rw [List.length_cons, Nat.succ_mul]
            cases rest with
            | nil => simp; omega
            | cons r rs =>
              have hr := (h2 r (List.mem_cons_self r rs)).1
              have hle : r.length ≤ (contacts.drop batchSize).length :=
                le_trans (by simp) (List.IsPrefix.length_le h1)
              omega

/-- When the dispatch ends below the daily limit, the batches of
`sendEmailBatch` make up the whole list. -/
theorem sendEmailBatchSlices_whole (cfg : Config) (env : Env) (cid batchSize : Nat) :
    ∀ (fuel : Nat) (p : State × Results) (contacts : List Contact) (bs : List (List Contact)),
      sendEmailBatchSlices cfg env cid batchSize fuel p contacts = some bs →
      getTodaysSentCount env (bs.foldl (processBatch cfg env cid) p).1 < cfg.DAILY_LIMIT →
      bs.flatten = contacts := by
  intro fuel
  induction fuel with
  | zero => intro p contacts bs h; simp [sendEmailBatchSlices] at h
  | succ n ih =>
    intro p contacts bs h hlim
    simp only [sendEmailBatchSlices] at h
    split at h
    · rename_i hlen
      cases h
      exact (List.length_eq_zero.mp hlen).symm
    · split at h
      · rename_i hge
        cases h
        simp only [List.foldl_cons, List.foldl_nil] at hlim
        omega
      · cases hrest : sendEmailBatchSlices cfg env cid batchSize n
            (processBatch cfg env cid p (contacts.take batchSize)) (contacts.drop batchSize) with
        | none => rw [hrest] at h; simp at h
        | some rest =>
          rw [hrest] at h
          simp only [Option.map_some', Option.some.injEq] at h
          subst h
          rw [List.flatten_cons, ih _ _ rest hrest hlim, List.take_append_drop]

/-- With a batch size of at least one the loop of `sendEmailBatch` forms its
batches within one round more than there are contacts. -/
theorem sendEmailBatchSlices_total (cfg : Config) (env : Env) (cid batchSize : Nat)
    (hb : 1 ≤ batchSize) (fuel : Nat) (p : State × Results) (contacts : List Contact)
    (h : contacts.length < fuel) :
    ∃ bs, sendEmailBatchSlices cfg env cid batchSize fuel p contacts = some bs := by
  obtain ⟨r, hr⟩ := sendEmailBatchLoop_total cfg env cid batchSize hb fuel p contacts h
  rw [sendEmailBatchLoop_slices] at hr
  cases hs : sendEmailBatchSlices cfg env cid batchSize fuel p contacts with
  | none => rw [hs] at hr; simp at hr
  | some bs => exact ⟨bs, rfl⟩

theorem sentEmailsOf_saveSentEmail (env : Env) (st : State) (e n status : String) :
    sentEmailsOf (saveSentEmail env st e n status) =
      sentEmailsOf st ++ (if status = "sent" then [e] else []) := by
  unfold sentEmailsOf saveSentEmail
  by_cases h : status = "sent"
  · simp [List.filter_append, h, List.filter_cons]
  · simp [List.filter_append, h, List.filter_cons]

theorem dbLogs_logToDatabase (env : Env) (st : State) (cid : Nat) (c : Contact) :
    dbLogs (logToDatabase env st cid c) =
      dbLogs st ++ (if inserts env st c = true then [logRow env cid c] else []) ∧
    (logToDatabase env st cid c).sql.isSome = st.sql.isSome := by
  unfold logToDatabase dbLogs inserts
  cases hs : st.sql with
  | none => simp [hs]
  | some db =>
    by_cases hq : env.faults.logInsert c.email = true
    · simp [hq, hs]
    · simp [hq, hs, logRow]

theorem answered_refl (env : Env) (cid : Nat) (p : State × Results) :
    Answered env cid p p [] := by
  refine ⟨?_, ?_, ?_, ?_, rfl⟩ <;> simp

theorem answered_append {env : Env} {cid : Nat} {p q r : State × Results}
    {i1 i2 : List Contact} (h1 : Answered env cid p q i1) (h2 : Answered env cid q r i2) :
    Answered env cid p r (i1 ++ i2) := by
  obtain ⟨a2, a3, a4, a5, a6⟩ := h1
  obtain ⟨b2, b3, b4, b5, b6⟩ := h2
  have hins : ∀ c, inserts env q.1 c = inserts env p.1 c := by
    intro c
    unfold inserts
    rw [a6]
  refine ⟨?_, ?_, ?_, ?_, b6.trans a6⟩
  · rw [b2, a2, List.filter_append, List.length_append]; omega
  · rw [b3, a3, List.filter_append, List.length_append]; omega
  · rw [b4, a4, List.filter_append, List.map_append, List.append_assoc]
  · rw [b5, a5, List.filter_append, List.map_append, List.append_assoc]
    simp only [hins]

/-- The first segment handles no answer. -/
theorem unsubscribeStage_answered (env : Env) (cid : Nat) (p : State × Results) (c : Contact) :
    Answered env cid p (unsubscribeStage env p c).1 [] := by
  unfold unsubscribeStage
  split
  · refine ⟨?_, ?_, ?_, ?_, rfl⟩
    · simp
    · simp
    · simp [sentEmailsOf_saveSentEmail]
    · simp [dbLogs, saveSentEmail]
  · exact answered_refl env cid p

/-- The second segment handles no answer. -/
theorem sendStage_answered (cfg : Config) (env : Env) (cid : Nat) (p : State × Results)
    (c : Contact) : Answered env cid p (sendStage cfg env cid p c).1 [] := by
  unfold sendStage
  split
  · refine ⟨?_, ?_, ?_, ?_, rfl⟩ <;> simp
  · split
    · refine ⟨?_, ?_, ?_, ?_, rfl⟩ <;> simp
    · refine ⟨?_, ?_, ?_, ?_, rfl⟩ <;> simp [sentEmailsOf, dbLogs]

/-- The third segment handles the answer for its contact. -/
theorem completionStage_answered (env : Env) (cid : Nat) (q : State × Results) (c : Contact) :
    Answered env cid q (completionStage env cid q c) [c] := by
  unfold completionStage Answered
  cases h : env.resend c.email with
  | ok id =>
    have ha : accepted env c = true := by simp [accepted, h]
    obtain ⟨hl1, hl2⟩ := dbLogs_logToDatabase env
      (saveSentEmail env q.1 c.email "persistent-campaign" "sent") cid c
    have hi : inserts env (saveSentEmail env q.1 c.email "persistent-campaign" "sent") c =
        inserts env q.1 c := rfl
    simp only []
    refine ⟨?_, ?_, ?_, ?_, ?_⟩
    · simp [ha]
    · simp [ha]
    · simp [sentEmailsOf, logToDatabase_sent_emails, saveSentEmail, List.filter_append, ha]
    · rw [hl1, hi]
      by_cases hin : inserts env q.1 c = true
      · simp [ha, hin, dbLogs, saveSentEmail]
      · simp [ha, hin, dbLogs, saveSentEmail]
    · rw [hl2]
      rfl
  | error m =>
    have ha : accepted env c = false := by simp [accepted, h]
    simp only []
    refine ⟨?_, ?_, ?_, ?_, rfl⟩
    · simp [ha]
    · simp [ha]
    · simp [sentEmailsOf_saveSentEmail, ha]
    · simp [ha, dbLogs, saveSentEmail]
  | throws m =>
    have ha : accepted env c = false := by simp [accepted, h]
    simp only []
    refine ⟨?_, ?_, ?_, ?_, rfl⟩
    · simp [ha]
    · simp [ha]
    · simp [sentEmailsOf_saveSentEmail, ha]
    · simp [ha, dbLogs, saveSentEmail]

theorem runStage_answered {env : Env} {cid : Nat} (f : State × Results → Contact →
      (State × Results) × Bool)
    (hf : ∀ s c, Answered env cid s (f s c).1 []) :
    ∀ (l : List Contact) (p : State × Results), Answered env cid p (runStage f p l).1 [] := by
  intro l
  induction l with
  | nil => intro p; exact answered_refl env cid p
  | cons c cs ih =>
    intro p
    simp only [runStage]
    exact answered_append (hf p c) (ih (f p c).1)

theorem foldl_completionStage_answered (env : Env) (cid : Nat) :
    ∀ (l : List Contact) (q : State × Results),
      Answered env cid q (l.foldl (completionStage env cid) q) l := by
  intro l
  induction l with
  | nil => intro q; exact answered_refl env cid q
  | cons c cs ih =>
    intro q
    simp only [List.foldl_cons]
    exact answered_append (completionStage_answered env cid q c) (ih _)

/-- A batch calls the transport for some of its contacts, in batch order, and
handles every answer. -/
theorem processBatch_dispatched (cfg : Config) (env : Env) (cid : Nat) (p : State × Results)
    (batch : List Contact) :
    ∃ issued : List Contact, issued.Sublist batch ∧
      Dispatched env cid p (processBatch cfg env cid p batch) issued := by
  have hA := runStage_answered (unsubscribeStage env)
    (fun s c => unsubscribeStage_answered env cid s c) batch p
  have hAc : (runStage (unsubscribeStage env) p batch).1.1.calls = p.1.calls :=
    (runStage_induct (unsubscribeStage env) (fun s => s.1.calls = p.1.calls)
      (fun _ => True) (fun _ => True)
      (fun s c _ hs => ⟨(unsubscribeStage_calls env s c).trans hs, fun _ => trivial⟩)
      batch p (fun _ _ => trivial) rfl).1
  have hB := runStage_answered (sendStage cfg env cid)
    (fun s c => sendStage_answered cfg env cid s c)
    (runStage (unsubscribeStage env) p batch).2 (runStage (unsubscribeStage env) p batch).1
  have hBc := runStage_sendStage_calls cfg env cid (runStage (unsubscribeStage env) p batch).2
    (runStage (unsubscribeStage env) p batch).1
  have hC := foldl_completionStage_answered env cid
    (runStage (sendStage cfg env cid) (runStage (unsubscribeStage env) p batch).1
      (runStage (unsubscribeStage env) p batch).2).2
    (runStage (sendStage cfg env cid) (runStage (unsubscribeStage env) p batch).1
      (runStage (unsubscribeStage env) p batch).2).1
  have hCc := (foldl_completionStage_counted env cid
    (runStage (sendStage cfg env cid) (runStage (unsubscribeStage env) p batch).1
      (runStage (unsubscribeStage env) p batch).2).2
    (runStage (sendStage cfg env cid) (runStage (unsubscribeStage env) p batch).1
      (runStage (unsubscribeStage env) p batch).2).1).1
  refine ⟨(runStage (sendStage cfg env cid) (runStage (unsubscribeStage env) p batch).1
    (runStage (unsubscribeStage env) p batch).2).2, ?_, ?_, ?_⟩
  · exact (runStage_sublist _ _ _).trans (runStage_sublist _ _ _)
  · unfold processBatch
    simp only []
    rw [hCc, hBc, hAc]
  · have := answered_append (answered_append hA hB) hC
    simpa [processBatch] using this

theorem dispatched_append {env : Env} {cid : Nat} {p q r : State × Results}
    {i1 i2 : List Contact} (h1 : Dispatched env cid p q i1) (h2 : Dispatched env cid q r i2) :
    Dispatched env cid p r (i1 ++ i2) := by
  refine ⟨?_, answered_append h1.2 h2.2⟩
  rw [h2.1, h1.1, List.map_append, List.append_assoc]

/-- The dispatch calls the transport for some of the contacts, in list order
and at most once for each, and handles every answer. -/
theorem sendEmailBatchLoop_dispatched (cfg : Config) (env : Env) (cid batchSize : Nat) :
    ∀ (fuel : Nat) (p r : State × Results) (contacts : List Contact),
      sendEmailBatchLoop cfg env cid batchSize fuel p contacts = some r →
      ∃ issued : List Contact, issued.Sublist contacts ∧ Dispatched env cid p r issued := by
  intro fuel
  induction fuel with
  | zero => intro p r contacts h; simp [sendEmailBatchLoop] at h
  | succ n ih =>
    intro p r contacts h
    simp only [sendEmailBatchLoop] at h
    split at h
    · cases h
      exact ⟨[], List.nil_sublist _, by simp, answered_refl env cid p⟩
    · obtain ⟨i1, hs1, hd1⟩ := processBatch_dispatched cfg env cid p (contacts.take batchSize)
      split at h
      · cases h
        exact ⟨i1, hs1.trans (List.take_sublist _ _), hd1⟩
      · obtain ⟨i2, hs2, hd2⟩ := ih _ _ _ h
        refine ⟨i1 ++ i2, ?_, dispatched_append hd1 hd2⟩
        have := List.Sublist.append hs1 hs2
        rwa [List.take_append_drop] at this

theorem unsubscribeStage_accounts (env : Env) (p : State × Results) (c : Contact) :
    (unsubscribeStage env p c).1.2.total + (if (unsubscribeStage env p c).2 = true then 1 else 0) =
      p.2.total + 1 := by
  unfold unsubscribeStage Results.total
  split
  · simp only []
    simp
    omega
  · simp

theorem sendStage_accounts (cfg : Config) (env : Env) (cid : Nat) (p : State × Results)
    (c : Contact) :
    (sendStage cfg env cid p c).1.2.total +
        (if (sendStage cfg env cid p c).2 = true then 1 else 0) ≤ p.2.total + 1 ∧
    (getTodaysSentCount env p.1 < cfg.DAILY_LIMIT →
      (sendStage cfg env cid p c).1.2.total +
        (if (sendStage cfg env cid p c).2 = true then 1 else 0) = p.2.total + 1) := by
  unfold sendStage Results.total
  by_cases hr : wasEmailSentRecently env p.1 c.email cid = true
  · rw [if_pos hr]
    simp only []
    refine ⟨by simp; omega, fun _ => by simp; omega⟩
  · rw [if_neg hr]
    by_cases hl : getTodaysSentCount env p.1 ≥ cfg.DAILY_LIMIT
    · rw [if_pos hl]
      refine ⟨by simp, fun h => by omega⟩
    · rw [if_neg hl]
      refine ⟨by simp, fun _ => by simp⟩

theorem completionStage_accounts (env : Env) (cid : Nat) (q : State × Results) (c : Contact) :
    (completionStage env cid q c).2.total = q.2.total + 1 ∧
    getTodaysSentCount env q.1 ≤ getTodaysSentCount env (completionStage env cid q c).1 := by
  unfold completionStage Results.total
  cases env.resend c.email with
  | ok id =>
    simp only []
    refine ⟨by omega, ?_⟩
    rw [getTodaysSentCount_logToDatabase, getTodaysSentCount_saveSentEmail]
    omega
  | error m =>
    simp only []
    refine ⟨by omega, ?_⟩
    rw [getTodaysSentCount_saveSentEmail]
    omega
  | throws m =>
    simp only []
    refine ⟨by omega, ?_⟩
    rw [getTodaysSentCount_saveSentEmail]
    omega

theorem runStage_unsubscribeStage_accounts (env : Env) :
    ∀ (l : List Contact) (p : State × Results),
      (runStage (unsubscribeStage env) p l).1.2.total +
          (runStage (unsubscribeStage env) p l).2.length = p.2.total + l.length ∧
      getTodaysSentCount env (runStage (unsubscribeStage env) p l).1.1 =
        getTodaysSentCount env p.1 := by
  intro l
  induction l with
  | nil => intro p; simp [runStage]
  | cons c cs ih =>
    intro p
    simp only [runStage]
    obtain ⟨h1, h2⟩ := ih (unsubscribeStage env p c).1
    have h3 := unsubscribeStage_accounts env p c
    have h4 := unsubscribeStage_count env p c
    refine ⟨?_, h2.trans h4⟩
    by_cases hk : (unsubscribeStage env p c).2 = true
    · simp only [hk, if_true, List.length_cons] at h3 ⊢
      omega
    · simp only [hk, Bool.false_eq_true, if_false, List.length_cons] at h3 ⊢
      omega

theorem runStage_sendStage_accounts (cfg : Config) (env : Env) (cid : Nat) :
    ∀ (l : List Contact) (p : State × Results),
      ((runStage (sendStage cfg env cid) p l).1.2.total +
          (runStage (sendStage cfg env cid) p l).2.length ≤ p.2.total + l.length ∧
       (getTodaysSentCount env p.1 < cfg.DAILY_LIMIT →
        (runStage (sendStage cfg env cid) p l).1.2.total +
          (runStage (sendStage cfg env cid) p l).2.length = p.2.total + l.length)) ∧
      getTodaysSentCount env (runStage (sendStage cfg env cid) p l).1.1 =
        getTodaysSentCount env p.1 := by
  intro l
  induction l with
  | nil => intro p; simp [runStage]
  | cons c cs ih =>
    intro p
    simp only [runStage]
    obtain ⟨⟨h1, h1e⟩, h2⟩ := ih (sendStage cfg env cid p c).1
    obtain ⟨h3, h3e⟩ := sendStage_accounts cfg env cid p c
    have h4 := sendStage_count cfg env cid p c
    refine ⟨⟨?_, ?_⟩, h2.trans h4⟩
    · by_cases hk : (sendStage cfg env cid p c).2 = true
      · simp only [hk, if_true, List.length_cons] at h3 ⊢
        omega
      · simp only [hk, Bool.false_eq_true, if_false, List.length_cons] at h3 ⊢
        omega
    · intro hlim
      have h5 := h1e (by rw [h4]; exact hlim)
      have h6 := h3e hlim
      by_cases hk : (sendStage cfg env cid p c).2 = true
      · simp only [hk, if_true, List.length_cons] at h6 ⊢
        omega
      · simp only [hk, Bool.false_eq_true, if_false, List.length_cons] at h6 ⊢
        omega

theorem foldl_completionStage_accounts (env : Env) (cid : Nat) :
    ∀ (l : List Contact) (q : State × Results),
      (l.foldl (completionStage env cid) q).2.total = q.2.total + l.length ∧
      getTodaysSentCount env q.1 ≤
        getTodaysSentCount env (l.foldl (completionStage env cid) q).1 := by
  intro l
  induction l with
  | nil => intro q; simp
  | cons c cs ih =>
    intro q
    simp only [List.foldl_cons, List.length_cons]
    obtain ⟨h1, h2⟩ := ih (completionStage env cid q c)
    obtain ⟨h3, h4⟩ := completionStage_accounts env cid q c
    exact ⟨by omega, le_trans h4 h2⟩

/-- A batch adds at most one to the counters per contact, exactly one below the
daily limit, and does not lower the count of the day. -/
theorem processBatch_accounts (cfg : Config) (env : Env) (cid : Nat) (p : State × Results)
    (batch : List Contact) :
    (processBatch cfg env cid p batch).2.total ≤ p.2.total + batch.length ∧
    (getTodaysSentCount env p.1 < cfg.DAILY_LIMIT →
      (processBatch cfg env cid p batch).2.total = p.2.total + batch.length) ∧
    getTodaysSentCount env p.1 ≤ getTodaysSentCount env (processBatch cfg env cid p batch).1 := by
  obtain ⟨hA, hAc⟩ := runStage_unsubscribeStage_accounts env batch p
  obtain ⟨⟨hB, hBe⟩, hBc⟩ := runStage_sendStage_accounts cfg env cid
    (runStage (unsubscribeStage env) p batch).2 (runStage (unsubscribeStage env) p batch).1
  obtain ⟨hC, hCc⟩ := foldl_completionStage_accounts env cid
    (runStage (sendStage cfg env cid) (runStage (unsubscribeStage env) p batch).1
      (runStage (unsubscribeStage env) p batch).2).2
    (runStage (sendStage cfg env cid) (runStage (unsubscribeStage env) p batch).1
      (runStage (unsubscribeStage env) p batch).2).1
  rw [hBc, hAc] at hCc
  unfold processBatch
  simp only []
  refine ⟨by omega, ?_, hCc⟩
  intro hlim
  have := hBe (by rw [hAc]; exact hlim)
  omega

/-- The dispatch adds at most one to the counters per contact, and exactly one
per contact when it ends below the daily limit. -/
theorem sendEmailBatchLoop_accounts (cfg : Config) (env : Env) (cid batchSize : Nat) :
    ∀ (fuel : Nat) (p r : State × Results) (contacts : List Contact),
      sendEmailBatchLoop cfg env cid batchSize fuel p contacts = some r →
      r.2.total ≤ p.2.total + contacts.length ∧
      (getTodaysSentCount env r.1 < cfg.DAILY_LIMIT →
        r.2.total = p.2.total + contacts.length) ∧
      getTodaysSentCount env p.1 ≤ getTodaysSentCount env r.1 := by
  intro fuel
  induction fuel with
  | zero => intro p r contacts h; simp [sendEmailBatchLoop] at h
  | succ n ih =>
    intro p r contacts h
    simp only [sendEmailBatchLoop] at h
    have hlen : (contacts.take batchSize).length + (contacts.drop batchSize).length =
        contacts.length := by
      rw [← List.length_append, List.take_append_drop]
    obtain ⟨h1, h1e, h1c⟩ := processBatch_accounts cfg env cid p (contacts.take batchSize)
    split at h
    · rename_i h0
      cases h
      exact ⟨by omega, fun _ => by omega, le_rfl⟩
    · split at h
      · rename_i hge
        cases h
        exact ⟨by omega, fun hlim => by omega, h1c⟩
      · rename_i hlt
        obtain ⟨h2, h2e, h2c⟩ := ih _ _ _ h
        refine ⟨by omega, ?_, le_trans h1c h2c⟩
        intro hlim
        have := h2e hlim
        have := h1e (by omega)
        omega

theorem matchesBodyClose_tag (tag post : List Char)
    (h : tag.map Char.toLower = "</body>".data) : matchesBodyClose (tag ++ post) = true := by
  have hlen : tag.length = 7 := by
    have := congrArg List.length h
    simpa using this
  unfold matchesBodyClose
  rw [List.take_left' hlen, h]
  rfl

theorem closesBody_of_matches (html : List Char) (h : matchesBodyClose html = true) :
    (html.take 7).map Char.toLower = "</body>".data := by
  unfold matchesBodyClose at h
  exact eq_of_beq h

/-- The first closing body tag of a text that holds one is what
`replaceBodyClose` replaces. -/
theorem replaceBodyClose_first (replacement : List Char) :
    ∀ html : List Char, closesBody html →
      ∃ pre tag post, FirstBodyClose html pre tag post ∧
        replaceBodyClose replacement html = pre ++ replacement ++ post := by
  intro html
  induction html with
  | nil =>
    rintro ⟨pre, tag, post, h, ht⟩
    have hlen : tag.length = 7 := by
      have := congrArg List.length ht
      simpa using this
    have := congrArg List.length h
    simp only [List.length_nil, List.length_append] at this
    omega
  | cons c cs ih =>
    intro hclose
    by_cases hm : matchesBodyClose (c :: cs) = true
    · refine ⟨[], (c :: cs).take 7, (c :: cs).drop 7, ⟨?_, closesBody_of_matches _ hm, ?_⟩, ?_⟩
      · simp only [List.nil_append]
        exact (List.take_append_drop 7 (c :: cs)).symm
      · intro k hk
        exact absurd hk (Nat.not_lt_zero k)
      · simp only [replaceBodyClose, hm, if_true, List.nil_append]
        rfl
    · obtain ⟨pre, tag, post, h, ht⟩ := hclose
      cases pre with
      | nil =>
        rw [List.nil_append] at h
        rw [h, matchesBodyClose_tag tag post ht] at hm
        exact absurd rfl hm
      | cons a pre1 =>
        simp only [List.cons_append, List.cons.injEq] at h
        obtain ⟨rfl, hcs⟩ := h
        obtain ⟨pre0, tag0, post0, ⟨h0, ht0, hmin⟩, hrep⟩ := ih ⟨pre1, tag, post, hcs, ht⟩
        refine ⟨c :: pre0, tag0, post0, ⟨?_, ht0, ?_⟩, ?_⟩
        · simp only [List.cons_append, List.cons.injEq, true_and]
          exact h0
        · intro k hk
          cases k with
          | zero => simpa using hm
          | succ k1 =>
            simp only [List.drop_succ_cons]
            exact hmin k1 (by simpa using hk)
        · simp only [replaceBodyClose, hm, Bool.false_eq_true, if_false, List.cons_append,
            List.cons.injEq, true_and]
          exact hrep

/-- A text without a closing body tag is left as it is. -/
theorem replaceBodyClose_none (replacement : List Char) :
    ∀ html : List Char, ¬ closesBody html → replaceBodyClose replacement html = html := by
  intro html
  induction html with
  | nil => intro _; rfl
  | cons c cs ih =>
    intro hno
    have hm : ¬ matchesBodyClose (c :: cs) = true := by
      intro hm
      exact hno ⟨[], (c :: cs).take 7, (c :: cs).drop 7,
        by simp only [List.nil_append]; exact (List.take_append_drop 7 (c :: cs)).symm,
        closesBody_of_matches _ hm⟩
    have hcs : ¬ closesBody cs := by
      rintro ⟨pre, tag, post, h, ht⟩
      exact hno ⟨c :: pre, tag, post, by simp [h], ht⟩
    simp only [replaceBodyClose, hm, Bool.false_eq_true, if_false, ih hcs]

theorem includes_iff (s t : List Char) : includes s t = true ↔ t <:+: s := by
  simp [includes]

set_option maxRecDepth 100000 in
/-- The footer holds the word `unsubscribe`, whatever the address. -/
theorem unsubscribeFooter_includes (email : String) :
    "unsubscribe".data <:+: unsubscribeFooter email := by
  have h : "unsubscribe".data <:+: footerTail.data := by decide
  unfold unsubscribeFooter
  simp only [String.data_append]
  exact h.trans (List.infix_append _ _ _)

theorem hexDigit_mem (n : Nat) : hexDigit n ∈ "0123456789ABCDEF".data := by
  unfold hexDigit
  rcases Nat.lt_or_ge n 16 with h | h
  · interval_cases n <;> decide
  · rw [List.getD_eq_default _ _ (by simpa using h)]
    decide

/-- The encoded address holds no dollar sign. -/
theorem encodeURIComponent_no_dollar (s : String) : '$' ∉ (encodeURIComponent s).data := by
  unfold encodeURIComponent
  simp only [List.mem_flatMap, not_exists, not_and]
  intro c _ hc
  by_cases hu : isUnreserved c = true
  · rw [if_pos hu, List.mem_singleton] at hc
    rw [← hc] at hu
    exact absurd hu (by decide)
  · rw [if_neg hu] at hc
    simp only [List.mem_flatMap, List.mem_cons, List.mem_singleton, List.not_mem_nil,
      or_false] at hc
    obtain ⟨b, _, h1 | h2 | h3⟩ := hc
    · exact absurd h1 (by decide)
    · have := hexDigit_mem (b / 16)
      rw [← h2] at this
      exact absurd this (by decide)
    · have := hexDigit_mem (b % 16)
      rw [← h3] at this
      exact absurd this (by decide)

set_option maxRecDepth 100000 in
/-- The replacement text holds no dollar sign, so `replace` expands no
replacement pattern in it. -/
theorem unsubscribeFooter_no_dollar (email : String) : '$' ∉ unsubscribeFooter email := by
  have h1 : '$' ∉ footerHead.data := by decide
  have h2 : '$' ∉ footerTail.data := by decide
  have h3 := encodeURIComponent_no_dollar email
  unfold unsubscribeFooter
  simp only [String.data_append, List.mem_append, not_or]
  exact ⟨⟨⟨h1, h3⟩, h2⟩, by decide⟩

theorem unsubscribeFooter_eq (email : String) :
    unsubscribeFooter email = footerSnippet email ++ "</body>".data := by
  unfold unsubscribeFooter footerSnippet
  simp only [String.data_append]

/-- What the lines that add the unsubscribe link do to a content. -/
theorem addUnsubscribeLink_spec (html : List Char) (email : String) :
    (includes html "unsubscribe".data = true → addUnsubscribeLink html email = html) ∧
    (includes html "unsubscribe".data = false → closesBody html →
      ∃ pre tag post, FirstBodyClose html pre tag post ∧
        addUnsubscribeLink html email =
          pre ++ footerSnippet email ++ "</body>".data ++ post) ∧
    (includes html "unsubscribe".data = false → ¬ closesBody html →
      addUnsubscribeLink html email = html) ∧
    (closesBody html → includes (addUnsubscribeLink html email) "unsubscribe".data = true) := by
  have hpos : includes html "unsubscribe".data = true → addUnsubscribeLink html email = html := by
    intro h
    unfold addUnsubscribeLink
    simp [h]
  have hneg : includes html "unsubscribe".data = false → closesBody html →
      ∃ pre tag post, FirstBodyClose html pre tag post ∧
        addUnsubscribeLink html email =
          pre ++ footerSnippet email ++ "</body>".data ++ post := by
    intro h hclose
    obtain ⟨pre, tag, post, hfirst, hrep⟩ :=
      replaceBodyClose_first (unsubscribeFooter email) html hclose
    refine ⟨pre, tag, post, hfirst, ?_⟩
    unfold addUnsubscribeLink
    simp only [h, Bool.not_false, if_true]
    rw [hrep, unsubscribeFooter_eq]
    simp only [List.append_assoc]
  refine ⟨hpos, hneg, ?_, ?_⟩
  · intro h hno
    unfold addUnsubscribeLink
    simp only [h, Bool.not_false, if_true]
    exact replaceBodyClose_none _ html hno
  · intro hclose
    cases h : includes html "unsubscribe".data with
    | true => rw [hpos h]; exact h
    | false =>
      obtain ⟨pre, tag, post, _, hrep⟩ :=
        replaceBodyClose_first (unsubscribeFooter email) html hclose
      have hraw : addUnsubscribeLink html email = pre ++ unsubscribeFooter email ++ post := by
        unfold addUnsubscribeLink
        simp only [h, Bool.not_false, if_true]
        exact hrep
      rw [hraw, includes_iff]
      exact (unsubscribeFooter_includes email).trans (List.infix_append _ _ _)

theorem processBatch_nil (cfg : Config) (env : Env) (cid : Nat) (p : State × Results) :
    processBatch cfg env cid p [] = p := rfl

/-- With a batch size of zero the loop of `sendEmailBatch` does not end on a
list that is not empty while the count of the day is below the daily limit:
every round dispatches the empty batch and leaves the list as it is. -/
theorem sendEmailBatchLoop_zero (cfg : Config) (env : Env) (cid : Nat) (p : State × Results)
    (contacts : List Contact) (hne : contacts ≠ [])
    (hlim : getTodaysSentCount env p.1 < cfg.DAILY_LIMIT) :
    ∀ fuel : Nat, sendEmailBatchLoop cfg env cid 0 fuel p contacts = none := by
  intro fuel
  induction fuel with
  | zero => rfl
  | succ n ih =>
    have hlen : ¬ contacts.length = 0 := fun h => hne (List.length_eq_zero.mp h)
    have hge : ¬ getTodaysSentCount env p.1 ≥ cfg.DAILY_LIMIT := by omega
    simp only [sendEmailBatchLoop, hlen, if_false, List.take_zero, processBatch_nil, hge,
      List.drop_zero]
    exact ih

/-- With no write of `sent_emails.json` failing, the third segment with
fallible writes is the third segment. -/
theorem completionStageWithWrites_sound (env : Env) (cid : Nat) (writeError : String)
    (p : State × Results) (c : Contact) :
    completionStageWithWrites env cid (fun _ => false) (fun _ => false) writeError p c =
      some (completionStage env cid p c) := by
  unfold completionStageWithWrites completionStage catchBlock
  cases env.resend c.email <;> simp

theorem foldlM_completionStageWithWrites (env : Env) (cid : Nat) (writeError : String) :
    ∀ (l : List Contact) (p : State × Results),
      l.foldlM (completionStageWithWrites env cid (fun _ => false) (fun _ => false) writeError)
        p = some (l.foldl (completionStage env cid) p) := by
  intro l
  induction l with
  | nil => intro p; rfl
  | cons c cs ih =>
    intro p
    rw [List.foldlM_cons, completionStageWithWrites_sound]
    exact ih _

theorem processBatchWithWrites_sound (cfg : Config) (env : Env) (cid : Nat)
    (writeError : String) (p : State × Results) (batch : List Contact) :
    processBatchWithWrites cfg env cid (fun _ => false) (fun _ => false) writeError p batch =
      some (processBatch cfg env cid p batch) := by
  unfold processBatchWithWrites processBatch
  exact foldlM_completionStageWithWrites env cid writeError _ _

/-- With no write of `sent_emails.json` failing, the dispatch with fallible
writes is `sendEmailBatch`. -/
theorem sendEmailBatchWithWrites_sound (cfg : Config) (env : Env) (st : State)
    (contacts : List Contact) (campaign : Option Campaign) (batchSize : Nat)
    (writeError : String) :
    sendEmailBatchWithWrites cfg env st contacts campaign batchSize (fun _ => false)
      (fun _ => false) writeError = sendEmailBatch cfg env st contacts campaign batchSize := by
  unfold sendEmailBatchWithWrites sendEmailBatch
  generalize contacts.length + 1 = fuel
  generalize (st, emptyResults) = p
  induction fuel generalizing p contacts with
  | zero => rfl
  | succ n ih =>
    simp only [sendEmailBatchLoopWithWrites, sendEmailBatchLoop, processBatchWithWrites_sound]
    split
    · rfl
    · split
      · rfl
      · exact ih _ _

/-- Suppression is checked first and is decisive for every address the
lookup finds: the callback ends in its first segment, adds one to `skipped`,
reports `<email> - Unsubscribed` and makes no transport call; `sendEmailBatch`
as a whole makes no transport call for the address; every batch counts each
such contact as skipped and reports it. -/
theorem suppression_decisive_when_found :
    (∀ (env : Env) (p : State × Results) (c : Contact),
        suppressed env p.1 c.email →
        unsubscribeStage env p c =
          ((saveSentEmail env p.1 c.email "persistent-campaign" "skipped-unsubscribed",
            { p.2 with skipped := p.2.skipped + 1,
                       details := p.2.details ++ [c.email ++ " - Unsubscribed"] }), false)) ∧
    (∀ (cfg : Config) (env : Env) (st : State) (contacts : List Contact)
        (campaign : Option Campaign) (batchSize : Nat) (r : State × Results) (e : String),
        sendEmailBatch cfg env st contacts campaign batchSize = some r →
        suppressed env st e →
        r.1.calls.count e = st.calls.count e) ∧
    (∀ (cfg : Config) (env : Env) (cid : Nat) (p : State × Results)
        (batch : List Contact) (c : Contact),
        c ∈ batch → suppressed env p.1 c.email →
        (c.email ++ " - Unsubscribed") ∈ (processBatch cfg env cid p batch).2.details ∧
        p.2.skipped + batch.countP (fun x => isEmailUnsubscribed env p.1 x.email) ≤
          (processBatch cfg env cid p batch).2.skipped ∧
        1 ≤ batch.countP (fun x => isEmailUnsubscribed env p.1 x.email)) := by
  refine ⟨?_, ?_, ?_⟩
  · intro env p c h
    have hu := (isEmailUnsubscribed_iff env p.1 c.email).mpr h
    simp [unsubscribeStage, hu]
  · intro cfg env st contacts campaign batchSize r e h he
    exact sendEmailBatch_no_call cfg env st contacts campaign batchSize r h e he
  · intro cfg env cid p batch c hc h
    have hu := (isEmailUnsubscribed_iff env p.1 c.email).mpr h
    obtain ⟨h1, h2⟩ := processBatch_reports cfg env cid p batch
    refine ⟨h2 c hc hu, h1, ?_⟩
    exact List.countP_pos_iff.mpr ⟨c, hc, hu⟩

/-- The window of `wasEmailSentRecently`.  With a database whose query answers
it is true exactly when `email_logs` holds a `sent` row for the address and the
campaign less than 7 days old, so it is false when every such row is 7 days +
1 second old or older, and it is false when the query rejects.  Without a
database the answer is that of `wasEmailSentToday`: true exactly when
`sent_emails.json` holds a `sent` record for the address (up to letter case,
whatever the campaign) of the current UTC day. -/
theorem wasEmailSentRecently_window :
    (∀ (env : Env) (st : State) (db : Database) (e : String) (C : Nat),
        st.sql = some db → env.faults.recentQuery e = false →
        (wasEmailSentRecently env st e C = true ↔
          ∃ l ∈ db.email_logs, l.recipientEmail = e ∧ l.campaignId = some C ∧
            env.now < l.sentAt + SEVEN_DAYS ∧ l.status = "sent")) ∧
    (∀ (env : Env) (st : State) (db : Database) (e : String) (C : Nat),
        st.sql = some db →
        (∀ l ∈ db.email_logs, l.recipientEmail = e → l.campaignId = some C →
          l.status = "sent" → l.sentAt + SEVEN_DAYS + 1000 ≤ env.now) →
        wasEmailSentRecently env st e C = false) ∧
    (∀ (env : Env) (st : State) (e : String) (C : Nat),
        st.sql = none →
        (wasEmailSentRecently env st e C = true ↔
          ∃ r ∈ st.sent_emails, env.toLowerCase r.email = env.toLowerCase e ∧
            r.date = isoDate env.now ∧ r.status = "sent")) := by
  refine ⟨?_, ?_, ?_⟩
  · intro env st db e C hs hq
    exact wasEmailSentRecently_db_iff env st db e C hs hq
  · intro env st db e C hs hold
    by_cases hq : env.faults.recentQuery e = true
    · exact wasEmailSentRecently_db_fault env st db e C hs hq
    · have hq' : env.faults.recentQuery e = false := by simpa using hq
      rw [← Bool.not_eq_true]
      intro ht
      obtain ⟨l, hl, h1, h2, h3, h4⟩ :=
        (wasEmailSentRecently_db_iff env st db e C hs hq').mp ht
      have := hold l hl h1 h2 h4
      omega
  · intro env st e C hs
    unfold wasEmailSentRecently
    rw [hs]
    exact wasEmailSentToday_iff env st e

theorem getTodaysSentCount_sentOnDay (env : Env) (st : State) :
    getTodaysSentCount env st = sentOnDay (isoDate env.now) st := rfl

/-- With a batch size of at least one `runCampaign` returns. -/
theorem runCampaign_total (cfg : Config) (env : Env) (st : State) (campaign : Option Campaign)
    (hb : 1 ≤ cfg.BATCH_SIZE) : ∃ r, runCampaign cfg env st campaign = some r := by
  unfold runCampaign
  split
  · exact ⟨_, rfl⟩
  · split
    · exact ⟨_, rfl⟩
    · obtain ⟨r, hr⟩ := sendEmailBatch_total cfg env st (contactsToSend cfg env st) campaign
        cfg.BATCH_SIZE hb
      rw [hr]
      exact ⟨_, rfl⟩

/-- The transport calls of a pass of `runCampaign` go to contacts among the
first `DAILY_LIMIT - todaysSent` of the loaded list, in list order, at most one
each, and the pass adds at most that many `sent` records to the day. -/
theorem runCampaign_within_remaining (cfg : Config) (env : Env) (st : State)
    (campaign : Option Campaign) (r : State × Option Results)
    (h : runCampaign cfg env st campaign = some r) :
    (∃ issued : List Contact,
      issued.Sublist ((loadContacts env st).take (cfg.DAILY_LIMIT - getTodaysSentCount env st)) ∧
      r.1.calls = st.calls ++ issued.map (fun c => c.email) ∧
      issued.length ≤ cfg.DAILY_LIMIT - getTodaysSentCount env st) ∧
    getTodaysSentCount env r.1 ≤
      getTodaysSentCount env st + (cfg.DAILY_LIMIT - getTodaysSentCount env st) := by
  unfold runCampaign at h
  split at h
  · cases h
    exact ⟨⟨[], List.nil_sublist _, by simp, Nat.zero_le _⟩, Nat.le_add_right _ _⟩
  · split at h
    · cases h
      exact ⟨⟨[], List.nil_sublist _, by simp, Nat.zero_le _⟩, Nat.le_add_right _ _⟩
    · split at h
      · rename_i r1 hr1
        cases h
        obtain ⟨issued, hs, hc⟩ := sendEmailBatchLoop_calls cfg env _ _ _ _ _ _ hr1
        have h1 := sendEmailBatchLoop_count_le cfg env _ _ _ _ _ _ hr1
        have h2 := contactsToSend_length cfg env st
        have h3 := hs.length_le
        refine ⟨⟨issued, hs, hc, ?_⟩, ?_⟩
        · omega
        · simp only [] at h1 ⊢
          omega
      · cases h

/-- Passes of `runCampaign` on one UTC day that start with the `sent` records
of the day within the limit all return, and end with them within the limit. -/
theorem passes_within_limit (cfg : Config) (hb : 1 ≤ cfg.BATCH_SIZE) (day : Nat) :
    ∀ (runs : List (Env × Option Campaign)) (st : State),
      (∀ run ∈ runs, isoDate run.1.now = day) →
      sentOnDay day st ≤ cfg.DAILY_LIMIT →
      ∃ st1, passes cfg runs st = some st1 ∧ sentOnDay day st1 ≤ cfg.DAILY_LIMIT := by
  intro runs
  induction runs with
  | nil => intro st _ h; exact ⟨st, rfl, h⟩
  | cons run rest ih =>
    intro st hday h
    obtain ⟨r, hr⟩ := runCampaign_total cfg run.1 st run.2 hb
    have hd : isoDate run.1.now = day := hday run (List.mem_cons_self _ _)
    have hle : getTodaysSentCount run.1 r.1 ≤ cfg.DAILY_LIMIT :=
      runCampaign_respects_daily_limit cfg run.1 st run.2 r
        (by rw [getTodaysSentCount_sentOnDay, hd]; exact h) hr
    rw [getTodaysSentCount_sentOnDay, hd] at hle
    obtain ⟨st1, h1, h2⟩ := ih r.1 (fun q hq => hday q (List.mem_cons_of_mem _ hq)) hle
    refine ⟨st1, ?_, h2⟩
    simp only [passes, hr]
    exact h1

/-- A dispatch to a list that fits into what is left of the day never meets
the daily limit at the check of a contact: every contact adds one to the
counters. -/
theorem sendEmailBatchLoop_within_capacity (cfg : Config) (env : Env) (cid batchSize : Nat) :
    ∀ (fuel : Nat) (p r : State × Results) (contacts : List Contact),
      sendEmailBatchLoop cfg env cid batchSize fuel p contacts = some r →
      getTodaysSentCount env p.1 + contacts.length ≤ cfg.DAILY_LIMIT →
      r.2.total = p.2.total + contacts.length := by
  intro fuel
  induction fuel with
  | zero => intro p r contacts h; simp [sendEmailBatchLoop] at h
  | succ n ih =>
    intro p r contacts h hcap
    simp only [sendEmailBatchLoop] at h
    have hlen : (contacts.take batchSize).length + (contacts.drop batchSize).length =
        contacts.length := by
      rw [← List.length_append, List.take_append_drop]
    obtain ⟨_, h1e, _⟩ := processBatch_accounts cfg env cid p (contacts.take batchSize)
    have h1c := processBatch_count_le cfg env cid p (contacts.take batchSize)
    split at h
    · rename_i h0
      cases h
      omega
    · rename_i h0
      have hpos : 0 < contacts.length := Nat.pos_of_ne_zero h0
      have h1 := h1e (by omega)
      split at h
      · rename_i hge
        cases h
        omega
      · rename_i hlt
        have h2 := ih _ _ _ h (by omega)
        omega

/-- A pass of `runCampaign` with contacts loaded and the count of the day below
the limit dispatches the first `min(remaining, n)` contacts of the loaded list,
and each of them adds one to the counters of the pass. -/
theorem runCampaign_dispatches_prefix (cfg : Config) (env : Env) (st : State)
    (campaign : Option Campaign) (hb : 1 ≤ cfg.BATCH_SIZE) (hne : loadContacts env st ≠ [])
    (hlim : getTodaysSentCount env st < cfg.DAILY_LIMIT) :
    ∃ r : State × Results,
      sendEmailBatch cfg env st
          ((loadContacts env st).take
            (min (cfg.DAILY_LIMIT - getTodaysSentCount env st) (loadContacts env st).length))
          campaign cfg.BATCH_SIZE = some r ∧
      runCampaign cfg env st campaign = some (r.1, some r.2) ∧
      r.2.sent + r.2.skipped + r.2.errors =
        min (cfg.DAILY_LIMIT - getTodaysSentCount env st) (loadContacts env st).length := by
  have hpre : (loadContacts env st).take
      (min (cfg.DAILY_LIMIT - getTodaysSentCount env st) (loadContacts env st).length) =
      contactsToSend cfg env st := by
    unfold contactsToSend
    rw [List.take_eq_take, Nat.min_assoc, Nat.min_self]
  rw [hpre]
  obtain ⟨r, hr⟩ := sendEmailBatch_total cfg env st (contactsToSend cfg env st) campaign
    cfg.BATCH_SIZE hb
  have hlen := contactsToSend_length cfg env st
  have htot := sendEmailBatchLoop_within_capacity cfg env _ _ _ _ r _ hr (by
    simp only []
    omega)
  refine ⟨r, hr, ?_, ?_⟩
  · have h0 : ¬ (loadContacts env st).length = 0 := fun h => hne (List.length_eq_zero.mp h)
    have h1 : ¬ cfg.DAILY_LIMIT - getTodaysSentCount env st = 0 := by omega
    simp only [runCampaign, h0, h1, if_false, hr]
  · simp only [Results.total, emptyResults] at htot
    omega

end PersistentCampaign

/-! ## Properties of persistentCampaign.js.js -/

namespace PersistentCampaignJs

theorem isUnsubscribed_of_mem (env : Env) (st : State) (email : String)
    (hq : env.faults.unsubscribeQuery email = false) (h : email ∈ st.db.unsubscribes) :
    isUnsubscribed env st email = true := by
  unfold isUnsubscribed
  simp only [hq, Bool.false_eq_true, if_false, decide_eq_true_eq]
  exact (PersistentCampaign.filter_length_pos_iff _ _).mpr ⟨email, h, by simp⟩

/-- `getAvailableLeads` does not read the campaign of a log row. -/
theorem getAvailableLeads_ignores_campaign (env : Env) (st : State) (limit : Nat)
    (f : EmailLog → Option Nat) :
    getAvailableLeads env (withCampaigns st f) limit = getAvailableLeads env st limit := by
  have h : recentEmailsList env (withCampaigns st f) = recentEmailsList env st := by
    unfold recentEmailsList withCampaigns
    simp only [List.filter_map, List.map_map]
    rfl
  unfold getAvailableLeads
  rw [h]
  rfl

/-- The two ways in which `sendEmail` ends: without a row written to the log and
without an answer of the transport returned, or with the answer returned and
one `sent` row written. -/
theorem sendEmail_cases (env : Env) (st : State) (lead : Lead) (campaign : Campaign) :
    ((sendEmail env st lead campaign).1.db = st.db ∧
      ∀ id, (sendEmail env st lead campaign).2 ≠ SendEmailReturn.result id) ∨
    (∃ id, env.resend lead.email = SendResult.ok id ∧ id ≠ "" ∧
      isUnsubscribed env st lead.email = false ∧ campaign.htmlContent ≠ none ∧
      sendEmail env st lead campaign =
        (logged env st lead campaign.id id, SendEmailReturn.result id)) := by
  unfold sendEmail
  by_cases hu : isUnsubscribed env st lead.email = true
  · left
    rw [if_pos hu]
    exact ⟨rfl, fun id h => by cases h⟩
  · rw [if_neg hu]
    cases hc : campaign.htmlContent with
    | none => left; exact ⟨rfl, fun id h => by cases h⟩
    | some html =>
      simp only []
      cases h : env.resend lead.email with
      | ok id =>
        simp only []
        by_cases hid : id = ""
        · left
          rw [if_pos hid]
          exact ⟨rfl, fun id h => by cases h⟩
        · rw [if_neg hid]
          by_cases hq : env.faults.logInsert lead.email = true
          · left
            rw [if_pos hq]
            exact ⟨rfl, fun id h => by cases h⟩
          · right
            rw [if_neg hq]
            exact ⟨id, rfl, hid, by simpa using hu, by simp, rfl⟩
      | error m => left; exact ⟨rfl, fun id h => by cases h⟩
      | throws m => left; exact ⟨rfl, fun id h => by cases h⟩

/-- With the campaign object of `runCampaign`, which has no `htmlContent`,
`sendEmail` returns `null` for every lead and leaves the transport and the
database untouched. -/
theorem sendEmail_campaign (cfg : Config) (env : Env) (st : State) (lead : Lead) :
    sendEmail env st lead (campaign cfg) = (st, SendEmailReturn.null) := by
  unfold sendEmail campaign
  by_cases hu : isUnsubscribed env st lead.email = true
  · rw [if_pos hu]
  · rw [if_neg hu]

/-- A batch of `runCampaign` changes nothing and adds nothing to `results`. -/
theorem sendBatch_campaign (cfg : Config) (env : Env) (p : State × List SendEmailReturn)
    (batch : List Lead) : sendBatch env (campaign cfg) p batch = p := by
  unfold sendBatch
  induction batch generalizing p with
  | nil => rfl
  | cons lead rest ih =>
    rw [List.foldl_cons, sendEmail_campaign]
    simp only [if_true]
    exact ih p

/-- With a batch size of at least one the loop of `runCampaign` ends, and it
ends where it began. -/
theorem runCampaignLoop_campaign (cfg : Config) (env : Env) (hb : 1 ≤ cfg.BATCH_SIZE) :
    ∀ (fuel : Nat) (p : State × List SendEmailReturn) (availableLeads : List Lead),
      availableLeads.length < fuel →
      runCampaignLoop cfg env fuel p availableLeads = some p := by
  intro fuel
  induction fuel with
  | zero => intro p l h; exact absurd h (Nat.not_lt_zero _)
  | succ n ih =>
    intro p l h
    simp only [runCampaignLoop, sendBatch_campaign]
    split
    · rfl
    · apply ih
      rw [List.length_drop]
      omega

/-- With a batch size of at least one `runCampaign` returns, having made no
transport call and written no row, with an empty list `results`. -/
theorem runCampaign_sends_nothing (cfg : Config) (env : Env) (st : State)
    (hb : 1 ≤ cfg.BATCH_SIZE) : runCampaign cfg env st = some (st, []) := by
  unfold runCampaign
  split
  · rfl
  · split
    · rfl
    · exact runCampaignLoop_campaign cfg env hb _ _ _ (Nat.lt_succ_self _)

/-- The loop of `runCampaign` is the fold of `sendBatch` over the batches it
forms. -/
theorem runCampaignLoop_slices (cfg : Config) (env : Env) :
    ∀ (fuel : Nat) (p : State × List SendEmailReturn) (availableLeads : List Lead),
      runCampaignLoop cfg env fuel p availableLeads =
        (runCampaignSlices cfg fuel availableLeads).map
          (fun bs => bs.foldl (sendBatch env (campaign cfg)) p) := by
  intro fuel
  induction fuel with
  | zero => intro p availableLeads; rfl
  | succ n ih =>
    intro p availableLeads
    simp only [runCampaignLoop, runCampaignSlices]
    split
    · rfl
    · rw [ih, Option.map_map]
      rfl

/-- With a batch size of at least one the loop of `runCampaign` forms its
batches within one round more than there are leads. -/
theorem runCampaignSlices_total (cfg : Config) (hb : 1 ≤ cfg.BATCH_SIZE) :
    ∀ (fuel : Nat) (availableLeads : List Lead), availableLeads.length < fuel →
      ∃ bs, runCampaignSlices cfg fuel availableLeads = some bs := by
  intro fuel
  induction fuel with
  | zero => intro l h; exact absurd h (Nat.not_lt_zero _)
  | succ n ih =>
    intro l h
    simp only [runCampaignSlices]
    split
    · exact ⟨[], rfl⟩
    · obtain ⟨rest, hrest⟩ := ih (l.drop cfg.BATCH_SIZE) (by rw [List.length_drop]; omega)
      exact ⟨l.take cfg.BATCH_SIZE :: rest, by rw [hrest]; rfl⟩

/-- The batches of `runCampaign` for a batch size of at least one: slices that
follow each other and make up the whole list, none empty or longer than the
batch size, all but the last of the batch size. -/
theorem runCampaignSlices_shape (cfg : Config) (hb : 1 ≤ cfg.BATCH_SIZE) :
    ∀ (fuel : Nat) (availableLeads : List Lead) (bs : List (List Lead)),
      runCampaignSlices cfg fuel availableLeads = some bs →
      bs.flatten = availableLeads ∧
      (∀ batch ∈ bs, 1 ≤ batch.length ∧ batch.length ≤ cfg.BATCH_SIZE) ∧
      (∀ batch ∈ bs.dropLast, batch.length = cfg.BATCH_SIZE) := by
  intro fuel
  induction fuel with
  | zero => intro l bs h; simp [runCampaignSlices] at h
  | succ n ih =>
    intro l bs h
    simp only [runCampaignSlices] at h
    have htake : (l.take cfg.BATCH_SIZE).length = min cfg.BATCH_SIZE l.length :=
      List.length_take cfg.BATCH_SIZE l
    split at h
    · rename_i hlen
      cases h
      exact ⟨(List.length_eq_zero.mp hlen).symm, by simp, by simp⟩
    · rename_i hlen
      have hpos : 0 < l.length := Nat.pos_of_ne_zero hlen
      cases hrest : runCampaignSlices cfg n (l.drop cfg.BATCH_SIZE) with
      | none => rw [hrest] at h; simp at h
      | some rest =>
        rw [hrest] at h
        simp only [Option.map_some', Option.some.injEq] at h
        subst h
        obtain ⟨h1, h2, h3⟩ := ih _ rest hrest
        have hdrop : (l.drop cfg.BATCH_SIZE).length = l.length - cfg.BATCH_SIZE :=
          List.length_drop cfg.BATCH_SIZE l
        refine ⟨?_, ?_, ?_⟩
        · rw [List.flatten_cons, h1, List.take_append_drop]
        · intro batch hbatch
          rcases List.mem_cons.mp hbatch with rfl | hbatch
          · rw [htake]; omega
          · exact h2 batch hbatch
        · cases rest with
          | nil => simp
          | cons r rs =>
            intro batch hbatch
            rw [List.dropLast_cons_of_ne_nil (List.cons_ne_nil r rs)] at hbatch
            rcases List.mem_cons.mp hbatch with rfl | hbatch
            · have hr := (h2 r (List.mem_cons_self r rs)).1
              have hle : r.length ≤ (l.drop cfg.BATCH_SIZE).length := by
                rw [← h1]
                simp
              rw [htake]
              omega
            · exact h3 batch hbatch

end PersistentCampaignJs

/-! ## Properties of sequenceAutomation.js.js -/

namespace SequenceAutomationJs

@[simp] theorem updateSubscriber_calls (st : State) (id : Nat) (f : Subscriber → Subscriber) :
    (updateSubscriber st id f).calls = st.calls := rfl

@[simp] theorem updateSubscriber_emailLogs (st : State) (id : Nat) (f : Subscriber → Subscriber) :
    (updateSubscriber st id f).db.emailLogs = st.db.emailLogs := rfl

@[simp] theorem updateSubscriber_emailsSentToday (st : State) (id : Nat)
    (f : Subscriber → Subscriber) :
    (updateSubscriber st id f).emailsSentToday = st.emailsSentToday := rfl

theorem findStep_eq_none_iff (st : State) (sequenceId stepNumber : Nat) :
    findStep st sequenceId stepNumber = none ↔
      ∀ s ∈ st.db.sequenceSteps, s.sequenceId = sequenceId → s.stepNumber = stepNumber →
        s.isActive = false := by
  unfold findStep
  rw [List.find?_eq_none]
  constructor
  · intro h s hs h1 h2
    have := h s hs
    simpa [h1, h2] using this
  · intro h s hs
    by_cases h1 : s.sequenceId = sequenceId
    · by_cases h2 : s.stepNumber = stepNumber
      · simp [h1, h2, h s hs h1 h2]
      · simp [h2]
    · simp [h1]

/-- Without an active step `k + 1` no transport call is made and no delivery
record is written, whatever the lead, the suppression list and the faults are. -/
theorem processSubscriberEmail_no_step (env : Env) (st : State) (subscriber : Subscriber)
    (h : findStep st subscriber.sequenceId (subscriber.currentStep + 1) = none) :
    (processSubscriberEmail env st subscriber).calls = st.calls ∧
    (processSubscriberEmail env st subscriber).db.emailLogs = st.db.emailLogs ∧
    (processSubscriberEmail env st subscriber).emailsSentToday = st.emailsSentToday := by
  unfold processSubscriberEmail
  simp only [h]
  split
  · exact ⟨rfl, rfl, rfl⟩
  · split
    · exact ⟨rfl, rfl, rfl⟩
    · split
      · exact ⟨rfl, rfl, rfl⟩
      · split
        · split <;> exact ⟨rfl, rfl, rfl⟩
        · split
          · exact ⟨rfl, rfl, rfl⟩
          · split <;> exact ⟨rfl, rfl, rfl⟩

/-- The completion branch: the lead is there, active and not found by the
suppression lookup, there is no active step `k + 1`, and no store call rejects. -/
theorem processSubscriberEmail_completes (env : Env) (st : State) (subscriber : Subscriber)
    (lead : Lead)
    (hq1 : env.faults.leadQuery subscriber.leadId = false)
    (hlead : st.db.leads.find? (fun l => l.id == subscriber.leadId) = some lead)
    (hactive : lead.isActive = true)
    (hunsub : isUnsubscribed env st lead.email = false)
    (hq2 : env.faults.stepQuery subscriber.sequenceId (subscriber.currentStep + 1) = false)
    (hstep : findStep st subscriber.sequenceId (subscriber.currentStep + 1) = none)
    (hq3 : env.faults.subscriberUpdate subscriber.id = false) :
    processSubscriberEmail env st subscriber =
      updateSubscriber st subscriber.id (completed env subscriber) := by
  unfold processSubscriberEmail
  simp only [hq1, hlead, hactive, hunsub, hq2, hstep, hq3, Bool.false_eq_true, if_false,
    Bool.not_true, Nat.add_sub_cancel]
  rfl

/-- The success branch: step `k + 1` is sent and logged, and no store call rejects. -/
theorem processSubscriberEmail_success (env : Env) (st : State) (subscriber : Subscriber)
    (lead : Lead) (nextStep : SequenceStep) (template : EmailTemplate) (id : String)
    (hq1 : env.faults.leadQuery subscriber.leadId = false)
    (hlead : st.db.leads.find? (fun l => l.id == subscriber.leadId) = some lead)
    (hactive : lead.isActive = true)
    (hunsub : isUnsubscribed env st lead.email = false)
    (hq2 : env.faults.stepQuery subscriber.sequenceId (subscriber.currentStep + 1) = false)
    (hstep : findStep st subscriber.sequenceId (subscriber.currentStep + 1) = some nextStep)
    (hq3 : env.faults.templateQuery nextStep.templateId = false)
    (htemplate : st.db.emailTemplates.find? (fun t => t.id == nextStep.templateId) = some template)
    (hsend : env.resend lead.email = SendResult.ok id) (hid : id ≠ "")
    (hq4 : env.faults.logInsert lead.email = false)
    (hq5 : env.faults.stepQuery subscriber.sequenceId (subscriber.currentStep + 2) = false)
    (hq6 : env.faults.subscriberUpdate subscriber.id = false) :
    (processSubscriberEmail env st subscriber).db.sequenceSubscribers =
      st.db.sequenceSubscribers.map
        (fun row => if row.id = subscriber.id then advanced env st subscriber row else row) ∧
    (processSubscriberEmail env st subscriber).calls = st.calls ++ [lead.email] ∧
    (processSubscriberEmail env st subscriber).emailsSentToday = st.emailsSentToday + 1 ∧
    (processSubscriberEmail env st subscriber).db.emailLogs = st.db.emailLogs ++
      [{ campaignId := none, recipientEmail := lead.email, sentAt := env.now,
         resendId := id, status := "sent" }] := by
  unfold processSubscriberEmail
  simp only [hq1, hlead, hactive, hunsub, hq2, hstep, hq3, htemplate, Bool.false_eq_true,
    if_false, Bool.not_true, sendSequenceEmail, hsend, hid, hq4, hq5, hq6, if_true]
  exact ⟨rfl, rfl, rfl, rfl⟩

theorem isUnsubscribed_of_not_mem (env : Env) (st : State) (email : String)
    (h : email ∉ st.db.unsubscribes) : isUnsubscribed env st email = false := by
  unfold isUnsubscribed
  split
  · rfl
  · rw [decide_eq_false_iff_not, PersistentCampaign.filter_length_pos_iff]
    rintro ⟨a, ha, hp⟩
    have : a = email := by simpa using hp
    exact h (this ▸ ha)

theorem mem_updateSubscriber (st : State) (id : Nat) (f : Subscriber → Subscriber)
    (row : Subscriber) (h : row ∈ (updateSubscriber st id f).db.sequenceSubscribers) :
    ∃ old ∈ st.db.sequenceSubscribers, row = if old.id = id then f old else old := by
  simp only [updateSubscriber, List.mem_map] at h
  obtain ⟨old, hold, heq⟩ := h
  exact ⟨old, hold, heq.symm⟩

theorem sendSequenceEmail_emailsSentToday (env : Env) (st : State) (lead : Lead) :
    (sendSequenceEmail env st lead).1.emailsSentToday = st.emailsSentToday := by
  unfold sendSequenceEmail
  cases env.resend lead.email with
  | ok id =>
    simp only []
    split
    · rfl
    · split <;> rfl
  | error m => rfl
  | throws m => rfl

/-- `processSubscriberEmail` never lowers the counter `emailsSentToday`. -/
theorem processSubscriberEmail_counter (env : Env) (st : State) (subscriber : Subscriber) :
    st.emailsSentToday ≤ (processSubscriberEmail env st subscriber).emailsSentToday := by
  have hs := sendSequenceEmail_emailsSentToday env st
  unfold processSubscriberEmail
  cases st.db.leads.find? (fun l => l.id == subscriber.leadId) with
  | none =>
    simp only []
    split_ifs <;> exact le_rfl
  | some lead =>
    simp only []
    cases findStep st subscriber.sequenceId (subscriber.currentStep + 1) with
    | none =>
      simp only []
      split_ifs <;> simp
    | some nextStep =>
      simp only []
      cases st.db.emailTemplates.find? (fun t => t.id == nextStep.templateId) with
      | none =>
        simp only []
        split_ifs <;> simp
      | some t =>
        simp only []
        split_ifs <;> simp [hs]

theorem processLoop_counter (env : Env) :
    ∀ (l : List Subscriber) (st : State),
      st.emailsSentToday ≤ (processLoop env st l).emailsSentToday := by
  intro l
  induction l with
  | nil => intro st; exact le_rfl
  | cons c cs ih =>
    intro st
    simp only [processLoop]
    split
    · exact le_rfl
    · exact le_trans (processSubscriberEmail_counter env st c) (ih _)

/-- No pass of `processPendingEmails` lowers the counter `emailsSentToday`,
whatever the day of the pass is: the counter is never reset. -/
theorem processPendingEmails_counter (env : Env) (st : State) :
    st.emailsSentToday ≤ (processPendingEmails env st).emailsSentToday := by
  unfold processPendingEmails
  split_ifs
  all_goals first
    | exact le_rfl
    | exact processLoop_counter env _ st

/-- The two ways in which `sendSequenceEmail` ends: the call left no trace but
itself, or it returned an id and was logged. -/
theorem sendSequenceEmail_cases (env : Env) (st : State) (lead : Lead) :
    ((sendSequenceEmail env st lead).2 = false ∧
      (sendSequenceEmail env st lead).1 = called st lead.email) ∨
    ((sendSequenceEmail env st lead).2 = true ∧
      ∃ id, env.resend lead.email = SendResult.ok id ∧ id ≠ "" ∧
        (sendSequenceEmail env st lead).1 = logged env st lead.email id) := by
  unfold sendSequenceEmail
  cases h : env.resend lead.email with
  | ok id =>
    simp only []
    by_cases hid : id = ""
    · left; simp [hid, called]
    · by_cases hq : env.faults.logInsert lead.email = true
      · left; simp [hid, hq, called]
      · right
        simp only [hid, hq, if_false]
        exact ⟨rfl, id, rfl, hid, rfl⟩
  | error m => left; exact ⟨rfl, rfl⟩
  | throws m => left; exact ⟨rfl, rfl⟩

/-- Every run of `processSubscriberEmail` ends in one of the five ways of `Ending`. -/
theorem processSubscriberEmail_ending (env : Env) (st : State) (subscriber : Subscriber) :
    Ending env st subscriber (processSubscriberEmail env st subscriber) := by
  unfold processSubscriberEmail
  by_cases hq1 : env.faults.leadQuery subscriber.leadId = true
  · rw [if_pos hq1]; exact Ending.untouched
  · rw [if_neg hq1]
    cases hl : st.db.leads.find? (fun l => l.id == subscriber.leadId) with
    | none => exact Ending.untouched
    | some lead =>
      simp only []
      by_cases ha : lead.isActive = true
      · have ha' : (!lead.isActive) = false := by simp [ha]
        rw [ha']
        simp only [Bool.false_eq_true, if_false]
        by_cases hu : isUnsubscribed env st lead.email = true
        · rw [if_pos hu]
          by_cases hq : env.faults.subscriberUpdate subscriber.id = true
          · rw [if_pos hq]; exact Ending.untouched
          · rw [if_neg hq]; exact Ending.unsubscribed lead hl ha hu
        · rw [if_neg hu]
          have hu' : isUnsubscribed env st lead.email = false := by simpa using hu
          by_cases hq2 : env.faults.stepQuery subscriber.sequenceId (subscriber.currentStep + 1) = true
          · rw [if_pos hq2]; exact Ending.untouched
          · rw [if_neg hq2]
            cases hs : findStep st subscriber.sequenceId (subscriber.currentStep + 1) with
            | none =>
              simp only []
              by_cases hq : env.faults.subscriberUpdate subscriber.id = true
              · rw [if_pos hq]; exact Ending.untouched
              · rw [if_neg hq]
                have := @Ending.completed env st subscriber hs
                simpa [completed] using this
            | some nextStep =>
              simp only []
              by_cases hq3 : env.faults.templateQuery nextStep.templateId = true
              · rw [if_pos hq3]; exact Ending.untouched
              · rw [if_neg hq3]
                cases st.db.emailTemplates.find? (fun t => t.id == nextStep.templateId) with
                | none => exact Ending.untouched
                | some t =>
                  simp only []
                  rcases sendSequenceEmail_cases env st lead with ⟨h2, h1⟩ | ⟨h2, id, hr, hid, h1⟩
                  · rw [h2, h1]
                    simp only [Bool.false_eq_true, if_false]
                    exact Ending.failed lead hl ha hu'
                  · rw [h2, h1]
                    simp only [if_true]
                    by_cases hq5 : env.faults.stepQuery subscriber.sequenceId
                        (subscriber.currentStep + 1 + 1) = true
                    · rw [if_pos hq5]; exact Ending.stalled lead id hl ha hu' hr hid
                    · rw [if_neg hq5]
                      by_cases hq6 : env.faults.subscriberUpdate subscriber.id = true
                      · rw [if_pos hq6]; exact Ending.stalled lead id hl ha hu' hr hid
                      · rw [if_neg hq6]
                        exact Ending.advanced lead id hl ha hu' hr hid
      · have ha' : (!lead.isActive) = true := by simpa using ha
        rw [if_pos ha']
        exact Ending.untouched

theorem map_update_id (rows : List Subscriber) (id : Nat) :
    rows.map (fun row => if row.id = id then row else row) = rows := by
  induction rows with
  | nil => rfl
  | cons r rs ih => simp

/-- Whatever the ending, the subscriber rows are the old rows with those of the
id of the subscriber rewritten. -/
theorem Ending.rows {env : Env} {st st' : State} {subscriber : Subscriber}
    (h : Ending env st subscriber st') :
    ∃ g : Subscriber → Subscriber, (∀ row, (g row).id = row.id) ∧
      st'.db.sequenceSubscribers =
        st.db.sequenceSubscribers.map (fun row => if row.id = subscriber.id then g row else row) := by
  cases h with
  | untouched => exact ⟨fun row => row, fun _ => rfl, (map_update_id _ _).symm⟩
  | unsubscribed lead _ _ _ => exact ⟨unsubscribedRow env, fun _ => rfl, rfl⟩
  | completed _ => exact ⟨SequenceAutomationJs.completed env subscriber, fun _ => rfl, rfl⟩
  | failed lead _ _ _ => exact ⟨fun row => row, fun _ => rfl, (map_update_id _ _).symm⟩
  | stalled lead id _ _ _ _ _ => exact ⟨fun row => row, fun _ => rfl, (map_update_id _ _).symm⟩
  | advanced lead id _ _ _ _ _ =>
    exact ⟨SequenceAutomationJs.advanced env st subscriber, fun _ => rfl, rfl⟩

/-- Whatever the ending, at most one transport call is made and at most one
delivery record is written, and the other tables stay as they were. -/
theorem Ending.traces {env : Env} {st st' : State} {subscriber : Subscriber}
    (h : Ending env st subscriber st') :
    st'.calls.length ≤ st.calls.length + 1 ∧
    st'.db.emailLogs.length ≤ st.db.emailLogs.length + 1 ∧
    st'.db.leads = st.db.leads ∧ st'.db.unsubscribes = st.db.unsubscribes ∧
    st'.db.sequenceSteps = st.db.sequenceSteps ∧
    st'.db.emailTemplates = st.db.emailTemplates ∧ st'.dailyLimit = st.dailyLimit := by
  cases h <;> simp [updateSubscriber, called, logged]

/-- The rows selected by the query of `processPendingEmails` are rows of the
table, active, and due. -/
theorem mem_pendingSubscribers (env : Env) (st : State) (s : Subscriber)
    (h : s ∈ pendingSubscribers env st) :
    s ∈ st.db.sequenceSubscribers ∧ s.status = "active" ∧
    ∃ due, s.nextEmailDue = some due ∧ due ≤ env.now := by
  unfold pendingSubscribers at h
  have h1 := List.mem_of_mem_take h
  rw [List.mem_filter] at h1
  obtain ⟨hm, hp⟩ := h1
  simp only [Bool.and_eq_true, beq_iff_eq] at hp
  refine ⟨hm, hp.1, ?_⟩
  cases hd : s.nextEmailDue with
  | none => rw [hd] at hp; simp at hp
  | some due =>
    rw [hd] at hp
    exact ⟨due, rfl, by simpa using hp.2⟩

/-- The loop rewrites only rows that carry the id of a subscriber it was given,
and makes at most one call and one record per subscriber. -/
theorem processLoop_frame (env : Env) :
    ∀ (l : List Subscriber) (st : State),
      (∃ f : Subscriber → Subscriber,
        (processLoop env st l).db.sequenceSubscribers = st.db.sequenceSubscribers.map f ∧
        (∀ r, (∀ s ∈ l, s.id ≠ r.id) → f r = r) ∧ ∀ r, (f r).id = r.id) ∧
      (processLoop env st l).calls.length ≤ st.calls.length + l.length ∧
      (processLoop env st l).db.emailLogs.length ≤ st.db.emailLogs.length + l.length := by
  intro l
  induction l with
  | nil =>
    intro st
    exact ⟨⟨fun row => row, by simp [processLoop], fun _ _ => rfl, fun _ => rfl⟩,
      by simp [processLoop], by simp [processLoop]⟩
  | cons s rest ih =>
    intro st
    simp only [processLoop]
    split
    · exact ⟨⟨fun row => row, by simp, fun _ _ => rfl, fun _ => rfl⟩, by simp, by simp⟩
    · have he := processSubscriberEmail_ending env st s
      obtain ⟨g, hgid, hg⟩ := he.rows
      obtain ⟨hc, hl, _⟩ := he.traces
      obtain ⟨⟨f, hf, hfr, hfid⟩, hc2, hl2⟩ := ih (processSubscriberEmail env st s)
      refine ⟨⟨fun row => f (if row.id = s.id then g row else row), ?_, ?_, ?_⟩, ?_, ?_⟩
      · rw [hf, hg, List.map_map]
        rfl
      · intro r hr
        have h1 : s.id ≠ r.id := hr s (List.mem_cons_self _ _)
        have h2 : ¬ r.id = s.id := fun h => h1 h.symm
        simp only [h2, if_false]
        exact hfr r (fun x hx => hr x (List.mem_cons_of_mem _ hx))
      · intro r
        show (f (if r.id = s.id then g r else r)).id = r.id
        rw [hfid]
        split
        · exact hgid r
        · rfl
      · simp only [List.length_cons]; omega
      · simp only [List.length_cons]; omega

/-- A pass rewrites only rows that carry the id of a selected subscriber, and
makes at most one call and one record per selected subscriber. -/
theorem processPendingEmails_frame (env : Env) (st : State) :
    (∃ f : Subscriber → Subscriber,
      (processPendingEmails env st).db.sequenceSubscribers = st.db.sequenceSubscribers.map f ∧
      (∀ r, (∀ s ∈ pendingSubscribers env st, s.id ≠ r.id) → f r = r) ∧
      ∀ r, (f r).id = r.id) ∧
    (processPendingEmails env st).calls.length ≤
      st.calls.length + (pendingSubscribers env st).length ∧
    (processPendingEmails env st).db.emailLogs.length ≤
      st.db.emailLogs.length + (pendingSubscribers env st).length := by
  unfold processPendingEmails
  split_ifs
  all_goals first
    | exact ⟨⟨fun row => row, by simp, fun _ _ => rfl, fun _ => rfl⟩, by omega, by omega⟩
    | exact processLoop_frame env _ st

/-- A pass that selects nobody leaves the state as it was. -/
theorem processPendingEmails_idle (env : Env) (st : State)
    (h : pendingSubscribers env st = []) : processPendingEmails env st = st := by
  unfold processPendingEmails
  split_ifs
  all_goals first
    | rfl
    | (rw [h]; rfl)

/-- The query of `processPendingEmails` selects nobody from a table in which
every active row has no due date. -/
theorem pendingSubscribers_eq_nil (env : Env) (st : State)
    (h : ∀ row ∈ st.db.sequenceSubscribers, row.status = "active" → row.nextEmailDue = none) :
    pendingSubscribers env st = [] := by
  rw [List.eq_nil_iff_forall_not_mem]
  intro s hs
  obtain ⟨hm, ha, due, hd, _⟩ := mem_pendingSubscribers env st s hs
  rw [h s hm ha] at hd
  cases hd

theorem forall2_map_self {α : Type} (R : α → α → Prop) (f : α → α) :
    ∀ l : List α, (∀ a ∈ l, R a (f a)) → List.Forall₂ R l (l.map f) := by
  intro l
  induction l with
  | nil => intro _; exact List.Forall₂.nil
  | cons a as ih =>
    intro h
    exact List.Forall₂.cons (h a (List.mem_cons_self a as))
      (ih (fun x hx => h x (List.mem_cons_of_mem a hx)))

theorem stepsKept_refl (rows : List Subscriber) : StepsKept rows rows :=
  List.forall₂_same.mpr (fun _ _ => ⟨rfl, rfl⟩)

theorem stepsKept_grown {old new : List Subscriber} (h : StepsKept old new) :
    StepsGrown old new :=
  List.Forall₂.imp (fun _ _ hab => ⟨hab.1, le_of_eq hab.2⟩) h

/-- An update of the rows of one id that keeps `id` and `currentStep`. -/
theorem stepsKept_update (rows : List Subscriber) (id : Nat) (g : Subscriber → Subscriber)
    (h : ∀ row ∈ rows, row.id = id → (g row).id = row.id ∧ (g row).currentStep = row.currentStep) :
    StepsKept rows (rows.map (fun row => if row.id = id then g row else row)) := by
  apply forall2_map_self
  intro row hrow
  by_cases hid : row.id = id
  · rw [if_pos hid]
    exact ⟨(h row hrow hid).1.symm, (h row hrow hid).2.symm⟩
  · rw [if_neg hid]
    exact ⟨rfl, rfl⟩

/-- An update of the rows of one id that keeps `id` and does not lower
`currentStep`. -/
theorem stepsGrown_update (rows : List Subscriber) (id : Nat) (g : Subscriber → Subscriber)
    (h : ∀ row ∈ rows, row.id = id → (g row).id = row.id ∧ row.currentStep ≤ (g row).currentStep) :
    StepsGrown rows (rows.map (fun row => if row.id = id then g row else row)) := by
  apply forall2_map_self
  intro row hrow
  by_cases hid : row.id = id
  · rw [if_pos hid]
    exact ⟨(h row hrow hid).1.symm, (h row hrow hid).2⟩
  · rw [if_neg hid]
    exact ⟨rfl, le_rfl⟩

/-- The steps of the table after `processSubscriberEmail`, for a subscriber
that agrees with its row on `currentStep`: none is lower, and they are all as
before unless the transport returned an id and the send was logged. -/
theorem processSubscriberEmail_steps (env : Env) (st : State) (subscriber : Subscriber)
    (hsnap : ∀ row ∈ st.db.sequenceSubscribers, row.id = subscriber.id →
      row.currentStep = subscriber.currentStep) :
    StepsGrown st.db.sequenceSubscribers
      (processSubscriberEmail env st subscriber).db.sequenceSubscribers ∧
    (StepsKept st.db.sequenceSubscribers
        (processSubscriberEmail env st subscriber).db.sequenceSubscribers ∨
      ∃ lead id, st.db.leads.find? (fun l => l.id == subscriber.leadId) = some lead ∧
        env.resend lead.email = SendResult.ok id ∧ id ≠ "" ∧
        (processSubscriberEmail env st subscriber).calls = st.calls ++ [lead.email] ∧
        (processSubscriberEmail env st subscriber).db.emailLogs =
          (logged env st lead.email id).db.emailLogs) := by
  have he := processSubscriberEmail_ending env st subscriber
  generalize processSubscriberEmail env st subscriber = r at he
  cases he with
  | untouched => exact ⟨stepsKept_grown (stepsKept_refl _), Or.inl (stepsKept_refl _)⟩
  | unsubscribed lead _ _ _ =>
    have hk : StepsKept st.db.sequenceSubscribers
        (updateSubscriber st subscriber.id (unsubscribedRow env)).db.sequenceSubscribers :=
      stepsKept_update _ _ _ (fun _ _ _ => ⟨rfl, rfl⟩)
    exact ⟨stepsKept_grown hk, Or.inl hk⟩
  | completed _ =>
    have hk : StepsKept st.db.sequenceSubscribers
        (updateSubscriber st subscriber.id
          (SequenceAutomationJs.completed env subscriber)).db.sequenceSubscribers :=
      stepsKept_update _ _ _ (fun row hrow hid => ⟨rfl, (hsnap row hrow hid).symm⟩)
    exact ⟨stepsKept_grown hk, Or.inl hk⟩
  | failed lead _ _ _ => exact ⟨stepsKept_grown (stepsKept_refl _), Or.inl (stepsKept_refl _)⟩
  | stalled lead id _ _ _ _ _ => exact ⟨stepsKept_grown (stepsKept_refl _), Or.inl (stepsKept_refl _)⟩
  | advanced lead id hlead _ _ hs hid =>
    refine ⟨?_, Or.inr ⟨lead, id, hlead, hs, hid, rfl, rfl⟩⟩
    exact stepsGrown_update _ _ _ (fun row hrow hrid =>
      ⟨rfl, by rw [hsnap row hrow hrid]; exact Nat.le_succ _⟩)

/-- A row that is not active is not selected, and with ids that are unique in
the table no selected subscriber carries its id. -/
theorem pendingSubscribers_skips (env : Env) (st : State) (r : Subscriber)
    (hr : r ∈ st.db.sequenceSubscribers) (hstatus : r.status ≠ "active")
    (hids : (st.db.sequenceSubscribers.map (fun row => row.id)).Nodup) :
    r ∉ pendingSubscribers env st ∧ ∀ s ∈ pendingSubscribers env st, s.id ≠ r.id := by
  refine ⟨fun h => hstatus (mem_pendingSubscribers env st r h).2.1, ?_⟩
  intro s hs hid
  obtain ⟨hm, ha, _⟩ := mem_pendingSubscribers env st s hs
  have : s = r := List.inj_on_of_nodup_map hids hm hr hid
  exact hstatus (this ▸ ha)

/-- A pass leaves a row that is not active as it is, in its place. -/
theorem processPendingEmails_skips (env : Env) (st : State) (r : Subscriber)
    (hr : r ∈ st.db.sequenceSubscribers) (hstatus : r.status ≠ "active")
    (hids : (st.db.sequenceSubscribers.map (fun row => row.id)).Nodup) :
    ∃ f : Subscriber → Subscriber,
      (processPendingEmails env st).db.sequenceSubscribers = st.db.sequenceSubscribers.map f ∧
      f r = r := by
  obtain ⟨⟨f, hf, hfr, _⟩, _, _⟩ := processPendingEmails_frame env st
  exact ⟨f, hf, hfr r (pendingSubscribers_skips env st r hr hstatus hids).2⟩

theorem isUnsubscribed_of_row (env : Env) (st : State) (email : String)
    (hq : env.faults.unsubscribeQuery email = false) (h : email ∈ st.db.unsubscribes) :
    isUnsubscribed env st email = true := by
  unfold isUnsubscribed
  rw [hq]
  simp only [Bool.false_eq_true, if_false, decide_eq_true_eq]
  rw [PersistentCampaign.filter_length_pos_iff]
  exact ⟨email, h, by simp⟩

/-- The suppression branch of `processSubscriberEmail`. -/
theorem processSubscriberEmail_unsubscribes (env : Env) (st : State) (subscriber : Subscriber)
    (lead : Lead)
    (hq1 : env.faults.leadQuery subscriber.leadId = false)
    (hlead : st.db.leads.find? (fun l => l.id == subscriber.leadId) = some lead)
    (hactive : lead.isActive = true)
    (hunsub : isUnsubscribed env st lead.email = true)
    (hq2 : env.faults.subscriberUpdate subscriber.id = false) :
    processSubscriberEmail env st subscriber =
      updateSubscriber st subscriber.id (unsubscribedRow env) := by
  unfold processSubscriberEmail
  simp only [hq1, Bool.false_eq_true, if_false, hlead, hactive, Bool.not_true, hunsub, if_true,
    hq2]
  rfl

/-- A pass leaves the rows of an id without an active row without an active row. -/
theorem processPendingEmails_settled (env : Env) (st : State) (k : Nat)
    (h : ∀ row ∈ st.db.sequenceSubscribers, row.id = k → row.status ≠ "active") :
    ∀ row ∈ (processPendingEmails env st).db.sequenceSubscribers,
      row.id = k → row.status ≠ "active" := by
  obtain ⟨⟨f, hf, hfr, hfid⟩, _, _⟩ := processPendingEmails_frame env st
  intro row hrow hid
  rw [hf, List.mem_map] at hrow
  obtain ⟨r, hr, hfr2⟩ := hrow
  have hrid : r.id = k := by rw [← hfid r, hfr2]; exact hid
  have hkeep : f r = r := by
    apply hfr
    intro s hs hsid
    obtain ⟨hm, ha, _⟩ := mem_pendingSubscribers env st s hs
    exact h s hm (hsid.trans hrid) ha
  rw [← hfr2, hkeep]
  exact h r hr hrid

theorem passes_settled (k : Nat) :
    ∀ (envs : List Env) (st : State),
      (∀ row ∈ st.db.sequenceSubscribers, row.id = k → row.status ≠ "active") →
      ∀ row ∈ (passes envs st).db.sequenceSubscribers, row.id = k → row.status ≠ "active" := by
  intro envs
  induction envs with
  | nil => intro st h; exact h
  | cons env rest ih =>
    intro st h
    exact ih (processPendingEmails env st) (processPendingEmails_settled env st k h)

/-- Once no row of an id is active, no pass selects a subscriber of that id. -/
theorem never_selected (k : Nat) (st : State)
    (h : ∀ row ∈ st.db.sequenceSubscribers, row.id = k → row.status ≠ "active")
    (envs : List Env) (later : Env) :
    ∀ s ∈ pendingSubscribers later (passes envs st), s.id ≠ k := by
  intro s hs hid
  obtain ⟨hm, ha, _⟩ := mem_pendingSubscribers later (passes envs st) s hs
  exact passes_settled k envs st h s hm hid ha

/-- Whatever the ending, the counter goes up by at most one. -/
theorem Ending.counter_step {env : Env} {st st' : State} {subscriber : Subscriber}
    (h : Ending env st subscriber st') :
    st'.emailsSentToday ≤ st.emailsSentToday + 1 ∧ st'.dailyLimit = st.dailyLimit := by
  cases h <;> simp [updateSubscriber, called, logged]

/-- The loop keeps the counter within the limit and raises it by at most one
per subscriber. -/
theorem processLoop_within_limit (env : Env) :
    ∀ (l : List Subscriber) (st : State), st.emailsSentToday ≤ st.dailyLimit →
      (processLoop env st l).emailsSentToday ≤ (processLoop env st l).dailyLimit ∧
      (processLoop env st l).dailyLimit = st.dailyLimit ∧
      (processLoop env st l).emailsSentToday ≤ st.emailsSentToday + l.length := by
  intro l
  induction l with
  | nil => intro st h; exact ⟨h, rfl, by simp [processLoop]⟩
  | cons s rest ih =>
    intro st h
    simp only [processLoop]
    split
    · exact ⟨h, rfl, by omega⟩
    · rename_i hlt
      obtain ⟨h1, h2⟩ := (processSubscriberEmail_ending env st s).counter_step
      obtain ⟨h3, h4, h5⟩ := ih (processSubscriberEmail env st s) (by omega)
      refine ⟨h3, h4.trans h2, ?_⟩
      simp only [List.length_cons]
      omega

/-- A pass keeps the counter within the limit and raises it by at most ten. -/
theorem processPendingEmails_within_limit (env : Env) (st : State)
    (h : st.emailsSentToday ≤ st.dailyLimit) :
    (processPendingEmails env st).emailsSentToday ≤ (processPendingEmails env st).dailyLimit ∧
    (processPendingEmails env st).dailyLimit = st.dailyLimit ∧
    (processPendingEmails env st).emailsSentToday ≤ st.emailsSentToday + 10 := by
  have hten : (pendingSubscribers env st).length ≤ 10 := by
    unfold pendingSubscribers
    exact List.length_take_le 10 _
  unfold processPendingEmails
  split_ifs
  all_goals first
    | exact ⟨h, rfl, by omega⟩
    | (obtain ⟨h1, h2, h3⟩ := processLoop_within_limit env (pendingSubscribers env st) st h
       exact ⟨h1, h2, by omega⟩)

end SequenceAutomationJs

/-! ## Properties of sequenceAutomation.js -/

namespace SequenceAutomation

/-- The success path of `sendSequenceEmail` when an active step follows: the
subscriber moves to that step and waits for the delay configured on it. -/
theorem sendSequenceEmail_advances (env : Env) (st : State) (subscriber : PendingEmail)
    (first : Step) (rest : List Step) (id : String)
    (hq1 : env.faults.unsubscribeQuery subscriber.email = false)
    (hunsub : subscriber.email ∉ st.db.unsubscribe_list)
    (hsend : env.resend subscriber.email = SendResult.ok id)
    (hq2 : env.faults.logInsert subscriber.email = false)
    (hq3 : env.faults.stepQuery subscriber.sequence_id (subscriber.current_step + 1) = false)
    (hstep : st.db.sequence_steps.filter (fun s =>
      s.sequence_id == subscriber.sequence_id && s.step_number == subscriber.current_step + 1 &&
      s.is_active) = first :: rest)
    (hq4 : env.faults.subscriberUpdate subscriber.id = false) :
    sendSequenceEmail env st subscriber =
      (updateRows
        { st with calls := st.calls ++ [subscriber.email],
                  db := { st.db with email_logs := st.db.email_logs ++
                    [{ campaign_id := none, recipient_email := subscriber.email,
                       status := "sent", sent_at := env.now }] } }
        subscriber.id
        (fun row => { row with
          current_step := subscriber.current_step + 1,
          next_email_at := some (env.now + first.delay_days * MS_PER_DAY),
          last_email_sent_at := some env.now }), true) := by
  have hnot : ¬ 0 < (st.db.unsubscribe_list.filter (fun u => u == subscriber.email)).length := by
    rw [PersistentCampaign.filter_length_pos_iff]
    rintro ⟨a, ha, hp⟩
    have : a = subscriber.email := by simpa using hp
    exact hunsub (this ▸ ha)
  unfold sendSequenceEmail
  simp only [hq1, Bool.false_eq_true, if_false, hnot, hsend, hq2, advanceSubscriber, hq3, hstep,
    hq4]

/-- On a day other than the day of the last reset the counter compared with
the daily limit is 0. -/
theorem resetDailyCounter_new_day (env : Env) (st : State)
    (h : st.lastResetDate ≠ some env.estDate) :
    (resetDailyCounter env st).emailsSentToday = 0 ∧
    (resetDailyCounter env st).lastResetDate = some env.estDate := by
  unfold resetDailyCounter
  rw [if_pos h]
  exact ⟨rfl, rfl⟩

theorem unsubscribe_check_iff (st : State) (email : String) :
    0 < (st.db.unsubscribe_list.filter (fun u => u == email)).length ↔
      email ∈ st.db.unsubscribe_list := by
  rw [PersistentCampaign.filter_length_pos_iff]
  constructor
  · rintro ⟨a, ha, hp⟩
    have : a = email := by simpa using hp
    exact this ▸ ha
  · intro h
    exact ⟨email, h, by simp⟩

/-- Every run of `sendSequenceEmail` ends in one of the ways of `Ending`. -/
theorem sendSequenceEmail_ending (env : Env) (st : State) (subscriber : PendingEmail) :
    Ending env st subscriber (sendSequenceEmail env st subscriber) := by
  unfold sendSequenceEmail
  by_cases hq1 : env.faults.unsubscribeQuery subscriber.email = true
  · rw [if_pos hq1]; exact Ending.untouched
  · rw [if_neg hq1]
    by_cases hu : subscriber.email ∈ st.db.unsubscribe_list
    · rw [if_pos ((unsubscribe_check_iff st subscriber.email).mpr hu)]
      unfold updateSubscriberStatus
      by_cases hq : env.faults.subscriberUpdate subscriber.id = true
      · rw [if_pos hq]; exact Ending.untouched
      · rw [if_neg hq]; exact Ending.unsubscribed hu
    · rw [if_neg (fun h => hu ((unsubscribe_check_iff st subscriber.email).mp h))]
      simp only []
      cases hr : env.resend subscriber.email with
      | error m => exact Ending.failed hu
      | throws m => exact Ending.failed hu
      | ok id =>
        simp only []
        by_cases hq2 : env.faults.logInsert subscriber.email = true
        · rw [if_pos hq2]; exact Ending.failed hu
        · rw [if_neg hq2]
          unfold advanceSubscriber
          simp only []
          by_cases hq3 : env.faults.stepQuery subscriber.sequence_id
              (subscriber.current_step + 1) = true
          · rw [if_pos hq3]; exact Ending.stalled id hu hr
          · rw [if_neg hq3]
            cases hs : followingSteps st subscriber with
            | nil =>
              have hs' : List.filter (fun s => s.sequence_id == subscriber.sequence_id &&
                  s.step_number == subscriber.current_step + 1 && s.is_active)
                  st.db.sequence_steps = [] := hs
              simp only [hs']
              unfold updateSubscriberStatus
              by_cases hq : env.faults.subscriberUpdate subscriber.id = true
              · rw [if_pos hq]; exact Ending.stalled id hu hr
              · rw [if_neg hq]; exact Ending.completed id hu hr hs
            | cons first rest =>
              have hs' : List.filter (fun s => s.sequence_id == subscriber.sequence_id &&
                  s.step_number == subscriber.current_step + 1 && s.is_active)
                  st.db.sequence_steps = first :: rest := hs
              simp only [hs']
              by_cases hq : env.faults.subscriberUpdate subscriber.id = true
              · rw [if_pos hq]; exact Ending.stalled id hu hr
              · rw [if_neg hq]; exact Ending.advanced id first rest hu hr hs

theorem map_update_rows_id (rows : List Subscriber) (id : Nat) :
    rows.map (fun row => if row.id = id then row else row) = rows := by
  induction rows with
  | nil => rfl
  | cons r rs ih => simp

/-- Whatever the ending, the subscriber rows are the old rows with those of the
id of the subscriber rewritten. -/
theorem Ending.table {env : Env} {st : State} {subscriber : PendingEmail} {r : State × Bool}
    (h : Ending env st subscriber r) :
    ∃ g : Subscriber → Subscriber, (∀ row, (g row).id = row.id) ∧
      r.1.db.sequence_subscribers =
        st.db.sequence_subscribers.map (fun row => if row.id = subscriber.id then g row else row) := by
  cases h with
  | untouched => exact ⟨fun row => row, fun _ => rfl, (map_update_rows_id _ _).symm⟩
  | unsubscribed _ => exact ⟨withStatus env "unsubscribed", fun _ => rfl, rfl⟩
  | failed _ => exact ⟨fun row => row, fun _ => rfl, (map_update_rows_id _ _).symm⟩
  | stalled id _ _ => exact ⟨fun row => row, fun _ => rfl, (map_update_rows_id _ _).symm⟩
  | advanced id first rest _ _ _ => exact ⟨advancedTo env subscriber first, fun _ => rfl, rfl⟩
  | completed id _ _ _ => exact ⟨withStatus env "completed", fun _ => rfl, rfl⟩

/-- Whatever the ending, at most one transport call is made and at most one
delivery record is written, and the other tables stay as they were. -/
theorem Ending.effects {env : Env} {st : State} {subscriber : PendingEmail} {r : State × Bool}
    (h : Ending env st subscriber r) :
    r.1.calls.length ≤ st.calls.length + 1 ∧
    r.1.db.email_logs.length ≤ st.db.email_logs.length + 1 ∧
    r.1.db.email_sequences = st.db.email_sequences ∧ r.1.db.leads = st.db.leads ∧
    r.1.db.sequence_steps = st.db.sequence_steps ∧
    r.1.db.unsubscribe_list = st.db.unsubscribe_list ∧
    r.1.emailsSentToday = st.emailsSentToday ∧ r.1.dailyLimit = st.dailyLimit := by
  cases h <;> simp [updateRows, called, logged]

/-- The rows of the join of `getPendingSequenceEmails` carry the id of an
active subscriber of the table that is due. -/
theorem mem_getPendingSequenceEmails (env : Env) (st : State) (pn : PendingEmail)
    (h : pn ∈ getPendingSequenceEmails env st) :
    ∃ ss ∈ st.db.sequence_subscribers, ss.id = pn.id ∧ ss.status = "active" ∧
      ss.current_step = pn.current_step ∧
      ∃ due, ss.next_email_at = some due ∧ due ≤ env.now := by
  unfold getPendingSequenceEmails at h
  simp only [List.mem_flatMap, List.mem_map, List.mem_insertionSort, List.mem_filter] at h
  obtain ⟨ss, ⟨hss, hp⟩, _, _, _, _, _, _, rfl⟩ := h
  simp only [Bool.and_eq_true, beq_iff_eq] at hp
  refine ⟨ss, hss, rfl, hp.1, rfl, ?_⟩
  cases hd : ss.next_email_at with
  | none => rw [hd] at hp; simp at hp
  | some due =>
    rw [hd] at hp
    exact ⟨due, rfl, by simpa using hp.2⟩

/-- The loop rewrites only rows that carry the id of a subscriber it was given,
and makes at most one call and one record per subscriber. -/
theorem processLoop_join_frame (env : Env) :
    ∀ (l : List PendingEmail) (st : State),
      (∃ f : Subscriber → Subscriber,
        (processLoop env st l).db.sequence_subscribers = st.db.sequence_subscribers.map f ∧
        (∀ r, (∀ s ∈ l, s.id ≠ r.id) → f r = r) ∧ ∀ r, (f r).id = r.id) ∧
      (processLoop env st l).calls.length ≤ st.calls.length + l.length ∧
      (processLoop env st l).db.email_logs.length ≤ st.db.email_logs.length + l.length := by
  intro l
  induction l with
  | nil =>
    intro st
    exact ⟨⟨fun row => row, by simp [processLoop], fun _ _ => rfl, fun _ => rfl⟩,
      by simp [processLoop], by simp [processLoop]⟩
  | cons s rest ih =>
    intro st
    simp only [processLoop]
    have he := sendSequenceEmail_ending env st s
    obtain ⟨g, hgid, hg⟩ := he.table
    obtain ⟨hc, hl, _⟩ := he.effects
    obtain ⟨⟨f, hf, hfr, hfid⟩, hc2, hl2⟩ := ih
      (if (sendSequenceEmail env st s).2 = true then
        { (sendSequenceEmail env st s).1 with
          emailsSentToday := (sendSequenceEmail env st s).1.emailsSentToday + 1 }
      else (sendSequenceEmail env st s).1)
    have hrows : (if (sendSequenceEmail env st s).2 = true then
        { (sendSequenceEmail env st s).1 with
          emailsSentToday := (sendSequenceEmail env st s).1.emailsSentToday + 1 }
      else (sendSequenceEmail env st s).1).db = (sendSequenceEmail env st s).1.db := by
      split <;> rfl
    have hcalls : (if (sendSequenceEmail env st s).2 = true then
        { (sendSequenceEmail env st s).1 with
          emailsSentToday := (sendSequenceEmail env st s).1.emailsSentToday + 1 }
      else (sendSequenceEmail env st s).1).calls = (sendSequenceEmail env st s).1.calls := by
      split <;> rfl
    rw [hrows] at hf hl2
    rw [hcalls] at hc2
    refine ⟨⟨fun row => f (if row.id = s.id then g row else row), ?_, ?_, ?_⟩, ?_, ?_⟩
    · rw [hf, hg, List.map_map]
      rfl
    · intro r hr
      have h1 : s.id ≠ r.id := hr s (List.mem_cons_self _ _)
      have h2 : ¬ r.id = s.id := fun h => h1 h.symm
      simp only [h2, if_false]
      exact hfr r (fun x hx => hr x (List.mem_cons_of_mem _ hx))
    · intro r
      show (f (if r.id = s.id then g r else r)).id = r.id
      rw [hfid]
      split
      · exact hgid r
      · rfl
    · refine le_trans hc2 ?_
      simp only [List.length_cons]; omega
    · refine le_trans hl2 ?_
      simp only [List.length_cons]; omega

theorem getPendingSequenceEmails_reset (env : Env) (st : State) :
    getPendingSequenceEmails env (resetDailyCounter env st) = getPendingSequenceEmails env st := by
  unfold resetDailyCounter
  split <;> rfl

/-- A pass rewrites only rows that carry the id of a row of the join, and
makes at most one call and one record per row of the join. -/
theorem processPendingEmails_join_frame (env : Env) (st : State) :
    (∃ f : Subscriber → Subscriber,
      (processPendingEmails env st).db.sequence_subscribers =
        st.db.sequence_subscribers.map f ∧
      (∀ r, (∀ s ∈ getPendingSequenceEmails env st, s.id ≠ r.id) → f r = r) ∧
      ∀ r, (f r).id = r.id) ∧
    (processPendingEmails env st).calls.length ≤
      st.calls.length + (getPendingSequenceEmails env st).length ∧
    (processPendingEmails env st).db.email_logs.length ≤
      st.db.email_logs.length + (getPendingSequenceEmails env st).length := by
  have hdb : (resetDailyCounter env st).db = st.db := by
    unfold resetDailyCounter; split <;> rfl
  have hcalls : (resetDailyCounter env st).calls = st.calls := by
    unfold resetDailyCounter; split <;> rfl
  have hidle : (∃ f : Subscriber → Subscriber,
      st.db.sequence_subscribers = st.db.sequence_subscribers.map f ∧
      (∀ r, (∀ s ∈ getPendingSequenceEmails env st, s.id ≠ r.id) → f r = r) ∧
      ∀ r, (f r).id = r.id) ∧
    st.calls.length ≤ st.calls.length + (getPendingSequenceEmails env st).length ∧
    st.db.email_logs.length ≤
      st.db.email_logs.length + (getPendingSequenceEmails env st).length :=
    ⟨⟨fun row => row, by simp, fun _ _ => rfl, fun _ => rfl⟩, by omega, by omega⟩
  unfold processPendingEmails
  simp only []
  split_ifs
  · exact hidle
  · exact hidle
  · rw [hdb, hcalls]; exact hidle
  · rw [hdb, hcalls]; exact hidle
  · rw [hdb, hcalls]; exact hidle
  · rw [getPendingSequenceEmails_reset]
    obtain ⟨⟨f, hf, hfr, hfid⟩, hc, hl⟩ := processLoop_join_frame env
      ((getPendingSequenceEmails env st).take
        ((resetDailyCounter env st).dailyLimit - (resetDailyCounter env st).emailsSentToday))
      (resetDailyCounter env st)
    rw [hdb] at hf hl
    rw [hcalls] at hc
    refine ⟨⟨f, hf, fun r hr => hfr r (fun s hs => hr s (List.mem_of_mem_take hs)), hfid⟩,
      ?_, ?_⟩
    · have := (List.take_sublist ((resetDailyCounter env st).dailyLimit -
        (resetDailyCounter env st).emailsSentToday) (getPendingSequenceEmails env st)).length_le
      omega
    · have := (List.take_sublist ((resetDailyCounter env st).dailyLimit -
        (resetDailyCounter env st).emailsSentToday) (getPendingSequenceEmails env st)).length_le
      omega

theorem steps_kept_refl (rows : List Subscriber) : StepsKept rows rows :=
  List.forall₂_same.mpr (fun _ _ => ⟨rfl, rfl⟩)

theorem steps_kept_grown {old new : List Subscriber} (h : StepsKept old new) :
    StepsGrown old new :=
  List.Forall₂.imp (fun _ _ hab => ⟨hab.1, le_of_eq hab.2⟩) h

/-- An update of the rows of one id that keeps `id` and `current_step`. -/
theorem steps_kept_update (rows : List Subscriber) (id : Nat) (g : Subscriber → Subscriber)
    (h : ∀ row ∈ rows, row.id = id →
      (g row).id = row.id ∧ (g row).current_step = row.current_step) :
    StepsKept rows (rows.map (fun row => if row.id = id then g row else row)) := by
  apply SequenceAutomationJs.forall2_map_self
  intro row hrow
  by_cases hid : row.id = id
  · rw [if_pos hid]
    exact ⟨(h row hrow hid).1.symm, (h row hrow hid).2.symm⟩
  · rw [if_neg hid]
    exact ⟨rfl, rfl⟩

/-- An update of the rows of one id that keeps `id` and does not lower
`current_step`. -/
theorem steps_grown_update (rows : List Subscriber) (id : Nat) (g : Subscriber → Subscriber)
    (h : ∀ row ∈ rows, row.id = id →
      (g row).id = row.id ∧ row.current_step ≤ (g row).current_step) :
    StepsGrown rows (rows.map (fun row => if row.id = id then g row else row)) := by
  apply SequenceAutomationJs.forall2_map_self
  intro row hrow
  by_cases hid : row.id = id
  · rw [if_pos hid]
    exact ⟨(h row hrow hid).1.symm, (h row hrow hid).2⟩
  · rw [if_neg hid]
    exact ⟨rfl, le_rfl⟩

/-- The steps of the table after `advanceSubscriber`, for a subscriber that
agrees with its row on `current_step`: none is lower. -/
theorem advanceSubscriber_steps (env : Env) (st st1 : State) (subscriber : PendingEmail)
    (hsnap : ∀ row ∈ st.db.sequence_subscribers, row.id = subscriber.id →
      row.current_step = subscriber.current_step)
    (h : advanceSubscriber env st subscriber = some st1) :
    StepsGrown st.db.sequence_subscribers st1.db.sequence_subscribers := by
  unfold advanceSubscriber at h
  simp only [] at h
  split at h
  · cases h
  · split at h
    · split at h
      · cases h
      · cases h
        exact steps_grown_update _ _ _ (fun row hrow hrid =>
          ⟨rfl, by rw [hsnap row hrow hrid]; exact Nat.le_succ _⟩)
    · unfold updateSubscriberStatus at h
      split at h
      · cases h
      · cases h
        exact steps_kept_grown (steps_kept_update st.db.sequence_subscribers subscriber.id
          (withStatus env "completed") (fun _ _ _ => ⟨rfl, rfl⟩))

/-- The steps of the table after `sendSequenceEmail`, for a subscriber that
agrees with its row on `current_step`: none is lower, and they are all as
before unless the transport accepted the message. -/
theorem sendSequenceEmail_steps (env : Env) (st : State) (subscriber : PendingEmail)
    (hsnap : ∀ row ∈ st.db.sequence_subscribers, row.id = subscriber.id →
      row.current_step = subscriber.current_step) :
    StepsGrown st.db.sequence_subscribers
      (sendSequenceEmail env st subscriber).1.db.sequence_subscribers ∧
    (StepsKept st.db.sequence_subscribers
        (sendSequenceEmail env st subscriber).1.db.sequence_subscribers ∨
      ∃ id, env.resend subscriber.email = SendResult.ok id ∧
        (sendSequenceEmail env st subscriber).1.calls = st.calls ++ [subscriber.email] ∧
        (sendSequenceEmail env st subscriber).1.db.email_logs =
          (logged env st subscriber.email).db.email_logs) := by
  have he := sendSequenceEmail_ending env st subscriber
  generalize sendSequenceEmail env st subscriber = r at he
  cases he with
  | untouched => exact ⟨steps_kept_grown (steps_kept_refl _), Or.inl (steps_kept_refl _)⟩
  | unsubscribed _ =>
    have hk : StepsKept st.db.sequence_subscribers
        (updateRows st subscriber.id (withStatus env "unsubscribed")).db.sequence_subscribers :=
      steps_kept_update _ _ _ (fun _ _ _ => ⟨rfl, rfl⟩)
    exact ⟨steps_kept_grown hk, Or.inl hk⟩
  | failed _ => exact ⟨steps_kept_grown (steps_kept_refl _), Or.inl (steps_kept_refl _)⟩
  | stalled id _ _ => exact ⟨steps_kept_grown (steps_kept_refl _), Or.inl (steps_kept_refl _)⟩
  | advanced id first rest _ hs _ =>
    refine ⟨?_, Or.inr ⟨id, hs, rfl, rfl⟩⟩
    exact steps_grown_update _ _ _ (fun row hrow hrid =>
      ⟨rfl, by rw [hsnap row hrow hrid]; exact Nat.le_succ _⟩)
  | completed id _ hs _ =>
    have hk : StepsKept st.db.sequence_subscribers
        (updateRows (logged env st subscriber.email) subscriber.id
          (withStatus env "completed")).db.sequence_subscribers :=
      steps_kept_update _ _ _ (fun _ _ _ => ⟨rfl, rfl⟩)
    exact ⟨steps_kept_grown hk, Or.inl hk⟩

/-- With ids that are unique in the table, no row of the join carries the id of
a row that is not active. -/
theorem getPendingSequenceEmails_skips (env : Env) (st : State) (r : Subscriber)
    (hr : r ∈ st.db.sequence_subscribers) (hstatus : r.status ≠ "active")
    (hids : (st.db.sequence_subscribers.map (fun row => row.id)).Nodup) :
    ∀ s ∈ getPendingSequenceEmails env st, s.id ≠ r.id := by
  intro s hs hid
  obtain ⟨ss, hm, hss, ha, _⟩ := mem_getPendingSequenceEmails env st s hs
  have : ss = r := List.inj_on_of_nodup_map hids hm hr (hss.trans hid)
  exact hstatus (this ▸ ha)

/-- A pass leaves a row that is not active as it is, in its place. -/
theorem processPendingEmails_join_skips (env : Env) (st : State) (r : Subscriber)
    (hr : r ∈ st.db.sequence_subscribers) (hstatus : r.status ≠ "active")
    (hids : (st.db.sequence_subscribers.map (fun row => row.id)).Nodup) :
    ∃ f : Subscriber → Subscriber,
      (processPendingEmails env st).db.sequence_subscribers =
        st.db.sequence_subscribers.map f ∧
      f r = r := by
  obtain ⟨⟨f, hf, hfr, _⟩, _, _⟩ := processPendingEmails_join_frame env st
  exact ⟨f, hf, hfr r (getPendingSequenceEmails_skips env st r hr hstatus hids)⟩

/-- A pass over a table without a due active row leaves the state as it is, but
for the daily reset. -/
theorem processPendingEmails_join_idle (env : Env) (st : State)
    (h : getPendingSequenceEmails env st = []) :
    processPendingEmails env st = st ∨ processPendingEmails env st = resetDailyCounter env st := by
  unfold processPendingEmails
  simp only []
  rw [getPendingSequenceEmails_reset, h]
  split_ifs
  all_goals first
    | exact Or.inl rfl
    | exact Or.inr rfl
    | exact Or.inr (by simp [processLoop])

/-- The suppression branch of `sendSequenceEmail`. -/
theorem sendSequenceEmail_unsubscribes (env : Env) (st : State) (subscriber : PendingEmail)
    (hq1 : env.faults.unsubscribeQuery subscriber.email = false)
    (hunsub : subscriber.email ∈ st.db.unsubscribe_list)
    (hq2 : env.faults.subscriberUpdate subscriber.id = false) :
    sendSequenceEmail env st subscriber =
      (updateRows st subscriber.id (withStatus env "unsubscribed"), true) := by
  have hpos := (unsubscribe_check_iff st subscriber.email).mpr hunsub
  unfold sendSequenceEmail
  simp only [hq1, Bool.false_eq_true, if_false, hpos, if_true, updateSubscriberStatus, hq2]
  rfl

/-- A pass leaves the rows of an id without an active row without an active row. -/
theorem processPendingEmails_join_settled (env : Env) (st : State) (k : Nat)
    (h : ∀ row ∈ st.db.sequence_subscribers, row.id = k → row.status ≠ "active") :
    ∀ row ∈ (processPendingEmails env st).db.sequence_subscribers,
      row.id = k → row.status ≠ "active" := by
  obtain ⟨⟨f, hf, hfr, hfid⟩, _, _⟩ := processPendingEmails_join_frame env st
  intro row hrow hid
  rw [hf, List.mem_map] at hrow
  obtain ⟨r, hr, hfr2⟩ := hrow
  have hrid : r.id = k := by rw [← hfid r, hfr2]; exact hid
  have hkeep : f r = r := by
    apply hfr
    intro s hs hsid
    obtain ⟨ss, hm, hss, ha, _⟩ := mem_getPendingSequenceEmails env st s hs
    exact h ss hm ((hss.trans hsid).trans hrid) ha
  rw [← hfr2, hkeep]
  exact h r hr hrid

theorem passes_join_settled (k : Nat) :
    ∀ (envs : List Env) (st : State),
      (∀ row ∈ st.db.sequence_subscribers, row.id = k → row.status ≠ "active") →
      ∀ row ∈ (passes envs st).db.sequence_subscribers, row.id = k → row.status ≠ "active" := by
  intro envs
  induction envs with
  | nil => intro st h; exact h
  | cons env rest ih =>
    intro st h
    exact ih (processPendingEmails env st) (processPendingEmails_join_settled env st k h)

/-- Once no row of an id is active, the join of no pass holds a row of that id. -/
theorem never_joined (k : Nat) (st : State)
    (h : ∀ row ∈ st.db.sequence_subscribers, row.id = k → row.status ≠ "active")
    (envs : List Env) (later : Env) :
    ∀ s ∈ getPendingSequenceEmails later (passes envs st), s.id ≠ k := by
  intro s hs hid
  obtain ⟨ss, hm, hss, ha, _⟩ := mem_getPendingSequenceEmails later (passes envs st) s hs
  exact passes_join_settled k envs st h ss hm (hss.trans hid) ha

set_option maxRecDepth 100000 in
/-- The footer holds the word `unsubscribe`, whatever the address. -/
theorem sequence_footer_includes (email : String) :
    "unsubscribe".data <:+: unsubscribeFooter email := by
  have h : "unsubscribe".data <:+: footerTail.data := by decide
  unfold unsubscribeFooter
  simp only [String.data_append]
  exact h.trans (List.infix_append _ _ _)

set_option maxRecDepth 100000 in
/-- The replacement text holds no dollar sign, so `replace` expands no
replacement pattern in it. -/
theorem sequence_footer_no_dollar (email : String) : '$' ∉ unsubscribeFooter email := by
  have h1 : '$' ∉ footerHead.data := by decide
  have h2 : '$' ∉ footerTail.data := by decide
  have h3 := PersistentCampaign.encodeURIComponent_no_dollar email
  unfold unsubscribeFooter
  simp only [String.data_append, List.mem_append, not_or]
  exact ⟨⟨⟨h1, h3⟩, h2⟩, by decide⟩

theorem sequence_footer_eq (email : String) :
    unsubscribeFooter email = footerSnippet email ++ "</body>".data := by
  unfold unsubscribeFooter footerSnippet
  simp only [String.data_append]

/-- What the lines that add the unsubscribe link do to a content. -/
theorem sequence_addUnsubscribeLink_spec (html : List Char) (email : String) :
    (includes html "unsubscribe".data = true → addUnsubscribeLink html email = html) ∧
    (includes html "unsubscribe".data = false → closesBody html →
      ∃ pre tag post, FirstBodyClose html pre tag post ∧
        addUnsubscribeLink html email =
          pre ++ footerSnippet email ++ "</body>".data ++ post) ∧
    (includes html "unsubscribe".data = false → ¬ closesBody html →
      addUnsubscribeLink html email = html) ∧
    (closesBody html → includes (addUnsubscribeLink html email) "unsubscribe".data = true) := by
  have hpos : includes html "unsubscribe".data = true → addUnsubscribeLink html email = html := by
    intro h
    unfold addUnsubscribeLink
    simp [h]
  have hneg : includes html "unsubscribe".data = false → closesBody html →
      ∃ pre tag post, FirstBodyClose html pre tag post ∧
        addUnsubscribeLink html email =
          pre ++ footerSnippet email ++ "</body>".data ++ post := by
    intro h hclose
    obtain ⟨pre, tag, post, hfirst, hrep⟩ :=
      PersistentCampaign.replaceBodyClose_first (unsubscribeFooter email) html hclose
    refine ⟨pre, tag, post, hfirst, ?_⟩
    unfold addUnsubscribeLink
    simp only [h, Bool.not_false, if_true]
    rw [hrep, sequence_footer_eq]
    simp only [List.append_assoc]
  refine ⟨hpos, hneg, ?_, ?_⟩
  · intro h hno
    unfold addUnsubscribeLink
    simp only [h, Bool.not_false, if_true]
    exact PersistentCampaign.replaceBodyClose_none _ html hno
  · intro hclose
    cases h : includes html "unsubscribe".data with
    | true => rw [hpos h]; exact h
    | false =>
      obtain ⟨pre, tag, post, _, hrep⟩ :=
        PersistentCampaign.replaceBodyClose_first (unsubscribeFooter email) html hclose
      have hraw : addUnsubscribeLink html email = pre ++ unsubscribeFooter email ++ post := by
        unfold addUnsubscribeLink
        simp only [h, Bool.not_false, if_true]
        exact hrep
      rw [hraw, PersistentCampaign.includes_iff]
      exact (sequence_footer_includes email).trans (List.infix_append _ _ _)

/-- The loop raises the counter by at most one per row of the join. -/
theorem processLoop_counter_bound (env : Env) :
    ∀ (l : List PendingEmail) (st : State),
      (processLoop env st l).emailsSentToday ≤ st.emailsSentToday + l.length ∧
      (processLoop env st l).dailyLimit = st.dailyLimit := by
  intro l
  induction l with
  | nil => intro st; simp [processLoop]
  | cons s rest ih =>
    intro st
    simp only [processLoop]
    obtain ⟨_, _, _, _, _, _, hc, hd⟩ := (sendSequenceEmail_ending env st s).effects
    obtain ⟨h1, h2⟩ := ih
      (if (sendSequenceEmail env st s).2 = true then
        { (sendSequenceEmail env st s).1 with
          emailsSentToday := (sendSequenceEmail env st s).1.emailsSentToday + 1 }
      else (sendSequenceEmail env st s).1)
    have hnext : (if (sendSequenceEmail env st s).2 = true then
        { (sendSequenceEmail env st s).1 with
          emailsSentToday := (sendSequenceEmail env st s).1.emailsSentToday + 1 }
      else (sendSequenceEmail env st s).1).emailsSentToday ≤ st.emailsSentToday + 1 ∧
      (if (sendSequenceEmail env st s).2 = true then
        { (sendSequenceEmail env st s).1 with
          emailsSentToday := (sendSequenceEmail env st s).1.emailsSentToday + 1 }
      else (sendSequenceEmail env st s).1).dailyLimit = st.dailyLimit := by
      split
      · exact ⟨by simp only []; omega, hd⟩
      · exact ⟨by omega, hd⟩
    refine ⟨le_trans h1 ?_, h2.trans hnext.2⟩
    simp only [List.length_cons]
    exact (Nat.add_le_add_right hnext.1 _).trans (by omega)

/-- A pass keeps the counter within the limit. -/
theorem processPendingEmails_join_within_limit (env : Env) (st : State)
    (h : st.emailsSentToday ≤ st.dailyLimit) :
    (processPendingEmails env st).emailsSentToday ≤ (processPendingEmails env st).dailyLimit ∧
    (processPendingEmails env st).dailyLimit = st.dailyLimit := by
  have hreset : (resetDailyCounter env st).emailsSentToday ≤ (resetDailyCounter env st).dailyLimit ∧
      (resetDailyCounter env st).dailyLimit = st.dailyLimit := by
    unfold resetDailyCounter
    split
    · exact ⟨Nat.zero_le _, rfl⟩
    · exact ⟨h, rfl⟩
  unfold processPendingEmails
  simp only []
  split_ifs
  · exact ⟨h, rfl⟩
  · exact ⟨h, rfl⟩
  · exact hreset
  · exact hreset
  · exact hreset
  · obtain ⟨h1, h2⟩ := processLoop_counter_bound env
      ((getPendingSequenceEmails env (resetDailyCounter env st)).take
        ((resetDailyCounter env st).dailyLimit - (resetDailyCounter env st).emailsSentToday))
      (resetDailyCounter env st)
    have hlen := List.length_take_le
      ((resetDailyCounter env st).dailyLimit - (resetDailyCounter env st).emailsSentToday)
      (getPendingSequenceEmails env (resetDailyCounter env st))
    refine ⟨?_, h2.trans hreset.2⟩
    rw [h2]
    omega

end SequenceAutomation

/-! ## Properties of storage.ts -/

namespace DatabaseStorage

theorem le_foldl_max : ∀ (l : List Nat) (init : Nat),
    init ≤ l.foldl max init ∧ ∀ x ∈ l, x ≤ l.foldl max init := by
  intro l
  induction l with
  | nil => intro init; exact ⟨le_rfl, fun x hx => by cases hx⟩
  | cons a as ih =>
    intro init
    simp only [List.foldl_cons]
    obtain ⟨h1, h2⟩ := ih (max init a)
    refine ⟨le_trans (le_max_left init a) h1, ?_⟩
    intro x hx
    rcases List.mem_cons.mp hx with rfl | hx
    · exact le_trans (le_max_right init x) h1
    · exact h2 x hx

/-- The id given to a new row is above every id of the table. -/
theorem lt_nextId (rows : List SequenceAutomationJs.Subscriber)
    (row : SequenceAutomationJs.Subscriber) (h : row ∈ rows) : row.id < nextId rows := by
  unfold nextId
  have := (le_foldl_max (rows.map (fun r => r.id)) 0).2 row.id (List.mem_map_of_mem _ h)
  omega

/-- Deactivating steps whose number is not `n` does not change the step found
for the number `n`. -/
theorem find_deactivated (id sequenceId n : Nat) :
    ∀ steps : List SequenceAutomationJs.SequenceStep,
      (∀ s ∈ steps, s.id = id → s.stepNumber ≠ n) →
      (steps.map (fun step => if step.id = id then { step with isActive := false } else step)).find?
          (fun s => s.sequenceId == sequenceId && s.stepNumber == n && s.isActive) =
        steps.find? (fun s => s.sequenceId == sequenceId && s.stepNumber == n && s.isActive) := by
  intro steps
  induction steps with
  | nil => intro _; rfl
  | cons s rest ih =>
    intro h
    have hrest := ih (fun x hx => h x (List.mem_cons_of_mem s hx))
    by_cases hid : s.id = id
    · have hn : s.stepNumber ≠ n := h s (List.mem_cons_self s rest) hid
      have hb : (s.stepNumber == n) = false := by simpa using hn
      simp only [List.map_cons, hid, if_true, List.find?_cons, hb, Bool.and_false,
        Bool.false_and, Bool.and_self]
      simpa [hid] using hrest
    · simp only [List.map_cons, hid, if_false, List.find?_cons]
      rw [hrest]

theorem findStep_withoutStep (st : SequenceAutomationJs.State) (id sequenceId n : Nat)
    (h : ∀ s ∈ st.db.sequenceSteps, s.id = id → s.stepNumber ≠ n) :
    SequenceAutomationJs.findStep (withoutStep st id) sequenceId n =
      SequenceAutomationJs.findStep st sequenceId n :=
  find_deactivated id sequenceId n st.db.sequenceSteps h

theorem sendSequenceEmail_withoutStep (env : SequenceAutomationJs.Env)
    (st : SequenceAutomationJs.State) (id : Nat) (lead : SequenceAutomationJs.Lead) :
    SequenceAutomationJs.sendSequenceEmail env (withoutStep st id) lead =
      (withoutStep (SequenceAutomationJs.sendSequenceEmail env st lead).1 id,
       (SequenceAutomationJs.sendSequenceEmail env st lead).2) := by
  unfold SequenceAutomationJs.sendSequenceEmail
  cases env.resend lead.email with
  | ok rid =>
    simp only []
    split
    · rfl
    · split
      · rfl
      · rfl
  | error m => rfl
  | throws m => rfl

theorem sendSequenceEmail_steps_kept (env : SequenceAutomationJs.Env)
    (st : SequenceAutomationJs.State) (lead : SequenceAutomationJs.Lead) :
    (SequenceAutomationJs.sendSequenceEmail env st lead).1.db.sequenceSteps =
      st.db.sequenceSteps := by
  rcases SequenceAutomationJs.sendSequenceEmail_cases env st lead with ⟨_, h⟩ | ⟨_, rid, _, _, h⟩
  · rw [h]; rfl
  · rw [h]; rfl

/-- Processing a subscriber commutes with the deactivation of a step whose
number is not above the position of the subscriber. -/
theorem processSubscriberEmail_withoutStep (env : SequenceAutomationJs.Env)
    (st : SequenceAutomationJs.State) (subscriber : SequenceAutomationJs.Subscriber) (id : Nat)
    (hpast : ∀ s ∈ st.db.sequenceSteps, s.id = id → s.stepNumber ≤ subscriber.currentStep) :
    SequenceAutomationJs.processSubscriberEmail env (withoutStep st id) subscriber =
      withoutStep (SequenceAutomationJs.processSubscriberEmail env st subscriber) id := by
  have h1 := findStep_withoutStep st id subscriber.sequenceId (subscriber.currentStep + 1)
    (fun s hs hid => by have := hpast s hs hid; omega)
  have h2 : ∀ lead : SequenceAutomationJs.Lead,
      SequenceAutomationJs.findStep
          (withoutStep (SequenceAutomationJs.sendSequenceEmail env st lead).1 id)
          subscriber.sequenceId (subscriber.currentStep + 1 + 1) =
        SequenceAutomationJs.findStep (SequenceAutomationJs.sendSequenceEmail env st lead).1
          subscriber.sequenceId (subscriber.currentStep + 1 + 1) := by
    intro lead
    apply findStep_withoutStep
    intro s hs hid
    rw [sendSequenceEmail_steps_kept] at hs
    have := hpast s hs hid
    omega
  have hleads : (withoutStep st id).db.leads = st.db.leads := rfl
  have htemplates : (withoutStep st id).db.emailTemplates = st.db.emailTemplates := rfl
  have hunsub : ∀ e, SequenceAutomationJs.isUnsubscribed env (withoutStep st id) e =
      SequenceAutomationJs.isUnsubscribed env st e := fun _ => rfl
  unfold SequenceAutomationJs.processSubscriberEmail
  simp only [hleads, htemplates, hunsub, h1, sendSequenceEmail_withoutStep, h2]
  by_cases hq1 : env.faults.leadQuery subscriber.leadId = true
  · simp only [hq1, if_true]
  · simp only [hq1, Bool.false_eq_true, if_false]
    cases st.db.leads.find? (fun l => l.id == subscriber.leadId) with
    | none => rfl
    | some lead =>
      simp only []
      split
      · rfl
      · split
        · split <;> rfl
        · split
          · rfl
          · cases SequenceAutomationJs.findStep st subscriber.sequenceId
                (subscriber.currentStep + 1) with
            | none =>
              simp only []
              split <;> rfl
            | some nextStep =>
              simp only []
              split
              · rfl
              · cases st.db.emailTemplates.find? (fun t => t.id == nextStep.templateId) with
                | none => rfl
                | some t =>
                  simp only []
                  split
                  · split
                    · rfl
                    · split <;> rfl
                  · rfl

end DatabaseStorage

/-! ## Properties of the business-hours checks -/

/-- The window of each runner is a window of clock hours.  `isBusinessHours` of
app.js, persistentCampaign.js.js and sequenceAutomation.js.js holds exactly
when the Eastern weekday is Monday to Friday and the Eastern clock hour is 9
to 18; it holds on the whole stated window.  Outside it `runCampaign` of
persistentCampaign.js.js returns with no lead processed and
`processPendingEmails` of sequenceAutomation.js.js leaves the state as it is.
When the hour is below 9 or at least 18 the pass of sequenceAutomation.js
leaves the state as it is. -/
theorem business_hours_are_clock_hours :
    (∀ day hour : Nat,
        App.isBusinessHours day hour = true ↔ (1 ≤ day ∧ day ≤ 5 ∧ 9 ≤ hour ∧ hour ≤ 18)) ∧
    (∀ env : PersistentCampaignJs.Env,
        PersistentCampaignJs.isBusinessHours env = true ↔
          (1 ≤ env.estDay ∧ env.estDay ≤ 5 ∧ 9 ≤ env.estHour ∧ env.estHour ≤ 18)) ∧
    (∀ env : SequenceAutomationJs.Env,
        SequenceAutomationJs.isBusinessHours env = true ↔
          (1 ≤ env.estDay ∧ env.estDay ≤ 5 ∧ 9 ≤ env.estHour ∧ env.estHour ≤ 18)) ∧
    (∀ day hour minute : Nat,
        App.statedWindow day hour minute → App.isBusinessHours day hour = true) ∧
    (∀ (cfg : PersistentCampaignJs.Config) (env : PersistentCampaignJs.Env)
        (st : PersistentCampaignJs.State),
        PersistentCampaignJs.isBusinessHours env = false →
        PersistentCampaignJs.runCampaign cfg env st = some (st, [])) ∧
    (∀ (env : SequenceAutomationJs.Env) (st : SequenceAutomationJs.State),
        SequenceAutomationJs.isBusinessHours env = false →
        SequenceAutomationJs.processPendingEmails env st = st) ∧
    (∀ (env : SequenceAutomation.Env) (st : SequenceAutomation.State),
        (env.estHour < 9 ∨ 18 ≤ env.estHour) →
        SequenceAutomation.processPendingEmails env st = st) := by
  refine ⟨?_, ?_, ?_, ?_, ?_, ?_, ?_⟩
  · intro day hour
    simp [App.isBusinessHours, and_assoc]
  · intro env
    simp [PersistentCampaignJs.isBusinessHours, and_assoc]
  · intro env
    simp [SequenceAutomationJs.isBusinessHours, and_assoc]
  · intro day hour minute h
    obtain ⟨h1, h2, h3, h4⟩ := h
    have h5 : hour ≤ 18 := by omega
    simp [App.isBusinessHours, h1, h2, h3, h5]
  · intro cfg env st h
    unfold PersistentCampaignJs.runCampaign
    rw [h]
    rfl
  · intro env st h
    unfold SequenceAutomationJs.processPendingEmails
    rw [h]
    rfl
  · intro env st h
    unfold SequenceAutomation.processPendingEmails
    by_cases hr : (!st.isRunning) = true
    · rw [if_pos hr]
    · rw [if_neg hr, if_pos h]

/-! ## The claims -/

/-- C1, as the code behaves: in `persistentCampaign.js` the suppression lookup
of the database path lower-cases the probe and not the stored address.  The
address `Bob@X.com` is a row of `unsubscribe_list`, exactly as the contact
carries it; the query probes for `bob@x.com`, finds no row, and
`sendEmailBatch` calls the transport for the contact and counts it as sent, not
as skipped.  With the same address in `unsubscribes.json` and no database, the
lookup, which lower-cases both sides there, finds it: no transport call, one
skip, reported as `Bob@X.com - Unsubscribed`.  In `persistentCampaign.js.js`
the claim holds: with the campaign object that `runCampaign` hands it,
`sendEmail` returns `null` without a transport call, for every lead. -/
theorem C1_suppressed_contact_is_sent :
    (PersistentCampaign.bob.email ∈ PersistentCampaign.suppressionDb.unsubscribe_list ∧
      (PersistentCampaign.sendEmailBatch PersistentCampaign.config PersistentCampaign.calmEnv
          PersistentCampaign.suppressionState [PersistentCampaign.bob] none 15).map
        (fun r => (r.1.calls, r.2.sent, r.2.skipped, r.2.details)) =
        some (["Bob@X.com"], 1, 0, ["Bob@X.com - Sent successfully"])) ∧
    (PersistentCampaign.bob.email ∈ PersistentCampaign.suppressionFileState.unsubscribes ∧
      (PersistentCampaign.sendEmailBatch PersistentCampaign.config PersistentCampaign.calmEnv
          PersistentCampaign.suppressionFileState [PersistentCampaign.bob] none 15).map
        (fun r => (r.1.calls, r.2.sent, r.2.skipped, r.2.details)) =
        some ([], 0, 1, ["Bob@X.com - Unsubscribed"])) ∧
    (∀ (cfg : PersistentCampaignJs.Config) (env : PersistentCampaignJs.Env)
        (st : PersistentCampaignJs.State) (lead : PersistentCampaignJs.Lead),
        PersistentCampaignJs.sendEmail env st lead (PersistentCampaignJs.campaign cfg) =
          (st, PersistentCampaignJs.SendEmailReturn.null)) :=
  ⟨by decide, by decide,
   fun cfg env st lead => PersistentCampaignJs.sendEmail_campaign cfg env st lead⟩

/-- C2, as the code behaves: the file-based fallback of `wasEmailSentRecently`
looks at the current UTC day only.  The file log holds a `sent` record for
`amy@x.com` that is one day old, well within the last 7 days, and without a
database `wasEmailSentRecently` answers `false`; with a database, the row of
the same age in `email_logs` makes it answer `true`. -/
theorem C2_fallback_forgets_yesterday :
    (PersistentCampaign.fileOnlyState.sql = none ∧
      PersistentCampaign.yesterdaysRecord ∈ PersistentCampaign.fileOnlyState.sent_emails ∧
      PersistentCampaign.yesterdaysRecord.email = "amy@x.com" ∧
      PersistentCampaign.yesterdaysRecord.status = "sent" ∧
      PersistentCampaign.yesterdaysRecord.timestamp + MS_PER_DAY =
        PersistentCampaign.calmEnv.now ∧
      PersistentCampaign.calmEnv.now <
        PersistentCampaign.yesterdaysRecord.timestamp + SEVEN_DAYS ∧
      PersistentCampaign.wasEmailSentRecently PersistentCampaign.calmEnv
        PersistentCampaign.fileOnlyState "amy@x.com" 1 = false) ∧
    (PersistentCampaign.dbLogs PersistentCampaign.loggedState =
        [PersistentCampaign.yesterdaysLog] ∧
      PersistentCampaign.yesterdaysLog.sentAt = PersistentCampaign.yesterdaysRecord.timestamp ∧
      PersistentCampaign.wasEmailSentRecently PersistentCampaign.calmEnv
        PersistentCampaign.loggedState "amy@x.com" 1 = true) := by
  refine ⟨⟨by decide, by decide, by decide, by decide, by decide, by decide, by decide⟩,
    ⟨by decide, by decide, by decide⟩⟩

/-- C3, as stated, fails for the contact-loading filters.  The only log row of
`amy` is a `sent` row of campaign 1, one day old; for campaign 2
`wasEmailSentRecently` answers `false`, yet `loadContacts` leaves her out (its
query joins the `sent` rows of the last 7 days of every campaign), and so does
`getAvailableLeads` (which reads the rows of every campaign). -/
theorem C3_loading_filters_are_not_campaign_scoped :
    PersistentCampaign.wasEmailSentRecently PersistentCampaign.calmEnv
      PersistentCampaign.loggedState "amy@x.com" 2 = false ∧
    PersistentCampaign.loggedState.sql.map (fun db => db.leads) =
      some [PersistentCampaign.amyLead] ∧
    PersistentCampaign.amyLead.isActive = true ∧
    PersistentCampaign.loadContacts PersistentCampaign.calmEnv
      PersistentCampaign.loggedState = [] ∧
    PersistentCampaignJs.loggedState.db.leads = [PersistentCampaignJs.amy] ∧
    PersistentCampaignJs.getAvailableLeads PersistentCampaignJs.calmEnv
      PersistentCampaignJs.loggedState 100 = [] := by
  decide

/-- C3, amended: recency is campaign-scoped in the database query of
`wasEmailSentRecently` only.  With a database, for every recipient whose `sent`
rows of the last 7 days all belong to campaign `C` and every campaign `D`
different from `C`, `wasEmailSentRecently(e, D)` is false.  The contact-loading
filters are not campaign-scoped: `loadContacts`, when its query answers, leaves
out every address that has a `sent` row less than 7 days old, whatever the
campaign of the row, and the result of `getAvailableLeads` does not depend on
the campaign of any log row. -/
theorem C3_recency_scope :
    (∀ (env : PersistentCampaign.Env) (st : PersistentCampaign.State)
        (db : PersistentCampaign.Database) (e : String) (C D : Nat),
        st.sql = some db →
        (∀ l ∈ db.email_logs, l.recipientEmail = e → l.status = "sent" →
          env.now < l.sentAt + SEVEN_DAYS → l.campaignId = some C) →
        D ≠ C →
        PersistentCampaign.wasEmailSentRecently env st e D = false) ∧
    (∀ (env : PersistentCampaign.Env) (st : PersistentCampaign.State)
        (db : PersistentCampaign.Database) (e : String),
        st.sql = some db → env.faults.leadsQuery = false →
        (∃ l ∈ db.email_logs, l.recipientEmail = e ∧ l.status = "sent" ∧
          env.now < l.sentAt + SEVEN_DAYS) →
        ∀ c ∈ PersistentCampaign.loadContacts env st, c.email ≠ e) ∧
    (∀ (env : PersistentCampaignJs.Env) (st : PersistentCampaignJs.State) (limit : Nat)
        (f : PersistentCampaignJs.EmailLog → Option Nat),
        PersistentCampaignJs.getAvailableLeads env
          (PersistentCampaignJs.withCampaigns st f) limit =
        PersistentCampaignJs.getAvailableLeads env st limit) := by
  refine ⟨?_, ?_, ?_⟩
  · intro env st db e C D hs honly hne
    by_cases hq : env.faults.recentQuery e = true
    · exact PersistentCampaign.wasEmailSentRecently_db_fault env st db e D hs hq
    · have hq' : env.faults.recentQuery e = false := by simpa using hq
      rw [← Bool.not_eq_true]
      intro ht
      obtain ⟨l, hl, h1, h2, h3, h4⟩ :=
        (PersistentCampaign.wasEmailSentRecently_db_iff env st db e D hs hq').mp ht
      have := honly l hl h1 h4 h3
      rw [h2] at this
      exact hne (Option.some.inj this)
  · intro env st db e hs hq h
    exact PersistentCampaign.loadContacts_excludes_recent env st db e hs hq h
  · intro env st limit f
    exact PersistentCampaignJs.getAvailableLeads_ignores_campaign env st limit f

/-- C3, amended, at a concrete input: the only log row belongs to `amy` and to
campaign 1; `bob` is the one contact `loadContacts` returns. -/
theorem C3_recency_scope_witness :
    PersistentCampaign.wasEmailSentRecently PersistentCampaign.calmEnv
      PersistentCampaign.loggedState "amy@x.com" 2 = false ∧
    (PersistentCampaign.toContact PersistentCampaign.bobLead).email ≠ "amy@x.com" ∧
    PersistentCampaignJs.getAvailableLeads PersistentCampaignJs.calmEnv
        (PersistentCampaignJs.withCampaigns PersistentCampaignJs.loggedState (fun _ => some 7))
        100 =
      PersistentCampaignJs.getAvailableLeads PersistentCampaignJs.calmEnv
        PersistentCampaignJs.loggedState 100 :=
  ⟨C3_recency_scope.1 PersistentCampaign.calmEnv PersistentCampaign.loggedState
      { leads := [PersistentCampaign.amyLead], email_logs := [PersistentCampaign.yesterdaysLog],
        unsubscribe_list := [] } "amy@x.com" 1 2 rfl (by decide) (by decide),
   C3_recency_scope.2.1 PersistentCampaign.calmEnv PersistentCampaign.twoLeadState
      { leads := [PersistentCampaign.amyLead, PersistentCampaign.bobLead],
        email_logs := [PersistentCampaign.yesterdaysLog], unsubscribe_list := [] }
      "amy@x.com" rfl rfl
      ⟨PersistentCampaign.yesterdaysLog, by decide, by decide, by decide, by decide⟩
      (PersistentCampaign.toContact PersistentCampaign.bobLead) (by decide),
   C3_recency_scope.2.2 PersistentCampaignJs.calmEnv PersistentCampaignJs.loggedState 100
      (fun _ => some 7)⟩

/-- C4, as stated, fails: the contact that meets the daily limit is not
counted in `results.skipped`.  With the source constants and 100 `sent` records
of the day, `sendEmailBatch` on one contact that is neither suppressed nor
recently sent makes no transport call and returns `skipped = 0`; the only trace
is the message `Daily limit reached (100)`. -/
theorem C4_limit_is_not_counted_as_skipped :
    PersistentCampaign.getTodaysSentCount PersistentCampaign.calmEnv
      PersistentCampaign.fullState = 100 ∧
    PersistentCampaign.isEmailUnsubscribed PersistentCampaign.calmEnv
      PersistentCampaign.fullState "amy@x.com" = false ∧
    PersistentCampaign.wasEmailSentRecently PersistentCampaign.calmEnv
      PersistentCampaign.fullState "amy@x.com" 1 = false ∧
    (PersistentCampaign.sendEmailBatch PersistentCampaign.config PersistentCampaign.calmEnv
        PersistentCampaign.fullState [PersistentCampaign.amy] none 15).map
      (fun r => (r.1.calls, r.2)) =
      some ([], { sent := 0, skipped := 0, errors := 0,
                  details := ["Daily limit reached (100)"] }) := by
  decide

/-- C4, amended: for every daily limit `N`, once `N` records with status `sent`
exist for the current calendar day, a contact that is neither suppressed nor
recently sent passes the first segment unchanged and ends in the second: it
gets no transport call and no log record (the state is left as it was), the
message `Daily limit reached (N)` is added to `results.details`, and none of
the counters `sent`, `skipped`, `errors` changes.  A whole batch that starts at
the limit makes no transport call, writes no `sent` record and leaves `sent`
and `errors`. -/
theorem C4_daily_limit_stops_the_send :
    (∀ (cfg : PersistentCampaign.Config) (env : PersistentCampaign.Env) (cid : Nat)
        (p : PersistentCampaign.State × PersistentCampaign.Results)
        (c : PersistentCampaign.Contact),
        PersistentCampaign.getTodaysSentCount env p.1 ≥ cfg.DAILY_LIMIT →
        PersistentCampaign.isEmailUnsubscribed env p.1 c.email = false →
        PersistentCampaign.wasEmailSentRecently env p.1 c.email cid = false →
        PersistentCampaign.unsubscribeStage env p c = (p, true) ∧
        PersistentCampaign.sendStage cfg env cid p c =
          ((p.1, { p.2 with details := p.2.details ++
              ["Daily limit reached (" ++ toString cfg.DAILY_LIMIT ++ ")"] }), false)) ∧
    (∀ (cfg : PersistentCampaign.Config) (env : PersistentCampaign.Env) (cid : Nat)
        (p : PersistentCampaign.State × PersistentCampaign.Results)
        (batch : List PersistentCampaign.Contact),
        PersistentCampaign.getTodaysSentCount env p.1 ≥ cfg.DAILY_LIMIT →
        (PersistentCampaign.processBatch cfg env cid p batch).1.calls = p.1.calls ∧
        PersistentCampaign.getTodaysSentCount env
            (PersistentCampaign.processBatch cfg env cid p batch).1 =
          PersistentCampaign.getTodaysSentCount env p.1 ∧
        (PersistentCampaign.processBatch cfg env cid p batch).2.sent = p.2.sent ∧
        (PersistentCampaign.processBatch cfg env cid p batch).2.errors = p.2.errors) := by
  refine ⟨?_, ?_⟩
  · intro cfg env cid p c hl hu hr
    refine ⟨?_, ?_⟩
    · simp [PersistentCampaign.unsubscribeStage, hu]
    · unfold PersistentCampaign.sendStage
      rw [if_neg (by simp [hr]), if_pos hl]
  · intro cfg env cid p batch hl
    exact PersistentCampaign.processBatch_at_limit cfg env cid p batch hl

/-- C4, amended, at a concrete input: the source constants and 100 `sent`
records of the day. -/
theorem C4_daily_limit_witness :
    PersistentCampaign.sendStage PersistentCampaign.config PersistentCampaign.calmEnv 1
        (PersistentCampaign.fullState, PersistentCampaign.emptyResults) PersistentCampaign.amy =
      ((PersistentCampaign.fullState,
        { sent := 0, skipped := 0, errors := 0, details := ["Daily limit reached (100)"] }),
       false) ∧
    (PersistentCampaign.processBatch PersistentCampaign.config PersistentCampaign.calmEnv 1
        (PersistentCampaign.fullState, PersistentCampaign.emptyResults)
        [PersistentCampaign.amy, PersistentCampaign.bob]).1.calls = [] :=
  ⟨(C4_daily_limit_stops_the_send.1 PersistentCampaign.config PersistentCampaign.calmEnv 1
      (PersistentCampaign.fullState, PersistentCampaign.emptyResults) PersistentCampaign.amy
      (by decide) (by decide) (by decide)).2,
   (C4_daily_limit_stops_the_send.2 PersistentCampaign.config PersistentCampaign.calmEnv 1
      (PersistentCampaign.fullState, PersistentCampaign.emptyResults)
      [PersistentCampaign.amy, PersistentCampaign.bob] (by decide)).1⟩

/-- C5 on `sequenceAutomation.js.js`: the counter `emailsSentToday` is not
reset on a new day.  A pass on Tuesday sends one email and leaves the counter
at 1; every delivery record is then of Tuesday, yet after the pass of
Wednesday the counter still stands at 1.  And once the counter stands at the
daily limit, the pass of Wednesday leaves a due subscriber unprocessed: the
count it compares with the limit is the count of the earlier day. -/
theorem C5_counter_survives_the_day :
    (SequenceAutomationJs.processPendingEmails SequenceAutomationJs.tuesdayEnv
      (SequenceAutomationJs.new
        (SequenceAutomationJs.seqDb SequenceAutomationJs.enrolled))).emailsSentToday = 1 ∧
    (∀ l ∈ (SequenceAutomationJs.processPendingEmails SequenceAutomationJs.tuesdayEnv
        (SequenceAutomationJs.new
          (SequenceAutomationJs.seqDb SequenceAutomationJs.enrolled))).db.emailLogs,
      isoDate l.sentAt < isoDate SequenceAutomationJs.wednesdayEnv.now) ∧
    (SequenceAutomationJs.processPendingEmails SequenceAutomationJs.wednesdayEnv
      (SequenceAutomationJs.processPendingEmails SequenceAutomationJs.tuesdayEnv
        (SequenceAutomationJs.new
          (SequenceAutomationJs.seqDb SequenceAutomationJs.enrolled)))).emailsSentToday = 1 ∧
    SequenceAutomationJs.pendingSubscribers SequenceAutomationJs.wednesdayEnv
      SequenceAutomationJs.exhausted = [SequenceAutomationJs.enrolled] ∧
    SequenceAutomationJs.exhausted.db.emailLogs = [] ∧
    SequenceAutomationJs.processPendingEmails SequenceAutomationJs.wednesdayEnv
      SequenceAutomationJs.exhausted = SequenceAutomationJs.exhausted := by
  decide

/-- C6: the daily cap holds across passes.  In persistentCampaign.js, with a
batch size of at least one, every sequence of passes of `runCampaign` on one
UTC day (the day that the runner stamps on its records and counts by) that
starts with at most `DAILY_LIMIT` `sent` records of that day returns and ends
with at most `DAILY_LIMIT` of them, whatever the transport and the store do;
the transport calls of a pass go to contacts among the first
`DAILY_LIMIT - todaysSent` of the loaded list, at most one each, and the pass
adds at most that many `sent` records.  In persistentCampaign.js.js a pass of
`runCampaign` makes no transport call and writes no record at all: the
campaign object it builds has no `htmlContent`, and `sendEmail` returns `null`
for every lead before it reaches the transport. -/
theorem C6_daily_cap_across_passes :
    (∀ (cfg : PersistentCampaign.Config)
        (runs : List (PersistentCampaign.Env × Option PersistentCampaign.Campaign))
        (st : PersistentCampaign.State) (day : Nat),
        1 ≤ cfg.BATCH_SIZE →
        (∀ run ∈ runs, isoDate run.1.now = day) →
        PersistentCampaign.sentOnDay day st ≤ cfg.DAILY_LIMIT →
        ∃ st1, PersistentCampaign.passes cfg runs st = some st1 ∧
          PersistentCampaign.sentOnDay day st1 ≤ cfg.DAILY_LIMIT) ∧
    (∀ (cfg : PersistentCampaign.Config) (env : PersistentCampaign.Env)
        (st : PersistentCampaign.State) (campaign : Option PersistentCampaign.Campaign),
        1 ≤ cfg.BATCH_SIZE →
        ∃ r, PersistentCampaign.runCampaign cfg env st campaign = some r ∧
          (∃ issued : List PersistentCampaign.Contact,
            issued.Sublist ((PersistentCampaign.loadContacts env st).take
              (cfg.DAILY_LIMIT - PersistentCampaign.getTodaysSentCount env st)) ∧
            r.1.calls = st.calls ++ issued.map (fun c => c.email) ∧
            issued.length ≤ cfg.DAILY_LIMIT - PersistentCampaign.getTodaysSentCount env st) ∧
          PersistentCampaign.sentOnDay (isoDate env.now) r.1 ≤
            PersistentCampaign.sentOnDay (isoDate env.now) st +
              (cfg.DAILY_LIMIT - PersistentCampaign.sentOnDay (isoDate env.now) st)) ∧
    (∀ (cfg : PersistentCampaignJs.Config) (env : PersistentCampaignJs.Env)
        (st : PersistentCampaignJs.State),
        1 ≤ cfg.BATCH_SIZE →
        PersistentCampaignJs.runCampaign cfg env st = some (st, [])) := by
  refine ⟨?_, ?_, ?_⟩
  · intro cfg runs st day hb hday h
    exact PersistentCampaign.passes_within_limit cfg hb day runs st hday h
  · intro cfg env st campaign hb
    obtain ⟨r, hr⟩ := PersistentCampaign.runCampaign_total cfg env st campaign hb
    exact ⟨r, hr, PersistentCampaign.runCampaign_within_remaining cfg env st campaign r hr⟩
  · intro cfg env st hb
    exact PersistentCampaignJs.runCampaign_sends_nothing cfg env st hb

/-- C6 at two passes of persistentCampaign.js at 12:00 and 14:00 UTC of one
day, starting from a file log without a send of that day, and at a pass of
persistentCampaign.js.js over 101 active leads. -/
theorem C6_daily_cap_witness :
    (∃ st1, PersistentCampaign.passes PersistentCampaign.config
        [(PersistentCampaign.calmEnv, none), (PersistentCampaign.laterEnv, none)]
        PersistentCampaign.fileOnlyState = some st1 ∧
      PersistentCampaign.sentOnDay 20 st1 ≤ PersistentCampaign.config.DAILY_LIMIT) ∧
    PersistentCampaignJs.runCampaign PersistentCampaignJs.config PersistentCampaignJs.calmEnv
      PersistentCampaignJs.crowdedState = some (PersistentCampaignJs.crowdedState, []) :=
  ⟨C6_daily_cap_across_passes.1 PersistentCampaign.config
      [(PersistentCampaign.calmEnv, none), (PersistentCampaign.laterEnv, none)]
      PersistentCampaign.fileOnlyState 20 (by decide) (by decide) (by decide),
   C6_daily_cap_across_passes.2.2 PersistentCampaignJs.config PersistentCampaignJs.calmEnv
      PersistentCampaignJs.crowdedState (by decide)⟩

/-- C7, as stated, fails inside `sendEmailBatch`: the suppression check comes
before the daily limit check.  With the source constants and the day's count
already at 100, a suppressed contact is still counted as skipped and a
`skipped-unsubscribed` record is appended to the log. -/
theorem C7_suppressed_contact_after_the_limit :
    PersistentCampaign.getTodaysSentCount PersistentCampaign.calmEnv
      PersistentCampaign.fullSuppressedState = 100 ∧
    PersistentCampaign.fullSuppressedState.sent_emails.length = 100 ∧
    (PersistentCampaign.sendEmailBatch PersistentCampaign.config PersistentCampaign.calmEnv
        PersistentCampaign.fullSuppressedState [PersistentCampaign.amy] none 15).map
      (fun r => (r.2.skipped, r.1.sent_emails.length,
        r.1.sent_emails.getLast?.map (fun record => (record.email, record.status)))) =
      some (1, 101, some ("amy@x.com", "skipped-unsubscribed")) := by
  decide

/-- C7, amended.  `runCampaign` hands `sendEmailBatch` exactly the first
`min(remaining, n)` contacts of the loaded list, in their order, and the
transport calls of the pass go to contacts of that prefix, in list order, at
most one each.  A pass with contacts loaded and the count of the day below the
limit, with a batch size of at least one, returns what `sendEmailBatch`
returns for exactly that prefix, and (as long as the writes of
`sent_emails.json` succeed) every contact of the prefix adds one to the
counters: `sent + skipped + errors` is `min(remaining, n)`, none of them is
dropped at the limit; a pass without contacts or with the count at the limit
touches nothing.  Inside `sendEmailBatch` the limit is tested after the
suppression and recency checks of a contact and once more after every batch:
when a batch ends with the day's count at `DAILY_LIMIT` the loop ends and no
contact of a later batch is touched; when the dispatch starts with the count
at `DAILY_LIMIT` only the first batch is looked at, no transport call is made,
no `sent` record is written and `sent` and `errors` stay 0 (suppressed and
recently sent contacts of that batch are still counted as skipped). -/
theorem C7_dispatch_prefix_and_limit :
    (∀ (cfg : PersistentCampaign.Config) (env : PersistentCampaign.Env)
        (st : PersistentCampaign.State),
        PersistentCampaign.contactsToSend cfg env st =
          (PersistentCampaign.loadContacts env st).take
            (min (cfg.DAILY_LIMIT - PersistentCampaign.getTodaysSentCount env st)
              (PersistentCampaign.loadContacts env st).length)) ∧
    (∀ (cfg : PersistentCampaign.Config) (env : PersistentCampaign.Env)
        (st : PersistentCampaign.State) (campaign : Option PersistentCampaign.Campaign)
        (r : PersistentCampaign.State × Option PersistentCampaign.Results),
        PersistentCampaign.runCampaign cfg env st campaign = some r →
        ∃ issued : List PersistentCampaign.Contact,
          issued.Sublist (PersistentCampaign.contactsToSend cfg env st) ∧
          r.1.calls = st.calls ++ issued.map (fun c => c.email)) ∧
    (∀ (cfg : PersistentCampaign.Config) (env : PersistentCampaign.Env) (cid batchSize fuel : Nat)
        (p : PersistentCampaign.State × PersistentCampaign.Results)
        (contacts : List PersistentCampaign.Contact),
        contacts ≠ [] →
        PersistentCampaign.getTodaysSentCount env
          (PersistentCampaign.processBatch cfg env cid p (contacts.take batchSize)).1 ≥
            cfg.DAILY_LIMIT →
        PersistentCampaign.sendEmailBatchLoop cfg env cid batchSize (fuel + 1) p contacts =
          some (PersistentCampaign.processBatch cfg env cid p (contacts.take batchSize))) ∧
    (∀ (cfg : PersistentCampaign.Config) (env : PersistentCampaign.Env)
        (st : PersistentCampaign.State) (contacts : List PersistentCampaign.Contact)
        (campaign : Option PersistentCampaign.Campaign) (batchSize : Nat),
        contacts ≠ [] →
        PersistentCampaign.getTodaysSentCount env st ≥ cfg.DAILY_LIMIT →
        ∃ r, PersistentCampaign.sendEmailBatch cfg env st contacts campaign batchSize = some r ∧
          r = PersistentCampaign.processBatch cfg env (PersistentCampaign.campaignIdOf cfg campaign)
            (st, PersistentCampaign.emptyResults) (contacts.take batchSize) ∧
          r.1.calls = st.calls ∧
          PersistentCampaign.getTodaysSentCount env r.1 =
            PersistentCampaign.getTodaysSentCount env st ∧
          r.2.sent = 0 ∧ r.2.errors = 0) ∧
    (∀ (cfg : PersistentCampaign.Config) (env : PersistentCampaign.Env)
        (st : PersistentCampaign.State) (campaign : Option PersistentCampaign.Campaign),
        1 ≤ cfg.BATCH_SIZE →
        PersistentCampaign.loadContacts env st ≠ [] →
        PersistentCampaign.getTodaysSentCount env st < cfg.DAILY_LIMIT →
        ∃ r : PersistentCampaign.State × PersistentCampaign.Results,
          PersistentCampaign.sendEmailBatch cfg env st
              ((PersistentCampaign.loadContacts env st).take
                (min (cfg.DAILY_LIMIT - PersistentCampaign.getTodaysSentCount env st)
                  (PersistentCampaign.loadContacts env st).length))
              campaign cfg.BATCH_SIZE = some r ∧
          (∀ writeError : String,
            PersistentCampaign.sendEmailBatchWithWrites cfg env st
              ((PersistentCampaign.loadContacts env st).take
                (min (cfg.DAILY_LIMIT - PersistentCampaign.getTodaysSentCount env st)
                  (PersistentCampaign.loadContacts env st).length))
              campaign cfg.BATCH_SIZE (fun _ => false) (fun _ => false) writeError = some r) ∧
          PersistentCampaign.runCampaign cfg env st campaign = some (r.1, some r.2) ∧
          r.2.sent + r.2.skipped + r.2.errors =
            min (cfg.DAILY_LIMIT - PersistentCampaign.getTodaysSentCount env st)
              (PersistentCampaign.loadContacts env st).length) ∧
    (∀ (cfg : PersistentCampaign.Config) (env : PersistentCampaign.Env)
        (st : PersistentCampaign.State) (campaign : Option PersistentCampaign.Campaign),
        (PersistentCampaign.loadContacts env st = [] ∨
          cfg.DAILY_LIMIT ≤ PersistentCampaign.getTodaysSentCount env st) →
        PersistentCampaign.runCampaign cfg env st campaign = some (st, none)) := by
  refine ⟨?_, ?_, ?_, ?_, ?_, ?_⟩
  · intro cfg env st
    unfold PersistentCampaign.contactsToSend
    rw [List.take_eq_take]
    rw [Nat.min_assoc, Nat.min_self]
  · intro cfg env st campaign r h
    unfold PersistentCampaign.runCampaign at h
    split at h
    · cases h; exact ⟨[], List.nil_sublist _, by simp⟩
    · split at h
      · cases h; exact ⟨[], List.nil_sublist _, by simp⟩
      · split at h
        · rename_i r1 hr1
          cases h
          exact PersistentCampaign.sendEmailBatchLoop_calls cfg env _ _ _ _ _ _ hr1
        · cases h
  · intro cfg env cid batchSize fuel p contacts hne hl
    have hlen : ¬ contacts.length = 0 := fun h0 => hne (List.length_eq_zero.mp h0)
    simp only [PersistentCampaign.sendEmailBatchLoop, hlen, if_false, hl, if_true]
  · intro cfg env st contacts campaign batchSize hne hl
    have hb := PersistentCampaign.processBatch_at_limit cfg env
      (PersistentCampaign.campaignIdOf cfg campaign) (st, PersistentCampaign.emptyResults)
      (contacts.take batchSize) hl
    have hlen : ¬ contacts.length = 0 := fun h0 => hne (List.length_eq_zero.mp h0)
    have hl' : PersistentCampaign.getTodaysSentCount env
        (PersistentCampaign.processBatch cfg env (PersistentCampaign.campaignIdOf cfg campaign)
          (st, PersistentCampaign.emptyResults) (contacts.take batchSize)).1 ≥
        cfg.DAILY_LIMIT := by
      rw [hb.2.1]; exact hl
    refine ⟨_, ?_, rfl, hb.1, hb.2.1, hb.2.2.1, hb.2.2.2⟩
    unfold PersistentCampaign.sendEmailBatch
    simp only [PersistentCampaign.sendEmailBatchLoop, hlen, if_false, hl', if_true]
  · intro cfg env st campaign hb hne hlim
    obtain ⟨r, h1, h2, h3⟩ :=
      PersistentCampaign.runCampaign_dispatches_prefix cfg env st campaign hb hne hlim
    refine ⟨r, h1, ?_, h2, h3⟩
    intro writeError
    rw [PersistentCampaign.sendEmailBatchWithWrites_sound]
    exact h1
  · intro cfg env st campaign h
    unfold PersistentCampaign.runCampaign
    rcases h with h | h
    · simp [h]
    · have h0 : cfg.DAILY_LIMIT - PersistentCampaign.getTodaysSentCount env st = 0 := by omega
      simp [h0]

/-- C7, amended, at concrete inputs: a pass that sends to the one loaded
contact, dispatches that start at the limit of the source, and passes with a
contact loaded, below the limit and at the limit. -/
theorem C7_dispatch_witness :
    (∃ issued : List PersistentCampaign.Contact,
      issued.Sublist (PersistentCampaign.contactsToSend PersistentCampaign.config
        PersistentCampaign.calmEnv PersistentCampaign.fileOnlyState) ∧
      PersistentCampaign.fileOnlyStateAfter.calls =
        PersistentCampaign.fileOnlyState.calls ++ issued.map (fun c => c.email)) ∧
    PersistentCampaign.sendEmailBatchLoop PersistentCampaign.config PersistentCampaign.calmEnv 1 1
        (2 + 1) (PersistentCampaign.fullState, PersistentCampaign.emptyResults)
        [PersistentCampaign.amy, PersistentCampaign.bob] =
      some (PersistentCampaign.processBatch PersistentCampaign.config PersistentCampaign.calmEnv 1
        (PersistentCampaign.fullState, PersistentCampaign.emptyResults)
        ([PersistentCampaign.amy, PersistentCampaign.bob].take 1)) ∧
    (∃ r, PersistentCampaign.sendEmailBatch PersistentCampaign.config PersistentCampaign.calmEnv
        PersistentCampaign.fullState [PersistentCampaign.amy, PersistentCampaign.bob] none 15 =
          some r ∧
      r = PersistentCampaign.processBatch PersistentCampaign.config PersistentCampaign.calmEnv
        (PersistentCampaign.campaignIdOf PersistentCampaign.config none)
        (PersistentCampaign.fullState, PersistentCampaign.emptyResults)
        ([PersistentCampaign.amy, PersistentCampaign.bob].take 15) ∧
      r.1.calls = PersistentCampaign.fullState.calls ∧
      PersistentCampaign.getTodaysSentCount PersistentCampaign.calmEnv r.1 =
        PersistentCampaign.getTodaysSentCount PersistentCampaign.calmEnv
          PersistentCampaign.fullState ∧
      r.2.sent = 0 ∧ r.2.errors = 0) ∧
    (∃ r : PersistentCampaign.State × PersistentCampaign.Results,
      PersistentCampaign.runCampaign PersistentCampaign.config PersistentCampaign.calmEnv
          PersistentCampaign.fileOnlyState none = some (r.1, some r.2) ∧
      r.2.sent + r.2.skipped + r.2.errors =
        min (PersistentCampaign.config.DAILY_LIMIT -
            PersistentCampaign.getTodaysSentCount PersistentCampaign.calmEnv
              PersistentCampaign.fileOnlyState)
          (PersistentCampaign.loadContacts PersistentCampaign.calmEnv
            PersistentCampaign.fileOnlyState).length) ∧
    PersistentCampaign.runCampaign PersistentCampaign.config PersistentCampaign.calmEnv
      PersistentCampaign.fullState none = some (PersistentCampaign.fullState, none) :=
  ⟨C7_dispatch_prefix_and_limit.2.1 PersistentCampaign.config PersistentCampaign.calmEnv
      PersistentCampaign.fileOnlyState none
      (PersistentCampaign.fileOnlyStateAfter,
       some { sent := 1, skipped := 0, errors := 0, details := ["amy@x.com - Sent successfully"] })
      (by decide),
   C7_dispatch_prefix_and_limit.2.2.1 PersistentCampaign.config PersistentCampaign.calmEnv 1 1 2
      (PersistentCampaign.fullState, PersistentCampaign.emptyResults)
      [PersistentCampaign.amy, PersistentCampaign.bob] (by decide) (by decide),
   C7_dispatch_prefix_and_limit.2.2.2.1 PersistentCampaign.config PersistentCampaign.calmEnv
      PersistentCampaign.fullState [PersistentCampaign.amy, PersistentCampaign.bob] none 15
      (by decide) (by decide),
   (C7_dispatch_prefix_and_limit.2.2.2.2.1 PersistentCampaign.config PersistentCampaign.calmEnv
      PersistentCampaign.fileOnlyState none (by decide) (by decide) (by decide)).imp
      (fun _ h => ⟨h.2.2.1, h.2.2.2⟩),
   C7_dispatch_prefix_and_limit.2.2.2.2.2 PersistentCampaign.config PersistentCampaign.calmEnv
      PersistentCampaign.fullState none (Or.inr (by decide))⟩

/-- C8, as stated, fails: the lead is looked at before the steps.  The
subscriber is active, has been sent both steps of its sequence and there is no
step 3; when the lead has unsubscribed the status becomes `unsubscribed`, not
`completed`, and when the lead is inactive the row is left as it was, still
`active`. -/
theorem C8_lead_checks_come_first :
    SequenceAutomationJs.finished.status = "active" ∧
    SequenceAutomationJs.findStep
      (SequenceAutomationJs.new (SequenceAutomationJs.unsubscribedDb SequenceAutomationJs.finished))
      1 (SequenceAutomationJs.finished.currentStep + 1) = none ∧
    (SequenceAutomationJs.processSubscriberEmail SequenceAutomationJs.tuesdayEnv
      (SequenceAutomationJs.new (SequenceAutomationJs.unsubscribedDb SequenceAutomationJs.finished))
      SequenceAutomationJs.finished).db.sequenceSubscribers.map (fun row => row.status) =
      ["unsubscribed"] ∧
    (SequenceAutomationJs.processSubscriberEmail SequenceAutomationJs.tuesdayEnv
      (SequenceAutomationJs.new (SequenceAutomationJs.inactiveDb SequenceAutomationJs.finished))
      SequenceAutomationJs.finished).db.sequenceSubscribers.map (fun row => row.status) =
      ["active"] := by
  decide

/-- C8, amended: for every subscriber at `currentStep = k` whose sequence has
no active step numbered `k + 1`, `processSubscriberEmail` makes no transport
call and writes no delivery record; and when moreover the lead of the
subscriber exists, is active and is not in the suppression list, and no store
call rejects, it sets the status of the subscriber's row to `completed` and
its `currentStep` to `k`, and changes no other row. -/
theorem C8_completion_without_next_step :
    (∀ (env : SequenceAutomationJs.Env) (st : SequenceAutomationJs.State)
        (subscriber : SequenceAutomationJs.Subscriber),
        (∀ s ∈ st.db.sequenceSteps, s.sequenceId = subscriber.sequenceId →
          s.stepNumber = subscriber.currentStep + 1 → s.isActive = false) →
        (SequenceAutomationJs.processSubscriberEmail env st subscriber).calls = st.calls ∧
        (SequenceAutomationJs.processSubscriberEmail env st subscriber).db.emailLogs =
          st.db.emailLogs) ∧
    (∀ (env : SequenceAutomationJs.Env) (st : SequenceAutomationJs.State)
        (subscriber : SequenceAutomationJs.Subscriber) (lead : SequenceAutomationJs.Lead),
        env.faults.leadQuery subscriber.leadId = false →
        env.faults.stepQuery subscriber.sequenceId (subscriber.currentStep + 1) = false →
        env.faults.subscriberUpdate subscriber.id = false →
        st.db.leads.find? (fun l => l.id == subscriber.leadId) = some lead →
        lead.isActive = true →
        lead.email ∉ st.db.unsubscribes →
        (∀ s ∈ st.db.sequenceSteps, s.sequenceId = subscriber.sequenceId →
          s.stepNumber = subscriber.currentStep + 1 → s.isActive = false) →
        (SequenceAutomationJs.processSubscriberEmail env st subscriber).db.sequenceSubscribers =
          st.db.sequenceSubscribers.map (fun row =>
            if row.id = subscriber.id then
              { row with status := "completed", completedAt := some env.now,
                         currentStep := subscriber.currentStep }
            else row)) := by
  refine ⟨?_, ?_⟩
  · intro env st subscriber hno
    have h := SequenceAutomationJs.processSubscriberEmail_no_step env st subscriber
      ((SequenceAutomationJs.findStep_eq_none_iff st _ _).mpr hno)
    exact ⟨h.1, h.2.1⟩
  · intro env st subscriber lead hq1 hq2 hq3 hlead hactive hunsub hno
    rw [SequenceAutomationJs.processSubscriberEmail_completes env st subscriber lead hq1 hlead
      hactive (SequenceAutomationJs.isUnsubscribed_of_not_mem env st lead.email hunsub) hq2
      ((SequenceAutomationJs.findStep_eq_none_iff st _ _).mpr hno) hq3]
    rfl

/-- C8, amended, at a concrete input: the subscriber has been sent both steps
and the lead is active and not suppressed. -/
theorem C8_completion_witness :
    (SequenceAutomationJs.processSubscriberEmail SequenceAutomationJs.tuesdayEnv
      (SequenceAutomationJs.new (SequenceAutomationJs.seqDb SequenceAutomationJs.finished))
      SequenceAutomationJs.finished).calls = [] ∧
    (SequenceAutomationJs.processSubscriberEmail SequenceAutomationJs.tuesdayEnv
      (SequenceAutomationJs.new (SequenceAutomationJs.seqDb SequenceAutomationJs.finished))
      SequenceAutomationJs.finished).db.sequenceSubscribers =
      [{ SequenceAutomationJs.finished with
          status := "completed",
          completedAt := some SequenceAutomationJs.tuesdayEnv.now,
          currentStep := 2 }] :=
  ⟨(C8_completion_without_next_step.1 SequenceAutomationJs.tuesdayEnv
      (SequenceAutomationJs.new (SequenceAutomationJs.seqDb SequenceAutomationJs.finished))
      SequenceAutomationJs.finished (by decide)).1,
   C8_completion_without_next_step.2 SequenceAutomationJs.tuesdayEnv
      (SequenceAutomationJs.new (SequenceAutomationJs.seqDb SequenceAutomationJs.finished))
      SequenceAutomationJs.finished SequenceAutomationJs.amy rfl rfl rfl (by decide) rfl
      (by decide) (by decide)⟩

/-- C9: for every subscriber at `currentStep = k` whose lead exists, is active
and is not in the suppression list, and whose sequence has an active step
`k + 1` with an existing template, a successful send (the transport returns an
id and the delivery record is written; no store call rejects) makes
`processSubscriberEmail` call the transport once, set `currentStep` of the
subscriber's row to exactly `k + 1`, leave its status as it was (`active`), and
set `nextEmailDue` to `now + delayDays(step k + 2)` days when an active step
`k + 2` exists and to null otherwise; no other row changes. -/
theorem C9_step_advance_on_success (env : SequenceAutomationJs.Env)
    (st : SequenceAutomationJs.State) (subscriber : SequenceAutomationJs.Subscriber)
    (lead : SequenceAutomationJs.Lead) (nextStep : SequenceAutomationJs.SequenceStep)
    (template : SequenceAutomationJs.EmailTemplate) (id : String)
    (hq1 : env.faults.leadQuery subscriber.leadId = false)
    (hq2 : env.faults.stepQuery subscriber.sequenceId (subscriber.currentStep + 1) = false)
    (hq3 : env.faults.templateQuery nextStep.templateId = false)
    (hq4 : env.faults.logInsert lead.email = false)
    (hq5 : env.faults.stepQuery subscriber.sequenceId (subscriber.currentStep + 2) = false)
    (hq6 : env.faults.subscriberUpdate subscriber.id = false)
    (hlead : st.db.leads.find? (fun l => l.id == subscriber.leadId) = some lead)
    (hactive : lead.isActive = true)
    (hunsub : lead.email ∉ st.db.unsubscribes)
    (hstep : SequenceAutomationJs.findStep st subscriber.sequenceId
      (subscriber.currentStep + 1) = some nextStep)
    (htemplate : st.db.emailTemplates.find? (fun t => t.id == nextStep.templateId) =
      some template)
    (hsend : env.resend lead.email = SendResult.ok id) (hid : id ≠ "") :
    (SequenceAutomationJs.processSubscriberEmail env st subscriber).calls =
      st.calls ++ [lead.email] ∧
    (SequenceAutomationJs.processSubscriberEmail env st subscriber).db.sequenceSubscribers =
      st.db.sequenceSubscribers.map (fun row =>
        if row.id = subscriber.id then
          { row with
            currentStep := subscriber.currentStep + 1,
            lastEmailSent := some env.now,
            nextEmailDue :=
              match SequenceAutomationJs.findStep st subscriber.sequenceId
                (subscriber.currentStep + 2) with
              | some following => some (env.now + following.delayDays * MS_PER_DAY)
              | none => none }
        else row) := by
  obtain ⟨h1, h2, _, _⟩ := SequenceAutomationJs.processSubscriberEmail_success env st subscriber
    lead nextStep template id hq1 hlead hactive
    (SequenceAutomationJs.isUnsubscribed_of_not_mem env st lead.email hunsub) hq2 hstep hq3
    htemplate hsend hid hq4 hq5 hq6
  refine ⟨h2, ?_⟩
  rw [h1]
  apply List.map_congr_left
  intro row _
  by_cases hrow : row.id = subscriber.id
  · simp only [hrow, if_true, SequenceAutomationJs.advanced]
    cases SequenceAutomationJs.findStep st subscriber.sequenceId (subscriber.currentStep + 2) <;>
      rfl
  · simp only [hrow, if_false]

/-- C9 at a concrete input: the enrolled subscriber is sent step 1 of the
two-step sequence on Tuesday. -/
theorem C9_step_advance_witness :
    (SequenceAutomationJs.processSubscriberEmail SequenceAutomationJs.tuesdayEnv
      (SequenceAutomationJs.new (SequenceAutomationJs.seqDb SequenceAutomationJs.enrolled))
      SequenceAutomationJs.enrolled).calls = ["amy@x.com"] ∧
    (SequenceAutomationJs.processSubscriberEmail SequenceAutomationJs.tuesdayEnv
      (SequenceAutomationJs.new (SequenceAutomationJs.seqDb SequenceAutomationJs.enrolled))
      SequenceAutomationJs.enrolled).db.sequenceSubscribers =
      [{ SequenceAutomationJs.enrolled with
          currentStep := 1,
          lastEmailSent := some SequenceAutomationJs.tuesdayEnv.now,
          nextEmailDue := some (SequenceAutomationJs.tuesdayEnv.now + 5 * MS_PER_DAY) }] :=
  C9_step_advance_on_success SequenceAutomationJs.tuesdayEnv
    (SequenceAutomationJs.new (SequenceAutomationJs.seqDb SequenceAutomationJs.enrolled))
    SequenceAutomationJs.enrolled SequenceAutomationJs.amy
    { id := 1, sequenceId := 1, stepNumber := 1, templateId := 1, delayDays := 3,
      isActive := true }
    { id := 1, name := "welcome" } "re_1" rfl rfl rfl rfl rfl rfl (by decide) rfl (by decide)
    (by decide) (by decide) rfl (by decide)

/-- C10, as stated, fails in both processors: the wait after step `j` is the
delay configured on step `j + 1`, not on step `j`.  In the two-step sequence
(step 1 with 3 days, step 2 with 5 days) sending step 1 at the instant `now`
sets the next due time to `now` + 5 days, not `now` + 3 days. -/
theorem C10_wait_is_the_delay_of_the_following_step :
    (SequenceAutomationJs.processSubscriberEmail SequenceAutomationJs.tuesdayEnv
      (SequenceAutomationJs.new (SequenceAutomationJs.seqDb SequenceAutomationJs.enrolled))
      SequenceAutomationJs.enrolled).db.sequenceSubscribers.map
        (fun row => (row.currentStep, row.nextEmailDue)) =
      [(1, some (SequenceAutomationJs.tuesdayEnv.now + 5 * MS_PER_DAY))] ∧
    SequenceAutomation.getPendingSequenceEmails SequenceAutomation.tuesdayEnv
      (SequenceAutomation.started SequenceAutomation.seqDb) =
      [SequenceAutomation.enrolledRow] ∧
    (SequenceAutomation.sendSequenceEmail SequenceAutomation.tuesdayEnv
      (SequenceAutomation.started SequenceAutomation.seqDb)
      SequenceAutomation.enrolledRow).1.db.sequence_subscribers.map
        (fun row => (row.current_step, row.next_email_at)) =
      [(2, some (SequenceAutomation.tuesdayEnv.now + 5 * MS_PER_DAY))] ∧
    SequenceAutomationJs.tuesdayEnv.now + 5 * MS_PER_DAY ≠
      SequenceAutomationJs.tuesdayEnv.now + 3 * MS_PER_DAY := by
  decide

/-- C10, amended: after step `j` of a sequence is sent at time `now`, the next
due time of the subscriber is `now + d` days where `d` is the delay configured
on step `j + 1`, the step that fires next.  In `sequenceAutomation.js.js` the
step sent is `currentStep + 1` and `d` is the delay of the active step
`currentStep + 2`; in `sequenceAutomation.js` the step sent is `current_step`
and `d` is the delay of the first active step `current_step + 1`.  (The lead is
not suppressed, the send succeeds and no store call rejects.) -/
theorem C10_delay_semantics :
    (∀ (env : SequenceAutomationJs.Env) (st : SequenceAutomationJs.State)
        (subscriber : SequenceAutomationJs.Subscriber) (lead : SequenceAutomationJs.Lead)
        (nextStep following : SequenceAutomationJs.SequenceStep)
        (template : SequenceAutomationJs.EmailTemplate) (id : String),
        env.faults.leadQuery subscriber.leadId = false →
        env.faults.stepQuery subscriber.sequenceId (subscriber.currentStep + 1) = false →
        env.faults.templateQuery nextStep.templateId = false →
        env.faults.logInsert lead.email = false →
        env.faults.stepQuery subscriber.sequenceId (subscriber.currentStep + 2) = false →
        env.faults.subscriberUpdate subscriber.id = false →
        st.db.leads.find? (fun l => l.id == subscriber.leadId) = some lead →
        lead.isActive = true →
        lead.email ∉ st.db.unsubscribes →
        SequenceAutomationJs.findStep st subscriber.sequenceId (subscriber.currentStep + 1) =
          some nextStep →
        SequenceAutomationJs.findStep st subscriber.sequenceId (subscriber.currentStep + 2) =
          some following →
        st.db.emailTemplates.find? (fun t => t.id == nextStep.templateId) = some template →
        env.resend lead.email = SendResult.ok id → id ≠ "" →
        ∀ row ∈ (SequenceAutomationJs.processSubscriberEmail env st
            subscriber).db.sequenceSubscribers,
          row.id = subscriber.id →
          row.nextEmailDue = some (env.now + following.delayDays * MS_PER_DAY)) ∧
    (∀ (env : SequenceAutomation.Env) (st : SequenceAutomation.State)
        (subscriber : SequenceAutomation.PendingEmail) (first : SequenceAutomation.Step)
        (rest : List SequenceAutomation.Step) (id : String),
        env.faults.unsubscribeQuery subscriber.email = false →
        env.faults.logInsert subscriber.email = false →
        env.faults.stepQuery subscriber.sequence_id (subscriber.current_step + 1) = false →
        env.faults.subscriberUpdate subscriber.id = false →
        subscriber.email ∉ st.db.unsubscribe_list →
        env.resend subscriber.email = SendResult.ok id →
        st.db.sequence_steps.filter (fun s =>
          s.sequence_id == subscriber.sequence_id &&
          s.step_number == subscriber.current_step + 1 && s.is_active) = first :: rest →
        ∀ row ∈ (SequenceAutomation.sendSequenceEmail env st
            subscriber).1.db.sequence_subscribers,
          row.id = subscriber.id →
          row.current_step = subscriber.current_step + 1 ∧
          row.next_email_at = some (env.now + first.delay_days * MS_PER_DAY)) := by
  refine ⟨?_, ?_⟩
  · intro env st subscriber lead nextStep following template id hq1 hq2 hq3 hq4 hq5 hq6 hlead
      hactive hunsub hstep hfollow htemplate hsend hid row hrow hrid
    obtain ⟨h1, _, _, _⟩ := SequenceAutomationJs.processSubscriberEmail_success env st subscriber
      lead nextStep template id hq1 hlead hactive
      (SequenceAutomationJs.isUnsubscribed_of_not_mem env st lead.email hunsub) hq2 hstep hq3
      htemplate hsend hid hq4 hq5 hq6
    rw [h1, List.mem_map] at hrow
    obtain ⟨old, _, hold⟩ := hrow
    by_cases hid' : old.id = subscriber.id
    · rw [if_pos hid'] at hold
      rw [← hold]
      simp [SequenceAutomationJs.advanced, hfollow]
    · rw [if_neg hid'] at hold
      rw [← hold] at hrid
      exact absurd hrid hid'
  · intro env st subscriber first rest id hq1 hq2 hq3 hq4 hunsub hsend hstep row hrow hrid
    rw [SequenceAutomation.sendSequenceEmail_advances env st subscriber first rest id hq1 hunsub
      hsend hq2 hq3 hstep hq4] at hrow
    simp only [SequenceAutomation.updateRows, List.mem_map] at hrow
    obtain ⟨old, _, hold⟩ := hrow
    by_cases hid' : old.id = subscriber.id
    · rw [if_pos hid'] at hold
      rw [← hold]
      exact ⟨rfl, rfl⟩
    · rw [if_neg hid'] at hold
      rw [← hold] at hrid
      exact absurd hrid hid'

/-- C10, amended, at the two-step sequence of the claim. -/
theorem C10_delay_semantics_witness :
    ({ SequenceAutomationJs.enrolled with
        currentStep := 1,
        lastEmailSent := some SequenceAutomationJs.tuesdayEnv.now,
        nextEmailDue := some (SequenceAutomationJs.tuesdayEnv.now + 5 * MS_PER_DAY) } :
      SequenceAutomationJs.Subscriber).nextEmailDue =
      some (SequenceAutomationJs.tuesdayEnv.now + 5 * MS_PER_DAY) ∧
    (({ SequenceAutomation.enrolled with
        current_step := 2,
        next_email_at := some (SequenceAutomation.tuesdayEnv.now + 5 * MS_PER_DAY),
        last_email_sent_at := some SequenceAutomation.tuesdayEnv.now } :
      SequenceAutomation.Subscriber).current_step = 1 + 1 ∧
     ({ SequenceAutomation.enrolled with
        current_step := 2,
        next_email_at := some (SequenceAutomation.tuesdayEnv.now + 5 * MS_PER_DAY),
        last_email_sent_at := some SequenceAutomation.tuesdayEnv.now } :
      SequenceAutomation.Subscriber).next_email_at =
      some (SequenceAutomation.tuesdayEnv.now + 5 * MS_PER_DAY)) :=
  ⟨C10_delay_semantics.1 SequenceAutomationJs.tuesdayEnv
      (SequenceAutomationJs.new (SequenceAutomationJs.seqDb SequenceAutomationJs.enrolled))
      SequenceAutomationJs.enrolled SequenceAutomationJs.amy
      { id := 1, sequenceId := 1, stepNumber := 1, templateId := 1, delayDays := 3,
        isActive := true }
      { id := 2, sequenceId := 1, stepNumber := 2, templateId := 1, delayDays := 5,
        isActive := true }
      { id := 1, name := "welcome" } "re_1" rfl rfl rfl rfl rfl rfl (by decide) rfl (by decide)
      (by decide) (by decide) (by decide) rfl (by decide)
      { SequenceAutomationJs.enrolled with
        currentStep := 1,
        lastEmailSent := some SequenceAutomationJs.tuesdayEnv.now,
        nextEmailDue := some (SequenceAutomationJs.tuesdayEnv.now + 5 * MS_PER_DAY) }
      (by decide) rfl,
   C10_delay_semantics.2 SequenceAutomation.tuesdayEnv
      (SequenceAutomation.started SequenceAutomation.seqDb) SequenceAutomation.enrolledRow
      { sequence_id := 1, step_number := 2, delay_days := 5, is_active := true } [] "re_1"
      rfl rfl rfl rfl (by decide) rfl (by decide)
      { SequenceAutomation.enrolled with
        current_step := 2,
        next_email_at := some (SequenceAutomation.tuesdayEnv.now + 5 * MS_PER_DAY),
        last_email_sent_at := some SequenceAutomation.tuesdayEnv.now }
      (by decide) rfl⟩


/-! ### C11 -/

/-- C11, as the code of sequenceAutomation.js.js behaves: a subscriber whose
last step (step 2 of 2) is sent on the Tuesday pass is left active with
`nextEmailDue` null; sequence 1 has no step 3, so completion would be the
outcome of processing the subscriber again.  But the query of
`processPendingEmails` selects only rows whose `nextEmailDue` is not after now,
which a null never is: every later pass, at whatever time and with whatever
transport and store behaviour, leaves the state as it is, and the subscriber
stays active.  In sequenceAutomation.js the same send completes the subscriber
within the pass. -/
theorem C11_subscriber_stays_active_after_the_last_step :
    (SequenceAutomationJs.processPendingEmails SequenceAutomationJs.tuesdayEnv
      (SequenceAutomationJs.new (SequenceAutomationJs.seqDb SequenceAutomationJs.halfway))).calls
      = ["amy@x.com"] ∧
    (SequenceAutomationJs.processPendingEmails SequenceAutomationJs.tuesdayEnv
      (SequenceAutomationJs.new
        (SequenceAutomationJs.seqDb SequenceAutomationJs.halfway))).db.sequenceSubscribers
      = [SequenceAutomationJs.stranded] ∧
    SequenceAutomationJs.stranded.status = "active" ∧
    SequenceAutomationJs.stranded.currentStep = 2 ∧
    SequenceAutomationJs.findStep
      (SequenceAutomationJs.new (SequenceAutomationJs.seqDb SequenceAutomationJs.halfway)) 1 3
      = none ∧
    (∀ env : SequenceAutomationJs.Env,
      SequenceAutomationJs.processPendingEmails env
        (SequenceAutomationJs.processPendingEmails SequenceAutomationJs.tuesdayEnv
          (SequenceAutomationJs.new (SequenceAutomationJs.seqDb SequenceAutomationJs.halfway)))
      = SequenceAutomationJs.processPendingEmails SequenceAutomationJs.tuesdayEnv
          (SequenceAutomationJs.new (SequenceAutomationJs.seqDb SequenceAutomationJs.halfway))) ∧
    (SequenceAutomation.processPendingEmails SequenceAutomation.tuesdayEnv
      (SequenceAutomation.started SequenceAutomation.secondStepDb)).calls = ["amy@x.com"] ∧
    (SequenceAutomation.processPendingEmails SequenceAutomation.tuesdayEnv
      (SequenceAutomation.started SequenceAutomation.secondStepDb)).db.sequence_subscribers
      = [{ SequenceAutomation.secondStep with
           status := "completed", completed_at := some (19 * MS_PER_DAY + 61200000) }] := by
  have hrows : (SequenceAutomationJs.processPendingEmails SequenceAutomationJs.tuesdayEnv
      (SequenceAutomationJs.new
        (SequenceAutomationJs.seqDb SequenceAutomationJs.halfway))).db.sequenceSubscribers
      = [SequenceAutomationJs.stranded] := by decide
  refine ⟨by decide, hrows, by decide, by decide, by decide, ?_, by decide, by decide⟩
  intro env
  apply SequenceAutomationJs.processPendingEmails_idle
  apply SequenceAutomationJs.pendingSubscribers_eq_nil
  intro row hrow _
  rw [hrows] at hrow
  rw [List.mem_singleton] at hrow
  rw [hrow]
  rfl

/-! ### C12 -/

/-- C12: in both sequence processors, when the transport call made for a
subscriber does not succeed (it returns an error or throws), the processing
ends in the state it started from with only the call added to the trace: the
subscriber rows, and with them every later selection of pending subscribers
and the step looked up for them, are as before, and the counter
`emailsSentToday` is not incremented. -/
theorem C12_no_progress_on_transport_failure :
    (∀ (env : SequenceAutomationJs.Env) (st : SequenceAutomationJs.State)
        (subscriber : SequenceAutomationJs.Subscriber) (lead : SequenceAutomationJs.Lead),
        st.db.leads.find? (fun l => l.id == subscriber.leadId) = some lead →
        (∀ id, env.resend lead.email ≠ SendResult.ok id) →
        (SequenceAutomationJs.processSubscriberEmail env st subscriber).calls ≠ st.calls →
        SequenceAutomationJs.processSubscriberEmail env st subscriber =
          SequenceAutomationJs.called st lead.email ∧
        (SequenceAutomationJs.processSubscriberEmail env st subscriber).db = st.db ∧
        (SequenceAutomationJs.processSubscriberEmail env st subscriber).emailsSentToday =
          st.emailsSentToday ∧
        (∀ later : SequenceAutomationJs.Env,
          SequenceAutomationJs.pendingSubscribers later
            (SequenceAutomationJs.processSubscriberEmail env st subscriber) =
          SequenceAutomationJs.pendingSubscribers later st) ∧
        SequenceAutomationJs.findStep
            (SequenceAutomationJs.processSubscriberEmail env st subscriber)
            subscriber.sequenceId (subscriber.currentStep + 1) =
          SequenceAutomationJs.findStep st subscriber.sequenceId (subscriber.currentStep + 1)) ∧
    (∀ (env : SequenceAutomation.Env) (st : SequenceAutomation.State)
        (subscriber : SequenceAutomation.PendingEmail),
        (∀ id, env.resend subscriber.email ≠ SendResult.ok id) →
        (SequenceAutomation.sendSequenceEmail env st subscriber).1.calls ≠ st.calls →
        SequenceAutomation.sendSequenceEmail env st subscriber =
          (SequenceAutomation.called st subscriber.email, false) ∧
        SequenceAutomation.processLoop env st [subscriber] =
          SequenceAutomation.called st subscriber.email ∧
        (SequenceAutomation.processLoop env st [subscriber]).db = st.db ∧
        (SequenceAutomation.processLoop env st [subscriber]).emailsSentToday =
          st.emailsSentToday ∧
        (∀ later : SequenceAutomation.Env,
          SequenceAutomation.getPendingSequenceEmails later
            (SequenceAutomation.processLoop env st [subscriber]) =
          SequenceAutomation.getPendingSequenceEmails later st)) := by
  refine ⟨?_, ?_⟩
  · intro env st subscriber lead hlead hfail hcall
    have he := SequenceAutomationJs.processSubscriberEmail_ending env st subscriber
    have key : SequenceAutomationJs.processSubscriberEmail env st subscriber =
        SequenceAutomationJs.called st lead.email := by
      generalize SequenceAutomationJs.processSubscriberEmail env st subscriber = r at he hcall
      cases he with
      | untouched => exact absurd rfl hcall
      | unsubscribed _ _ _ _ => exact absurd rfl hcall
      | completed _ => exact absurd rfl hcall
      | failed lead2 h2 _ _ =>
        rw [hlead] at h2
        cases h2
        rfl
      | stalled lead2 id h2 _ _ hs _ =>
        rw [hlead] at h2
        cases h2
        exact absurd hs (hfail id)
      | advanced lead2 id h2 _ _ hs _ =>
        rw [hlead] at h2
        cases h2
        exact absurd hs (hfail id)
    rw [key]
    exact ⟨rfl, rfl, rfl, fun _ => rfl, rfl⟩
  · intro env st subscriber hfail hcall
    have he := SequenceAutomation.sendSequenceEmail_ending env st subscriber
    have key : SequenceAutomation.sendSequenceEmail env st subscriber =
        (SequenceAutomation.called st subscriber.email, false) := by
      generalize SequenceAutomation.sendSequenceEmail env st subscriber = r at he hcall
      cases he with
      | untouched => exact absurd rfl hcall
      | unsubscribed _ => exact absurd rfl hcall
      | failed _ => rfl
      | stalled id _ hs => exact absurd hs (hfail id)
      | advanced id first rest _ hs _ => exact absurd hs (hfail id)
      | completed id _ hs _ => exact absurd hs (hfail id)
    have hloop : SequenceAutomation.processLoop env st [subscriber] =
        SequenceAutomation.called st subscriber.email := by
      simp only [SequenceAutomation.processLoop, key]
      rfl
    rw [hloop]
    exact ⟨key, rfl, rfl, rfl, fun _ => rfl⟩

/-- C12 on a Tuesday on which the transport is down: the attempt for the
enrolled subscriber leaves one call in the trace and nothing else. -/
theorem C12_no_progress_witness :
    SequenceAutomationJs.processSubscriberEmail SequenceAutomationJs.outageEnv
        (SequenceAutomationJs.new (SequenceAutomationJs.seqDb SequenceAutomationJs.enrolled))
        SequenceAutomationJs.enrolled =
      { emailsSentToday := 0, dailyLimit := 100,
        db := SequenceAutomationJs.seqDb SequenceAutomationJs.enrolled,
        calls := ["amy@x.com"] } ∧
    SequenceAutomation.sendSequenceEmail SequenceAutomation.outageEnv
        (SequenceAutomation.started SequenceAutomation.seqDb) SequenceAutomation.enrolledRow =
      ({ isRunning := true, emailsSentToday := 0, dailyLimit := 100, lastResetDate := none,
         db := SequenceAutomation.seqDb, calls := ["amy@x.com"] }, false) :=
  ⟨(C12_no_progress_on_transport_failure.1 SequenceAutomationJs.outageEnv
      (SequenceAutomationJs.new (SequenceAutomationJs.seqDb SequenceAutomationJs.enrolled))
      SequenceAutomationJs.enrolled SequenceAutomationJs.amy (by decide)
      (by intro id h; cases h) (by decide)).1,
   (C12_no_progress_on_transport_failure.2 SequenceAutomation.outageEnv
      (SequenceAutomation.started SequenceAutomation.seqDb) SequenceAutomation.enrolledRow
      (by intro id h; cases h) (by decide)).1⟩

/-! ### C13 -/

/-- C13, as stated, fails: an attempt that is skipped or that fails can leave no
record.  In persistentCampaign.js a contact skipped as sent recently is counted
as skipped while the file log and the table `email_logs` stay as they were; in
persistentCampaign.js.js a suppressed lead is skipped without a row; in
sequenceAutomation.js.js a send that fails writes no row. -/
theorem C13_skipped_and_failed_attempts_leave_no_record :
    PersistentCampaign.sendEmailBatch PersistentCampaign.config PersistentCampaign.calmEnv
        PersistentCampaign.loggedState [PersistentCampaign.amy] none 15 =
      some (PersistentCampaign.loggedState,
        { sent := 0, skipped := 1, errors := 0,
          details := ["amy@x.com - Already sent recently"] }) ∧
    PersistentCampaignJs.sendEmail PersistentCampaignJs.calmEnv
        PersistentCampaignJs.suppressionState PersistentCampaignJs.amy
        (PersistentCampaignJs.campaign PersistentCampaignJs.config) =
      (PersistentCampaignJs.suppressionState, PersistentCampaignJs.SendEmailReturn.null) ∧
    ((SequenceAutomationJs.sendSequenceEmail SequenceAutomationJs.outageEnv
        (SequenceAutomationJs.new (SequenceAutomationJs.seqDb SequenceAutomationJs.enrolled))
        SequenceAutomationJs.amy).2 = false ∧
     (SequenceAutomationJs.sendSequenceEmail SequenceAutomationJs.outageEnv
        (SequenceAutomationJs.new (SequenceAutomationJs.seqDb SequenceAutomationJs.enrolled))
        SequenceAutomationJs.amy).1.calls = ["amy@x.com"] ∧
     (SequenceAutomationJs.sendSequenceEmail SequenceAutomationJs.outageEnv
        (SequenceAutomationJs.new (SequenceAutomationJs.seqDb SequenceAutomationJs.enrolled))
        SequenceAutomationJs.amy).1.db.emailLogs = []) := by
  refine ⟨by decide, by decide, by decide, by decide, by decide⟩

/-- C13, amended: records are written for suppressed contacts and for transport
calls only.  As long as the writes of `sent_emails.json` succeed, with a batch
size of at least one `sendEmailBatch` returns (the dispatch with fallible
writes, none of which fails, returns the same), and the records it has
appended to the file log are one `sent` record per send it counts, one `error`
record per error it counts, at most one `skipped-unsubscribed` record per skip
it counts, and nothing else; the transport calls it has made are as many as
the sends and errors it counts.  `sendEmail` of persistentCampaign.js.js
writes a row only together with returning the answer of the transport, which
takes a campaign object with `htmlContent`, an id from the transport and an
insert that succeeds; with the campaign object of `runCampaign` it writes no
row for any lead.  `sendSequenceEmail` of sequenceAutomation.js.js writes one
`sent` row when the transport returns an id and the insert succeeds, and no
row otherwise. -/
theorem C13_audit_trail_of_a_dispatch :
    (∀ (cfg : PersistentCampaign.Config) (env : PersistentCampaign.Env)
        (st : PersistentCampaign.State) (contacts : List PersistentCampaign.Contact)
        (campaign : Option PersistentCampaign.Campaign) (batchSize : Nat),
        1 ≤ batchSize →
        ∃ r, PersistentCampaign.sendEmailBatch cfg env st contacts campaign batchSize = some r ∧
          (∀ writeError : String,
            PersistentCampaign.sendEmailBatchWithWrites cfg env st contacts campaign batchSize
              (fun _ => false) (fun _ => false) writeError = some r) ∧
          PersistentCampaign.Audited st r ∧ PersistentCampaign.CallsCounted st r) ∧
    (∀ (env : PersistentCampaignJs.Env) (st : PersistentCampaignJs.State)
        (lead : PersistentCampaignJs.Lead) (campaign : PersistentCampaignJs.Campaign),
        ((PersistentCampaignJs.sendEmail env st lead campaign).1.db = st.db ∧
          ∀ id, (PersistentCampaignJs.sendEmail env st lead campaign).2 ≠
            PersistentCampaignJs.SendEmailReturn.result id) ∨
        (∃ id, env.resend lead.email = SendResult.ok id ∧ id ≠ "" ∧
          campaign.htmlContent ≠ none ∧
          PersistentCampaignJs.sendEmail env st lead campaign =
            (PersistentCampaignJs.logged env st lead campaign.id id,
             PersistentCampaignJs.SendEmailReturn.result id))) ∧
    (∀ (cfg : PersistentCampaignJs.Config) (env : PersistentCampaignJs.Env)
        (st : PersistentCampaignJs.State) (lead : PersistentCampaignJs.Lead),
        PersistentCampaignJs.sendEmail env st lead (PersistentCampaignJs.campaign cfg) =
          (st, PersistentCampaignJs.SendEmailReturn.null)) ∧
    (∀ (env : SequenceAutomationJs.Env) (st : SequenceAutomationJs.State)
        (lead : SequenceAutomationJs.Lead),
        ((SequenceAutomationJs.sendSequenceEmail env st lead).2 = false ∧
          (SequenceAutomationJs.sendSequenceEmail env st lead).1 =
            SequenceAutomationJs.called st lead.email) ∨
        ((SequenceAutomationJs.sendSequenceEmail env st lead).2 = true ∧
          ∃ id, env.resend lead.email = SendResult.ok id ∧ id ≠ "" ∧
            (SequenceAutomationJs.sendSequenceEmail env st lead).1 =
              SequenceAutomationJs.logged env st lead.email id)) := by
  refine ⟨?_, ?_, ?_, ?_⟩
  · intro cfg env st contacts campaign batchSize hb
    obtain ⟨r, hr⟩ := PersistentCampaign.sendEmailBatch_total cfg env st contacts campaign
      batchSize hb
    refine ⟨r, hr, ?_, PersistentCampaign.sendEmailBatch_audited cfg env st contacts campaign
      batchSize r hr⟩
    intro writeError
    rw [PersistentCampaign.sendEmailBatchWithWrites_sound]
    exact hr
  · intro env st lead campaign
    rcases PersistentCampaignJs.sendEmail_cases env st lead campaign with
      h | ⟨id, h1, h2, _, h3, h4⟩
    · exact Or.inl h
    · exact Or.inr ⟨id, h1, h2, h3, h4⟩
  · intro cfg env st lead
    exact PersistentCampaignJs.sendEmail_campaign cfg env st lead
  · intro env st lead
    exact SequenceAutomationJs.sendSequenceEmail_cases env st lead

/-- C13, amended, at a dispatch to a suppressed contact and a contact sent
recently: it returns, and its records and counters account for each other. -/
theorem C13_audit_trail_witness :
    ∃ r, PersistentCampaign.sendEmailBatch PersistentCampaign.config PersistentCampaign.calmEnv
        PersistentCampaign.loggedState [PersistentCampaign.bob, PersistentCampaign.amy] none 15
        = some r ∧
      (∀ writeError : String,
        PersistentCampaign.sendEmailBatchWithWrites PersistentCampaign.config
          PersistentCampaign.calmEnv PersistentCampaign.loggedState
          [PersistentCampaign.bob, PersistentCampaign.amy] none 15
          (fun _ => false) (fun _ => false) writeError = some r) ∧
      PersistentCampaign.Audited PersistentCampaign.loggedState r ∧
      PersistentCampaign.CallsCounted PersistentCampaign.loggedState r :=
  C13_audit_trail_of_a_dispatch.1 PersistentCampaign.config PersistentCampaign.calmEnv
    PersistentCampaign.loggedState [PersistentCampaign.bob, PersistentCampaign.amy] none 15
    (by decide)

/-! ### C14 -/

/-- C14, as the code behaves: a dispatch of persistentCampaign.js writes `sent`
records for suppressed addresses.  The logs are empty before each dispatch and
the suppression table holds `Bob@X.com` and `amy@x.com`.  The query probes for
the lower-cased address of the contact `bob@x.com` with an exact comparison,
finds no row for the stored `Bob@X.com`, and the send is recorded in the file
and in `email_logs`; when the query rejects, the runner consults the file list
only, which does not hold `amy@x.com`, and records a send to her.  In
persistentCampaign.js.js no `sent` record is written for any address:
`sendEmail`, with the campaign object of `runCampaign`, leaves the state as it
is. -/
theorem C14_sent_record_for_a_suppressed_address :
    (PersistentCampaign.suppressionState.sent_emails = [] ∧
      PersistentCampaign.suppressionState.sql = some PersistentCampaign.suppressionDb ∧
      PersistentCampaign.suppressionDb.email_logs = [] ∧
      PersistentCampaign.suppressionDb.unsubscribe_list = ["Bob@X.com", "amy@x.com"]) ∧
    (PersistentCampaign.sendEmailBatch PersistentCampaign.config PersistentCampaign.calmEnv
        PersistentCampaign.suppressionState [PersistentCampaign.bobLower] none 15).map
      (fun r => (r.1.sent_emails, r.1.sql.map (fun db => db.email_logs))) =
      some ([PersistentCampaign.sentRecord "bob@x.com"],
            some [PersistentCampaign.sentLog "bob@x.com"]) ∧
    (PersistentCampaign.sendEmailBatch PersistentCampaign.config
        PersistentCampaign.lookupDownEnv
        PersistentCampaign.suppressionState [PersistentCampaign.amy] none 15).map
      (fun r => (r.1.sent_emails, r.1.sql.map (fun db => db.email_logs))) =
      some ([PersistentCampaign.sentRecord "amy@x.com"],
            some [PersistentCampaign.sentLog "amy@x.com"]) ∧
    (∀ (cfg : PersistentCampaignJs.Config) (env : PersistentCampaignJs.Env)
        (st : PersistentCampaignJs.State) (lead : PersistentCampaignJs.Lead),
        (PersistentCampaignJs.sendEmail env st lead (PersistentCampaignJs.campaign cfg)).1 =
          st) := by
  refine ⟨by decide, by decide, by decide, ?_⟩
  intro cfg env st lead
  rw [PersistentCampaignJs.sendEmail_campaign]

/-! ### C15 -/

/-- C15, as stated, fails for the storage operation `updateSubscriberStatus`:
it writes whatever `currentStep` it is handed.  On a subscriber at step 2 the
call with `currentStep = 0` lowers the step, and the call with `currentStep = 5`
raises it; neither sends an email or writes a delivery record. -/
theorem C15_storage_update_writes_any_step :
    SequenceAutomationJs.finished.currentStep = 2 ∧
    (DatabaseStorage.updateSubscriberStatus (20 * MS_PER_DAY)
        (SequenceAutomationJs.seqDb SequenceAutomationJs.finished) 1 "active"
        (some 0)).sequenceSubscribers =
      [{ SequenceAutomationJs.finished with currentStep := 0 }] ∧
    (DatabaseStorage.updateSubscriberStatus (20 * MS_PER_DAY)
        (SequenceAutomationJs.seqDb SequenceAutomationJs.finished) 1 "active"
        (some 5)).sequenceSubscribers =
      [{ SequenceAutomationJs.finished with currentStep := 5 }] ∧
    (DatabaseStorage.updateSubscriberStatus (20 * MS_PER_DAY)
        (SequenceAutomationJs.seqDb SequenceAutomationJs.finished) 1 "active"
        (some 0)).emailLogs = [] := by
  refine ⟨by decide, by decide, by decide, by decide⟩

/-- C15, amended: the processors never lower a step and raise it only after a
successful send; the storage operations keep it unless a step is handed in.
For a subscriber that agrees with its stored row on the step,
`processSubscriberEmail` (sequenceAutomation.js.js) and `sendSequenceEmail`
with its `advanceSubscriber` (sequenceAutomation.js) leave every row under its
id with a step not lower than before, and leave every step as it was unless
the transport accepted the message of that operation and the send was logged.
`completeSequenceForSubscriber`, and `updateSubscriberStatus` called without a
step, leave every step as it was; `updateSubscriberStatus` called with a step
writes that step to the rows of the id. -/
theorem C15_steps_grow_only_after_a_send :
    (∀ (env : SequenceAutomationJs.Env) (st : SequenceAutomationJs.State)
        (subscriber : SequenceAutomationJs.Subscriber),
        (∀ row ∈ st.db.sequenceSubscribers, row.id = subscriber.id →
          row.currentStep = subscriber.currentStep) →
        SequenceAutomationJs.StepsGrown st.db.sequenceSubscribers
          (SequenceAutomationJs.processSubscriberEmail env st subscriber).db.sequenceSubscribers ∧
        (SequenceAutomationJs.StepsKept st.db.sequenceSubscribers
            (SequenceAutomationJs.processSubscriberEmail env st
              subscriber).db.sequenceSubscribers ∨
          ∃ lead id, st.db.leads.find? (fun l => l.id == subscriber.leadId) = some lead ∧
            env.resend lead.email = SendResult.ok id ∧ id ≠ "" ∧
            (SequenceAutomationJs.processSubscriberEmail env st subscriber).calls =
              st.calls ++ [lead.email] ∧
            (SequenceAutomationJs.processSubscriberEmail env st subscriber).db.emailLogs =
              (SequenceAutomationJs.logged env st lead.email id).db.emailLogs)) ∧
    (∀ (env : SequenceAutomation.Env) (st : SequenceAutomation.State)
        (subscriber : SequenceAutomation.PendingEmail),
        (∀ row ∈ st.db.sequence_subscribers, row.id = subscriber.id →
          row.current_step = subscriber.current_step) →
        SequenceAutomation.StepsGrown st.db.sequence_subscribers
          (SequenceAutomation.sendSequenceEmail env st subscriber).1.db.sequence_subscribers ∧
        (SequenceAutomation.StepsKept st.db.sequence_subscribers
            (SequenceAutomation.sendSequenceEmail env st subscriber).1.db.sequence_subscribers ∨
          ∃ id, env.resend subscriber.email = SendResult.ok id ∧
            (SequenceAutomation.sendSequenceEmail env st subscriber).1.calls =
              st.calls ++ [subscriber.email] ∧
            (SequenceAutomation.sendSequenceEmail env st subscriber).1.db.email_logs =
              (SequenceAutomation.logged env st subscriber.email).db.email_logs) ∧
        ∀ st1, SequenceAutomation.advanceSubscriber env st subscriber = some st1 →
          SequenceAutomation.StepsGrown st.db.sequence_subscribers
            st1.db.sequence_subscribers) ∧
    (∀ (now : Nat) (db : SequenceAutomationJs.Database) (id : Nat),
        SequenceAutomationJs.StepsKept db.sequenceSubscribers
          (DatabaseStorage.completeSequenceForSubscriber now db id).sequenceSubscribers) ∧
    (∀ (now : Nat) (db : SequenceAutomationJs.Database) (id : Nat) (status : String),
        SequenceAutomationJs.StepsKept db.sequenceSubscribers
          (DatabaseStorage.updateSubscriberStatus now db id status none).sequenceSubscribers) ∧
    (∀ (now : Nat) (db : SequenceAutomationJs.Database) (id : Nat) (status : String)
        (currentStep : Nat),
        ∀ row ∈ (DatabaseStorage.updateSubscriberStatus now db id status
            (some currentStep)).sequenceSubscribers,
          row.id = id → row.currentStep = currentStep) := by
  refine ⟨?_, ?_, ?_, ?_, ?_⟩
  · intro env st subscriber hsnap
    exact SequenceAutomationJs.processSubscriberEmail_steps env st subscriber hsnap
  · intro env st subscriber hsnap
    obtain ⟨h1, h2⟩ := SequenceAutomation.sendSequenceEmail_steps env st subscriber hsnap
    exact ⟨h1, h2, fun st1 h =>
      SequenceAutomation.advanceSubscriber_steps env st st1 subscriber hsnap h⟩
  · intro now db id
    exact SequenceAutomationJs.stepsKept_update _ _ _ (fun _ _ _ => ⟨rfl, rfl⟩)
  · intro now db id status
    exact SequenceAutomationJs.stepsKept_update _ _ _ (fun _ _ _ => ⟨rfl, rfl⟩)
  · intro now db id status currentStep row hrow hid
    simp only [DatabaseStorage.updateSubscriberStatus, List.mem_map] at hrow
    obtain ⟨old, _, hold⟩ := hrow
    by_cases hid2 : old.id = id
    · rw [if_pos hid2] at hold
      rw [← hold]
      rfl
    · rw [if_neg hid2] at hold
      rw [← hold] at hid
      exact absurd hid hid2

/-- C15, amended, at the first send to the enrolled subscriber on the Tuesday:
no step of the table is lowered. -/
theorem C15_steps_witness :
    SequenceAutomationJs.StepsGrown
      (SequenceAutomationJs.new
        (SequenceAutomationJs.seqDb SequenceAutomationJs.enrolled)).db.sequenceSubscribers
      (SequenceAutomationJs.processSubscriberEmail SequenceAutomationJs.tuesdayEnv
        (SequenceAutomationJs.new (SequenceAutomationJs.seqDb SequenceAutomationJs.enrolled))
        SequenceAutomationJs.enrolled).db.sequenceSubscribers ∧
    SequenceAutomation.StepsGrown
      (SequenceAutomation.started SequenceAutomation.seqDb).db.sequence_subscribers
      (SequenceAutomation.sendSequenceEmail SequenceAutomation.tuesdayEnv
        (SequenceAutomation.started SequenceAutomation.seqDb)
        SequenceAutomation.enrolledRow).1.db.sequence_subscribers :=
  ⟨(C15_steps_grow_only_after_a_send.1 SequenceAutomationJs.tuesdayEnv
      (SequenceAutomationJs.new (SequenceAutomationJs.seqDb SequenceAutomationJs.enrolled))
      SequenceAutomationJs.enrolled (by decide)).1,
   (C15_steps_grow_only_after_a_send.2.1 SequenceAutomation.tuesdayEnv
      (SequenceAutomation.started SequenceAutomation.seqDb)
      SequenceAutomation.enrolledRow (by decide)).1⟩

/-! ### C16 -/

/-- C16, as stated, fails: `addToSequence` is an insert and nothing else.  Lead
1 is an active subscriber of sequence 1; enrolling the lead again stores a
second active subscriber of the pair under a new id, and enrolling twice into
an empty table stores two. -/
theorem C16_second_enrollment_is_stored :
    DatabaseStorage.activeFor (SequenceAutomationJs.seqDb SequenceAutomationJs.enrolled) 1 1 =
      [SequenceAutomationJs.enrolled] ∧
    DatabaseStorage.activeFor
        (DatabaseStorage.addToSequence (SequenceAutomationJs.seqDb SequenceAutomationJs.enrolled)
          DatabaseStorage.enrollment).1 1 1 =
      [SequenceAutomationJs.enrolled, { SequenceAutomationJs.enrolled with id := 2 }] ∧
    DatabaseStorage.activeFor
        (DatabaseStorage.addToSequence
          (DatabaseStorage.addToSequence
            { SequenceAutomationJs.seqDb SequenceAutomationJs.enrolled with
              sequenceSubscribers := [] }
            DatabaseStorage.enrollment).1
          DatabaseStorage.enrollment).1 1 1 =
      [SequenceAutomationJs.enrolled, { SequenceAutomationJs.enrolled with id := 2 }] := by
  refine ⟨by decide, by decide, by decide⟩

/-- C16, amended: every call of `addToSequence` stores one more row.  The table
after the call is the table before with the returned row appended; the row has
the sequence, the lead and the due date handed in, step 0 and status `active`
where none is handed in, and an id above every id stored; the other tables are
as before.  The active subscribers of the pair are those of before and, when
the status of the row is `active`, the new row: one more per call. -/
theorem C16_enrollment_appends_a_row (db : SequenceAutomationJs.Database)
    (subscriber : DatabaseStorage.InsertSequenceSubscriber) :
    (DatabaseStorage.addToSequence db subscriber).1.sequenceSubscribers =
      db.sequenceSubscribers ++ [(DatabaseStorage.addToSequence db subscriber).2] ∧
    (DatabaseStorage.addToSequence db subscriber).2.sequenceId = subscriber.sequenceId ∧
    (DatabaseStorage.addToSequence db subscriber).2.leadId = subscriber.leadId ∧
    (DatabaseStorage.addToSequence db subscriber).2.currentStep =
      subscriber.currentStep.getD 0 ∧
    (DatabaseStorage.addToSequence db subscriber).2.status = subscriber.status.getD "active" ∧
    (DatabaseStorage.addToSequence db subscriber).2.nextEmailDue = subscriber.nextEmailDue ∧
    (∀ row ∈ db.sequenceSubscribers,
      row.id < (DatabaseStorage.addToSequence db subscriber).2.id) ∧
    (DatabaseStorage.addToSequence db subscriber).1.leads = db.leads ∧
    (DatabaseStorage.addToSequence db subscriber).1.unsubscribes = db.unsubscribes ∧
    (DatabaseStorage.addToSequence db subscriber).1.sequenceSteps = db.sequenceSteps ∧
    (DatabaseStorage.addToSequence db subscriber).1.emailLogs = db.emailLogs ∧
    DatabaseStorage.activeFor (DatabaseStorage.addToSequence db subscriber).1
        subscriber.sequenceId subscriber.leadId =
      DatabaseStorage.activeFor db subscriber.sequenceId subscriber.leadId ++
        (if subscriber.status.getD "active" = "active"
          then [(DatabaseStorage.addToSequence db subscriber).2] else []) := by
  refine ⟨rfl, rfl, rfl, rfl, rfl, rfl, ?_, rfl, rfl, rfl, rfl, ?_⟩
  · intro row hrow
    exact DatabaseStorage.lt_nextId db.sequenceSubscribers row hrow
  · simp only [DatabaseStorage.activeFor, DatabaseStorage.addToSequence, List.filter_append]
    congr 1
    by_cases hs : subscriber.status.getD "active" = "active"
    · simp [List.filter_cons, hs]
    · simp [List.filter_cons, hs]

/-! ### C17 -/

/-- C17: a subscriber whose status is not `active` (`paused`, `completed`,
`unsubscribed`) is no part of a pass, whatever its due date.  In both sequence
processors, over a table with unique ids: the query of the pass does not select
the row and selects no row under its id; the table after the pass holds the
row unchanged in its place; the pass makes at most one transport call and
writes at most one delivery record per selected subscriber, none being left
for a row not selected; and a pass over a table without an active row makes
no call and leaves the database as it is.  `getPendingSequenceEmails` of
storage.ts does not return the row either. -/
theorem C17_inactive_subscribers_are_skipped :
    (∀ (env : SequenceAutomationJs.Env) (st : SequenceAutomationJs.State)
        (r : SequenceAutomationJs.Subscriber),
        r ∈ st.db.sequenceSubscribers → r.status ≠ "active" →
        (st.db.sequenceSubscribers.map (fun row => row.id)).Nodup →
        r ∉ SequenceAutomationJs.pendingSubscribers env st ∧
        (∀ s ∈ SequenceAutomationJs.pendingSubscribers env st, s.id ≠ r.id) ∧
        (∃ f : SequenceAutomationJs.Subscriber → SequenceAutomationJs.Subscriber,
          (SequenceAutomationJs.processPendingEmails env st).db.sequenceSubscribers =
            st.db.sequenceSubscribers.map f ∧ f r = r) ∧
        (SequenceAutomationJs.processPendingEmails env st).calls.length ≤
          st.calls.length + (SequenceAutomationJs.pendingSubscribers env st).length ∧
        (SequenceAutomationJs.processPendingEmails env st).db.emailLogs.length ≤
          st.db.emailLogs.length + (SequenceAutomationJs.pendingSubscribers env st).length) ∧
    (∀ (env : SequenceAutomationJs.Env) (st : SequenceAutomationJs.State),
        (∀ row ∈ st.db.sequenceSubscribers, row.status ≠ "active") →
        SequenceAutomationJs.processPendingEmails env st = st) ∧
    (∀ (env : SequenceAutomation.Env) (st : SequenceAutomation.State)
        (r : SequenceAutomation.Subscriber),
        r ∈ st.db.sequence_subscribers → r.status ≠ "active" →
        (st.db.sequence_subscribers.map (fun row => row.id)).Nodup →
        (∀ s ∈ SequenceAutomation.getPendingSequenceEmails env st, s.id ≠ r.id) ∧
        (∃ f : SequenceAutomation.Subscriber → SequenceAutomation.Subscriber,
          (SequenceAutomation.processPendingEmails env st).db.sequence_subscribers =
            st.db.sequence_subscribers.map f ∧ f r = r) ∧
        (SequenceAutomation.processPendingEmails env st).calls.length ≤
          st.calls.length + (SequenceAutomation.getPendingSequenceEmails env st).length ∧
        (SequenceAutomation.processPendingEmails env st).db.email_logs.length ≤
          st.db.email_logs.length +
            (SequenceAutomation.getPendingSequenceEmails env st).length) ∧
    (∀ (env : SequenceAutomation.Env) (st : SequenceAutomation.State),
        (∀ row ∈ st.db.sequence_subscribers, row.status ≠ "active") →
        (SequenceAutomation.processPendingEmails env st).db = st.db ∧
        (SequenceAutomation.processPendingEmails env st).calls = st.calls) ∧
    (∀ (now : Nat) (db : SequenceAutomationJs.Database) (r : SequenceAutomationJs.Subscriber),
        r.status ≠ "active" → r ∉ DatabaseStorage.getPendingSequenceEmails now db) := by
  refine ⟨?_, ?_, ?_, ?_, ?_⟩
  · intro env st r hr hstatus hids
    obtain ⟨h1, h2⟩ := SequenceAutomationJs.pendingSubscribers_skips env st r hr hstatus hids
    obtain ⟨_, h4, h5⟩ := SequenceAutomationJs.processPendingEmails_frame env st
    exact ⟨h1, h2, SequenceAutomationJs.processPendingEmails_skips env st r hr hstatus hids,
      h4, h5⟩
  · intro env st hall
    apply SequenceAutomationJs.processPendingEmails_idle
    apply SequenceAutomationJs.pendingSubscribers_eq_nil
    intro row hrow ha
    exact absurd ha (hall row hrow)
  · intro env st r hr hstatus hids
    obtain ⟨_, h4, h5⟩ := SequenceAutomation.processPendingEmails_join_frame env st
    exact ⟨SequenceAutomation.getPendingSequenceEmails_skips env st r hr hstatus hids,
      SequenceAutomation.processPendingEmails_join_skips env st r hr hstatus hids, h4, h5⟩
  · intro env st hall
    have hnil : SequenceAutomation.getPendingSequenceEmails env st = [] := by
      rw [List.eq_nil_iff_forall_not_mem]
      intro s hs
      obtain ⟨ss, hm, _, ha, _⟩ := SequenceAutomation.mem_getPendingSequenceEmails env st s hs
      exact hall ss hm ha
    rcases SequenceAutomation.processPendingEmails_join_idle env st hnil with h | h
    · rw [h]
      exact ⟨rfl, rfl⟩
    · rw [h]
      unfold SequenceAutomation.resetDailyCounter
      split <;> exact ⟨rfl, rfl⟩
  · intro now db r hstatus hmem
    unfold DatabaseStorage.getPendingSequenceEmails at hmem
    rw [List.mem_insertionSort, List.mem_filter] at hmem
    simp only [Bool.and_eq_true, beq_iff_eq] at hmem
    exact hstatus hmem.2.1

/-- C17 on a Tuesday pass over a table with an active and a paused subscriber,
both due: the paused one is not selected, and its row is left as it is. -/
theorem C17_inactive_subscribers_witness :
    SequenceAutomationJs.paused ∉
        SequenceAutomationJs.pendingSubscribers SequenceAutomationJs.tuesdayEnv
          (SequenceAutomationJs.new SequenceAutomationJs.pausedDb) ∧
    (∃ f : SequenceAutomation.Subscriber → SequenceAutomation.Subscriber,
      (SequenceAutomation.processPendingEmails SequenceAutomation.tuesdayEnv
          (SequenceAutomation.started SequenceAutomation.pausedDb)).db.sequence_subscribers =
        (SequenceAutomation.started SequenceAutomation.pausedDb).db.sequence_subscribers.map f ∧
      f SequenceAutomation.paused = SequenceAutomation.paused) :=
  ⟨(C17_inactive_subscribers_are_skipped.1 SequenceAutomationJs.tuesdayEnv
      (SequenceAutomationJs.new SequenceAutomationJs.pausedDb) SequenceAutomationJs.paused
      (by decide) (by decide) (by decide)).1,
   (C17_inactive_subscribers_are_skipped.2.2.1 SequenceAutomation.tuesdayEnv
      (SequenceAutomation.started SequenceAutomation.pausedDb) SequenceAutomation.paused
      (by decide) (by decide) (by decide)).2.1⟩

/-! ### C18 -/

/-- C18, as stated, fails in sequenceAutomation.js.js for a lead that has been
deactivated: `processSubscriberEmail` returns at the check of the lead, before
the suppression check.  The address of the lead is in the suppression table
and the subscriber is active and due; processing it leaves the state as it
is, status `active` included, and the pass of the next day selects the
subscriber again. -/
theorem C18_deactivated_lead_stays_active :
    "amy@x.com" ∈
      (SequenceAutomationJs.inactiveUnsubscribedDb SequenceAutomationJs.enrolled).unsubscribes ∧
    SequenceAutomationJs.enrolled.status = "active" ∧
    SequenceAutomationJs.processSubscriberEmail SequenceAutomationJs.tuesdayEnv
        (SequenceAutomationJs.new
          (SequenceAutomationJs.inactiveUnsubscribedDb SequenceAutomationJs.enrolled))
        SequenceAutomationJs.enrolled =
      SequenceAutomationJs.new
        (SequenceAutomationJs.inactiveUnsubscribedDb SequenceAutomationJs.enrolled) ∧
    SequenceAutomationJs.pendingSubscribers SequenceAutomationJs.wednesdayEnv
        (SequenceAutomationJs.processPendingEmails SequenceAutomationJs.tuesdayEnv
          (SequenceAutomationJs.new
            (SequenceAutomationJs.inactiveUnsubscribedDb SequenceAutomationJs.enrolled))) =
      [SequenceAutomationJs.enrolled] := by
  refine ⟨by decide, by decide, by decide, by decide⟩

/-- C18, amended: suppression found while a subscriber is processed ends the
subscription.  In sequenceAutomation.js.js, for a subscriber whose lead is
stored and active and whose address is a row of the suppression table, and in
sequenceAutomation.js, for a row of the join whose address is a row of the
suppression table, when the store calls involved succeed: processing makes no
transport call, writes status `unsubscribed` to the rows of the subscriber,
leaves every step of the table as it was, and no later pass, whatever its
instant and the behaviour of the transport and the store, selects a
subscriber of that id.  In sequenceAutomation.js.js a subscriber whose lead is
missing or deactivated is left as it is, whether or not the address is
suppressed: processing it changes nothing. -/
theorem C18_suppression_ends_the_subscription :
    (∀ (env : SequenceAutomationJs.Env) (st : SequenceAutomationJs.State)
        (subscriber : SequenceAutomationJs.Subscriber) (lead : SequenceAutomationJs.Lead),
        env.faults.leadQuery subscriber.leadId = false →
        env.faults.unsubscribeQuery lead.email = false →
        env.faults.subscriberUpdate subscriber.id = false →
        st.db.leads.find? (fun l => l.id == subscriber.leadId) = some lead →
        lead.isActive = true →
        lead.email ∈ st.db.unsubscribes →
        (SequenceAutomationJs.processSubscriberEmail env st subscriber).calls = st.calls ∧
        (SequenceAutomationJs.processSubscriberEmail env st subscriber).db.emailLogs =
          st.db.emailLogs ∧
        (SequenceAutomationJs.processSubscriberEmail env st subscriber).db.sequenceSubscribers =
          st.db.sequenceSubscribers.map (fun row =>
            if row.id = subscriber.id then SequenceAutomationJs.unsubscribedRow env row
            else row) ∧
        (∀ row ∈ (SequenceAutomationJs.processSubscriberEmail env st
            subscriber).db.sequenceSubscribers,
          row.id = subscriber.id → row.status = "unsubscribed") ∧
        SequenceAutomationJs.StepsKept st.db.sequenceSubscribers
          (SequenceAutomationJs.processSubscriberEmail env st subscriber).db.sequenceSubscribers ∧
        ∀ (envs : List SequenceAutomationJs.Env) (later : SequenceAutomationJs.Env),
          ∀ s ∈ SequenceAutomationJs.pendingSubscribers later
              (SequenceAutomationJs.passes envs
                (SequenceAutomationJs.processSubscriberEmail env st subscriber)),
            s.id ≠ subscriber.id) ∧
    (∀ (env : SequenceAutomation.Env) (st : SequenceAutomation.State)
        (subscriber : SequenceAutomation.PendingEmail),
        env.faults.unsubscribeQuery subscriber.email = false →
        env.faults.subscriberUpdate subscriber.id = false →
        subscriber.email ∈ st.db.unsubscribe_list →
        (SequenceAutomation.sendSequenceEmail env st subscriber).1.calls = st.calls ∧
        (SequenceAutomation.sendSequenceEmail env st subscriber).1.db.email_logs =
          st.db.email_logs ∧
        (SequenceAutomation.sendSequenceEmail env st subscriber).1.db.sequence_subscribers =
          st.db.sequence_subscribers.map (fun row =>
            if row.id = subscriber.id then SequenceAutomation.withStatus env "unsubscribed" row
            else row) ∧
        (∀ row ∈ (SequenceAutomation.sendSequenceEmail env st
            subscriber).1.db.sequence_subscribers,
          row.id = subscriber.id → row.status = "unsubscribed") ∧
        SequenceAutomation.StepsKept st.db.sequence_subscribers
          (SequenceAutomation.sendSequenceEmail env st subscriber).1.db.sequence_subscribers ∧
        ∀ (envs : List SequenceAutomation.Env) (later : SequenceAutomation.Env),
          ∀ s ∈ SequenceAutomation.getPendingSequenceEmails later
              (SequenceAutomation.passes envs
                (SequenceAutomation.sendSequenceEmail env st subscriber).1),
            s.id ≠ subscriber.id) ∧
    (∀ (env : SequenceAutomationJs.Env) (st : SequenceAutomationJs.State)
        (subscriber : SequenceAutomationJs.Subscriber),
        (st.db.leads.find? (fun l => l.id == subscriber.leadId) = none ∨
          ∃ lead, st.db.leads.find? (fun l => l.id == subscriber.leadId) = some lead ∧
            lead.isActive = false) →
        SequenceAutomationJs.processSubscriberEmail env st subscriber = st) := by
  refine ⟨?_, ?_, ?_⟩
  · intro env st subscriber lead hq1 hq2 hq3 hlead hactive hmem
    have key := SequenceAutomationJs.processSubscriberEmail_unsubscribes env st subscriber lead
      hq1 hlead hactive (SequenceAutomationJs.isUnsubscribed_of_row env st lead.email hq2 hmem) hq3
    have hstatus : ∀ row ∈ (SequenceAutomationJs.updateSubscriber st subscriber.id
        (SequenceAutomationJs.unsubscribedRow env)).db.sequenceSubscribers,
        row.id = subscriber.id → row.status = "unsubscribed" := by
      intro row hrow hid
      obtain ⟨old, _, hold⟩ := SequenceAutomationJs.mem_updateSubscriber st subscriber.id _ row hrow
      by_cases hid2 : old.id = subscriber.id
      · rw [if_pos hid2] at hold
        rw [hold]
        rfl
      · rw [if_neg hid2] at hold
        rw [hold] at hid
        exact absurd hid hid2
    rw [key]
    refine ⟨rfl, rfl, rfl, hstatus, ?_, ?_⟩
    · exact SequenceAutomationJs.stepsKept_update _ _ _ (fun _ _ _ => ⟨rfl, rfl⟩)
    · intro envs later
      apply SequenceAutomationJs.never_selected
      intro row hrow hid ha
      rw [hstatus row hrow hid] at ha
      exact absurd ha (by decide)
  · intro env st subscriber hq1 hq2 hmem
    have key := SequenceAutomation.sendSequenceEmail_unsubscribes env st subscriber hq1 hmem hq2
    have hstatus : ∀ row ∈ (SequenceAutomation.updateRows st subscriber.id
        (SequenceAutomation.withStatus env "unsubscribed")).db.sequence_subscribers,
        row.id = subscriber.id → row.status = "unsubscribed" := by
      intro row hrow hid
      simp only [SequenceAutomation.updateRows, List.mem_map] at hrow
      obtain ⟨old, _, hold⟩ := hrow
      by_cases hid2 : old.id = subscriber.id
      · rw [if_pos hid2] at hold
        rw [← hold]
        rfl
      · rw [if_neg hid2] at hold
        rw [← hold] at hid
        exact absurd hid hid2
    rw [key]
    refine ⟨rfl, rfl, rfl, hstatus, ?_, ?_⟩
    · exact SequenceAutomation.steps_kept_update _ _ _ (fun _ _ _ => ⟨rfl, rfl⟩)
    · intro envs later
      apply SequenceAutomation.never_joined
      intro row hrow hid ha
      rw [hstatus row hrow hid] at ha
      exact absurd ha (by decide)
  · intro env st subscriber h
    unfold SequenceAutomationJs.processSubscriberEmail
    split
    · rfl
    · rcases h with h | ⟨lead, h, hl⟩
      · rw [h]
      · rw [h]
        simp [hl]

/-- C18, amended, at the enrolled subscriber after the lead has unsubscribed:
no transport call is made; and at the same subscriber with the lead
deactivated: nothing changes. -/
theorem C18_suppression_witness :
    (SequenceAutomationJs.processSubscriberEmail SequenceAutomationJs.tuesdayEnv
        (SequenceAutomationJs.new
          (SequenceAutomationJs.unsubscribedDb SequenceAutomationJs.enrolled))
        SequenceAutomationJs.enrolled).calls = [] ∧
    (SequenceAutomation.sendSequenceEmail SequenceAutomation.tuesdayEnv
        (SequenceAutomation.started SequenceAutomation.unsubscribedDb)
        SequenceAutomation.enrolledRow).1.calls = [] ∧
    SequenceAutomationJs.processSubscriberEmail SequenceAutomationJs.tuesdayEnv
        (SequenceAutomationJs.new
          (SequenceAutomationJs.inactiveUnsubscribedDb SequenceAutomationJs.enrolled))
        SequenceAutomationJs.enrolled =
      SequenceAutomationJs.new
        (SequenceAutomationJs.inactiveUnsubscribedDb SequenceAutomationJs.enrolled) :=
  ⟨(C18_suppression_ends_the_subscription.1 SequenceAutomationJs.tuesdayEnv
      (SequenceAutomationJs.new
        (SequenceAutomationJs.unsubscribedDb SequenceAutomationJs.enrolled))
      SequenceAutomationJs.enrolled SequenceAutomationJs.amy rfl rfl rfl (by decide) rfl
      (by decide)).1,
   (C18_suppression_ends_the_subscription.2.1 SequenceAutomation.tuesdayEnv
      (SequenceAutomation.started SequenceAutomation.unsubscribedDb)
      SequenceAutomation.enrolledRow rfl rfl (by decide)).1,
   C18_suppression_ends_the_subscription.2.2 SequenceAutomationJs.tuesdayEnv
      (SequenceAutomationJs.new
        (SequenceAutomationJs.inactiveUnsubscribedDb SequenceAutomationJs.enrolled))
      SequenceAutomationJs.enrolled
      (Or.inr ⟨{ SequenceAutomationJs.amy with isActive := false }, by decide, rfl⟩)⟩

/-! ### C19 -/

/-- C19, as the code behaves: `isBusinessHours` tests `hour <= 18`, which
holds during the whole hour after 6:00 PM.  Wednesday 18:30 Eastern is later
than 18:00, yet `isBusinessHours` of app.js, persistentCampaign.js.js and
sequenceAutomation.js.js answers `true`, and at 18:30 of a Tuesday the pass of
sequenceAutomation.js.js sends the email that is due.  The inline check of
sequenceAutomation.js, which tests `estHour >= 18`, stops the pass at the same
instant.  That inline check reads the hour only: on a Saturday at noon, which
is no weekday, its pass sends. -/
theorem C19_sends_outside_the_stated_window :
    (¬ App.statedWindow 3 18 30 ∧ App.isBusinessHours 3 18 = true ∧
      PersistentCampaignJs.eveningEnv.estDay = 3 ∧
      PersistentCampaignJs.eveningEnv.estHour = 18 ∧
      PersistentCampaignJs.isBusinessHours PersistentCampaignJs.eveningEnv = true) ∧
    (¬ App.statedWindow 2 18 30 ∧
      SequenceAutomationJs.eveningEnv.estDay = 2 ∧
      SequenceAutomationJs.eveningEnv.estHour = 18 ∧
      SequenceAutomationJs.isBusinessHours SequenceAutomationJs.eveningEnv = true ∧
      (SequenceAutomationJs.processPendingEmails SequenceAutomationJs.eveningEnv
          (SequenceAutomationJs.new
            (SequenceAutomationJs.seqDb SequenceAutomationJs.enrolled))).calls =
        ["amy@x.com"]) ∧
    (SequenceAutomation.eveningEnv.estHour = 18 ∧
      SequenceAutomation.processPendingEmails SequenceAutomation.eveningEnv
          (SequenceAutomation.started SequenceAutomation.seqDb) =
        SequenceAutomation.started SequenceAutomation.seqDb) ∧
    (App.weekday SequenceAutomation.saturdayEnv.estDate = 6 ∧
      ¬ App.statedWindow 6 12 0 ∧
      (SequenceAutomation.processPendingEmails SequenceAutomation.saturdayEnv
          (SequenceAutomation.started SequenceAutomation.seqDb)).calls = ["amy@x.com"]) := by
  refine ⟨⟨by decide, by decide, by decide, by decide, by decide⟩,
    ⟨by decide, by decide, by decide, by decide, by decide⟩,
    ⟨by decide, by decide⟩, ⟨by decide, by decide, by decide⟩⟩

/-! ### C20 -/

/-- C20, as the code behaves: a call of `scheduleNextRun` at an hour before 9
does not schedule 9:00 of the same day.  The branch for the hours outside 9 to
18 always takes 9:00 of the next calendar day: although 9:00 of the day of the
call is still ahead, the timer is set to end 24 hours after it, and the window
of the day of the call is skipped. -/
theorem C20_early_call_is_scheduled_for_tomorrow (now : Nat)
    (h : now % MS_PER_DAY / MS_PER_HOUR < 9) :
    now < now / MS_PER_DAY * MS_PER_DAY + 9 * MS_PER_HOUR ∧
    now + PersistentCampaign.scheduleNextRun now =
      (now / MS_PER_DAY * MS_PER_DAY + 9 * MS_PER_HOUR) + MS_PER_DAY ∧
    24 * MS_PER_HOUR < PersistentCampaign.scheduleNextRun now := by
  have hne : ¬ (now % MS_PER_DAY / MS_PER_HOUR ≥ 9 ∧ now % MS_PER_DAY / MS_PER_HOUR ≤ 18) := by
    omega
  unfold PersistentCampaign.scheduleNextRun
  simp only [hne, if_false]
  simp only [MS_PER_DAY, MS_PER_HOUR] at h ⊢
  omega

/-- C20 at 7:00 on day 20: the timer is set to 26 hours, which is 9:00 of day
21, while 9:00 of day 20 is two hours ahead. -/
theorem C20_early_call_witness :
    20 * MS_PER_DAY + 7 * MS_PER_HOUR < 20 * MS_PER_DAY + 9 * MS_PER_HOUR ∧
    20 * MS_PER_DAY + 7 * MS_PER_HOUR +
        PersistentCampaign.scheduleNextRun (20 * MS_PER_DAY + 7 * MS_PER_HOUR) =
      21 * MS_PER_DAY + 9 * MS_PER_HOUR ∧
    24 * MS_PER_HOUR < PersistentCampaign.scheduleNextRun (20 * MS_PER_DAY + 7 * MS_PER_HOUR) :=
  C20_early_call_is_scheduled_for_tomorrow (20 * MS_PER_DAY + 7 * MS_PER_HOUR) (by decide)

/-! ### C21 -/

set_option maxRecDepth 100000 in
/-- C21, as stated, fails for `sendEmailBatch`: the loop leaves at the daily
limit, and the contacts behind the last batch dispatched are in no batch.  The
file log holds 99 sends of the day; with a batch size of one the batch of
`amy` is dispatched, her send is the hundredth, and the loop ends: the only
batch formed is hers, and `bob` is in none. -/
theorem C21_batches_stop_at_the_daily_limit :
    PersistentCampaign.sendEmailBatchSlices PersistentCampaign.config PersistentCampaign.calmEnv
        1 1 3 (PersistentCampaign.nearlyFullState, PersistentCampaign.emptyResults)
        [PersistentCampaign.amy, PersistentCampaign.bob] =
      some [[PersistentCampaign.amy]] ∧
    (PersistentCampaign.sendEmailBatch PersistentCampaign.config PersistentCampaign.calmEnv
        PersistentCampaign.nearlyFullState [PersistentCampaign.amy, PersistentCampaign.bob]
        none 1).map (fun r => (r.1.calls, r.2.sent, r.2.skipped, r.2.errors)) =
      some (["amy@x.com"], 1, 0, 0) := by
  refine ⟨by decide, by decide⟩

/-- C21, amended: the batches are consecutive slices from the start of the
list, and they make up the whole list unless the dispatch stops at the daily
limit.  With a batch size of at least one, `sendEmailBatch` forms its batches
within its run and returns the fold of the batch processing over them; their
concatenation in dispatch order is a prefix of the contact list, no batch is
empty or longer than the batch size, every batch but the last has exactly the
batch size, and when the dispatch ends below the daily limit the
concatenation is the whole list.  The loop of `runCampaign` in
persistentCampaign.js.js has no exit: its batches always make up the whole
list of leads, with the same bounds. -/
theorem C21_batches_are_consecutive_slices :
    (∀ (cfg : PersistentCampaign.Config) (env : PersistentCampaign.Env)
        (st : PersistentCampaign.State) (contacts : List PersistentCampaign.Contact)
        (campaign : Option PersistentCampaign.Campaign) (batchSize : Nat),
        1 ≤ batchSize →
        ∃ bs : List (List PersistentCampaign.Contact),
          PersistentCampaign.sendEmailBatchSlices cfg env
              (PersistentCampaign.campaignIdOf cfg campaign) batchSize (contacts.length + 1)
              (st, PersistentCampaign.emptyResults) contacts = some bs ∧
          PersistentCampaign.sendEmailBatch cfg env st contacts campaign batchSize =
            some (bs.foldl
              (PersistentCampaign.processBatch cfg env
                (PersistentCampaign.campaignIdOf cfg campaign))
              (st, PersistentCampaign.emptyResults)) ∧
          bs.flatten <+: contacts ∧
          (∀ batch ∈ bs, 1 ≤ batch.length ∧ batch.length ≤ batchSize) ∧
          (∀ batch ∈ bs.dropLast, batch.length = batchSize) ∧
          (PersistentCampaign.getTodaysSentCount env
              (bs.foldl
                (PersistentCampaign.processBatch cfg env
                  (PersistentCampaign.campaignIdOf cfg campaign))
                (st, PersistentCampaign.emptyResults)).1 < cfg.DAILY_LIMIT →
            bs.flatten = contacts)) ∧
    (∀ (cfg : PersistentCampaignJs.Config) (env : PersistentCampaignJs.Env)
        (p : PersistentCampaignJs.State × List PersistentCampaignJs.SendEmailReturn)
        (availableLeads : List PersistentCampaignJs.Lead),
        1 ≤ cfg.BATCH_SIZE →
        ∃ bs : List (List PersistentCampaignJs.Lead),
          PersistentCampaignJs.runCampaignSlices cfg (availableLeads.length + 1)
              availableLeads = some bs ∧
          PersistentCampaignJs.runCampaignLoop cfg env (availableLeads.length + 1) p
              availableLeads =
            some (bs.foldl
              (PersistentCampaignJs.sendBatch env (PersistentCampaignJs.campaign cfg)) p) ∧
          bs.flatten = availableLeads ∧
          (∀ batch ∈ bs, 1 ≤ batch.length ∧ batch.length ≤ cfg.BATCH_SIZE) ∧
          (∀ batch ∈ bs.dropLast, batch.length = cfg.BATCH_SIZE)) := by
  refine ⟨?_, ?_⟩
  · intro cfg env st contacts campaign batchSize hb
    obtain ⟨bs, hbs⟩ := PersistentCampaign.sendEmailBatchSlices_total cfg env
      (PersistentCampaign.campaignIdOf cfg campaign) batchSize hb (contacts.length + 1)
      (st, PersistentCampaign.emptyResults) contacts (Nat.lt_succ_self _)
    obtain ⟨h1, h2, h3, _⟩ := PersistentCampaign.sendEmailBatchSlices_shape cfg env
      (PersistentCampaign.campaignIdOf cfg campaign) batchSize hb _ _ _ bs hbs
    refine ⟨bs, hbs, ?_, h1, h2, h3, ?_⟩
    · unfold PersistentCampaign.sendEmailBatch
      rw [PersistentCampaign.sendEmailBatchLoop_slices, hbs]
      rfl
    · exact PersistentCampaign.sendEmailBatchSlices_whole cfg env _ batchSize _ _ _ bs hbs
  · intro cfg env p availableLeads hb
    obtain ⟨bs, hbs⟩ := PersistentCampaignJs.runCampaignSlices_total cfg hb
      (availableLeads.length + 1) availableLeads (Nat.lt_succ_self _)
    obtain ⟨h1, h2, h3⟩ := PersistentCampaignJs.runCampaignSlices_shape cfg hb _ _ bs hbs
    refine ⟨bs, hbs, ?_, h1, h2, h3⟩
    rw [PersistentCampaignJs.runCampaignLoop_slices, hbs]
    rfl

/-- C21, amended, at the dispatch of the counterexample and at the 101 leads
of `manyLeads` in batches of 15. -/
theorem C21_batches_witness :
    (∃ bs : List (List PersistentCampaign.Contact),
      PersistentCampaign.sendEmailBatchSlices PersistentCampaign.config
          PersistentCampaign.calmEnv
          (PersistentCampaign.campaignIdOf PersistentCampaign.config none) 1
          ([PersistentCampaign.amy, PersistentCampaign.bob].length + 1)
          (PersistentCampaign.nearlyFullState, PersistentCampaign.emptyResults)
          [PersistentCampaign.amy, PersistentCampaign.bob] = some bs ∧
      bs.flatten <+: [PersistentCampaign.amy, PersistentCampaign.bob]) ∧
    (∃ bs : List (List PersistentCampaignJs.Lead),
      PersistentCampaignJs.runCampaignSlices PersistentCampaignJs.config
          (PersistentCampaignJs.manyLeads.length + 1) PersistentCampaignJs.manyLeads = some bs ∧
      bs.flatten = PersistentCampaignJs.manyLeads) := by
  obtain ⟨bs, h1, _, h3, _⟩ := C21_batches_are_consecutive_slices.1 PersistentCampaign.config
    PersistentCampaign.calmEnv PersistentCampaign.nearlyFullState
    [PersistentCampaign.amy, PersistentCampaign.bob] none 1 (le_refl 1)
  obtain ⟨bs2, h4, _, h6, _⟩ := C21_batches_are_consecutive_slices.2 PersistentCampaignJs.config
    PersistentCampaignJs.calmEnv (PersistentCampaignJs.crowdedState, [])
    PersistentCampaignJs.manyLeads (by decide)
  exact ⟨⟨bs, h1, h3⟩, ⟨bs2, h4, h6⟩⟩

/-! ### C22 -/

/-- C22: with a batch size of at least one, `sendEmailBatch` returns for every
contact list and every behaviour of the transport and the store, and the
answers of the transport are handled one by one.  The transport is called for
a sublist of the contacts, in list order; `sent` counts exactly the contacts
among them whose own message the transport accepted, and the `sent` records
appended to the file log are the addresses of exactly these contacts;
`errors` counts exactly the others. -/
theorem C22_failures_are_isolated :
    ∀ (cfg : PersistentCampaign.Config) (env : PersistentCampaign.Env)
      (st : PersistentCampaign.State) (contacts : List PersistentCampaign.Contact)
      (campaign : Option PersistentCampaign.Campaign) (batchSize : Nat),
      1 ≤ batchSize →
      ∃ (r : PersistentCampaign.State × PersistentCampaign.Results)
        (issued : List PersistentCampaign.Contact),
        PersistentCampaign.sendEmailBatch cfg env st contacts campaign batchSize = some r ∧
        issued.Sublist contacts ∧
        r.1.calls = st.calls ++ issued.map (fun c => c.email) ∧
        r.2.sent = (issued.filter (PersistentCampaign.accepted env)).length ∧
        r.2.errors =
          (issued.filter (fun c => !PersistentCampaign.accepted env c)).length ∧
        PersistentCampaign.sentEmailsOf r.1 =
          PersistentCampaign.sentEmailsOf st ++
            (issued.filter (PersistentCampaign.accepted env)).map (fun c => c.email) := by
  intro cfg env st contacts campaign batchSize hb
  obtain ⟨r, hr⟩ := PersistentCampaign.sendEmailBatch_total cfg env st contacts campaign
    batchSize hb
  obtain ⟨issued, hs, hc, h1, h2, h3, _, _⟩ :=
    PersistentCampaign.sendEmailBatchLoop_dispatched cfg env _ batchSize _ _ r contacts hr
  refine ⟨r, issued, hr, hs, hc, ?_, ?_, h3⟩
  · simpa [PersistentCampaign.emptyResults] using h1
  · simpa [PersistentCampaign.emptyResults] using h2

/-- C22 at a dispatch to `bob`, whose message the transport rejects, and `amy`,
whose message it accepts, in one batch. -/
theorem C22_failures_witness :
    ∃ (r : PersistentCampaign.State × PersistentCampaign.Results)
      (issued : List PersistentCampaign.Contact),
      PersistentCampaign.sendEmailBatch PersistentCampaign.config PersistentCampaign.mixedEnv
          PersistentCampaign.fileOnlyState [PersistentCampaign.bob, PersistentCampaign.amy]
          none 15 = some r ∧
      issued.Sublist [PersistentCampaign.bob, PersistentCampaign.amy] ∧
      r.1.calls = PersistentCampaign.fileOnlyState.calls ++ issued.map (fun c => c.email) ∧
      r.2.sent =
        (issued.filter (PersistentCampaign.accepted PersistentCampaign.mixedEnv)).length ∧
      r.2.errors =
        (issued.filter
          (fun c => !PersistentCampaign.accepted PersistentCampaign.mixedEnv c)).length ∧
      PersistentCampaign.sentEmailsOf r.1 =
        PersistentCampaign.sentEmailsOf PersistentCampaign.fileOnlyState ++
          (issued.filter (PersistentCampaign.accepted PersistentCampaign.mixedEnv)).map
            (fun c => c.email) :=
  C22_failures_are_isolated PersistentCampaign.config PersistentCampaign.mixedEnv
    PersistentCampaign.fileOnlyState [PersistentCampaign.bob, PersistentCampaign.amy] none 15
    (by decide)

/-! ### C23 -/

/-- C23, as the code behaves: a pass that sends the email and then fails to
write the new position of the subscriber leads to the same step being sent
again.  On the Tuesday the transport accepts step 1 for `amy`, the `sent` row
is written, and the update of the subscriber row rejects: the row stays at its
old position.  The pass of the Wednesday, without any fault, selects the
subscriber again and sends step 1 again: two transport calls and two `sent`
rows for the same subscriber and step, in both sequence processors. -/
theorem C23_step_is_sent_twice_after_a_failed_update :
    ((SequenceAutomationJs.processPendingEmails SequenceAutomationJs.updateDownEnv
        (SequenceAutomationJs.new
          (SequenceAutomationJs.seqDb SequenceAutomationJs.enrolled))).db.sequenceSubscribers =
        [SequenceAutomationJs.enrolled] ∧
      (SequenceAutomationJs.processPendingEmails SequenceAutomationJs.updateDownEnv
        (SequenceAutomationJs.new
          (SequenceAutomationJs.seqDb SequenceAutomationJs.enrolled))).db.emailLogs =
        [SequenceAutomationJs.amysLog (19 * MS_PER_DAY + 61200000)] ∧
      (SequenceAutomationJs.processPendingEmails SequenceAutomationJs.wednesdayEnv
        (SequenceAutomationJs.processPendingEmails SequenceAutomationJs.updateDownEnv
          (SequenceAutomationJs.new
            (SequenceAutomationJs.seqDb SequenceAutomationJs.enrolled)))).calls =
        ["amy@x.com", "amy@x.com"] ∧
      (SequenceAutomationJs.processPendingEmails SequenceAutomationJs.wednesdayEnv
        (SequenceAutomationJs.processPendingEmails SequenceAutomationJs.updateDownEnv
          (SequenceAutomationJs.new
            (SequenceAutomationJs.seqDb SequenceAutomationJs.enrolled)))).db.emailLogs =
        [SequenceAutomationJs.amysLog (19 * MS_PER_DAY + 61200000),
         SequenceAutomationJs.amysLog (20 * MS_PER_DAY + 61200000)] ∧
      (SequenceAutomationJs.processPendingEmails SequenceAutomationJs.wednesdayEnv
        (SequenceAutomationJs.processPendingEmails SequenceAutomationJs.updateDownEnv
          (SequenceAutomationJs.new
            (SequenceAutomationJs.seqDb SequenceAutomationJs.enrolled)))).db.sequenceSubscribers.map
          (fun row => row.currentStep) = [1]) ∧
    ((SequenceAutomation.processPendingEmails SequenceAutomation.updateDownEnv
        (SequenceAutomation.started SequenceAutomation.seqDb)).db.sequence_subscribers =
        [SequenceAutomation.enrolled] ∧
      (SequenceAutomation.processPendingEmails SequenceAutomation.updateDownEnv
        (SequenceAutomation.started SequenceAutomation.seqDb)).db.email_logs =
        [SequenceAutomation.amysLog (19 * MS_PER_DAY + 61200000)] ∧
      (SequenceAutomation.processPendingEmails SequenceAutomation.wednesdayEnv
        (SequenceAutomation.processPendingEmails SequenceAutomation.updateDownEnv
          (SequenceAutomation.started SequenceAutomation.seqDb))).calls =
        ["amy@x.com", "amy@x.com"] ∧
      (SequenceAutomation.processPendingEmails SequenceAutomation.wednesdayEnv
        (SequenceAutomation.processPendingEmails SequenceAutomation.updateDownEnv
          (SequenceAutomation.started SequenceAutomation.seqDb))).db.email_logs =
        [SequenceAutomation.amysLog (19 * MS_PER_DAY + 61200000),
         SequenceAutomation.amysLog (20 * MS_PER_DAY + 61200000)] ∧
      (SequenceAutomation.processPendingEmails SequenceAutomation.wednesdayEnv
        (SequenceAutomation.processPendingEmails SequenceAutomation.updateDownEnv
          (SequenceAutomation.started SequenceAutomation.seqDb))).db.sequence_subscribers.map
          (fun row => row.current_step) = [2]) := by
  refine ⟨⟨by decide, by decide, by decide, by decide, by decide⟩,
    ⟨by decide, by decide, by decide, by decide, by decide⟩⟩

/-! ### C24 -/

/-- C24, as stated, fails in persistentCampaign.js.  The insert into
`email_logs` rejects: the send to `amy` is counted in `sent` and recorded in
the file, and the table holds no row for it.  And when the write of the `sent`
record to `sent_emails.json` throws, the send is counted in `sent` all the
same, because the counter is raised before the write: the file log gets an
`error` record and no `sent` record for it, and there is no table. -/
theorem C24_success_without_a_row :
    (PersistentCampaign.sendEmailBatch PersistentCampaign.config PersistentCampaign.insertDownEnv
        PersistentCampaign.staleState [PersistentCampaign.amy] none 15).map
      (fun r => (r.2.sent, r.2.errors, PersistentCampaign.sentEmailsOf r.1,
        PersistentCampaign.dbLogs r.1)) =
      some (1, 0, ["amy@x.com"], [PersistentCampaign.staleLog]) ∧
    (∃ r : PersistentCampaign.State × PersistentCampaign.Results,
      PersistentCampaign.sendEmailBatchWithWrites PersistentCampaign.config
        PersistentCampaign.calmEnv PersistentCampaign.fileOnlyState
        [PersistentCampaign.amy] none 15 (fun _ => true) (fun _ => false) "ENOSPC" = some r ∧
      r.1.calls = ["amy@x.com"] ∧ r.2.sent = 1 ∧
      r.1.sent_emails.map (fun record => (record.email, record.status)) =
        PersistentCampaign.fileOnlyState.sent_emails.map
          (fun record => (record.email, record.status)) ++ [("amy@x.com", "error")] ∧
      PersistentCampaign.dbLogs r.1 = []) :=
  ⟨by decide, _, rfl, by decide, by decide, by decide, by decide⟩

/-- C24, amended: as long as the writes of `sent_emails.json` succeed, a
counted send is in the file log, and it is in the table when the insert took
effect; `sendEmail` returns the answer of the transport only with the row
written.  With a batch size of at least one `sendEmailBatch` returns (the
dispatch with fallible writes, none of which fails, returns the same); `sent`
counts the contacts whose message the transport accepted, the file log has a
`sent` record for each of them, and `email_logs` has a row for those of them
for which there is a database and the insert does not reject.  When
`sendEmail` returns the answer of the transport, the `sent` row is in
`emailLogs`; when the insert rejects, it does not return the answer of the
transport and the table is as before; with the campaign object of
`runCampaign` it returns `null` for every lead and writes nothing. -/
theorem C24_success_and_the_log :
    (∀ (cfg : PersistentCampaign.Config) (env : PersistentCampaign.Env)
        (st : PersistentCampaign.State) (contacts : List PersistentCampaign.Contact)
        (campaign : Option PersistentCampaign.Campaign) (batchSize : Nat),
        1 ≤ batchSize →
        ∃ (r : PersistentCampaign.State × PersistentCampaign.Results)
          (issued : List PersistentCampaign.Contact),
          PersistentCampaign.sendEmailBatch cfg env st contacts campaign batchSize = some r ∧
          (∀ writeError : String,
            PersistentCampaign.sendEmailBatchWithWrites cfg env st contacts campaign batchSize
              (fun _ => false) (fun _ => false) writeError = some r) ∧
          issued.Sublist contacts ∧
          r.2.sent = (issued.filter (PersistentCampaign.accepted env)).length ∧
          PersistentCampaign.sentEmailsOf r.1 =
            PersistentCampaign.sentEmailsOf st ++
              (issued.filter (PersistentCampaign.accepted env)).map (fun c => c.email) ∧
          PersistentCampaign.dbLogs r.1 =
            PersistentCampaign.dbLogs st ++
              (issued.filter (fun c =>
                PersistentCampaign.accepted env c && PersistentCampaign.inserts env st c)).map
                (PersistentCampaign.logRow env
                  (PersistentCampaign.campaignIdOf cfg campaign))) ∧
    (∀ (env : PersistentCampaignJs.Env) (st : PersistentCampaignJs.State)
        (lead : PersistentCampaignJs.Lead) (campaign : PersistentCampaignJs.Campaign)
        (id : String),
        (PersistentCampaignJs.sendEmail env st lead campaign).2 =
          PersistentCampaignJs.SendEmailReturn.result id →
        (PersistentCampaignJs.sendEmail env st lead campaign).1 =
          PersistentCampaignJs.logged env st lead campaign.id id) ∧
    (∀ (env : PersistentCampaignJs.Env) (st : PersistentCampaignJs.State)
        (lead : PersistentCampaignJs.Lead) (campaign : PersistentCampaignJs.Campaign),
        env.faults.logInsert lead.email = true →
        (∀ id, (PersistentCampaignJs.sendEmail env st lead campaign).2 ≠
          PersistentCampaignJs.SendEmailReturn.result id) ∧
        (PersistentCampaignJs.sendEmail env st lead campaign).1.db = st.db) ∧
    (∀ (cfg : PersistentCampaignJs.Config) (env : PersistentCampaignJs.Env)
        (st : PersistentCampaignJs.State) (lead : PersistentCampaignJs.Lead),
        PersistentCampaignJs.sendEmail env st lead (PersistentCampaignJs.campaign cfg) =
          (st, PersistentCampaignJs.SendEmailReturn.null)) := by
  refine ⟨?_, ?_, ?_, ?_⟩
  · intro cfg env st contacts campaign batchSize hb
    obtain ⟨r, hr⟩ := PersistentCampaign.sendEmailBatch_total cfg env st contacts campaign
      batchSize hb
    obtain ⟨issued, hs, _, h1, _, h3, h4, _⟩ :=
      PersistentCampaign.sendEmailBatchLoop_dispatched cfg env _ batchSize _ _ r contacts hr
    refine ⟨r, issued, hr, ?_, hs, ?_, h3, h4⟩
    · intro writeError
      rw [PersistentCampaign.sendEmailBatchWithWrites_sound]
      exact hr
    · simpa [PersistentCampaign.emptyResults] using h1
  · intro env st lead campaign id h
    rcases PersistentCampaignJs.sendEmail_cases env st lead campaign with
      ⟨_, h2⟩ | ⟨id2, _, _, _, _, h3⟩
    · exact absurd h (h2 id)
    · rw [h3] at h ⊢
      cases h
      rfl
  · intro env st lead campaign hq
    rcases PersistentCampaignJs.sendEmail_cases env st lead campaign with
      h | ⟨id2, h1, h2, h3, h4, h5⟩
    · exact ⟨h.2, h.1⟩
    · exfalso
      have h6 : (PersistentCampaignJs.sendEmail env st lead campaign).2 =
          PersistentCampaignJs.SendEmailReturn.result id2 := by rw [h5]
      unfold PersistentCampaignJs.sendEmail at h6
      rw [if_neg (by simp [h3])] at h6
      cases hc : campaign.htmlContent with
      | none => exact h4 hc
      | some html =>
        rw [hc] at h6
        simp only [h1, if_neg h2, hq, if_true] at h6
        cases h6
  · intro cfg env st lead
    exact PersistentCampaignJs.sendEmail_campaign cfg env st lead

/-- C24, amended, at the dispatch of the counterexample and at a call of
`sendEmail` with a campaign object that has `htmlContent`, in which the
transport is called and the insert rejects. -/
theorem C24_success_witness :
    (∃ (r : PersistentCampaign.State × PersistentCampaign.Results)
      (issued : List PersistentCampaign.Contact),
      PersistentCampaign.sendEmailBatch PersistentCampaign.config
          PersistentCampaign.insertDownEnv PersistentCampaign.staleState
          [PersistentCampaign.amy] none 15 = some r ∧
      issued.Sublist [PersistentCampaign.amy] ∧
      r.2.sent =
        (issued.filter (PersistentCampaign.accepted PersistentCampaign.insertDownEnv)).length) ∧
    ((PersistentCampaignJs.sendEmail PersistentCampaignJs.insertDownEnv
        PersistentCampaignJs.freshState PersistentCampaignJs.amy
        PersistentCampaignJs.storedCampaign).1.calls = ["amy@x.com"] ∧
      (PersistentCampaignJs.sendEmail PersistentCampaignJs.insertDownEnv
        PersistentCampaignJs.freshState PersistentCampaignJs.amy
        PersistentCampaignJs.storedCampaign).1.db = PersistentCampaignJs.freshState.db) := by
  obtain ⟨r, issued, h1, _, h2, h3, _⟩ := C24_success_and_the_log.1 PersistentCampaign.config
    PersistentCampaign.insertDownEnv PersistentCampaign.staleState [PersistentCampaign.amy]
    none 15 (by decide)
  exact ⟨⟨r, issued, h1, h2, h3⟩, by decide,
    (C24_success_and_the_log.2.2.1 PersistentCampaignJs.insertDownEnv
      PersistentCampaignJs.freshState PersistentCampaignJs.amy
      PersistentCampaignJs.storedCampaign rfl).2⟩

/-! ### C25 -/

/-- C25: deactivating a step does not change what processing does for a
subscriber at or past it.  When every step row of the id handed to
`deleteSequenceStep` has a number not above the position of the subscriber,
`processSubscriberEmail` on the table with the step deactivated finds the same
next step and ends in the state it ends in on the table as it was, but for the
deactivated step: the same transport calls, the same delivery records, the
same subscriber rows and the same counter. -/
theorem C25_deactivating_a_passed_step (env : SequenceAutomationJs.Env)
    (st : SequenceAutomationJs.State) (subscriber : SequenceAutomationJs.Subscriber) (id : Nat)
    (hpast : ∀ s ∈ st.db.sequenceSteps, s.id = id → s.stepNumber ≤ subscriber.currentStep) :
    SequenceAutomationJs.findStep (DatabaseStorage.withoutStep st id) subscriber.sequenceId
        (subscriber.currentStep + 1) =
      SequenceAutomationJs.findStep st subscriber.sequenceId (subscriber.currentStep + 1) ∧
    SequenceAutomationJs.processSubscriberEmail env (DatabaseStorage.withoutStep st id)
        subscriber =
      DatabaseStorage.withoutStep (SequenceAutomationJs.processSubscriberEmail env st subscriber)
        id ∧
    (SequenceAutomationJs.processSubscriberEmail env (DatabaseStorage.withoutStep st id)
        subscriber).calls =
      (SequenceAutomationJs.processSubscriberEmail env st subscriber).calls ∧
    (SequenceAutomationJs.processSubscriberEmail env (DatabaseStorage.withoutStep st id)
        subscriber).db.emailLogs =
      (SequenceAutomationJs.processSubscriberEmail env st subscriber).db.emailLogs ∧
    (SequenceAutomationJs.processSubscriberEmail env (DatabaseStorage.withoutStep st id)
        subscriber).db.sequenceSubscribers =
      (SequenceAutomationJs.processSubscriberEmail env st subscriber).db.sequenceSubscribers ∧
    (SequenceAutomationJs.processSubscriberEmail env (DatabaseStorage.withoutStep st id)
        subscriber).emailsSentToday =
      (SequenceAutomationJs.processSubscriberEmail env st subscriber).emailsSentToday := by
  have key := DatabaseStorage.processSubscriberEmail_withoutStep env st subscriber id hpast
  refine ⟨?_, key, ?_, ?_, ?_, ?_⟩
  · exact DatabaseStorage.findStep_withoutStep st id subscriber.sequenceId
      (subscriber.currentStep + 1) (fun s hs hid => by have := hpast s hs hid; omega)
  · rw [key]; rfl
  · rw [key]; rfl
  · rw [key]; rfl
  · rw [key]; rfl

/-- C25 at the subscriber who has been sent step 1 of 2, with step 1
deactivated: step 2 is sent on the Tuesday as it is with step 1 active. -/
theorem C25_deactivating_witness :
    (SequenceAutomationJs.processSubscriberEmail SequenceAutomationJs.tuesdayEnv
        (DatabaseStorage.withoutStep
          (SequenceAutomationJs.new (SequenceAutomationJs.seqDb SequenceAutomationJs.halfway)) 1)
        SequenceAutomationJs.halfway).db.sequenceSubscribers =
      (SequenceAutomationJs.processSubscriberEmail SequenceAutomationJs.tuesdayEnv
        (SequenceAutomationJs.new (SequenceAutomationJs.seqDb SequenceAutomationJs.halfway))
        SequenceAutomationJs.halfway).db.sequenceSubscribers :=
  (C25_deactivating_a_passed_step SequenceAutomationJs.tuesdayEnv
    (SequenceAutomationJs.new (SequenceAutomationJs.seqDb SequenceAutomationJs.halfway))
    SequenceAutomationJs.halfway 1 (by decide)).2.2.2.2.1

/-! ### C26 -/

set_option maxRecDepth 100000 in
/-- C26, as stated, fails for a closing tag that is not in lower case: the tag
is not kept, it is replaced.  The content `<BODY>Hi</BODY>` does not hold
`unsubscribe` and its first closing tag is `</BODY>`; the HTML handed to the
transport is `<BODY>Hi`, the footer and `</body>`, which is not the content
with the footer inserted before its tag. -/
theorem C26_closing_tag_is_rewritten :
    includes "<BODY>Hi</BODY>".data "unsubscribe".data = false ∧
    FirstBodyClose "<BODY>Hi</BODY>".data "<BODY>Hi".data "</BODY>".data [] ∧
    PersistentCampaign.addUnsubscribeLink "<BODY>Hi</BODY>".data "amy@x.com" =
      "<BODY>Hi".data ++ PersistentCampaign.footerSnippet "amy@x.com" ++ "</body>".data ∧
    PersistentCampaign.addUnsubscribeLink "<BODY>Hi</BODY>".data "amy@x.com" ≠
      "<BODY>Hi".data ++ PersistentCampaign.footerSnippet "amy@x.com" ++ "</BODY>".data ∧
    SequenceAutomation.addUnsubscribeLink "<BODY>Hi</BODY>".data "amy@x.com" =
      "<BODY>Hi".data ++ SequenceAutomation.footerSnippet "amy@x.com" ++ "</body>".data ∧
    SequenceAutomation.addUnsubscribeLink "<BODY>Hi</BODY>".data "amy@x.com" ≠
      "<BODY>Hi".data ++ SequenceAutomation.footerSnippet "amy@x.com" ++ "</BODY>".data := by
  have h1 : PersistentCampaign.addUnsubscribeLink "<BODY>Hi</BODY>".data "amy@x.com" =
      "<BODY>Hi".data ++ PersistentCampaign.footerSnippet "amy@x.com" ++ "</body>".data := by
    decide
  have h2 : SequenceAutomation.addUnsubscribeLink "<BODY>Hi</BODY>".data "amy@x.com" =
      "<BODY>Hi".data ++ SequenceAutomation.footerSnippet "amy@x.com" ++ "</body>".data := by
    decide
  refine ⟨by decide, ⟨by decide, by decide, by decide⟩, h1, ?_, h2, ?_⟩
  · rw [h1]
    intro h
    exact absurd (List.append_cancel_left h) (by decide)
  · rw [h2]
    intro h
    exact absurd (List.append_cancel_left h) (by decide)

/-- C26, amended: the first closing body tag is replaced by the footer and a
closing tag in lower case.  In persistentCampaign.js and in
sequenceAutomation.js alike, for every content and every recipient address: a
content that holds `unsubscribe` is handed to the transport as it is; a
content that does not, and that holds a closing body tag in some letter case,
is handed on as the text before its first closing tag, the footer with the
URL-encoded address, the tag `</body>`, and the text behind the replaced tag;
in both cases the HTML handed on holds `unsubscribe`.  A content with
neither is handed on as it is. -/
theorem C26_footer_replaces_the_closing_tag :
    (∀ (html : List Char) (email : String),
      (includes html "unsubscribe".data = true →
        PersistentCampaign.addUnsubscribeLink html email = html) ∧
      (includes html "unsubscribe".data = false → closesBody html →
        ∃ pre tag post, FirstBodyClose html pre tag post ∧
          PersistentCampaign.addUnsubscribeLink html email =
            pre ++ PersistentCampaign.footerSnippet email ++ "</body>".data ++ post) ∧
      (includes html "unsubscribe".data = false → ¬ closesBody html →
        PersistentCampaign.addUnsubscribeLink html email = html) ∧
      (closesBody html →
        includes (PersistentCampaign.addUnsubscribeLink html email) "unsubscribe".data = true)) ∧
    (∀ (html : List Char) (email : String),
      (includes html "unsubscribe".data = true →
        SequenceAutomation.addUnsubscribeLink html email = html) ∧
      (includes html "unsubscribe".data = false → closesBody html →
        ∃ pre tag post, FirstBodyClose html pre tag post ∧
          SequenceAutomation.addUnsubscribeLink html email =
            pre ++ SequenceAutomation.footerSnippet email ++ "</body>".data ++ post) ∧
      (includes html "unsubscribe".data = false → ¬ closesBody html →
        SequenceAutomation.addUnsubscribeLink html email = html) ∧
      (closesBody html →
        includes (SequenceAutomation.addUnsubscribeLink html email) "unsubscribe".data = true)) ∧
    (∀ email : String,
      '$' ∉ PersistentCampaign.unsubscribeFooter email ∧
      '$' ∉ SequenceAutomation.unsubscribeFooter email) :=
  ⟨fun html email => PersistentCampaign.addUnsubscribeLink_spec html email,
   fun html email => SequenceAutomation.sequence_addUnsubscribeLink_spec html email,
   fun email => ⟨PersistentCampaign.unsubscribeFooter_no_dollar email,
     SequenceAutomation.sequence_footer_no_dollar email⟩⟩

/-- C26, amended, at a content with a closing tag in lower case and without the
word `unsubscribe`: the HTML handed to the transport holds `unsubscribe`. -/
theorem C26_footer_witness :
    includes (PersistentCampaign.addUnsubscribeLink "<html><body>Hi</body></html>".data
      "amy@x.com") "unsubscribe".data = true ∧
    includes (SequenceAutomation.addUnsubscribeLink "<html><body>Hi</body></html>".data
      "amy@x.com") "unsubscribe".data = true :=
  ⟨(C26_footer_replaces_the_closing_tag.1 "<html><body>Hi</body></html>".data
      "amy@x.com").2.2.2 ⟨"<html><body>Hi".data, "</body>".data, "</html>".data,
        by decide, by decide⟩,
   (C26_footer_replaces_the_closing_tag.2.1 "<html><body>Hi</body></html>".data
      "amy@x.com").2.2.2 ⟨"<html><body>Hi".data, "</body>".data, "</html>".data,
        by decide, by decide⟩⟩

/-! ### C27 -/

/-- C27, as the code behaves: in sequenceAutomation.js the counter goes up
after every call of `sendSequenceEmail` that returns, and the call returns when
it skips an unsubscribed address.  For every row of the join whose address is
in `unsubscribe_list`, with the store calls involved succeeding, the step of
the loop makes no transport call and raises `emailsSentToday` by one.  On the
Tuesday pass over the enrolled subscriber whose lead has unsubscribed, the
counter goes from 0 to 1 with no transport call and no delivery record; on the
same pass with the lead subscribed and the insert of the delivery record
rejecting, the transport is called and accepts the message, and the counter
stays at 0. -/
theorem C27_skipped_subscriber_is_counted :
    (∀ (env : SequenceAutomation.Env) (st : SequenceAutomation.State)
        (subscriber : SequenceAutomation.PendingEmail),
        env.faults.unsubscribeQuery subscriber.email = false →
        env.faults.subscriberUpdate subscriber.id = false →
        subscriber.email ∈ st.db.unsubscribe_list →
        (SequenceAutomation.processLoop env st [subscriber]).calls = st.calls ∧
        (SequenceAutomation.processLoop env st [subscriber]).emailsSentToday =
          st.emailsSentToday + 1) ∧
    ((SequenceAutomation.started SequenceAutomation.unsubscribedDb).emailsSentToday = 0 ∧
      (SequenceAutomation.processPendingEmails SequenceAutomation.tuesdayEnv
        (SequenceAutomation.started SequenceAutomation.unsubscribedDb)).emailsSentToday = 1 ∧
      (SequenceAutomation.processPendingEmails SequenceAutomation.tuesdayEnv
        (SequenceAutomation.started SequenceAutomation.unsubscribedDb)).calls = [] ∧
      (SequenceAutomation.processPendingEmails SequenceAutomation.tuesdayEnv
        (SequenceAutomation.started SequenceAutomation.unsubscribedDb)).db.email_logs = []) ∧
    ((SequenceAutomation.processPendingEmails SequenceAutomation.insertDownEnv
        (SequenceAutomation.started SequenceAutomation.seqDb)).calls = ["amy@x.com"] ∧
      (SequenceAutomation.processPendingEmails SequenceAutomation.insertDownEnv
        (SequenceAutomation.started SequenceAutomation.seqDb)).emailsSentToday = 0) := by
  refine ⟨?_, ⟨by decide, by decide, by decide, by decide⟩, ⟨by decide, by decide⟩⟩
  intro env st subscriber hq1 hq2 hmem
  have key := SequenceAutomation.sendSequenceEmail_unsubscribes env st subscriber hq1 hmem hq2
  simp only [SequenceAutomation.processLoop, key, if_true]
  exact ⟨rfl, rfl⟩

/-- C27 at the row of the enrolled subscriber, with the address of the lead
in `unsubscribe_list`: no transport call, and the counter goes up by one. -/
theorem C27_skipped_subscriber_witness :
    (SequenceAutomation.processLoop SequenceAutomation.tuesdayEnv
        (SequenceAutomation.started SequenceAutomation.unsubscribedDb)
        [SequenceAutomation.enrolledRow]).calls =
      (SequenceAutomation.started SequenceAutomation.unsubscribedDb).calls ∧
    (SequenceAutomation.processLoop SequenceAutomation.tuesdayEnv
        (SequenceAutomation.started SequenceAutomation.unsubscribedDb)
        [SequenceAutomation.enrolledRow]).emailsSentToday =
      (SequenceAutomation.started SequenceAutomation.unsubscribedDb).emailsSentToday + 1 :=
  C27_skipped_subscriber_is_counted.1 SequenceAutomation.tuesdayEnv
    (SequenceAutomation.started SequenceAutomation.unsubscribedDb)
    SequenceAutomation.enrolledRow (by decide) (by decide) (by decide)

/-! ### C28 -/

/-- C28, as stated, fails when a write of the file log fails.  The dispatch is
to `amy` alone; the transport accepts her message and `sent` is raised; the
write of the `sent` record to `sent_emails.json` throws, which leads to the
`catch` block, where `errors` is raised and the write of the `error` record
succeeds.  The one contact is counted in `sent` and in `errors`: the counters
add up to 2. -/
theorem C28_failed_write_is_counted_twice :
    PersistentCampaign.calmEnv.resend PersistentCampaign.amy.email = SendResult.ok "re_1" ∧
    ∃ r : PersistentCampaign.State × PersistentCampaign.Results,
      PersistentCampaign.sendEmailBatchWithWrites PersistentCampaign.config
        PersistentCampaign.calmEnv PersistentCampaign.fileOnlyState [PersistentCampaign.amy]
        none 15 (fun _ => true) (fun _ => false) "ENOSPC" = some r ∧
      r.1.calls = ["amy@x.com"] ∧
      r.1.sent_emails.map (fun record => (record.email, record.status)) =
        PersistentCampaign.fileOnlyState.sent_emails.map
          (fun record => (record.email, record.status)) ++ [("amy@x.com", "error")] ∧
      r.2.sent = 1 ∧ r.2.skipped = 0 ∧ r.2.errors = 1 ∧
      [PersistentCampaign.amy].length < r.2.sent + r.2.skipped + r.2.errors :=
  ⟨by decide, _, rfl, by decide, by decide, by decide, by decide, by decide, by decide⟩

/-- C28, amended: as long as the writes of `sent_emails.json` succeed, with a
batch size of at least one `sendEmailBatch` returns (the dispatch with
fallible writes, none of which fails, returns the same), and for every contact
list and every behaviour of the transport and of the inserts into
`email_logs` the three counters it returns add up to at most the number of
contacts; they add up to exactly that number when the dispatch ends with the
count of sends of the day below the daily limit, that is, when the limit has
not been reached at any point of the dispatch. -/
theorem C28_outcome_accounting (cfg : PersistentCampaign.Config) (env : PersistentCampaign.Env)
    (st : PersistentCampaign.State) (contacts : List PersistentCampaign.Contact)
    (campaign : Option PersistentCampaign.Campaign) (batchSize : Nat) (hb : 1 ≤ batchSize) :
    ∃ r : PersistentCampaign.State × PersistentCampaign.Results,
      PersistentCampaign.sendEmailBatch cfg env st contacts campaign batchSize = some r ∧
      (∀ writeError : String,
        PersistentCampaign.sendEmailBatchWithWrites cfg env st contacts campaign batchSize
          (fun _ => false) (fun _ => false) writeError = some r) ∧
      r.2.sent + r.2.skipped + r.2.errors ≤ contacts.length ∧
      (PersistentCampaign.getTodaysSentCount env r.1 < cfg.DAILY_LIMIT →
        r.2.sent + r.2.skipped + r.2.errors = contacts.length) ∧
      PersistentCampaign.getTodaysSentCount env st ≤
        PersistentCampaign.getTodaysSentCount env r.1 := by
  obtain ⟨r, hr⟩ := PersistentCampaign.sendEmailBatch_total cfg env st contacts campaign
    batchSize hb
  obtain ⟨h1, h2, h3⟩ :=
    PersistentCampaign.sendEmailBatchLoop_accounts cfg env _ batchSize _ _ r contacts hr
  simp only [PersistentCampaign.Results.total, PersistentCampaign.emptyResults] at h1 h2
  refine ⟨r, hr, ?_, by omega, ?_, h3⟩
  · intro writeError
    rw [PersistentCampaign.sendEmailBatchWithWrites_sound]
    exact hr
  · intro hlim
    have := h2 hlim
    omega

/-- C28, amended, at a dispatch to a contact whose message the transport rejects and a
contact whose message it accepts. -/
theorem C28_outcome_accounting_witness :
    ∃ r : PersistentCampaign.State × PersistentCampaign.Results,
      PersistentCampaign.sendEmailBatch PersistentCampaign.config PersistentCampaign.mixedEnv
          PersistentCampaign.fileOnlyState [PersistentCampaign.bob, PersistentCampaign.amy]
          none 15 = some r ∧
      (∀ writeError : String,
        PersistentCampaign.sendEmailBatchWithWrites PersistentCampaign.config
          PersistentCampaign.mixedEnv PersistentCampaign.fileOnlyState
          [PersistentCampaign.bob, PersistentCampaign.amy] none 15
          (fun _ => false) (fun _ => false) writeError = some r) ∧
      r.2.sent + r.2.skipped + r.2.errors ≤
        [PersistentCampaign.bob, PersistentCampaign.amy].length ∧
      (PersistentCampaign.getTodaysSentCount PersistentCampaign.mixedEnv r.1 <
          PersistentCampaign.config.DAILY_LIMIT →
        r.2.sent + r.2.skipped + r.2.errors =
          [PersistentCampaign.bob, PersistentCampaign.amy].length) ∧
      PersistentCampaign.getTodaysSentCount PersistentCampaign.mixedEnv
          PersistentCampaign.fileOnlyState ≤
        PersistentCampaign.getTodaysSentCount PersistentCampaign.mixedEnv r.1 :=
  C28_outcome_accounting PersistentCampaign.config PersistentCampaign.mixedEnv
    PersistentCampaign.fileOnlyState [PersistentCampaign.bob, PersistentCampaign.amy] none 15
    (by decide)

/-! ### C29 -/

/-- C29: a pass of `processPendingEmails` that starts with the counter
`emailsSentToday` within `dailyLimit` ends with it within `dailyLimit`, in
both sequence processors, whatever the table of subscribers holds and however
the transport and the store behave; the limit itself is not changed.  In
sequenceAutomation.js.js the pass does not lower the counter and raises it by
at most 10. -/
theorem C29_counter_stays_within_the_limit :
    (∀ (env : SequenceAutomationJs.Env) (st : SequenceAutomationJs.State),
        st.emailsSentToday ≤ st.dailyLimit →
        (SequenceAutomationJs.processPendingEmails env st).emailsSentToday ≤
          (SequenceAutomationJs.processPendingEmails env st).dailyLimit ∧
        (SequenceAutomationJs.processPendingEmails env st).dailyLimit = st.dailyLimit ∧
        st.emailsSentToday ≤ (SequenceAutomationJs.processPendingEmails env st).emailsSentToday ∧
        (SequenceAutomationJs.processPendingEmails env st).emailsSentToday ≤
          st.emailsSentToday + 10) ∧
    (∀ (env : SequenceAutomation.Env) (st : SequenceAutomation.State),
        st.emailsSentToday ≤ st.dailyLimit →
        (SequenceAutomation.processPendingEmails env st).emailsSentToday ≤
          (SequenceAutomation.processPendingEmails env st).dailyLimit ∧
        (SequenceAutomation.processPendingEmails env st).dailyLimit = st.dailyLimit) := by
  refine ⟨?_, ?_⟩
  · intro env st h
    obtain ⟨h1, h2, h3⟩ := SequenceAutomationJs.processPendingEmails_within_limit env st h
    exact ⟨h1, h2, SequenceAutomationJs.processPendingEmails_counter env st, h3⟩
  · intro env st h
    exact SequenceAutomation.processPendingEmails_join_within_limit env st h

/-- C29 at the Tuesday pass over the enrolled subscriber, with the counter at
the limit in sequenceAutomation.js.js and at zero in sequenceAutomation.js. -/
theorem C29_counter_witness :
    (SequenceAutomationJs.processPendingEmails SequenceAutomationJs.tuesdayEnv
        SequenceAutomationJs.exhausted).emailsSentToday ≤
      (SequenceAutomationJs.processPendingEmails SequenceAutomationJs.tuesdayEnv
        SequenceAutomationJs.exhausted).dailyLimit ∧
    (SequenceAutomation.processPendingEmails SequenceAutomation.tuesdayEnv
        (SequenceAutomation.started SequenceAutomation.seqDb)).emailsSentToday ≤
      (SequenceAutomation.processPendingEmails SequenceAutomation.tuesdayEnv
        (SequenceAutomation.started SequenceAutomation.seqDb)).dailyLimit :=
  ⟨(C29_counter_stays_within_the_limit.1 SequenceAutomationJs.tuesdayEnv
      SequenceAutomationJs.exhausted (by decide)).1,
   (C29_counter_stays_within_the_limit.2 SequenceAutomation.tuesdayEnv
      (SequenceAutomation.started SequenceAutomation.seqDb) (by decide)).1⟩

/-! ### C30 -/

/-- C30, as the code behaves: with a batch size of at least one the loop of
`sendEmailBatch` ends, after at most `⌈n / batchSize⌉` rounds for `n`
contacts; with a batch size of zero, which the function accepts, it never
ends on a list that is not empty while the count of the day is below the
daily limit: whatever number of rounds it is given, every round dispatches the
empty batch `contacts.slice(i, i)` and `i += 0` leaves `i` where it is. -/
theorem C30_batch_size_zero_never_ends :
    (∀ (cfg : PersistentCampaign.Config) (env : PersistentCampaign.Env)
        (st : PersistentCampaign.State) (contacts : List PersistentCampaign.Contact)
        (campaign : Option PersistentCampaign.Campaign) (batchSize : Nat),
        1 ≤ batchSize →
        (∃ r, PersistentCampaign.sendEmailBatch cfg env st contacts campaign batchSize = some r) ∧
        ∃ bs, PersistentCampaign.sendEmailBatchSlices cfg env
            (PersistentCampaign.campaignIdOf cfg campaign) batchSize (contacts.length + 1)
            (st, PersistentCampaign.emptyResults) contacts = some bs ∧
          bs.length ≤ (contacts.length + batchSize - 1) / batchSize) ∧
    (∀ (cfg : PersistentCampaign.Config) (env : PersistentCampaign.Env)
        (st : PersistentCampaign.State) (contacts : List PersistentCampaign.Contact)
        (campaign : Option PersistentCampaign.Campaign),
        contacts ≠ [] →
        PersistentCampaign.getTodaysSentCount env st < cfg.DAILY_LIMIT →
        (∀ fuel : Nat, PersistentCampaign.sendEmailBatchLoop cfg env
            (PersistentCampaign.campaignIdOf cfg campaign) 0 fuel
            (st, PersistentCampaign.emptyResults) contacts = none) ∧
        PersistentCampaign.sendEmailBatch cfg env st contacts campaign 0 = none) := by
  refine ⟨?_, ?_⟩
  · intro cfg env st contacts campaign batchSize hb
    refine ⟨PersistentCampaign.sendEmailBatch_total cfg env st contacts campaign batchSize hb, ?_⟩
    obtain ⟨bs, hbs⟩ := PersistentCampaign.sendEmailBatchSlices_total cfg env
      (PersistentCampaign.campaignIdOf cfg campaign) batchSize hb (contacts.length + 1)
      (st, PersistentCampaign.emptyResults) contacts (Nat.lt_succ_self _)
    obtain ⟨_, _, _, h4⟩ := PersistentCampaign.sendEmailBatchSlices_shape cfg env
      (PersistentCampaign.campaignIdOf cfg campaign) batchSize hb _ _ _ bs hbs
    refine ⟨bs, hbs, ?_⟩
    rw [Nat.le_div_iff_mul_le (by omega)]
    omega
  · intro cfg env st contacts campaign hne hlim
    have h := PersistentCampaign.sendEmailBatchLoop_zero cfg env
      (PersistentCampaign.campaignIdOf cfg campaign) (st, PersistentCampaign.emptyResults)
      contacts hne hlim
    exact ⟨h, h _⟩

/-- C30 at the dispatch to `amy` alone with a batch size of zero, on a day
without any send so far. -/
theorem C30_batch_size_zero_witness :
    (∀ fuel : Nat, PersistentCampaign.sendEmailBatchLoop PersistentCampaign.config
        PersistentCampaign.calmEnv
        (PersistentCampaign.campaignIdOf PersistentCampaign.config none) 0 fuel
        (PersistentCampaign.fileOnlyState, PersistentCampaign.emptyResults)
        [PersistentCampaign.amy] = none) ∧
    PersistentCampaign.sendEmailBatch PersistentCampaign.config PersistentCampaign.calmEnv
      PersistentCampaign.fileOnlyState [PersistentCampaign.amy] none 0 = none :=
  C30_batch_size_zero_never_ends.2 PersistentCampaign.config PersistentCampaign.calmEnv
    PersistentCampaign.fileOnlyState [PersistentCampaign.amy] none (by decide) (by decide)
end TreeOfLife
